import Mathlib

/-!
# CCLPv7: the Constraint Consensus feasibility solver

A shallow embedding of `src/src/lp/lpreader.go` and `src/src/solver/solver.go`.

Conventions of the embedding.

* Go `float64` values are idealised as elements of a linearly ordered field `K`
  (exact arithmetic; rounding and `NaN` enter only where the items below say so).
  `math.Sqrt` is the field `sqrt` of the
  environment; the theorems that depend on what a square root is assume `SqrtSpec`,
  which holds for `Real.sqrt`.  Concrete evaluations use `K = ℚ` and `sqrtQ`, which is
  exact on squares of rationals.
* Go slices are lists.  A read `s[i]` is `s.getD i 0` and a write `s[i] = v` is
  `s.set i v`; on the well-formed models the solver runs on every index is in range
  (Go would stop with a run-time error otherwise).
* The package-level variables of `lp` and the tolerances of `solver` are gathered in
  `Env`; `NumRows`, `NumCols` and `NumEl` are the lengths of the corresponding lists.
* The mutable package-level variables of `solver` are the fields of `State`, passed
  explicitly.
* `GetCV1` returns an `Option`: `none` is the run-time index error of its zeroing loop
  on a point of length 1.
* The goroutines of `Solve` are run one after the other, and the records they send are
  retrieved in launch order; the random draws are an arbitrary function.
* `Solve` compares the `SFD` of each record with the mean of the round before, which it
  computes as a `float64` sum of 100 values divided by `100.0`.  When the records have
  the same `SFD` the rounding of that mean decides the test, so the computed mean of
  round `itn` is `fl itn` of the exact one, `fl` being a parameter of `Solve`; the
  identity is exact arithmetic.
* `Solve` divides `Q[j]` by `float64(icount)`.  With `icount = 0` the quotient is
  `0/0 = NaN` and so is the new box: `newBox` is then `none`, and so is the result of
  `Solve` when a round follows (the sample points are `NaN` and `lp.ConBodyValue` calls
  `os.Exit(1)`).
* The test `CVLength/CVLengthLast > 1.0` of the workers is `quotGtOne`, which gives the
  result of Go also for `CVLengthLast = 0`.
* The library routine `sort.Sort` is a parameter of `SortByImpact`; `insertionSort` is
  the insertion sort of Go's package `sort`, which `sort.Sort` runs on short slices.
* `CCOriginal2_iterates` repeats the iteration loop of `CCOriginal2` and lists the points
  that the run evaluates; it is used to state what the worker sends.
* The swarm variables of `solver` used by `NewPoints1` and `NewPoints2` are the fields of
  `SwarmVars`.  The calls `RandNum.Float64()` and `rand.Perm` of these routines are the
  parameters `draw` and `perm`; what the library guarantees of them is a hypothesis of
  the theorems that need it.
* `CCSimple_next` is one pass of the loop of `CCSimple`, and `devAt` the deviation that
  `Solve` computes for one variable; they are used to state what the code produces.
* Any other division by zero gives `0` in a field and `NaN` or an infinity in Go (the
  quotient `SumWeightedViol[j]/SumWeights[j]` of `GetCV1`, see `GetCV1_fin`); a theorem
  about such a run states the zero divisor and nothing about the quotient.
* Printing is omitted.
-/

set_option autoImplicit false

namespace CCLP

/-! ## Data model (`lp` package) -/

/-- The Go struct `lp.ELEMENT`. -/
structure ELEMENT (K : Type) where
  Row : Nat
  Col : Nat
  Value : K

/-- The Go struct `lp.COL`; the field `Typ` is Go's `Type`, `NumEl` is `ElList.length`. -/
structure COL (K : Type) where
  Typ : String
  BndUp : K
  BndLo : K
  ElList : List Nat

/-- The Go struct `lp.ROW`; the field `Typ` is Go's `Type`, `NumEl` is `ElList.length`. -/
structure ROW (K : Type) where
  Typ : String
  RHSlo : K
  RHSup : K
  GradVecLenSq : K
  ElList : List Nat

/-- The model `lp.LP` with `lp.Element`, the tolerances of `solver`, and `math.Sqrt`. -/
structure Env (K : Type) where
  Rows : List (ROW K)
  Cols : List (COL K)
  Element : List (ELEMENT K)
  plinfy : K
  featol : K
  Alpha : K
  Beta : K
  MaxItns : Nat
  sqrt : K → K

section Model

variable {K : Type} [LinearOrderedField K]

/-- Number of rows, `lp.NumRows`. -/
def Env.NumRows (E : Env K) : Nat := E.Rows.length

/-- Number of columns, `lp.NumCols`. -/
def Env.NumCols (E : Env K) : Nat := E.Cols.length

/-- Read of `lp.LP.Rows[i]`. -/
def Env.row (E : Env K) (i : Nat) : ROW K := E.Rows.getD i ⟨"", 0, 0, 0, []⟩

/-- Read of `lp.LP.Cols[j]`. -/
def Env.col (E : Env K) (j : Nat) : COL K := E.Cols.getD j ⟨"", 0, 0, []⟩

/-- Read of `lp.Element[e]`. -/
def Env.elem (E : Env K) (e : Nat) : ELEMENT K := E.Element.getD e ⟨0, 0, 0⟩

/-- What `math.Sqrt` is in exact arithmetic: the non-negative root. -/
def SqrtSpec (sqrt : K → K) : Prop := ∀ y : K, 0 ≤ y → 0 ≤ sqrt y ∧ sqrt y * sqrt y = y

/-- The value `lp.ConBodyValue`: the loop `realhold = realhold + Value*Point[icol]`.
Status 0 normal, 1 nonbinding, 2 problem (row index out of range). -/
def ConBodyValue (E : Env K) (FuncNum : Nat) (Point : List K) : K × Nat :=
  if E.NumRows ≤ FuncNum then (0, 2)
  else
    let realhold := (E.row FuncNum).ElList.foldl
      (fun acc ielem => acc + (E.elem ielem).Value * Point.getD (E.elem ielem).Col 0) 0
    if (E.row FuncNum).Typ = "N" then (realhold, 1) else (realhold, 0)

/-- Result of `GetViolation`. -/
structure ViolResult (K : Type) where
  FVStatus : Nat
  ViolStatus : Nat
  Violation : K

/-- The switch of `GetViolation` on the row type: `(ViolStatus, Violation)` before the
final test. A row type outside G, L, E, R leaves both at their zero values. -/
def violSwitch (E : Env K) (row : ROW K) (BodyVal : K) : Nat × K :=
  if row.Typ = "G" then
    if BodyVal ≥ row.RHSlo - E.featol then
      (if BodyVal - row.RHSlo ≤ E.featol then 2 else 1, 0)
    else (0, row.RHSlo - BodyVal)
  else if row.Typ = "L" then
    if BodyVal ≤ row.RHSup + E.featol then
      (if row.RHSup - BodyVal ≤ E.featol then 2 else 1, 0)
    else (0, row.RHSup - BodyVal)
  else if row.Typ = "E" ∨ row.Typ = "R" then
    let r1 : Nat × K :=
      if BodyVal ≤ row.RHSlo - E.featol then (0, row.RHSlo - BodyVal)
      else if BodyVal ≥ row.RHSup + E.featol then (0, row.RHSup - BodyVal)
      else (1, 0)
    if r1.1 = 1 then
      if row.Typ = "E" then (2, r1.2)
      else if |BodyVal - row.RHSlo| ≤ E.featol ∨ |BodyVal - row.RHSup| ≤ E.featol then (2, r1.2)
      else r1
    else r1
  else (0, 0)

/-- The function `solver.GetViolation`.
FVStatus: 0 success, 1 numerical problem. ViolStatus: 0 violated, 1 oversatisfied, 2 tight. -/
def GetViolation (E : Env K) (icon : Nat) (CCPoint : List K) : ViolResult K :=
  let bs := ConBodyValue E icon CCPoint
  if bs.2 = 1 then ⟨0, 1, 0⟩
  else if bs.2 = 2 then ⟨1, 0, 0⟩
  else
    let sw := violSwitch E (E.row icon) bs.1
    if sw.1 ≥ 1 then ⟨0, sw.1, 0⟩ else ⟨0, 0, sw.2⟩

/-- The row body as the spec writes it: the sum over the row's elements of `a_ij * x_j`. -/
def rowBody (E : Env K) (icon : Nat) (x : List K) : K :=
  ((E.row icon).ElList.map (fun e => (E.elem e).Value * x.getD (E.elem e).Col 0)).sum

/-! ## `GetSFD` -/

/-- Squared length of the feasibility vector of row `icon` for a given violation:
the loop `rhold1 = Violation*Value/GradVecLenSq; rhold = rhold + rhold1*rhold1`. -/
def FVLenSq (E : Env K) (icon : Nat) (Violation : K) : K :=
  (E.row icon).ElList.foldl
    (fun rhold ElNum =>
      rhold + (Violation * (E.elem ElNum).Value / (E.row icon).GradVecLenSq) *
        (Violation * (E.elem ElNum).Value / (E.row icon).GradVecLenSq)) 0

/-- Results of `GetSFD`; they are also its running variables. -/
structure SFDResult (K : Type) where
  Status : Nat
  SFDout : K
  MaxFDout : K
  MaxFDCon : Int
  MaxFDVar : Int
  NINF : Int

/-- Body of the loop of `GetSFD` over the constraints. -/
def GetSFD_con (E : Env K) (PointIn : List K) (acc : SFDResult K) (icon : Nat) :
    SFDResult K :=
  let v := GetViolation E icon PointIn
  if v.FVStatus > 0 then acc
  else if v.ViolStatus > 0 then acc
  else
    let rhold := FVLenSq E icon v.Violation
    if rhold < E.Alpha * E.Alpha then acc
    else
      let rhold := E.sqrt rhold
      let acc1 : SFDResult K := { acc with SFDout := acc.SFDout + rhold }
      let acc2 : SFDResult K :=
        if rhold > acc1.MaxFDout then { acc1 with MaxFDout := rhold, MaxFDCon := icon }
        else acc1
      { acc2 with NINF := acc2.NINF + 1 }

/-- Body of the loop of `GetSFD` over the variable bounds. -/
def GetSFD_bnd (E : Env K) (PointIn : List K) (acc : SFDResult K) (ivar : Nat) :
    SFDResult K :=
  if PointIn.getD ivar 0 ≥ (E.col ivar).BndLo - E.Alpha then
    if PointIn.getD ivar 0 ≤ (E.col ivar).BndUp + E.Alpha then acc
    else if PointIn.getD ivar 0 - (E.col ivar).BndUp > E.Alpha then
      let acc1 : SFDResult K := { acc with NINF := acc.NINF + 1 }
      let rhold := PointIn.getD ivar 0 - (E.col ivar).BndUp
      let acc2 : SFDResult K := { acc1 with SFDout := acc1.SFDout + rhold }
      if rhold > acc2.MaxFDout then
        { acc2 with MaxFDout := rhold, MaxFDCon := -1, MaxFDVar := ivar }
      else acc2
    else acc
  else if (E.col ivar).BndLo - PointIn.getD ivar 0 > E.Alpha then
    let acc1 : SFDResult K := { acc with NINF := acc.NINF + 1 }
    let rhold := (E.col ivar).BndLo - PointIn.getD ivar 0
    let acc2 : SFDResult K := { acc1 with SFDout := acc1.SFDout + rhold }
    if rhold > acc2.MaxFDout then
      { acc2 with MaxFDout := rhold, MaxFDCon := -1, MaxFDVar := ivar }
    else acc2
  else acc

/-- The two loops of `GetSFD`, before the final test on `NINF`. -/
def GetSFD_loops (E : Env K) (PointIn : List K) : SFDResult K :=
  (List.range E.NumCols).foldl (GetSFD_bnd E PointIn)
    ((List.range E.NumRows).foldl (GetSFD_con E PointIn) ⟨0, 0, 0, -1, -1, 0⟩)

/-- The function `solver.GetSFD`.
Status: 0 successful, 1 successful and feasible (2, the NaN exit, does not arise). -/
def GetSFD (E : Env K) (PointIn : List K) : SFDResult K :=
  let acc := GetSFD_loops E PointIn
  if acc.NINF = 0 then ⟨1, 0, 0, -1, -1, 0⟩
  else ⟨0, acc.SFDout, acc.MaxFDout, acc.MaxFDCon, acc.MaxFDVar, acc.NINF⟩

/-! ## `GetCV1` -/

/-- The loop `for j := 0; j < n; j++ { v[j] = 0.0 }`. -/
def zeroFirst (n : Nat) (v : List K) : List K :=
  (List.range n).foldl (fun w j => w.set j 0) v

/-- The update `v[i] = v[i] + d`. -/
def addAt (v : List K) (i : Nat) (d : K) : List K := v.set i (v.getD i 0 + d)

/-- The update `n[i]++`. -/
def incrAt (n : List Nat) (i : Nat) : List Nat := n.set i (n.getD i 0 + 1)

/-- Running variables of `GetCV1` during its loops over constraints and bounds. -/
structure CVAcc (K : Type) where
  NINF : Int
  SFD : K
  SINF : K
  MaxViol : K
  MaxFVLength : K
  NumViol : List Nat
  SumViol : List K
  SumWeightedViol : List K
  SumWeights : List K
  FVMaxViol : List K
  FVMaxFVLength : List K

/-- Body of the loop of `GetCV1` over the elements of a counted violated row. -/
def GetCV1_el (E : Env K) (icon : Nat) (Violation : K) (NewMaxViol NewMaxFVLength : Bool)
    (acc : CVAcc K) (ElNum : Nat) : CVAcc K :=
  let ColNum := (E.elem ElNum).Col
  let fv := Violation * (E.elem ElNum).Value / (E.row icon).GradVecLenSq
  { acc with
    NumViol := incrAt acc.NumViol ColNum
    SumViol := addAt acc.SumViol ColNum fv
    SumWeightedViol := addAt acc.SumWeightedViol ColNum (fv * |Violation|)
    SumWeights := addAt acc.SumWeights ColNum |Violation|
    FVMaxViol := if NewMaxViol then acc.FVMaxViol.set ColNum fv else acc.FVMaxViol
    FVMaxFVLength :=
      if NewMaxFVLength then acc.FVMaxFVLength.set ColNum fv else acc.FVMaxFVLength }

/-- Body of the loop of `GetCV1` over the constraints. -/
def GetCV1_con (E : Env K) (Pt : List K) (acc : CVAcc K) (icon : Nat) : CVAcc K :=
  let v := GetViolation E icon Pt
  if v.FVStatus > 0 then acc
  else if v.ViolStatus > 0 then acc
  else
    let rhold := FVLenSq E icon v.Violation
    if rhold < E.Alpha * E.Alpha then acc
    else
      let FVLength := E.sqrt rhold
      let acc1 : CVAcc K :=
        { acc with NINF := acc.NINF + 1, SFD := acc.SFD + FVLength,
                   SINF := acc.SINF + |v.Violation| }
      let NewMaxViol : Bool := decide (|v.Violation| > acc1.MaxViol)
      let acc2 : CVAcc K :=
        if NewMaxViol then
          { acc1 with MaxViol := |v.Violation|, FVMaxViol := zeroFirst E.NumCols acc1.FVMaxViol }
        else acc1
      let NewMaxFVLength : Bool := decide (FVLength > acc2.MaxFVLength)
      let acc3 : CVAcc K :=
        if NewMaxFVLength then
          { acc2 with MaxFVLength := FVLength,
                      FVMaxFVLength := zeroFirst E.NumCols acc2.FVMaxFVLength }
        else acc2
      (E.row icon).ElList.foldl (GetCV1_el E icon v.Violation NewMaxViol NewMaxFVLength) acc3

/-- Body of the loop of `GetCV1` over the variable bounds. -/
def GetCV1_bnd (E : Env K) (Pt : List K) (acc : CVAcc K) (ivar : Nat) : CVAcc K :=
  if Pt.getD ivar 0 ≥ (E.col ivar).BndLo - E.Alpha then
    if Pt.getD ivar 0 ≤ (E.col ivar).BndUp + E.Alpha then acc
    else if Pt.getD ivar 0 - (E.col ivar).BndUp > E.Alpha then
      let rhold := (E.col ivar).BndUp - Pt.getD ivar 0
      let SumViol := addAt acc.SumViol ivar rhold
      let acc1 : CVAcc K :=
        { acc with NINF := acc.NINF + 1, NumViol := incrAt acc.NumViol ivar,
                   SumViol := SumViol, SFD := acc.SFD + |rhold|,
                   SumWeightedViol := acc.SumWeightedViol.set ivar (SumViol.getD ivar 0),
                   SumWeights := addAt acc.SumWeights ivar rhold }
      let acc2 : CVAcc K :=
        if Pt.getD ivar 0 - (E.col ivar).BndUp > acc1.MaxViol then
          { acc1 with MaxViol := Pt.getD ivar 0 - (E.col ivar).BndUp,
                      FVMaxViol := (zeroFirst E.NumCols acc1.FVMaxViol).set ivar
                        ((E.col ivar).BndUp - Pt.getD ivar 0) }
        else acc1
      if |rhold| > acc2.MaxFVLength then
        { acc2 with MaxFVLength := |rhold|,
                    FVMaxFVLength := (zeroFirst E.NumCols acc2.FVMaxFVLength).set ivar
                      ((E.col ivar).BndUp - Pt.getD ivar 0) }
      else acc2
    else acc
  else if (E.col ivar).BndLo - Pt.getD ivar 0 > E.Alpha then
    let rhold := (E.col ivar).BndLo - Pt.getD ivar 0
    let SumViol := addAt acc.SumViol ivar rhold
    let acc1 : CVAcc K :=
      { acc with NINF := acc.NINF + 1, NumViol := incrAt acc.NumViol ivar,
                 SumViol := SumViol, SFD := acc.SFD + rhold,
                 SumWeightedViol := acc.SumWeightedViol.set ivar (SumViol.getD ivar 0),
                 SumWeights := acc.SumWeights.set ivar
                   (acc.SumWeights.getD ivar 0 + (E.col ivar).BndLo - Pt.getD ivar 0) }
    let acc2 : CVAcc K :=
      if (E.col ivar).BndLo - Pt.getD ivar 0 > acc1.MaxViol then
        { acc1 with MaxViol := (E.col ivar).BndLo - Pt.getD ivar 0,
                    FVMaxViol := (zeroFirst E.NumCols acc1.FVMaxViol).set ivar
                      ((E.col ivar).BndLo - Pt.getD ivar 0) }
      else acc1
    if rhold > acc2.MaxFVLength then
      { acc2 with MaxFVLength := rhold,
                  FVMaxFVLength := (zeroFirst E.NumCols acc2.FVMaxFVLength).set ivar rhold }
    else acc2
  else acc

/-- Running variables of the last loop of `GetCV1`. -/
structure CVFin (K : Type) where
  CV0 : List K
  CV1 : List K
  CV2 : List K
  CV3 : List K
  rhold0 : K
  rhold1 : K
  rhold2 : K
  rhold3 : K

/-- Body of the last loop of `GetCV1`, which computes the four consensus vectors.

`SumWeights[ivar]` can be 0 where `NumViol[ivar] ≠ 0`: the weight `BndUp - Pt[ivar]` that
an upper bound adds is negative and can cancel the weights of the rows. Go's `CV2[ivar]`
and `rhold2` are then `NaN` or an infinity; the values of the model there (the quotient
is 0 in a field) are not those of Go, and neither is `CV2Short`, which is computed from
`rhold2`. -/
def GetCV1_fin (acc : CVAcc K) (f : CVFin K) (ivar : Nat) : CVFin K :=
  if acc.NumViol.getD ivar 0 = 0 then
    { f with CV0 := f.CV0.set ivar 0, CV1 := f.CV1.set ivar 0,
             CV2 := f.CV2.set ivar 0, CV3 := f.CV3.set ivar 0 }
  else
    let c0 := acc.SumViol.getD ivar 0 / ((acc.NumViol.getD ivar 0 : Nat) : K)
    let c1 := if acc.FVMaxFVLength.getD ivar 0 ≠ 0 then acc.FVMaxFVLength.getD ivar 0 else c0
    let c2 := acc.SumWeightedViol.getD ivar 0 / acc.SumWeights.getD ivar 0
    let c3 := acc.SumViol.getD ivar 0
    { CV0 := f.CV0.set ivar c0, rhold0 := f.rhold0 + c0 * c0,
      CV1 := f.CV1.set ivar c1, rhold1 := f.rhold1 + c1 * c1,
      CV2 := f.CV2.set ivar c2, rhold2 := f.rhold2 + c2 * c2,
      CV3 := f.CV3.set ivar c3, rhold3 := f.rhold3 + c3 * c3 }

/-- Results of `GetCV1`. -/
structure CVResult (K : Type) where
  Status : Nat
  CV0 : List K
  CV1 : List K
  CV2 : List K
  CV3 : List K
  CV0Short : Bool
  CV1Short : Bool
  CV2Short : Bool
  CV3Short : Bool
  SFD : K
  SINF : K
  NINF : Int

/-- The loops of `GetCV1` over the constraints and the bounds, from zeroed accumulators. -/
def GetCV1_loops (E : Env K) (Pt : List K) : CVAcc K :=
  let z : List K := List.replicate Pt.length 0
  (List.range E.NumCols).foldl (GetCV1_bnd E Pt)
    ((List.range E.NumRows).foldl (GetCV1_con E Pt)
      ⟨0, 0, 0, -E.plinfy, -E.plinfy, List.replicate Pt.length 0, z, z, z, z, z⟩)

/-- The function `solver.GetCV1`. The result is `none` where Go stops with an index
error in the zeroing loop (`CV1[1] = 0.0` on a point of length 1).
Status: 0 consensus vectors computed, 1 feasible point. -/
def GetCV1 (E : Env K) (Pt : List K) : Option (CVResult K) :=
  if Pt.length = 1 then none
  else
    let z : List K := List.replicate Pt.length 0
    let acc := GetCV1_loops E Pt
    if acc.NINF = 0 then
      some ⟨1, zeroFirst E.NumCols z, zeroFirst E.NumCols z, zeroFirst E.NumCols z,
            zeroFirst E.NumCols z, true, true, true, true, 0, 0, 0⟩
    else
      let f := (List.range E.NumCols).foldl (GetCV1_fin acc) ⟨z, z, z, z, 0, 0, 0, 0⟩
      some ⟨0, f.CV0, f.CV1, f.CV2, f.CV3,
            decide (E.sqrt f.rhold0 < E.Beta), decide (E.sqrt f.rhold1 < E.Beta),
            decide (E.sqrt f.rhold2 < E.Beta), decide (E.sqrt f.rhold3 < E.Beta),
            acc.SFD, acc.SINF, acc.NINF⟩

/-! ## Specification-side quantities -/

/-- The loop of `lp.GetStatistics` that computes the squared gradient length of a row:
`rhold = rhold + Value*Value` over the row's elements. -/
def GradVecLenSqOf (E : Env K) (icon : Nat) : K :=
  (E.row icon).ElList.foldl
    (fun rhold ElNum => rhold + (E.elem ElNum).Value * (E.elem ElNum).Value) 0

/-- The model carries the gradient lengths that `lp.GetStatistics` stores. -/
def GradStored (E : Env K) : Prop :=
  ∀ icon, icon < E.NumRows → (E.row icon).GradVecLenSq = GradVecLenSqOf E icon

/-- Every variable has `bnd_lo ≤ bnd_up`. -/
def BoundsOrdered (E : Env K) : Prop :=
  ∀ j, j < E.NumCols → (E.col j).BndLo ≤ (E.col j).BndUp

/-- Row `icon` is counted at `x`: `GetViolation` reports it violated and the squared
length of its feasibility vector is at least `Alpha^2`. -/
def rowCounted (E : Env K) (x : List K) (icon : Nat) : Prop :=
  (GetViolation E icon x).FVStatus = 0 ∧ (GetViolation E icon x).ViolStatus = 0 ∧
    E.Alpha * E.Alpha ≤ FVLenSq E icon (GetViolation E icon x).Violation

instance rowCountedDecidable (E : Env K) (x : List K) (icon : Nat) :
    Decidable (rowCounted E x icon) := by
  unfold rowCounted; infer_instance

/-- Distance of `x_j` outside the interval `[bnd_lo, bnd_up]` (negative inside). -/
def bndExcess (E : Env K) (x : List K) (j : Nat) : K :=
  max ((E.col j).BndLo - x.getD j 0) (x.getD j 0 - (E.col j).BndUp)

/-- Variable `j` lies more than `Alpha` outside its bounds. -/
def bndOut (E : Env K) (x : List K) (j : Nat) : Prop := E.Alpha < bndExcess E x j

instance bndOutDecidable (E : Env K) (x : List K) (j : Nat) : Decidable (bndOut E x j) := by
  unfold bndOut; infer_instance

/-- The rows counted at `x`, in index order. -/
def countedRows (E : Env K) (x : List K) : List Nat :=
  (List.range E.NumRows).filter (fun i => decide (rowCounted E x i))

/-- The variables more than `Alpha` outside their bounds at `x`, in index order. -/
def outVars (E : Env K) (x : List K) : List Nat :=
  (List.range E.NumCols).filter (fun j => decide (bndOut E x j))

/-! ## Solver state and the incumbent -/

/-- The mutable package-level variables of `solver` that the modelled routines touch. -/
structure State (K : Type) where
  IncumbentPt : List K
  IncumbentSINF : K
  IncumbentSFD : K
  IncumbentNINF : Int
  TotUpdates : Int
  NumUpdate : List Int
  FracUpdate : List K
  LinProjSucceeds : Int
  LinProjFails : Int
  LinProjFrac : K
  QuadProjSucceeds : Int
  QuadProjFails : Int
  QuadProjFrac : K
  FinalPointType : Int
  BoxBndLo : List K
  BoxBndUp : List K

/-- Go's builtin `copy(dst, src)`: the first `min(len(dst), len(src))` entries of `dst`
are overwritten by those of `src`. -/
def copy {α : Type} (dst src : List α) : List α := src.take dst.length ++ dst.drop src.length

/-- The function `solver.UpdateIncumbentSFD`.
Status: 0 updated value, 1 feasible point, 2 input point not an improvement. -/
def UpdateIncumbentSFD (s : State K) (PointIn : List K) (SFDin : K) (NINFin : Int)
    (_UpdatedBy : Int) : Nat × State K :=
  if SFDin > s.IncumbentSFD then (2, s)
  else if SFDin = s.IncumbentSFD ∧ NINFin ≥ s.IncumbentNINF then (2, s)
  else
    let s1 : State K :=
      { s with TotUpdates := s.TotUpdates + 1, IncumbentPt := copy s.IncumbentPt PointIn,
               IncumbentSFD := SFDin, IncumbentNINF := NINFin }
    (if s1.IncumbentNINF = 0 then 1 else 0, s1)

/-- The initial values that `Solve` gives to the package variables. `math.MaxFloat64`
is `2^1024 - 2^971` and `math.MaxInt32` is `2147483647`. -/
def initState (E : Env K) : State K :=
  { IncumbentPt := List.replicate E.NumCols 0
    IncumbentSINF := 2 ^ 1024 - 2 ^ 971
    IncumbentSFD := 2 ^ 1024 - 2 ^ 971
    IncumbentNINF := 2147483647
    TotUpdates := 0
    NumUpdate := List.replicate 23 0
    FracUpdate := List.replicate 23 0
    LinProjSucceeds := 0
    LinProjFails := 0
    LinProjFrac := 0
    QuadProjSucceeds := 0
    QuadProjFails := 0
    QuadProjFrac := 0
    FinalPointType := -1
    BoxBndLo := List.replicate E.NumCols 0
    BoxBndUp := List.replicate E.NumCols 0 }

/-! ## The projector -/

/-- The function `solver.QuadApprox`. Status: 0 no problems, 1 some difficulty. -/
def QuadApprox (E : Env K) (Pt0 Pt1 Pt2 : List K) (Y0 Y1 Y2 : K) : Nat × List K :=
  let Vector : List K := (List.range E.NumCols).map (fun j => Pt1.getD j 0 - Pt0.getD j 0)
  let rhold1 : K := (List.range E.NumCols).foldl
    (fun r j => r + Vector.getD j 0 * Vector.getD j 0) 0
  let rhold2 : K := (List.range E.NumCols).foldl
    (fun r j => r + (Pt2.getD j 0 - Pt0.getD j 0) * (Pt2.getD j 0 - Pt0.getD j 0)) 0
  let Vector1Length := E.sqrt rhold1
  let X0 : K := 0
  let X1 : K := 1
  let X2 : K := E.sqrt rhold2 / Vector1Length
  let a : K := (2 * Y0) / ((X0 - X1) * (X0 - X2)) + (2 * Y1) / ((X1 - X0) * (X1 - X2)) +
    (2 * Y2) / ((X2 - X0) * (X2 - X1))
  if a < E.featol then (1, Pt2)
  else
    let b : K := (Y0 * X2 + Y0 * X1) / ((X0 - X1) * (X0 - X2)) +
      (Y1 * X2 + Y1 * X0) / ((X1 - X0) * (X1 - X2)) +
      (Y2 * X1 + Y2 * X0) / ((X2 - X0) * (X2 - X1))
    let XMin := b / a
    (0, (List.range E.NumCols).map (fun j => Pt0.getD j 0 + XMin * Vector.getD j 0))

/-- The assignments made in `Project` when a feasible point is found. -/
def setFeasibleIncumbent (s : State K) (Pt : List K) : State K :=
  { s with IncumbentPt := copy s.IncumbentPt Pt, IncumbentSFD := 0, IncumbentNINF := 0,
           IncumbentSINF := 0 }

/-- Result of `Project`: status, returned point, and the package state on return. -/
structure ProjResult (K : Type) where
  Status : Nat
  PointOut : List K
  state : State K

/-- The point `Pt1` of `Project`: `Pt1[j] = Pt0[j] + UpdateVector[j]`. -/
def Project_Pt1 (E : Env K) (Pt0 UpdateVector : List K) : List K :=
  (List.range E.NumCols).map (fun j => Pt0.getD j 0 + UpdateVector.getD j 0)

/-- The counter update `QuadProjFails++` made when `QuadApprox` fails (`Status > 0`). -/
def noteQuadFail (s : State K) (Status : Nat) : State K :=
  if Status > 0 then { s with QuadProjFails := s.QuadProjFails + 1 } else s

/-- The counter updates made in `Project` when the linearly projected point succeeds
(`SFD2 < SFD1`). -/
def noteLinProj (s : State K) (SFD1 SFD2 : K) : State K :=
  if SFD2 < SFD1 then
    { s with LinProjSucceeds := s.LinProjSucceeds + 1,
             LinProjFrac := s.LinProjFrac + (1 - SFD2 / SFD1) }
  else s

/-- The value of `BestPt` in `Project` after the linear projection. -/
def linBestPt (SFD1 SFD2 : K) : Nat := if SFD2 < SFD1 then 2 else 1

/-- The last part of `Project`: the quadratic approximation on `Pt0`, `Pt1`, `Pt2`. -/
def Project_quad (E : Env K) (s : State K) (Pt0 Pt1 Pt2 : List K) (SFD0 SFD1 SFD2 : K)
    (BestPt : Nat) : ProjResult K :=
  let q := QuadApprox E Pt0 Pt1 Pt2 SFD0 SFD1 SFD2
  let s1 : State K := noteQuadFail s q.1
  if q.1 > 0 ∧ BestPt = 1 then ⟨0, Pt1, s1⟩
  else if q.1 > 0 ∧ BestPt = 2 then ⟨0, Pt2, s1⟩
  else
    let Pt3 := q.2
    let r3 := GetSFD E Pt3
    if r3.Status = 1 then
      ⟨1, Pt3, setFeasibleIncumbent
        { s1 with QuadProjSucceeds := s1.QuadProjSucceeds + 1,
                  QuadProjFrac := s1.QuadProjFrac + 1 } Pt3⟩
    else if r3.SFDout < min SFD2 SFD1 then
      ⟨0, Pt3, { s1 with QuadProjSucceeds := s1.QuadProjSucceeds + 1,
                         QuadProjFrac := s1.QuadProjFrac + (1 - r3.SFDout / min SFD2 SFD1) }⟩
    else
      let s2 : State K := { s1 with QuadProjFails := s1.QuadProjFails + 1 }
      if BestPt = 1 then ⟨0, Pt1, s2⟩
      else if BestPt = 2 then ⟨0, Pt2, s2⟩
      else ⟨0, Pt1, s2⟩

/-- The point `Pt2` of `Project`, the linear projection:
`Pt2[j] = Pt0[j] + ProjectLength*UpdateVector[j]/VectorLength`. -/
def Project_Pt2 (E : Env K) (Pt0 UpdateVector : List K) (ProjectLength VectorLength : K) :
    List K :=
  (List.range E.NumCols).map
    (fun j => Pt0.getD j 0 + ProjectLength * UpdateVector.getD j 0 / VectorLength)

/-- The part of `Project` that follows the test `SFD1 ≥ SFD0`: the linear projection and
then the quadratic one. `VectorLength` is the squared length accumulated so far. -/
def Project_lin (E : Env K) (s : State K) (Pt0 UpdateVector Pt1 : List K)
    (SFD0 SFD1 VectorLength : K) : ProjResult K :=
  let DeltaSFD := SFD0 - SFD1
  if DeltaSFD < E.featol then ⟨0, Pt1, s⟩
  else
    let VectorLength := E.sqrt VectorLength
    if VectorLength < E.featol then ⟨0, Pt1, s⟩
    else
      let SFDgrad := DeltaSFD / VectorLength
      if SFDgrad < E.featol then ⟨0, Pt1, s⟩
      else
        let ProjectLength := SFD0 / SFDgrad
        let Pt2 := Project_Pt2 E Pt0 UpdateVector ProjectLength VectorLength
        let r2 := GetSFD E Pt2
        if r2.Status = 1 then
          ⟨1, Pt2, setFeasibleIncumbent
            { s with LinProjSucceeds := s.LinProjSucceeds + 1,
                     LinProjFrac := s.LinProjFrac + 1 } Pt2⟩
        else if r2.Status > 1 then
          ⟨0, Pt1, { s with LinProjFails := s.LinProjFails + 1 }⟩
        else
          let SFD2 := r2.SFDout
          let s1 : State K := noteLinProj s SFD1 SFD2
          let BestPt : Nat := linBestPt SFD1 SFD2
          let s2 : State K := { s1 with LinProjFails := s1.LinProjFails + 1 }
          Project_quad E s2 Pt0 Pt1 Pt2 SFD0 SFD1 SFD2 BestPt

/-- The function `solver.Project`.
Status: 0 success, 1 success and feasible point found, 2 failure (no progress). -/
def Project (E : Env K) (s : State K) (Pt0 UpdateVector : List K) : ProjResult K :=
  let r0 := GetSFD E Pt0
  if r0.Status = 1 then ⟨1, Pt0, s⟩
  else if r0.Status > 1 then ⟨2, Pt0, s⟩
  else
    let SFD0 := r0.SFDout
    let Pt1 := Project_Pt1 E Pt0 UpdateVector
    let VectorLength : K := (List.range E.NumCols).foldl
      (fun r j => r + UpdateVector.getD j 0 * UpdateVector.getD j 0) 0
    let r1 := GetSFD E Pt1
    if r1.Status = 1 then ⟨1, Pt1, setFeasibleIncumbent s Pt1⟩
    else if r1.Status > 1 then ⟨2, Pt0, s⟩
    else
      let SFD1 := r1.SFDout
      if SFD1 ≥ SFD0 then ⟨2, Pt0, s⟩
      else Project_lin E s Pt0 UpdateVector Pt1 SFD0 SFD1 VectorLength

/-! ## `SwarmProject` -/

/-- The last part of `SwarmProject`: the quadratic approximation on `Pt0`, `Pt1`, `Pt2`. -/
def SwarmProject_quad (E : Env K) (s : State K) (Pt0 Pt1 Pt2 : List K) (SFD0 SFD1 SFD2 : K)
    (BestPt : Nat) : ProjResult K :=
  let q := QuadApprox E Pt0 Pt1 Pt2 SFD0 SFD1 SFD2
  let s1 : State K := noteQuadFail s q.1
  if q.1 > 0 ∧ BestPt = 1 then ⟨2, Pt1, s1⟩
  else if q.1 > 0 ∧ BestPt = 2 then ⟨2, Pt2, s1⟩
  else
    let Pt3 := q.2
    let r3 := GetSFD E Pt3
    if r3.Status = 1 then
      ⟨1, Pt3, setFeasibleIncumbent
        { s1 with QuadProjSucceeds := s1.QuadProjSucceeds + 1,
                  QuadProjFrac := s1.QuadProjFrac + 1 } Pt3⟩
    else if r3.SFDout < min SFD2 SFD1 then
      ⟨0, Pt3, { s1 with QuadProjSucceeds := s1.QuadProjSucceeds + 1,
                         QuadProjFrac := s1.QuadProjFrac + (1 - r3.SFDout / min SFD2 SFD1) }⟩
    else
      let s2 : State K := { s1 with QuadProjFails := s1.QuadProjFails + 1 }
      if BestPt = 1 then ⟨2, Pt1, s2⟩
      else if BestPt = 2 then ⟨2, Pt2, s2⟩
      else ⟨2, Pt1, s2⟩

/-- The part of `SwarmProject` that follows the test `SFD1 ≥ SFD0`: the linear projection
and then the quadratic one. `VectorLength` is the squared length accumulated so far. -/
def SwarmProject_lin (E : Env K) (s : State K) (Pt0 UpdateVector Pt1 : List K)
    (SFD0 SFD1 VectorLength : K) : ProjResult K :=
  let DeltaSFD := SFD0 - SFD1
  if DeltaSFD < E.featol then ⟨2, Pt1, s⟩
  else
    let VectorLength := E.sqrt VectorLength
    if VectorLength < E.featol then ⟨2, Pt1, s⟩
    else
      let SFDgrad := DeltaSFD / VectorLength
      if SFDgrad < E.featol then ⟨2, Pt1, s⟩
      else
        let ProjectLength := SFD0 / SFDgrad
        let Pt2 := Project_Pt2 E Pt0 UpdateVector ProjectLength VectorLength
        let r2 := GetSFD E Pt2
        if r2.Status = 1 then
          ⟨1, Pt2, setFeasibleIncumbent
            { s with LinProjSucceeds := s.LinProjSucceeds + 1,
                     LinProjFrac := s.LinProjFrac + 1 } Pt2⟩
        else if r2.Status > 1 then
          ⟨2, Pt1, { s with LinProjFails := s.LinProjFails + 1 }⟩
        else
          let SFD2 := r2.SFDout
          let s1 : State K := noteLinProj s SFD1 SFD2
          let BestPt : Nat := linBestPt SFD1 SFD2
          let s2 : State K := { s1 with LinProjFails := s1.LinProjFails + 1 }
          SwarmProject_quad E s2 Pt0 Pt1 Pt2 SFD0 SFD1 SFD2 BestPt

/-- The function `solver.SwarmProject`.
Status: 0 improved point found, 1 success and feasible point found, 2 no improved point
found, 3 numerical problem or other failure. -/
def SwarmProject (E : Env K) (s : State K) (Pt0 UpdateVector : List K) : ProjResult K :=
  let r0 := GetSFD E Pt0
  if r0.Status = 1 then ⟨1, Pt0, s⟩
  else if r0.Status > 1 then ⟨3, Pt0, s⟩
  else
    let SFD0 := r0.SFDout
    let Pt1 := Project_Pt1 E Pt0 UpdateVector
    let VectorLength : K := (List.range E.NumCols).foldl
      (fun r j => r + UpdateVector.getD j 0 * UpdateVector.getD j 0) 0
    let r1 := GetSFD E Pt1
    if r1.Status = 1 then ⟨1, Pt1, setFeasibleIncumbent s Pt1⟩
    else if r1.Status > 1 then ⟨3, Pt0, s⟩
    else
      let SFD1 := r1.SFDout
      if SFD1 ≥ SFD0 then ⟨2, Pt0, s⟩
      else SwarmProject_lin E s Pt0 UpdateVector Pt1 SFD0 SFD1 VectorLength

/-! ## The worker `CCSimple` -/

/-- The Go struct `solver.POINTDATA`. -/
structure POINTDATA (K : Type) where
  Point : List K
  SFD : K
  NINF : Int

/-- Running variables of one iteration of `CCSimple`. -/
structure CCAcc (K : Type) where
  NINF : Int
  SFD : K
  NumViol : List Nat
  SumViol : List K
  SumWeightedViol : List K
  SumWeights : List K

/-- Body of the loop of `CCSimple` over the elements of a counted violated row. -/
def CCSimple_el (E : Env K) (icon : Nat) (Violation : K) (acc : CCAcc K) (ElNum : Nat) :
    CCAcc K :=
  let ColNum := (E.elem ElNum).Col
  let fv := Violation * (E.elem ElNum).Value / (E.row icon).GradVecLenSq
  { acc with
    NumViol := incrAt acc.NumViol ColNum
    SumViol := addAt acc.SumViol ColNum fv
    SumWeightedViol := addAt acc.SumWeightedViol ColNum (fv * |Violation|)
    SumWeights := addAt acc.SumWeights ColNum |Violation| }

/-- Body of the loop of `CCSimple` over the constraints. -/
def CCSimple_con (E : Env K) (CCPoint : List K) (acc : CCAcc K) (icon : Nat) : CCAcc K :=
  let v := GetViolation E icon CCPoint
  if v.FVStatus > 0 then acc
  else if v.ViolStatus > 0 then acc
  else
    let rhold := FVLenSq E icon v.Violation
    if rhold < E.Alpha * E.Alpha then acc
    else
      let FVLength := E.sqrt rhold
      let acc1 : CCAcc K := { acc with SFD := acc.SFD + FVLength, NINF := acc.NINF + 1 }
      (E.row icon).ElList.foldl (CCSimple_el E icon v.Violation) acc1

/-- Body of the loop of `CCSimple` over the variable bounds. -/
def CCSimple_bnd (E : Env K) (CCPoint : List K) (acc : CCAcc K) (ivar : Nat) : CCAcc K :=
  if CCPoint.getD ivar 0 ≥ (E.col ivar).BndLo - E.Alpha then
    if CCPoint.getD ivar 0 ≤ (E.col ivar).BndUp + E.Alpha then acc
    else if CCPoint.getD ivar 0 - (E.col ivar).BndUp > E.Alpha then
      let rhold := (E.col ivar).BndUp - CCPoint.getD ivar 0
      let SumViol := addAt acc.SumViol ivar rhold
      { acc with NINF := acc.NINF + 1, NumViol := incrAt acc.NumViol ivar,
                 SumViol := SumViol, SFD := acc.SFD + |rhold|,
                 SumWeightedViol := acc.SumWeightedViol.set ivar (SumViol.getD ivar 0),
                 SumWeights := addAt acc.SumWeights ivar rhold }
    else acc
  else if (E.col ivar).BndLo - CCPoint.getD ivar 0 > E.Alpha then
    let rhold := (E.col ivar).BndLo - CCPoint.getD ivar 0
    let SumViol := addAt acc.SumViol ivar rhold
    { acc with NINF := acc.NINF + 1, NumViol := incrAt acc.NumViol ivar,
               SumViol := SumViol, SFD := acc.SFD + rhold,
               SumWeightedViol := acc.SumWeightedViol.set ivar (SumViol.getD ivar 0),
               SumWeights := acc.SumWeights.set ivar
                 (acc.SumWeights.getD ivar 0 + (E.col ivar).BndLo - CCPoint.getD ivar 0) }
  else acc

/-- The loops of one iteration of `CCSimple` over constraints and bounds, from zeroed
accumulators of the length of the point. -/
def CCSimple_loops (E : Env K) (CCPoint : List K) : CCAcc K :=
  let z : List K := List.replicate CCPoint.length 0
  (List.range E.NumCols).foldl (CCSimple_bnd E CCPoint)
    ((List.range E.NumRows).foldl (CCSimple_con E CCPoint)
      ⟨0, 0, List.replicate CCPoint.length 0, z, z, z⟩)

/-- The consensus vector of `CCSimple`: `CV[ivar] = SumViol[ivar]/NumViol[ivar]`, and 0
where `NumViol[ivar] = 0`. -/
def CCSimple_CV (E : Env K) (acc : CCAcc K) (n : Nat) : List K :=
  (List.range E.NumCols).foldl
    (fun CV ivar =>
      if acc.NumViol.getD ivar 0 = 0 then CV.set ivar 0
      else CV.set ivar (acc.SumViol.getD ivar 0 / ((acc.NumViol.getD ivar 0 : Nat) : K)))
    (List.replicate n 0)

/-- The update `CCPoint[ivar] = CCPoint[ivar] + CV[ivar]` for `ivar < NumCols`. -/
def addCV (E : Env K) (CCPoint CV : List K) : List K :=
  (List.range E.NumCols).foldl
    (fun pt ivar => pt.set ivar (pt.getD ivar 0 + CV.getD ivar 0)) CCPoint

/-- The iteration loop of `CCSimple`, with the number of iterations left; `SFD` and
`NINF` are the values left by the previous iteration. -/
def CCSimple_itns (E : Env K) (PointID : Int) :
    Nat → State K → List K → K → Int → POINTDATA K × State K
  | 0, s, CCPoint, SFD, NINF => (⟨copy (List.replicate E.NumCols 0) CCPoint, SFD, NINF⟩, s)
  | n + 1, s, CCPoint, _, _ =>
    let acc := CCSimple_loops E CCPoint
    if acc.NINF = 0 then
      (⟨copy (List.replicate E.NumCols 0) CCPoint, 0, 0⟩, { s with FinalPointType := PointID })
    else
      let CV := CCSimple_CV E acc CCPoint.length
      let CCPoint1 := addCV E CCPoint CV
      let s1 := (UpdateIncumbentSFD s CCPoint1 acc.SFD acc.NINF PointID).2
      CCSimple_itns E PointID n s1 CCPoint1 acc.SFD acc.NINF

/-- The function `solver.CCSimple`, with the record it sends on the channel as result. -/
def CCSimple (E : Env K) (s : State K) (PointIn : List K) (PointID : Int) :
    POINTDATA K × State K :=
  CCSimple_itns E PointID 10 s (copy (List.replicate PointIn.length 0) PointIn) 0 0

/-! ## The controller `Solve` -/

/-- Running variables of `Solve` while it retrieves the output points of a round. -/
structure SolveAcc (K : Type) where
  AvgSFD : K
  icount : Nat
  NumCCRuns : Nat
  M : List K
  Q : List K

/-- The update of the mean and variance accumulators in `Solve` for one output point. -/
def Solve_accumulate (E : Env K) (LastAvgSFD : K) (acc : SolveAcc K) (p : POINTDATA K) :
    SolveAcc K :=
  if p.SFD ≤ LastAvgSFD then
    let icount := acc.icount + 1
    if icount = 1 then
      { acc with icount := icount,
                 M := (List.range E.NumCols).map (fun j => p.Point.getD j 0),
                 Q := (List.range E.NumCols).map (fun _ => 0) }
    else
      { acc with icount := icount,
                 M := (List.range E.NumCols).map (fun j =>
                   acc.M.getD j 0 + (p.Point.getD j 0 - acc.M.getD j 0) / (icount : K)),
                 Q := (List.range E.NumCols).map (fun j =>
                   acc.Q.getD j 0 + ((icount - 1 : Nat) : K) *
                     (p.Point.getD j 0 - acc.M.getD j 0) * (p.Point.getD j 0 - acc.M.getD j 0) /
                     (icount : K)) }
  else acc

/-- The loop of `Solve` that retrieves the output points, taken one at a time in the
order given. The first component is the point of the first record with `NINF = 0`. -/
def Solve_collect (E : Env K) (LastAvgSFD : K) :
    List (POINTDATA K) → SolveAcc K → Option (List K) × SolveAcc K
  | [], acc => (none, acc)
  | p :: rest, acc =>
    let acc1 : SolveAcc K :=
      { acc with AvgSFD := acc.AvgSFD + p.SFD, NumCCRuns := acc.NumCCRuns + 1 }
    if p.NINF = 0 then (some p.Point, acc1)
    else Solve_collect E LastAvgSFD rest (Solve_accumulate E LastAvgSFD acc1 p)

/-- The sample point of `Solve`:
`BoxBndLo[j] + RandNum.Float64()*(BoxBndUp[j] - BoxBndLo[j])`, the draws being `r j`. -/
def samplePoint (E : Env K) (s : State K) (r : Nat → K) : List K :=
  (List.range E.NumCols).map
    (fun j => s.BoxBndLo.getD j 0 + r j * (s.BoxBndUp.getD j 0 - s.BoxBndLo.getD j 0))

/-- The 100 runs of `CCSimple` of one round, run one after the other on the package
state; the records they send are listed in launch order. -/
@[irreducible]
def Solve_launch (E : Env K) (s : State K) (r : Nat → Nat → K) :
    State K × List (POINTDATA K) :=
  (List.range 100).foldl
    (fun sr i =>
      let res := CCSimple E sr.1 (samplePoint E s (r i)) (i : Int)
      (res.2, sr.2 ++ [res.1]))
    (s, [])

/-- The new sample box of `Solve` for variable `j`, from mean and variance accumulators.
With `icount = 0` no record has touched `Q[j]`, which is 0, and Go computes
`Q[j]/float64(icount) = 0/0 = NaN`: `rhold` and both ends of the box are `NaN` (every
comparison of the clipping tests is false). This is the result `none`. -/
def newBox (E : Env K) (acc : SolveAcc K) (j : Nat) : Option (K × K) :=
  if acc.icount = 0 then none
  else
    let rhold := E.sqrt (acc.Q.getD j 0 / (acc.icount : K))
    let lo0 := acc.M.getD j 0 - (3 / 2) * rhold
    let lo := if lo0 > (E.col j).BndUp then (E.col j).BndUp else lo0
    let up0 := acc.M.getD j 0 + (3 / 2) * rhold
    let up1 := if up0 < (E.col j).BndLo then (E.col j).BndLo else up0
    let up := if up1 < lo then lo else up1
    some (lo, up)

/-- Result of `Solve`: the point, the status, and the package state on return. -/
structure SolveResult (K : Type) where
  PointOut : List K
  Status : Nat
  state : State K

/-- One round of `Solve`: either a feasible point was retrieved and `Solve` returns, or
the round ends with a new sample box, a new `LastAvgSFD` and the count of runs. The
random draws of run `i`, coordinate `j` are `r i j`. The widths `MaxWidth` and
`AvgWidth`, which are only printed, are left out.

The new `LastAvgSFD` is `avg (AvgSFD / 100)`: `avg x` is the value that the `float64`
sum of the 100 values of `SFD` and its quotient by `100.0` give when the exact mean is
`x`. The records of the next round are compared with this value, and when they all have
the same `SFD` the test is decided by the rounding (the computed mean of 100 equal values
can lie below each of them).

The result is `none` when no record of the round qualifies and the model has a variable:
the new box is then `NaN` (see `newBox`). -/
def Solve_round (E : Env K) (r : Nat → Nat → K) (avg : K → K) (s : State K) (LastAvgSFD : K)
    (NumCCRuns : Nat) : Option (SolveResult K ⊕ (State K × K × Nat)) :=
  let z : List K := List.replicate E.NumCols 0
  let launched := Solve_launch E s r
  let s1 := launched.1
  let col := Solve_collect E LastAvgSFD launched.2 ⟨0, 0, NumCCRuns, z, z⟩
  match col.1 with
  | some Point =>
    let s2 : State K :=
      { s1 with IncumbentPt := copy s1.IncumbentPt Point, IncumbentSFD := 0,
                IncumbentNINF := 0 }
    some (Sum.inl ⟨s2.IncumbentPt, 0, s2⟩)
  | none =>
    let acc := col.2
    match (List.range E.NumCols).mapM (newBox E acc) with
    | none => none
    | some box =>
      let s2 : State K :=
        { s1 with BoxBndLo := box.map Prod.fst, BoxBndUp := box.map Prod.snd }
      some (Sum.inr (s2, avg (acc.AvgSFD / 100), acc.NumCCRuns))

/-- The loop of `Solve` on rounds, with the number of rounds left. The random draws of
round `itn`, run `i`, coordinate `j` are `rand itn i j`, and the computed mean of the
round is `fl itn` of the exact one. When a round ends with a `NaN` box and a round
follows, the result is `none`: the sample points of that round are `NaN` and
`lp.ConBodyValue` ends the process (`os.Exit(1)`) at the first row that has an element.
When the round was the last, `Solve` returns the incumbent with status 1; the state of
the result is then the one after the runs of the round, and its fields `BoxBndLo` and
`BoxBndUp`, which are `NaN` in Go and are not read again, keep their last values. -/
def Solve_rounds (E : Env K) (rand : Nat → Nat → Nat → K) (fl : Nat → K → K) :
    Nat → Nat → State K → K → Nat → Option (SolveResult K)
  | 0, _, s, _, _ => some ⟨s.IncumbentPt, 1, s⟩
  | n + 1, itn, s, LastAvgSFD, NumCCRuns =>
    match Solve_round E (rand itn) (fl itn) s LastAvgSFD NumCCRuns with
    | none =>
      if n = 0 then
        some ⟨(Solve_launch E s (rand itn)).1.IncumbentPt, 1, (Solve_launch E s (rand itn)).1⟩
      else none
    | some (Sum.inl res) => some res
    | some (Sum.inr next) => Solve_rounds E rand fl n (itn + 1) next.1 next.2.1 next.2.2

/-- The environment after `Solve` has stored its arguments in the package variables. -/
def Solve_env (E0 : Env K) (AlphaIn BetaIn : K) (MaxItnsIn : Nat) (plinfyIn featolIn : K) :
    Env K :=
  { E0 with Alpha := AlphaIn, Beta := BetaIn, MaxItns := MaxItnsIn, plinfy := plinfyIn,
            featol := featolIn }

/-- The initial sample box of `Solve`: `[BndLo, min(BndLo + 10000, BndUp)]`. -/
def initBox (E : Env K) (s : State K) : State K :=
  { s with BoxBndLo := (List.range E.NumCols).map (fun j => (E.col j).BndLo),
           BoxBndUp := (List.range E.NumCols).map (fun j =>
             if (E.col j).BndLo + 10000 > (E.col j).BndUp then (E.col j).BndUp
             else (E.col j).BndLo + 10000) }

/-- The function `solver.Solve` (`MaxBoxes = 100` rounds of 100 runs of `CCSimple`), the
workers taken one at a time, the random draws given by `rand` and the computed means by
`fl` (see `Solve_round`). Status: 0 success, 1 maximum number of rounds reached; `none`:
a round before the last has ended with a `NaN` box and the process has exited (see
`Solve_rounds`). -/
def Solve (E0 : Env K) (AlphaIn BetaIn : K) (MaxItnsIn _MaxSwarmPtsIn : Nat)
    (plinfyIn featolIn : K) (rand : Nat → Nat → Nat → K) (fl : Nat → K → K) :
    Option (SolveResult K) :=
  let E := Solve_env E0 AlphaIn BetaIn MaxItnsIn plinfyIn featolIn
  Solve_rounds E rand fl 100 0 (initBox E (initState E)) E.plinfy 0

/-! ## The incumbent ordered by `NINF`, and the classical point test -/

/-- The function `solver.UpdateIncumbentSFDforNINF`; `FracUpdate[UpdatedBy]` and
`NumUpdate[UpdatedBy]` are touched from the second update on.
Status: 0 updated value, 1 feasible point, 2 input point not an improvement. -/
def UpdateIncumbentSFDforNINF (s : State K) (PointIn : List K) (SFDin : K) (NINFin : Int)
    (UpdatedBy : Int) : Nat × State K :=
  if NINFin > s.IncumbentNINF then (2, s)
  else if NINFin = s.IncumbentNINF ∧ SFDin > s.IncumbentSFD then (2, s)
  else
    let s1 : State K := { s with TotUpdates := s.TotUpdates + 1 }
    let s2 : State K :=
      if s1.TotUpdates > 1 then
        { s1 with FracUpdate := addAt s1.FracUpdate UpdatedBy.toNat
                    (1 - (NINFin : K) / (s1.IncumbentNINF : K)),
                  NumUpdate := s1.NumUpdate.set UpdatedBy.toNat
                    (s1.NumUpdate.getD UpdatedBy.toNat 0 + 1) }
      else s1
    let s3 : State K :=
      { s2 with IncumbentPt := copy s2.IncumbentPt PointIn, IncumbentSFD := SFDin,
                IncumbentNINF := NINFin }
    (if s3.IncumbentNINF = 0 then 1 else 0, s3)

/-- Results of `TestPoint`; they are also its running variables. -/
structure TestResult (K : Type) where
  Status : Nat
  NINF : Int
  NumSat : Int
  NumTight : Int
  SINF : K
  MaxViol : K
  AvgViol : K

/-- Body of the loop of `TestPoint` over the constraints. -/
def TestPoint_con (E : Env K) (PointIn : List K) (acc : TestResult K) (icon : Nat) :
    TestResult K :=
  let v := GetViolation E icon PointIn
  let Violation := if v.Violation < 0 then -v.Violation else v.Violation
  if v.FVStatus > 0 then { acc with Status := 1 }
  else if v.ViolStatus > 0 then
    { acc with NumSat := acc.NumSat + 1,
               NumTight := if v.ViolStatus = 2 then acc.NumTight + 1 else acc.NumTight }
  else
    { acc with NINF := acc.NINF + 1, SINF := acc.SINF + Violation,
               MaxViol := if Violation > acc.MaxViol then Violation else acc.MaxViol }

/-- The test of the lower bound of variable `ivar` in `TestPoint`. -/
def TestPoint_lo (E : Env K) (PointIn : List K) (acc : TestResult K) (ivar : Nat) :
    TestResult K :=
  if (E.col ivar).BndLo > -E.plinfy then
    if PointIn.getD ivar 0 ≥ (E.col ivar).BndLo - E.featol then
      { acc with NumSat := acc.NumSat + 1,
                 NumTight := if PointIn.getD ivar 0 ≤ (E.col ivar).BndLo + E.featol
                   then acc.NumTight + 1 else acc.NumTight }
    else
      let Violation := (E.col ivar).BndLo - PointIn.getD ivar 0
      { acc with SINF := acc.SINF + Violation, NINF := acc.NINF + 1,
                 MaxViol := if Violation > acc.MaxViol then Violation else acc.MaxViol }
  else acc

/-- The test of the upper bound of variable `ivar` in `TestPoint`. -/
def TestPoint_up (E : Env K) (PointIn : List K) (acc : TestResult K) (ivar : Nat) :
    TestResult K :=
  if (E.col ivar).BndUp < E.plinfy then
    if PointIn.getD ivar 0 ≤ (E.col ivar).BndUp + E.featol then
      { acc with NumSat := acc.NumSat + 1,
                 NumTight := if PointIn.getD ivar 0 ≥ (E.col ivar).BndUp - E.featol
                   then acc.NumTight + 1 else acc.NumTight }
    else
      let Violation := PointIn.getD ivar 0 - (E.col ivar).BndUp
      { acc with SINF := acc.SINF + Violation, NINF := acc.NINF + 1,
                 MaxViol := if Violation > acc.MaxViol then Violation else acc.MaxViol }
  else acc

/-- Body of the loop of `TestPoint` over the variable bounds: lower bound, then upper. -/
def TestPoint_bnd (E : Env K) (PointIn : List K) (acc : TestResult K) (ivar : Nat) :
    TestResult K :=
  TestPoint_up E PointIn (TestPoint_lo E PointIn acc ivar) ivar

/-- The function `solver.TestPoint`, the classical test of a point with `featol`. -/
def TestPoint (E : Env K) (PointIn : List K) : TestResult K :=
  let acc := (List.range E.NumCols).foldl (TestPoint_bnd E PointIn)
    ((List.range E.NumRows).foldl (TestPoint_con E PointIn) ⟨0, 0, 0, 0, 0, 0, 0⟩)
  { acc with AvgViol := if acc.NINF > 0 then acc.SINF / (acc.NINF : K) else 0 }

/-! ## The workers `CCOriginal1`, `CCOriginal2`, `CCImpact` and `CCSeqImpact`

Each worker is modelled as the point it sends on its channel together with the package
state it leaves. The workers never write to `PointIn`: they work on `CCPoint`, a slice
they allocate and fill with `copy(CCPoint, PointIn)`. -/

/-- The Go test `a/b > 1.0` on `float64` values, as the workers apply it to the length of
the consensus vector and the length of the last one. For `b = 0` the quotient is `+Inf`
when `a > 0`, and the test holds; it is `-Inf` or `NaN` otherwise, and the test fails. -/
def quotGtOne (a b : K) : Prop := if b = 0 then 0 < a else a / b > 1

instance quotGtOneDecidable (a b : K) : Decidable (quotGtOne a b) := by
  unfold quotGtOne
  infer_instance

/-- The loop of `CCOriginal1` and `CCImpact` that computes the basic consensus vector,
`CV[ivar] = SumViol[ivar]/NumViol[ivar]` and 0 where `NumViol[ivar] = 0`, and `rhold`,
the sum of the squares of its entries. -/
def CCOriginal1_CV (E : Env K) (acc : CVAcc K) (CV : List K) : List K × K :=
  (List.range E.NumCols).foldl
    (fun cr ivar =>
      if acc.NumViol.getD ivar 0 = 0 then (cr.1.set ivar 0, cr.2)
      else
        let c := acc.SumViol.getD ivar 0 / ((acc.NumViol.getD ivar 0 : Nat) : K)
        (cr.1.set ivar c, cr.2 + c * c))
    (CV, 0)

/-- The loop of `CCOriginal1` that imposes the longest feasibility vector on the
consensus vector: `if FVMaxFVLength[ivar] != 0.0 { CV[ivar] = FVMaxFVLength[ivar] }`. -/
def CCOriginal1_impose (E : Env K) (acc : CVAcc K) (CV : List K) : List K :=
  (List.range E.NumCols).foldl
    (fun cv ivar =>
      if acc.FVMaxFVLength.getD ivar 0 ≠ 0 then cv.set ivar (acc.FVMaxFVLength.getD ivar 0)
      else cv)
    CV

/-- Variables of `CCOriginal1` that live across its iterations. -/
structure CC1Vars (K : Type) where
  CCPoint : List K
  BestPt : List K
  BestPtSFD : K
  CVLengthLast : K
  SFD : K
  NINF : Int

/-- The iteration loop of `CCOriginal1`, with the number of iterations left and the
iteration counter `itn`. The loops of an iteration over the constraints and the bounds
are, statement for statement, those of `GetCV1` on `CCPoint` (`CCOriginal1` keeps no
`SINF`), so they are `GetCV1_loops E CCPoint`. The call of `Project` is disabled in the
source (`Status=2`). -/
def CCOriginal1_itns (E : Env K) (PointID : Int) :
    Nat → Nat → State K → CC1Vars K → List K × State K
  | 0, _, s, v => (v.BestPt, (UpdateIncumbentSFD s v.CCPoint v.SFD v.NINF PointID).2)
  | n + 1, itn, s, v =>
    let acc := GetCV1_loops E v.CCPoint
    if acc.NINF = 0 then (v.CCPoint, { s with FinalPointType := PointID })
    else
      let cv := CCOriginal1_CV E acc (List.replicate v.CCPoint.length 0)
      let CVLength := E.sqrt cv.2
      let best : K × List K :=
        if acc.SFD < v.BestPtSFD then (acc.SFD, copy v.BestPt v.CCPoint)
        else (v.BestPtSFD, v.BestPt)
      let CV : List K :=
        if itn > 0 ∧ (CVLength < E.Beta ∨ quotGtOne CVLength v.CVLengthLast) then
          CCOriginal1_impose E acc cv.1
        else cv.1
      CCOriginal1_itns E PointID n (itn + 1) s
        ⟨addCV E v.CCPoint CV, best.2, best.1, CVLength, acc.SFD, acc.NINF⟩

/-- The function `solver.CCOriginal1`, with the point it sends on the channel. -/
def CCOriginal1 (E : Env K) (s : State K) (PointIn : List K) (PointID : Int) :
    List K × State K :=
  let z : List K := List.replicate PointIn.length 0
  CCOriginal1_itns E PointID E.MaxItns 0 s ⟨copy z PointIn, z, E.plinfy, 0, 0, 0⟩

/-- Variables of `CCOriginal2` that live across its iterations. -/
structure CC2Vars (K : Type) where
  CCPoint : List K
  BestPt : List K
  BestPtSFD : K
  CVLength : K
  CVLengthLast : K
  SFD : K
  NINF : Int
  Status : Nat
  CV : List K
  CV1 : List K
  CVShort : Bool

/-- The call of `GetCV1` at the head of an iteration of `CCOriginal2`, with the choice
of `CV`, `CV1` and `CVShort` by `Round` and `PointID`. With `Round ≠ 0` and a negative
`PointID` no call is made and the variables keep their values. -/
def CCOriginal2_select (E : Env K) (Round PointID : Int) (v : CC2Vars K) :
    Option (CC2Vars K) :=
  if Round = 0 then
    (GetCV1 E v.CCPoint).map (fun r =>
      { v with Status := r.Status, CV := r.CV0, CVShort := r.CV0Short, SFD := r.SFD,
               NINF := r.NINF })
  else if PointID = 0 ∨ PointID > 3 then
    (GetCV1 E v.CCPoint).map (fun r =>
      { v with Status := r.Status, CV := r.CV0, CV1 := r.CV1, CVShort := r.CV0Short,
               SFD := r.SFD, NINF := r.NINF })
  else if PointID = 1 then
    (GetCV1 E v.CCPoint).map (fun r =>
      { v with Status := r.Status, CV := r.CV1, CVShort := r.CV1Short, SFD := r.SFD,
               NINF := r.NINF })
  else if PointID = 2 then
    (GetCV1 E v.CCPoint).map (fun r =>
      { v with Status := r.Status, CV1 := r.CV1, CV := r.CV2, CVShort := r.CV2Short,
               SFD := r.SFD, NINF := r.NINF })
  else if PointID = 3 then
    (GetCV1 E v.CCPoint).map (fun r =>
      { v with Status := r.Status, CV1 := r.CV1, CV := r.CV3, CVShort := r.CV3Short,
               SFD := r.SFD, NINF := r.NINF })
  else some v

/-- The part of an iteration of `CCOriginal2` that follows a failed projection
(`Status > 1`): the length of `CV`, the fallback `copy(CV, CV1)`, and the update of the
point. -/
def CCOriginal2_update (E : Env K) (itn : Nat) (v : CC2Vars K) (Pt : List K) : CC2Vars K :=
  let rhold : K := (List.range E.NumCols).foldl
    (fun r i => r + v.CV.getD i 0 * v.CV.getD i 0) 0
  let CVLength := E.sqrt rhold
  let CV : List K :=
    if itn > 0 ∧ (v.CVShort = true ∨ quotGtOne CVLength v.CVLengthLast) then copy v.CV v.CV1
    else v.CV
  { v with CVLength := CVLength, CV := CV, CCPoint := addCV E Pt CV }

/-- The iteration loop of `CCOriginal2`, with the number of iterations left and the
iteration counter `itn`; `none` is the run-time error of `GetCV1`. -/
def CCOriginal2_itns (E : Env K) (Round PointID : Int) :
    Nat → Nat → State K → CC2Vars K → Option (List K × State K)
  | 0, _, s, v => some (v.BestPt, (UpdateIncumbentSFD s v.CCPoint v.SFD v.NINF PointID).2)
  | n + 1, itn, s, v0 =>
    match CCOriginal2_select E Round PointID v0 with
    | none => none
    | some v =>
      if v.Status = 2 then some (v.CCPoint, s)
      else if v.Status = 1 ∨ v.NINF = 0 then
        some (v.CCPoint, { s with FinalPointType := PointID })
      else
        let best : K × List K :=
          if v.SFD < v.BestPtSFD then (v.SFD, copy v.BestPt v.CCPoint)
          else (v.BestPtSFD, v.BestPt)
        let p := Project E s v.CCPoint v.CV
        if p.Status = 1 then some (p.PointOut, { p.state with FinalPointType := PointID })
        else
          let v1 : CC2Vars K :=
            if p.Status > 1 then CCOriginal2_update E itn v p.PointOut
            else { v with CCPoint := p.PointOut }
          CCOriginal2_itns E Round PointID n (itn + 1) p.state
            { v1 with Status := p.Status, BestPt := best.2, BestPtSFD := best.1,
                      CVLengthLast := v1.CVLength }

/-- The function `solver.CCOriginal2`, with the point it sends on the channel. -/
def CCOriginal2 (E : Env K) (s : State K) (PointIn : List K) (Round PointID : Int) :
    Option (List K × State K) :=
  let z : List K := List.replicate PointIn.length 0
  CCOriginal2_itns E Round PointID E.MaxItns 0 s
    ⟨copy z PointIn, z, E.plinfy, 0, 0, 0, 0, 0, z, z, false⟩

/-- The assignments to `ConViolated` in the constraint loop of `CCImpact`; the other
statements of that loop are those of the constraint loop of `GetCV1`. -/
def CCImpact_ConViolated (E : Env K) (CCPoint : List K) (ConViolated : List Bool) :
    List Bool :=
  (List.range E.NumRows).foldl
    (fun cv icon =>
      let v := GetViolation E icon CCPoint
      if v.FVStatus > 0 then cv
      else if v.ViolStatus > 0 then cv.set icon false
      else if FVLenSq E icon v.Violation < E.Alpha * E.Alpha then cv.set icon false
      else cv.set icon true)
    ConViolated

/-- The choice of `ImpactCon` in `CCImpact`: the first violated row with the largest sum
of `NumViol` over its columns, or -1; the state of the loop is `(ihold1, ImpactCon)`. -/
def CCImpact_select (E : Env K) (acc : CVAcc K) (ConViolated : List Bool) : Int :=
  ((List.range E.NumRows).foldl
    (fun (st : Int × Int) ii =>
      if ConViolated.getD ii false = true then
        let ihold : Int := (E.row ii).ElList.foldl
          (fun h iel => h + ((acc.NumViol.getD (E.elem iel).Col 0 : Nat) : Int)) 0
        if ihold > st.1 then (ihold, (ii : Int)) else st
      else st)
    (-1, -1)).2

/-- The vector `CVImpact` of `CCImpact` for the row `ImpactCon`: the feasibility vector
of that row written over `CVImpact`, with the sum of the squares of the entries. -/
def CCImpact_CVImpact (E : Env K) (CCPoint CVImpact : List K) (ImpactCon : Nat) :
    List K × K :=
  let v := GetViolation E ImpactCon CCPoint
  let c := (E.row ImpactCon).ElList.foldl
    (fun cvi ElNum => cvi.set (E.elem ElNum).Col
      (v.Violation * (E.elem ElNum).Value / (E.row ImpactCon).GradVecLenSq))
    CVImpact
  (c, (List.range E.NumCols).foldl (fun r ivar => r + c.getD ivar 0 * c.getD ivar 0) 0)

/-- Variables of `CCImpact` that live across its iterations. -/
structure CCIVars (K : Type) where
  CCPoint : List K
  BestPt : List K
  BestPtSFD : K
  CVLengthLast : K
  CVImpact : List K
  CVImpactLength : K
  ConViolated : List Bool
  SFD : K
  NINF : Int

/-- The part of an iteration of `CCImpact` that follows a failed projection
(`Status > 1`): the fallback to `CVImpact` and the update of the point; the result is
the new point and the value of `CVLength`. -/
def CCImpact_update (E : Env K) (itn : Nat) (CVLengthLast : K) (CV : List K) (CVLength : K)
    (CVImpact : List K) (CVImpactLength : K) (Pt : List K) : List K × K :=
  if itn > 0 ∧ (CVLength < E.Beta ∨ quotGtOne CVLength CVLengthLast) then
    (addCV E Pt (copy CV CVImpact), CVImpactLength)
  else (addCV E Pt CV, CVLength)

/-- The iteration loop of `CCImpact`, with the number of iterations left and the
iteration counter `itn`. The loops over the constraints and the bounds are those of
`GetCV1` on `CCPoint`, with the assignments to `ConViolated` in addition. -/
def CCImpact_itns (E : Env K) (PointID : Int) :
    Nat → Nat → State K → CCIVars K → List K × State K
  | 0, _, s, v => (v.CCPoint, (UpdateIncumbentSFD s v.CCPoint v.SFD v.NINF PointID).2)
  | n + 1, itn, s, v =>
    let acc := GetCV1_loops E v.CCPoint
    let ConViolated := CCImpact_ConViolated E v.CCPoint v.ConViolated
    if acc.NINF = 0 then (v.CCPoint, { s with FinalPointType := PointID })
    else
      let cv := CCOriginal1_CV E acc (List.replicate v.CCPoint.length 0)
      let CVLength := E.sqrt cv.2
      let best : K × List K :=
        if acc.SFD < v.BestPtSFD then (acc.SFD, copy v.BestPt v.CCPoint)
        else (v.BestPtSFD, v.BestPt)
      let ImpactCon := CCImpact_select E acc ConViolated
      let CVImpact0 := copy v.CVImpact cv.1
      let imp : List K × K :=
        if ImpactCon > -1 then
          let ci := CCImpact_CVImpact E v.CCPoint CVImpact0 ImpactCon.toNat
          (ci.1, E.sqrt ci.2)
        else (CVImpact0, v.CVImpactLength)
      let p := Project E s v.CCPoint cv.1
      if p.Status = 1 then (p.PointOut, { p.state with FinalPointType := PointID })
      else
        let upd : List K × K :=
          if p.Status > 1 then
            CCImpact_update E itn v.CVLengthLast cv.1 CVLength imp.1 imp.2 p.PointOut
          else (p.PointOut, CVLength)
        CCImpact_itns E PointID n (itn + 1) p.state
          ⟨upd.1, best.2, best.1, upd.2, imp.1, imp.2, ConViolated, acc.SFD, acc.NINF⟩

/-- The function `solver.CCImpact`, with the point it sends on the channel. -/
def CCImpact (E : Env K) (s : State K) (PointIn : List K) (PointID : Int) :
    List K × State K :=
  let z : List K := List.replicate PointIn.length 0
  CCImpact_itns E PointID E.MaxItns 0 s
    ⟨copy z PointIn, z, E.plinfy, 0, z, 0, List.replicate E.NumRows false, 0, 0⟩

/-- Running variables of one iteration of `CCSeqImpact`. -/
structure SeqAcc (K : Type) where
  CCPoint : List K
  NINF : Int
  SFD : K
  MaxFVLength : K

/-- Body of the first loop of an iteration of `CCSeqImpact`: a variable more than
`featol` outside a bound is moved onto that bound. -/
def CCSeqImpact_bnd (E : Env K) (acc : SeqAcc K) (j : Nat) : SeqAcc K :=
  let rhold := (E.col j).BndLo - acc.CCPoint.getD j 0
  if rhold > E.featol then
    { CCPoint := acc.CCPoint.set j (E.col j).BndLo, NINF := acc.NINF + 1,
      SFD := acc.SFD + rhold,
      MaxFVLength := if rhold > acc.MaxFVLength then rhold else acc.MaxFVLength }
  else
    let rhold := acc.CCPoint.getD j 0 - (E.col j).BndUp
    if rhold > E.featol then
      { CCPoint := acc.CCPoint.set j (E.col j).BndUp, NINF := acc.NINF + 1,
        SFD := acc.SFD + rhold,
        MaxFVLength := if rhold > acc.MaxFVLength then rhold else acc.MaxFVLength }
    else acc

/-- The step that `CCSeqImpact` applies for a counted violated row: its last loop,
`CCPoint[ColNum] = CCPoint[ColNum] + Violation*Value/GradVecLenSq` over the elements. -/
def CCSeqImpact_step (E : Env K) (icon : Nat) (Violation : K) (CCPoint : List K) : List K :=
  (E.row icon).ElList.foldl
    (fun pt ElNum => addAt pt (E.elem ElNum).Col
      (Violation * (E.elem ElNum).Value / (E.row icon).GradVecLenSq))
    CCPoint

/-- Body of the loop of `CCSeqImpact` over the rows in the order of `ImpactList`. -/
def CCSeqImpact_con (E : Env K) (ImpactList : List Nat) (acc : SeqAcc K) (icon1 : Nat) :
    SeqAcc K :=
  let icon := ImpactList.getD icon1 0
  let v := GetViolation E icon acc.CCPoint
  if v.FVStatus > 0 then acc
  else if v.ViolStatus > 0 then acc
  else
    let rhold := FVLenSq E icon v.Violation
    if rhold < E.Alpha * E.Alpha then acc
    else
      let FVLength := E.sqrt rhold
      { CCPoint := CCSeqImpact_step E icon v.Violation acc.CCPoint,
        NINF := acc.NINF + 1, SFD := acc.SFD + FVLength,
        MaxFVLength := if FVLength > acc.MaxFVLength then FVLength else acc.MaxFVLength }

/-- The two loops of one iteration of `CCSeqImpact`, from zeroed accumulators. -/
def CCSeqImpact_loops (E : Env K) (ImpactList : List Nat) (CCPoint : List K) : SeqAcc K :=
  (List.range E.NumRows).foldl (CCSeqImpact_con E ImpactList)
    ((List.range E.NumCols).foldl (CCSeqImpact_bnd E) ⟨CCPoint, 0, 0, -E.plinfy⟩)

/-- The iteration loop of `CCSeqImpact`, with the number of iterations left; `SFD` and
`NINF` are the values left by the previous iteration. -/
def CCSeqImpact_itns (E : Env K) (ImpactList : List Nat) (PointID : Int) :
    Nat → State K → List K → List K → K → K → Int → List K × State K
  | 0, s, CCPoint, BestPt, _, SFD, NINF =>
    (BestPt, (UpdateIncumbentSFD s CCPoint SFD NINF PointID).2)
  | n + 1, s, CCPoint, BestPt, BestPtSFD, _, _ =>
    let acc := CCSeqImpact_loops E ImpactList CCPoint
    if acc.NINF = 0 then (acc.CCPoint, { s with FinalPointType := PointID })
    else if acc.SFD < BestPtSFD then
      CCSeqImpact_itns E ImpactList PointID n s acc.CCPoint (copy BestPt acc.CCPoint) acc.SFD
        acc.SFD acc.NINF
    else
      CCSeqImpact_itns E ImpactList PointID n s acc.CCPoint BestPt BestPtSFD acc.SFD acc.NINF

/-- The function `solver.CCSeqImpact`, with the point it sends on the channel. The
package variable `ImpactList` is a parameter; the result is `none` where Go stops with
an index error on `ImpactList[icon1]` (the list is shorter than the number of rows and
an iteration is run). -/
def CCSeqImpact (E : Env K) (ImpactList : List Nat) (s : State K) (PointIn : List K)
    (PointID : Int) : Option (List K × State K) :=
  if ImpactList.length < E.NumRows ∧ 0 < E.MaxItns then none
  else
    let z : List K := List.replicate PointIn.length 0
    some (CCSeqImpact_itns E ImpactList PointID E.MaxItns s (copy z PointIn) z E.plinfy 0 0)

/-! ## Specification-side quantities for the consensus vectors -/

/-- The component of the feasibility vector of row `i` at `x` that element `e` of the row
gives: `violation_i * a_e / g_i`. -/
def fvComp (E : Env K) (x : List K) (i e : Nat) : K :=
  (GetViolation E i x).Violation * (E.elem e).Value / (E.row i).GradVecLenSq

/-- The elements in column `j` of the rows counted at `x`, as pairs (row, element), in
the order in which the loops meet them. -/
def touching (E : Env K) (x : List K) (j : Nat) : List (Nat × Nat) :=
  ((countedRows E x).map (fun i =>
    ((E.row i).ElList.filter (fun e => decide ((E.elem e).Col = j))).map
      (fun e => (i, e)))).flatten

/-- The correction of a variable that is out of bounds: the violated bound minus `x_j`. -/
def bndCorr (E : Env K) (x : List K) (j : Nat) : K :=
  if (E.col j).BndLo - x.getD j 0 > E.Alpha then (E.col j).BndLo - x.getD j 0
  else (E.col j).BndUp - x.getD j 0

/-- The contributions to column `j` at `x`: one per element in column `j` of a counted
row, and one for variable `j` if it is more than `Alpha` outside its bounds. -/
def contribs (E : Env K) (x : List K) (j : Nat) : List K :=
  (touching E x j).map (fun p => fvComp E x p.1 p.2) ++
    (if bndOut E x j then [bndCorr E x j] else [])

/-- A counted violation is a row (`Sum.inl`) or a variable (`Sum.inr`); they are listed
in scan order: the counted rows in index order, then the out-of-bounds variables. -/
def violations (E : Env K) (x : List K) : List (Nat ⊕ Nat) :=
  (countedRows E x).map Sum.inl ++ (outVars E x).map Sum.inr

/-- Length of the feasibility vector of a counted violation. -/
def fvLength (E : Env K) (x : List K) : Nat ⊕ Nat → K
  | Sum.inl i => E.sqrt (FVLenSq E i (GetViolation E i x).Violation)
  | Sum.inr j => |bndCorr E x j|

/-- One step of the search for the longest feasibility vector: the candidate replaces
the current best only if it is strictly longer. -/
def longerOf (E : Env K) (x : List K) (best : Option (Nat ⊕ Nat)) (a : Nat ⊕ Nat) :
    Option (Nat ⊕ Nat) :=
  match best with
  | none => some a
  | some b => if fvLength E x a > fvLength E x b then some a else some b

/-- The counted violation with the strictly longest feasibility vector, the earliest in
scan order on ties. -/
def longestFirst (E : Env K) (x : List K) : Option (Nat ⊕ Nat) :=
  (violations E x).foldl (longerOf E x) none

/-- Column `c` is touched by a violation: the row has an element in it, or it is the
column of the variable. -/
def touches (E : Env K) : Nat ⊕ Nat → Nat → Bool
  | Sum.inl i, c => (E.row i).ElList.any (fun e => decide ((E.elem e).Col = c))
  | Sum.inr j, c => decide (j = c)

/-- The component in column `c` of the feasibility vector of a violation. -/
def fvAt (E : Env K) (x : List K) : Nat ⊕ Nat → Nat → K
  | Sum.inl i, c =>
    (((E.row i).ElList.filter (fun e => decide ((E.elem e).Col = c))).map
      (fvComp E x i)).sum
  | Sum.inr j, c => if j = c then bndCorr E x j else 0

/-- Every row references each column at most once. -/
def RowsDistinctCols (E : Env K) : Prop :=
  ∀ i, i < E.NumRows → ((E.row i).ElList.map (fun e => (E.elem e).Col)).Nodup

/-- The model `E2` is `E1` with the entries of the element lists of its rows permuted:
columns, elements, tolerances and the other fields of the rows are the same. -/
def SameUpToRowOrder (E1 E2 : Env K) : Prop :=
  E2.Cols = E1.Cols ∧ E2.Element = E1.Element ∧ E2.plinfy = E1.plinfy ∧
  E2.featol = E1.featol ∧ E2.Alpha = E1.Alpha ∧ E2.Beta = E1.Beta ∧
  E2.MaxItns = E1.MaxItns ∧ E2.sqrt = E1.sqrt ∧ E2.Rows.length = E1.Rows.length ∧
  ∀ i, (E2.row i).Typ = (E1.row i).Typ ∧ (E2.row i).RHSlo = (E1.row i).RHSlo ∧
    (E2.row i).RHSup = (E1.row i).RHSup ∧
    (E2.row i).GradVecLenSq = (E1.row i).GradVecLenSq ∧
    (E2.row i).ElList.Perm (E1.row i).ElList

/-! ## `SortByImpact` -/

/-- The Go struct `solver.IMPACT`. -/
structure IMPACT where
  Row : Nat
  Sum : Nat
deriving DecidableEq

/-- The marking loops of `SortByImpact` for row `i`: for every element `iel` of the row,
with `ivar` its column, and every element `jel` of column `ivar`, with `jrow` its row,
`Impacted[jrow] = true` unless row `jrow` is of type N. -/
def SortByImpact_mark (E : Env K) (i : Nat) (Impacted : List Bool) : List Bool :=
  (E.row i).ElList.foldl
    (fun imp iel =>
      (E.col (E.elem iel).Col).ElList.foldl
        (fun imp1 jel =>
          if (E.row (E.elem jel).Row).Typ = "N" then imp1
          else imp1.set (E.elem jel).Row true)
        imp)
    Impacted

/-- The counting loop of `SortByImpact`: `if Impacted[j] {ImpactData[i].Sum++}` for
`j < NumRows`, from `Sum = 0`. -/
def SortByImpact_count (E : Env K) (Impacted : List Bool) : Nat :=
  (List.range E.NumRows).foldl
    (fun c j => if Impacted.getD j false = true then c + 1 else c) 0

/-- Body of the first loop of `SortByImpact`, on the pair of `ImpactData` and the
scratch list `Impacted`. -/
def SortByImpact_row (E : Env K) (st : List IMPACT × List Bool) (i : Nat) :
    List IMPACT × List Bool :=
  let d0 := st.1.set i ⟨i, 0⟩
  if (E.row i).Typ = "N" then (d0, st.2)
  else
    let cleared := (List.range E.NumRows).foldl (fun w j => w.set j false) st.2
    let imp := SortByImpact_mark E i cleared
    let c := SortByImpact_count E imp
    (d0.set i ⟨i, if c > 0 then c - 1 else c⟩, imp)

/-- The list `ImpactData` of `SortByImpact` before it is sorted. -/
def SortByImpact_data (E : Env K) : List IMPACT :=
  ((List.range E.NumRows).foldl (SortByImpact_row E)
    (List.replicate E.NumRows ⟨0, 0⟩, List.replicate E.NumRows false)).1

/-- The last loop of `SortByImpact`, which fills `ImpactList` from the end of
`ImpactData`: `j := -1; for i := NumRows-1; i > -1; i-- { j++; ImpactList[j] =
ImpactData[i].Row }`. -/
def SortByImpact_reverse (E : Env K) (ImpactData : List IMPACT) : List Nat :=
  ((List.range E.NumRows).reverse.foldl
    (fun (st : Int × List Nat) i =>
      (st.1 + 1, st.2.set (st.1 + 1).toNat (ImpactData.getD i ⟨0, 0⟩).Row))
    (-1, List.replicate E.NumRows 0)).2

/-- The function `solver.SortByImpact`, with the value it leaves in `ImpactList`. The
library call `sort.Sort(BySum(ImpactData))` is the parameter `sortBySum`. -/
def SortByImpact (E : Env K) (sortBySum : List IMPACT → List IMPACT) : List Nat :=
  SortByImpact_reverse E (sortBySum (SortByImpact_data E))

/-- The method `BySum.Less`: `s[i].Sum < s[j].Sum`. -/
def BySum_Less (s : List IMPACT) (i j : Nat) : Bool :=
  decide ((s.getD i ⟨0, 0⟩).Sum < (s.getD j ⟨0, 0⟩).Sum)

/-- The method `BySum.Swap`: `s[i], s[j] = s[j], s[i]`. -/
def BySum_Swap (s : List IMPACT) (i j : Nat) : List IMPACT :=
  (s.set i (s.getD j ⟨0, 0⟩)).set j (s.getD i ⟨0, 0⟩)

/-- The inner loop of the insertion sort of Go's package `sort`, from index `j` down:
`for j := i; j > 0 && data.Less(j, j-1); j-- { data.Swap(j, j-1) }`. -/
def insertionSort_inner (data : List IMPACT) : Nat → List IMPACT
  | 0 => data
  | j + 1 =>
    if BySum_Less data (j + 1) j = true then insertionSort_inner (BySum_Swap data (j + 1) j) j
    else data

/-- The insertion sort of Go's package `sort` on a whole slice, `for i := 1; i < n; i++`
around the inner loop. It is what `sort.Sort` runs on a slice of at most 6 elements. -/
def insertionSort (data : List IMPACT) : List IMPACT :=
  (List.range (data.length - 1)).foldl (fun d k => insertionSort_inner d (k + 1)) data

/-- What the documentation of `sort.Sort` promises on the list `data`: the result holds
the same records and is in ascending order of `Sum` (no later record has a smaller
`Sum`). The order of records with equal `Sum` is left open. -/
def SortsBySum (sortBySum : List IMPACT → List IMPACT) (data : List IMPACT) : Prop :=
  (sortBySum data).Perm data ∧ (sortBySum data).Pairwise (fun a b => a.Sum ≤ b.Sum)

/-- The impact score that `SortByImpact` computes for row `i`. -/
def impactScore (E : Env K) (i : Nat) : Nat := ((SortByImpact_data E).getD i ⟨0, 0⟩).Sum

/-- Rows `i` and `k` share a column: an element of row `i` and an element of row `k` lie
in the same column. -/
def sharesColumn (E : Env K) (i k : Nat) : Bool :=
  (E.row i).ElList.any (fun e =>
    (E.row k).ElList.any (fun e' => decide ((E.elem e').Col = (E.elem e).Col)))

/-- The impact of row `i` as the specification defines it: the number of rows other than
`i`, not of type N, that share a column with row `i`. -/
def impactOf (E : Env K) (i : Nat) : Nat :=
  ((List.range E.NumRows).filter (fun k =>
    decide (k ≠ i) && decide ((E.row k).Typ ≠ "N") && sharesColumn E i k)).length

/-- The element lists of the rows and of the columns describe the same elements, as the
reader builds them: an element listed in row `i` has `Row = i` and is listed in its
column, and an element listed in column `j` has `Col = j` and is listed in its row. -/
def Consistent (E : Env K) : Prop :=
  (∀ i, i < E.NumRows → ∀ e ∈ (E.row i).ElList,
    (E.elem e).Row = i ∧ (E.elem e).Col < E.NumCols ∧
      e ∈ (E.col (E.elem e).Col).ElList) ∧
  (∀ j, j < E.NumCols → ∀ e ∈ (E.col j).ElList,
    (E.elem e).Col = j ∧ (E.elem e).Row < E.NumRows ∧
      e ∈ (E.row (E.elem e).Row).ElList)

/-! ## Specification-side quantities for the projector, the workers and the box -/

/-- The Euclidean distance of the points `P` and `Q` of the model, with the square root
of the environment. -/
def distOf (E : Env K) (P Q : List K) : K :=
  E.sqrt (((List.range E.NumCols).map
    (fun j => (P.getD j 0 - Q.getD j 0) * (P.getD j 0 - Q.getD j 0))).sum)

/-- The arithmetic mean of coordinate `j` over the points of the records `ps`. -/
def meanAt (ps : List (POINTDATA K)) (j : Nat) : K :=
  (ps.map (fun p => p.Point.getD j 0)).sum / (ps.length : K)

/-- The sum over the records `ps` of the squared deviation of coordinate `j` from its
mean. -/
def sqDevAt (ps : List (POINTDATA K)) (j : Nat) : K :=
  (ps.map (fun p =>
    (p.Point.getD j 0 - meanAt ps j) * (p.Point.getD j 0 - meanAt ps j))).sum

/-- One update of `CCSimple`: the point moved by the consensus vector that the loops of
`CCSimple` give at it. -/
def CCSimple_next (E : Env K) (p : List K) : List K :=
  addCV E p (CCSimple_CV E (CCSimple_loops E p) p.length)

/-- The standard deviation that `Solve` uses for the new box: the square root of the sum
of squared deviations of coordinate `j` over the number of records. -/
def devAt (E : Env K) (ps : List (POINTDATA K)) (j : Nat) : K :=
  E.sqrt (sqDevAt ps j / (ps.length : K))

/-- The iterates that a run of `CCOriginal2` evaluates, each with the `SFD` that `GetCV1`
reports for it, when the iteration loop runs to its end; `none` when the run ends before
that (a feasible point is met, or `GetCV1` fails). The loop is that of
`CCOriginal2_itns`. -/
def CCOriginal2_iterates (E : Env K) (Round PointID : Int) :
    Nat → Nat → State K → CC2Vars K → Option (List (List K × K))
  | 0, _, _, _ => some []
  | n + 1, itn, s, v0 =>
    match CCOriginal2_select E Round PointID v0 with
    | none => none
    | some v =>
      if v.Status = 2 then none
      else if v.Status = 1 ∨ v.NINF = 0 then none
      else
        let best : K × List K :=
          if v.SFD < v.BestPtSFD then (v.SFD, copy v.BestPt v.CCPoint)
          else (v.BestPtSFD, v.BestPt)
        let p := Project E s v.CCPoint v.CV
        if p.Status = 1 then none
        else
          let v1 : CC2Vars K :=
            if p.Status > 1 then CCOriginal2_update E itn v p.PointOut
            else { v with CCPoint := p.PointOut }
          (CCOriginal2_iterates E Round PointID n (itn + 1) p.state
            { v1 with Status := p.Status, BestPt := best.2, BestPtSFD := best.1,
                      CVLengthLast := v1.CVLength }).map
            (fun t => (v.CCPoint, v.SFD) :: t)

/-! ## The seeding routines `NewPoints1` and `NewPoints2`

The two functions share, statement for statement, the computation of the consensus
vector at the incumbent, the special points and the Latin hypercube loop; these parts
are the definitions `NewPoints_...`. The random draws `RandNum.Float64()` of the Latin
hypercube loop are `draw icol ibin` and the result of `rand.Perm(NumLHCPts)` for column
`icol` is `perm icol`; the widths `LongestSide` and `AvgSide`, which are only printed, are
left out. -/

/-- The swarm variables of package `solver` that the seeding routines touch. -/
structure SwarmVars (K : Type) where
  Swarm : List (List K)
  MaxSwarmPts : Int
  MaxPts : Int
  UpdatesAtRoundStart : Int

/-- Read of `Swarm[k][i]`. -/
def getAt2 (S : List (List K)) (k i : Nat) : K := (S.getD k []).getD i 0

/-- The write `Swarm[k][i] = v`. -/
def setAt2 (S : List (List K)) (k i : Nat) (v : K) : List (List K) :=
  S.set k ((S.getD k []).set i v)

/-- Running variables of the loops of `NewPoints1` and `NewPoints2` over the constraints
and the bounds at the incumbent. -/
structure NPAcc (K : Type) where
  NINF : Int
  SFD : K
  MaxViol : K
  MaxMove : K
  MaxFVLength : K
  NumViol : List Nat
  SumViol : List K
  FVMaxViol : List K
  FVMaxFVLength : List K
  VotesUp : List Nat
  VotesDown : List Nat

/-- Body of the loop of `NewPoints1`/`NewPoints2` over the elements of a counted violated
row (the sum `rhold1` of the squares, which is not read, is left out). -/
def NewPoints_el (E : Env K) (icon : Nat) (Violation : K) (NewMaxViol NewMaxFVLength : Bool)
    (acc : NPAcc K) (ElNum : Nat) : NPAcc K :=
  let ColNum := (E.elem ElNum).Col
  let rhold := Violation * (E.elem ElNum).Value / (E.row icon).GradVecLenSq
  { acc with
    NumViol := incrAt acc.NumViol ColNum
    SumViol := addAt acc.SumViol ColNum rhold
    FVMaxViol := if NewMaxViol then acc.FVMaxViol.set ColNum rhold else acc.FVMaxViol
    FVMaxFVLength :=
      if NewMaxFVLength then acc.FVMaxFVLength.set ColNum rhold else acc.FVMaxFVLength
    VotesUp := if rhold > 0 then incrAt acc.VotesUp ColNum else acc.VotesUp
    VotesDown := if rhold < 0 then incrAt acc.VotesDown ColNum else acc.VotesDown
    MaxMove := if acc.MaxFVLength > acc.MaxMove then acc.MaxFVLength else acc.MaxMove }

/-- Body of the loop of `NewPoints1`/`NewPoints2` over the constraints, at the
incumbent. -/
def NewPoints_con (E : Env K) (s : State K) (acc : NPAcc K) (icon : Nat) : NPAcc K :=
  let v := GetViolation E icon s.IncumbentPt
  if v.FVStatus > 0 then acc
  else if v.ViolStatus > 0 then acc
  else
    let rhold := FVLenSq E icon v.Violation
    if rhold < E.Alpha * E.Alpha then acc
    else
      let FVLength := E.sqrt rhold
      let acc1 : NPAcc K := { acc with SFD := acc.SFD + FVLength, NINF := acc.NINF + 1 }
      let NewMaxViol : Bool := decide (|v.Violation| > acc1.MaxViol)
      let acc2 : NPAcc K :=
        if NewMaxViol then
          { acc1 with MaxViol := |v.Violation|, FVMaxViol := zeroFirst E.NumCols acc1.FVMaxViol }
        else acc1
      let NewMaxFVLength : Bool := decide (FVLength > acc2.MaxFVLength)
      let acc3 : NPAcc K :=
        if NewMaxFVLength then
          { acc2 with MaxFVLength := FVLength,
                      FVMaxFVLength := zeroFirst E.NumCols acc2.FVMaxFVLength }
        else acc2
      (E.row icon).ElList.foldl (NewPoints_el E icon v.Violation NewMaxViol NewMaxFVLength) acc3

/-- Body of the loop of `NewPoints1`/`NewPoints2` over the variable bounds, at the
incumbent. -/
def NewPoints_bnd (E : Env K) (s : State K) (acc : NPAcc K) (ivar : Nat) : NPAcc K :=
  if s.IncumbentPt.getD ivar 0 ≥ (E.col ivar).BndLo - E.featol then
    if s.IncumbentPt.getD ivar 0 ≤ (E.col ivar).BndUp + E.featol then acc
    else if s.IncumbentPt.getD ivar 0 - (E.col ivar).BndUp > E.Alpha then
      let rhold := (E.col ivar).BndUp - s.IncumbentPt.getD ivar 0
      let acc1 : NPAcc K :=
        { acc with NINF := acc.NINF + 1, VotesDown := incrAt acc.VotesDown ivar,
                   NumViol := incrAt acc.NumViol ivar,
                   SumViol := addAt acc.SumViol ivar rhold, SFD := acc.SFD + |rhold| }
      if s.IncumbentPt.getD ivar 0 - (E.col ivar).BndUp > acc1.MaxFVLength then
        { acc1 with MaxFVLength := s.IncumbentPt.getD ivar 0 - (E.col ivar).BndUp,
                    FVMaxFVLength := (zeroFirst E.NumCols acc1.FVMaxFVLength).set ivar
                      ((E.col ivar).BndUp - s.IncumbentPt.getD ivar 0) }
      else acc1
    else acc
  else if (E.col ivar).BndLo - s.IncumbentPt.getD ivar 0 > E.Alpha then
    let rhold := (E.col ivar).BndLo - s.IncumbentPt.getD ivar 0
    let acc1 : NPAcc K :=
      { acc with NINF := acc.NINF + 1, VotesUp := incrAt acc.VotesUp ivar,
                 NumViol := incrAt acc.NumViol ivar,
                 SumViol := addAt acc.SumViol ivar rhold, SFD := acc.SFD + rhold }
    if (E.col ivar).BndLo - s.IncumbentPt.getD ivar 0 > acc1.MaxFVLength then
      { acc1 with MaxFVLength := (E.col ivar).BndLo - s.IncumbentPt.getD ivar 0,
                  FVMaxFVLength := (zeroFirst E.NumCols acc1.FVMaxFVLength).set ivar
                    ((E.col ivar).BndLo - s.IncumbentPt.getD ivar 0) }
    else acc1
  else acc

/-- The loop of `NewPoints1`/`NewPoints2` that computes the consensus vector,
`CV[ivar] = SumViol[ivar]/NumViol[ivar]` and 0 where `NumViol[ivar] = 0`, and `rhold`,
the sum of the squares of its entries. -/
def NewPoints_CV (E : Env K) (acc : NPAcc K) : List K × K :=
  (List.range E.NumCols).foldl
    (fun cr ivar =>
      if acc.NumViol.getD ivar 0 = 0 then (cr.1.set ivar 0, cr.2)
      else
        let c := acc.SumViol.getD ivar 0 / ((acc.NumViol.getD ivar 0 : Nat) : K)
        (cr.1.set ivar c, cr.2 + c * c))
    (List.replicate E.NumCols 0, 0)

/-- The local variables of `NewPoints1`/`NewPoints2` that the rest of the function reads
after the computation of the consensus vector. -/
structure NPVars (K : Type) where
  SFD : K
  CV : List K
  CVLength : K
  SumViol : List K
  FVMaxFVLength : List K

/-- The block `if Round > 0 { ... }` of `NewPoints1`/`NewPoints2`: the consensus vector
at the incumbent. The local `SFD` is not reset in the block and starts at 0. -/
def NewPoints_vectors (E : Env K) (s : State K) (Round : Int) : NPVars K :=
  let z : List K := List.replicate E.NumCols 0
  let zn : List Nat := List.replicate E.NumCols 0
  if Round > 0 then
    let acc := (List.range E.NumCols).foldl (NewPoints_bnd E s)
      ((List.range E.NumRows).foldl (NewPoints_con E s)
        ⟨0, 0, -E.plinfy, -E.plinfy, -E.plinfy, zn, z, z, z, zn, zn⟩)
    let cv := NewPoints_CV E acc
    ⟨acc.SFD, cv.1, E.sqrt cv.2, acc.SumViol, acc.FVMaxFVLength⟩
  else ⟨0, z, 0, z, z⟩

/-- The launch box of round 0 for column `i`, with `BoxSide = 10000`. -/
def NewPoints_box0 (E : Env K) (i : Nat) : K × K :=
  let BoxSide : K := 10000
  let BndLo := (E.col i).BndLo
  let BndUp := (E.col i).BndUp
  let Width := BndUp - BndLo
  if Width ≤ 2 * BoxSide then (BndLo, BndUp)
  else if BndLo ≤ -BoxSide ∧ BndUp ≥ BoxSide then (-BoxSide, BoxSide)
  else if |BndLo| < |BndUp| then (BndLo, BndLo + 2 * BoxSide)
  else (BndUp - 2 * BoxSide, BndUp)

/-- The switch of `NewPoints1` that sets up the box boundaries. `math.Pow(0.8, Round-1)`
is the power of `4/5`. -/
def NewPoints1_box (E : Env K) (s : State K) (Round : Int) : State K :=
  if Round = 0 then
    { s with BoxBndLo := (List.range E.NumCols).map (fun i => (NewPoints_box0 E i).1),
             BoxBndUp := (List.range E.NumCols).map (fun i => (NewPoints_box0 E i).2) }
  else if Round = 1 then
    { s with BoxBndLo := (List.range E.NumCols).map (fun i => s.IncumbentPt.getD i 0 - 10000),
             BoxBndUp := (List.range E.NumCols).map (fun i => s.IncumbentPt.getD i 0 + 10000) }
  else if Round > 1 then
    let BoxSide0 : K := 10000 * (4 / 5) ^ (Round - 1).toNat
    let BoxSide : K := if BoxSide0 < E.featol * 100 then E.featol * 100 else BoxSide0
    { s with BoxBndLo := (List.range E.NumCols).map (fun i => s.IncumbentPt.getD i 0 - BoxSide),
             BoxBndUp := (List.range E.NumCols).map (fun i => s.IncumbentPt.getD i 0 + BoxSide) }
  else s

/-- The box of `NewPoints2` for column `i` in a round after round 1: two thirds of the
side in the direction of the consensus vector. -/
def NewPoints2_boxN (s : State K) (v : NPVars K) (BoxSide : K) (i : Nat) : K × K :=
  if v.CV.getD i 0 > 0 then
    (s.IncumbentPt.getD i 0 - 1 / 3 * BoxSide, s.IncumbentPt.getD i 0 + 2 / 3 * BoxSide)
  else if v.CV.getD i 0 < 0 then
    (s.IncumbentPt.getD i 0 - 2 / 3 * BoxSide, s.IncumbentPt.getD i 0 + 1 / 3 * BoxSide)
  else
    (s.IncumbentPt.getD i 0 - 1 / 2 * BoxSide, s.IncumbentPt.getD i 0 + 1 / 2 * BoxSide)

/-- The switch of `NewPoints2` that sets up the box boundaries. -/
def NewPoints2_box (E : Env K) (s : State K) (v : NPVars K) (Round : Int) : State K :=
  if Round = 0 then
    { s with BoxBndLo := (List.range E.NumCols).map (fun i => (NewPoints_box0 E i).1),
             BoxBndUp := (List.range E.NumCols).map (fun i => (NewPoints_box0 E i).2) }
  else if Round = 1 then
    { s with BoxBndLo := (List.range E.NumCols).map (fun i => s.IncumbentPt.getD i 0 - 10000),
             BoxBndUp := (List.range E.NumCols).map (fun i => s.IncumbentPt.getD i 0 + 10000) }
  else if Round > 1 then
    let BoxSide0 : K := v.SFD * 100
    let BoxSide : K := if BoxSide0 < E.featol * 100 then E.featol * 100 else BoxSide0
    { s with BoxBndLo := (List.range E.NumCols).map (fun i => (NewPoints2_boxN s v BoxSide i).1),
             BoxBndUp := (List.range E.NumCols).map (fun i => (NewPoints2_boxN s v BoxSide i).2) }
  else s

/-- Body of the loop that sets the special points in round 0: point 0 is the origin,
point 1 the box centre, point 2 the bound closest to zero, or zero if available. The
second component is `IdenticalPoints`. -/
def NewPoints_special0 (s : State K) (st : List (List K) × Bool) (i : Nat) :
    List (List K) × Bool :=
  let S1 := setAt2 (setAt2 st.1 0 i 0) 1 i ((s.BoxBndLo.getD i 0 + s.BoxBndUp.getD i 0) / 2)
  if s.BoxBndLo.getD i 0 ≤ 0 ∧ s.BoxBndUp.getD i 0 ≥ 0 then (setAt2 S1 2 i 0, st.2)
  else if |s.BoxBndLo.getD i 0| < |s.BoxBndUp.getD i 0| then
    (setAt2 S1 2 i (s.BoxBndLo.getD i 0), if s.BoxBndLo.getD i 0 ≠ 0 then false else st.2)
  else
    (setAt2 S1 2 i (s.BoxBndUp.getD i 0), if s.BoxBndUp.getD i 0 ≠ 0 then false else st.2)

/-- Body of the loop that sets the four special points in a round after round 0. -/
def NewPoints_specialN (s : State K) (v : NPVars K) (Round : Int) (S : List (List K))
    (i : Nat) : List (List K) :=
  setAt2
    (setAt2
      (setAt2 (setAt2 S 0 i (s.IncumbentPt.getD i 0 + v.FVMaxFVLength.getD i 0)) 1 i
        (s.IncumbentPt.getD i 0 + v.SumViol.getD i 0))
      2 i (s.IncumbentPt.getD i 0 + v.CV.getD i 0 / v.CVLength * v.SFD * (Round : K)))
    3 i (s.IncumbentPt.getD i 0)

/-- The switch that sets up the special points: the swarm and `IdenticalPoints`. -/
def NewPoints_special (E : Env K) (s : State K) (v : NPVars K) (Round : Int)
    (Swarm : List (List K)) : List (List K) × Bool :=
  if Round = 0 then (List.range E.NumCols).foldl (NewPoints_special0 s) (Swarm, true)
  else if Round > 0 then
    ((List.range E.NumCols).foldl (NewPoints_specialN s v Round) Swarm, false)
  else (Swarm, false)

/-- The Latin hypercube loop for column `icol`, on the swarm and `FloatList`: one seed
in each bin, then the shuffle of the bins through `FloatList`. -/
def NewPoints_lhc_col (s : State K) (NumSpecialPts : Nat) (NumLHCPts : Int)
    (draw : Nat → Nat → K) (perm : Nat → List Nat) (st : List (List K) × List K)
    (icol : Nat) : List (List K) × List K :=
  let realhold := (s.BoxBndUp.getD icol 0 - s.BoxBndLo.getD icol 0) / (NumLHCPts : K)
  let S1 := (List.range NumLHCPts.toNat).foldl
    (fun S ibin => setAt2 S (NumSpecialPts + ibin) icol
      (s.BoxBndLo.getD icol 0 + (ibin : K) * realhold + draw icol ibin * realhold)) st.1
  let IntList := perm icol
  let FloatList := (List.range NumLHCPts.toNat).foldl
    (fun F i => F.set i (getAt2 S1 (i + NumSpecialPts) icol)) st.2
  let S2 := (List.range NumLHCPts.toNat).foldl
    (fun S i => setAt2 S (i + NumSpecialPts) icol (FloatList.getD (IntList.getD i 0) 0)) S1
  (S2, FloatList)

/-- The package state and the swarm that a seeding routine leaves, with the values of
its local counters `NumSpecialPts` and `NumLHCPts` at the Latin hypercube loop. -/
structure NPResult (K : Type) where
  state : State K
  swarm : SwarmVars K
  NumSpecialPts : Nat
  NumLHCPts : Int

/-- The function `solver.NewPoints1`. -/
def NewPoints1 (E : Env K) (s : State K) (w : SwarmVars K) (Round : Int)
    (draw : Nat → Nat → K) (perm : Nat → List Nat) : NPResult K :=
  let FloatList : List K := List.replicate w.MaxSwarmPts.toNat 0
  let v := NewPoints_vectors E s Round
  let s1 := NewPoints1_box E s Round
  let sp := NewPoints_special E s1 v Round w.Swarm
  let NumSpecialPts : Nat := if Round = 0 ∧ sp.2 = true then 4 - 1 else 4
  let NumLHCPts : Int :=
    if Round = 0 ∧ sp.2 = true then w.MaxSwarmPts - 4 + 1 else w.MaxSwarmPts - 4
  let l := (List.range E.NumCols).foldl
    (NewPoints_lhc_col s1 NumSpecialPts NumLHCPts draw perm) (sp.1, FloatList)
  ⟨s1, { w with Swarm := l.1 }, NumSpecialPts, NumLHCPts⟩

/-- The function `solver.NewPoints2`. -/
def NewPoints2 (E : Env K) (s : State K) (w : SwarmVars K) (Round : Int)
    (draw : Nat → Nat → K) (perm : Nat → List Nat) : NPResult K :=
  let FloatList : List K := List.replicate w.MaxSwarmPts.toNat 0
  let MaxPts : Int := if w.UpdatesAtRoundStart = s.TotUpdates then 2 * 4 else 4
  let v := NewPoints_vectors E s Round
  let s1 := NewPoints2_box E s v Round
  let sp := NewPoints_special E s1 v Round w.Swarm
  let NumSpecialPts : Nat := if Round = 0 ∧ sp.2 = true then 4 - 1 else 4
  let NumLHCPts : Int := if Round = 0 ∧ sp.2 = true then MaxPts - 4 + 1 else MaxPts - 4
  let S : List (List K) :=
    if NumLHCPts > 0 then
      ((List.range E.NumCols).foldl
        (NewPoints_lhc_col s1 NumSpecialPts NumLHCPts draw perm) (sp.1, FloatList)).1
    else sp.1
  ⟨s1, { w with Swarm := S, MaxPts := MaxPts }, NumSpecialPts, NumLHCPts⟩

/-- The number of the seeds `Swarm[a], ..., Swarm[a+n-1]` whose coordinate `icol` lies in
bin `b` of the `n` equal bins of `[lo, up]`, the interval `[lo + b*w, lo + (b+1)*w)` with
`w = (up - lo)/n`. -/
def binCount (S : List (List K)) (a n icol : Nat) (lo up : K) (b : Nat) : Nat :=
  ((List.range n).filter (fun i =>
    decide (lo + (b : K) * ((up - lo) / (n : K)) ≤ getAt2 S (a + i) icol ∧
      getAt2 S (a + i) icol < lo + ((b : K) + 1) * ((up - lo) / (n : K))))).length

/-! ## Invariants used in the proofs -/

/-- The invariant of the loops of `GetSFD`. -/
def SFDInv (E : Env K) (acc : SFDResult K) : Prop :=
  E.Alpha * (acc.NINF : K) ≤ acc.SFDout ∧ 0 ≤ acc.NINF

/-- The running `SFD` and `NINF` of `GetCV1` and of `GetSFD` agree. -/
def SameMeasure (a : CVAcc K) (b : SFDResult K) : Prop :=
  a.SFD = b.SFDout ∧ a.NINF = b.NINF

/-- What `Solve` relies on in a record sent by a worker: it is a point of the model, and
`NINF = 0` in the record means that the point is feasible for `GetSFD`. -/
def GoodRecord (E : Env K) (p : POINTDATA K) : Prop :=
  p.Point.length = E.NumCols ∧ (p.NINF = 0 → (GetSFD E p.Point).NINF = 0)

/-- The rows are well formed: every element of a row lies in a column of the model and
has a nonzero value. -/
def RowsWellFormed (E : Env K) : Prop :=
  ∀ i, i < E.NumRows → ∀ e ∈ (E.row i).ElList,
    (E.elem e).Col < E.NumCols ∧ (E.elem e).Value ≠ 0

/-- The invariant of the loops of `GetCV1` on the longest feasibility vector: before any
violation is counted `MaxFVLength` has its initial value, and afterwards the stored
vector `FVMaxFVLength` has a nonzero entry in a column that some counted violation
touches. -/
def CVInv (E : Env K) (n : Nat) (acc : CVAcc K) : Prop :=
  acc.FVMaxFVLength.length = n ∧ acc.NumViol.length = n ∧ 0 ≤ acc.NINF ∧
  (acc.NINF = 0 → acc.MaxFVLength = -E.plinfy) ∧
  (0 < acc.NINF →
    ∃ c, c < n ∧ acc.FVMaxFVLength.getD c 0 ≠ 0 ∧ acc.NumViol.getD c 0 ≠ 0)

/-- The lists of `GetCV1` that are indexed by the columns have the length `n`. -/
def SumsLen (n : Nat) (acc : CVAcc K) : Prop :=
  acc.NumViol.length = n ∧ acc.SumViol.length = n ∧ acc.SumWeightedViol.length = n ∧
    acc.SumWeights.length = n

/-- The state of the accumulators after the constraint loop of `GetCV1`. -/
def GetCV1_rows (E : Env K) (x : List K) : CVAcc K :=
  (List.range E.NumRows).foldl (GetCV1_con E x)
    ⟨0, 0, 0, -E.plinfy, -E.plinfy, List.replicate x.length 0, List.replicate x.length 0,
      List.replicate x.length 0, List.replicate x.length 0, List.replicate x.length 0,
      List.replicate x.length 0⟩

/-- The invariant of the loops of `GetCV1` on the longest feasibility vector: `best` is
the longest of the violations counted so far, the earliest on ties. -/
def LongInv (E : Env K) (x : List K) (n : Nat) (best : Option (Nat ⊕ Nat)) (acc : CVAcc K) :
    Prop :=
  acc.FVMaxFVLength.length = n ∧
  match best with
  | none => acc.MaxFVLength = -E.plinfy
  | some b => acc.MaxFVLength = fvLength E x b ∧
      ∀ c, c < n → acc.FVMaxFVLength.getD c 0 = fvAt E x b c

/-- The accumulators of `GetCV1` without the two stored feasibility vectors. -/
def eraseFV (a : CVAcc K) : CVAcc K := { a with FVMaxViol := [], FVMaxFVLength := [] }

/-- What `SwarmProject` and `Project` have in common: the point, the package state, and
whether the status is 1; where `Project` reports no progress, so does `SwarmProject`. -/
def SameProjection (a b : ProjResult K) : Prop :=
  a.PointOut = b.PointOut ∧ a.state = b.state ∧ (a.Status = 1 ↔ b.Status = 1) ∧
    (b.Status = 2 → a.Status = 2) ∧ (b.Status = 0 → a.Status = 0 ∨ a.Status = 2) ∧ a.Status ≤ 2

/-- The swarm has at least `m` points, and its first `m` points have `cols`
coordinates. -/
def SwarmShape (S : List (List K)) (m cols : Nat) : Prop :=
  m ≤ S.length ∧ ∀ k, k < m → (S.getD k []).length = cols

end Model

/-! ## Concrete models -/

/-- A square root on `ℚ` that is exact on squares of rationals (floor of the root of
numerator and of denominator otherwise). -/
def sqrtQ (q : ℚ) : ℚ := (Nat.sqrt q.num.toNat : ℚ) / (Nat.sqrt q.den : ℚ)

/-- The model of scenario 2: the single row `2*x1 + x2 ≥ 4`, bounds `[0,10]^2`, with the
default tolerances `featol = Alpha = 1e-6`, `Beta = 1e-4`, `plinfy = 1e10`. -/
def modelG (K : Type) [LinearOrderedField K] (sqrt : K → K) : Env K :=
  { Rows := [⟨"G", 4, 10000000000, 5, [0, 1]⟩]
    Cols := [⟨"R", 10, 0, [0]⟩, ⟨"R", 10, 0, [1]⟩]
    Element := [⟨0, 0, 2⟩, ⟨0, 1, 1⟩]
    plinfy := 10000000000
    featol := 1 / 1000000
    Alpha := 1 / 1000000
    Beta := 1 / 10000
    MaxItns := 50
    sqrt := sqrt }

/-- An inconsistent model on two variables: rows `x1 ≥ 2`, `x1 ≤ 1` and `x2 ≥ 0`, bounds
`[0,10]^2`, default tolerances. -/
def modelClash (K : Type) [LinearOrderedField K] (sqrt : K → K) : Env K :=
  { Rows := [⟨"G", 2, 10000000000, 1, [0]⟩, ⟨"L", -10000000000, 1, 1, [1]⟩,
             ⟨"G", 0, 10000000000, 1, [2]⟩]
    Cols := [⟨"R", 10, 0, [0, 1]⟩, ⟨"R", 10, 0, [2]⟩]
    Element := [⟨0, 0, 1⟩, ⟨1, 0, 1⟩, ⟨2, 1, 1⟩]
    plinfy := 10000000000
    featol := 1 / 1000000
    Alpha := 1 / 1000000
    Beta := 1 / 10000
    MaxItns := 50
    sqrt := sqrt }

/-- A feasible model: the single row `x1 + x2 ≤ 4`, bounds `[0,10]^2`, default
tolerances. -/
def modelL (K : Type) [LinearOrderedField K] (sqrt : K → K) : Env K :=
  { Rows := [⟨"L", -10000000000, 4, 2, [0, 1]⟩]
    Cols := [⟨"R", 10, 0, [0]⟩, ⟨"R", 10, 0, [1]⟩]
    Element := [⟨0, 0, 1⟩, ⟨0, 1, 1⟩]
    plinfy := 10000000000
    featol := 1 / 1000000
    Alpha := 1 / 1000000
    Beta := 1 / 10000
    MaxItns := 50
    sqrt := sqrt }

/-- An equality row: `x1 + x2 = 4`, bounds `[0,10]^2`, default tolerances. -/
def modelE (K : Type) [LinearOrderedField K] (sqrt : K → K) : Env K :=
  { Rows := [⟨"E", 4, 4, 2, [0, 1]⟩]
    Cols := [⟨"R", 10, 0, [0]⟩, ⟨"R", 10, 0, [1]⟩]
    Element := [⟨0, 0, 1⟩, ⟨0, 1, 1⟩]
    plinfy := 10000000000
    featol := 1 / 1000000
    Alpha := 1 / 1000000
    Beta := 1 / 10000
    MaxItns := 50
    sqrt := sqrt }

/-- A model whose single row lists column 0 twice, `3*x1 + 4*x1 ≥ 25`, as the reader
builds it from a file that gives two entries for the same row and column; the element
list of the row is the parameter. Bounds `[0,10]^2`, default tolerances. -/
def modelDup (K : Type) [LinearOrderedField K] (sqrt : K → K) (ElList : List Nat) : Env K :=
  { Rows := [⟨"G", 25, 10000000000, 25, ElList⟩]
    Cols := [⟨"R", 10, 0, [0, 1]⟩, ⟨"R", 10, 0, []⟩]
    Element := [⟨0, 0, 3⟩, ⟨0, 0, 4⟩]
    plinfy := 10000000000
    featol := 1 / 1000000
    Alpha := 1 / 1000000
    Beta := 1 / 10000
    MaxItns := 50
    sqrt := sqrt }

/-- A model with a row of gradient length 1: `x1 ≥ 2`, bounds `[0,10]^2`, default
tolerances. -/
def modelUnit (K : Type) [LinearOrderedField K] (sqrt : K → K) : Env K :=
  { Rows := [⟨"G", 2, 10000000000, 1, [0]⟩]
    Cols := [⟨"R", 10, 0, [0]⟩, ⟨"R", 10, 0, []⟩]
    Element := [⟨0, 0, 1⟩]
    plinfy := 10000000000
    featol := 1 / 1000000
    Alpha := 1 / 1000000
    Beta := 1 / 10000
    MaxItns := 50
    sqrt := sqrt }

/-- The infeasible model on one variable: rows `x ≥ 2` and `x ≤ 1`, the bounds of the
variable being parameters, default tolerances. -/
def modelInfeasible (K : Type) [LinearOrderedField K] (sqrt : K → K) (BndLo BndUp : K) :
    Env K :=
  { Rows := [⟨"G", 2, 10000000000, 1, [0]⟩, ⟨"L", -10000000000, 1, 1, [1]⟩]
    Cols := [⟨"R", BndUp, BndLo, [0, 1]⟩]
    Element := [⟨0, 0, 1⟩, ⟨1, 0, 1⟩]
    plinfy := 10000000000
    featol := 1 / 1000000
    Alpha := 1 / 1000000
    Beta := 1 / 10000
    MaxItns := 50
    sqrt := sqrt }

/-- An inconsistent model with two rows against one: `x1 ≥ 2`, `x1 ≤ 1` and
`2*x1 ≤ 2`, bounds `[0,10]^2`, default tolerances, and two iterations per run. -/
def modelPinch (K : Type) [LinearOrderedField K] (sqrt : K → K) : Env K :=
  { Rows := [⟨"G", 2, 10000000000, 1, [0]⟩, ⟨"L", -10000000000, 1, 1, [1]⟩,
             ⟨"L", -10000000000, 2, 4, [2]⟩]
    Cols := [⟨"R", 10, 0, [0, 1, 2]⟩, ⟨"R", 10, 0, []⟩]
    Element := [⟨0, 0, 1⟩, ⟨1, 0, 1⟩, ⟨2, 0, 2⟩]
    plinfy := 10000000000
    featol := 1 / 1000000
    Alpha := 1 / 1000000
    Beta := 1 / 10000
    MaxItns := 2
    sqrt := sqrt }

/-- An inconsistent model on one variable with two rows against one: `x ≥ 2`, `x ≤ 1`
and `2*x ≤ 2`, bounds `[1, 3]`, default tolerances. -/
def modelTilt (K : Type) [LinearOrderedField K] (sqrt : K → K) : Env K :=
  { Rows := [⟨"G", 2, 10000000000, 1, [0]⟩, ⟨"L", -10000000000, 1, 1, [1]⟩,
             ⟨"L", -10000000000, 2, 4, [2]⟩]
    Cols := [⟨"R", 3, 1, [0, 1, 2]⟩]
    Element := [⟨0, 0, 1⟩, ⟨1, 0, 1⟩, ⟨2, 0, 2⟩]
    plinfy := 10000000000
    featol := 1 / 1000000
    Alpha := 1 / 1000000
    Beta := 1 / 10000
    MaxItns := 50
    sqrt := sqrt }

/-- Draws for `Solve` on the tilt model, all in `[0, 1)`: in round 0 the runs of even
index draw 0 and the runs of odd index draw `3/4`; in the later rounds every run draws
`1/6`. -/
def tiltDraws : Nat → Nat → Nat → ℚ
  | 0, i, _ => if i % 2 = 0 then 0 else 3 / 4
  | _ + 1, _, _ => 1 / 6

/-- The records of round 0 of `Solve` on the tilt model with the draws `tiltDraws`. -/
def tiltRecords (i : Nat) : POINTDATA ℚ := if i % 2 = 0 then ⟨[1], 2, 2⟩ else ⟨[2], 1, 1⟩

/-- The model of scenario 4: a single variable with bounds `[0, 8]` and no row, default
tolerances. -/
def modelSeed (K : Type) [LinearOrderedField K] (sqrt : K → K) : Env K :=
  { Rows := []
    Cols := [⟨"R", 8, 0, []⟩]
    Element := []
    plinfy := 10000000000
    featol := 1 / 1000000
    Alpha := 1 / 1000000
    Beta := 1 / 10000
    MaxItns := 50
    sqrt := sqrt }

/-- A swarm of eight points at the origin for the model of scenario 4, as `Solve`
allocates it with `MaxSwarmPts = 8`. -/
def seedSwarm : SwarmVars ℚ := ⟨List.replicate 8 [0], 8, 0, 0⟩

/-! ## Theorems -/

/-! ### The accumulators of `GetCV1` outside the two stored vectors -/

section Plain

variable {K : Type}

theorem eraseFV_fields (a a' : CVAcc K) (h : eraseFV a' = eraseFV a) :
    a'.NINF = a.NINF ∧ a'.SFD = a.SFD ∧ a'.SINF = a.SINF ∧ a'.MaxViol = a.MaxViol ∧
    a'.MaxFVLength = a.MaxFVLength ∧ a'.NumViol = a.NumViol ∧ a'.SumViol = a.SumViol ∧
    a'.SumWeightedViol = a.SumWeightedViol ∧ a'.SumWeights = a.SumWeights := by
  have e1 : (eraseFV a').NINF = (eraseFV a).NINF := by rw [h]
  have e2 : (eraseFV a').SFD = (eraseFV a).SFD := by rw [h]
  have e3 : (eraseFV a').SINF = (eraseFV a).SINF := by rw [h]
  have e4 : (eraseFV a').MaxViol = (eraseFV a).MaxViol := by rw [h]
  have e5 : (eraseFV a').MaxFVLength = (eraseFV a).MaxFVLength := by rw [h]
  have e6 : (eraseFV a').NumViol = (eraseFV a).NumViol := by rw [h]
  have e7 : (eraseFV a').SumViol = (eraseFV a).SumViol := by rw [h]
  have e8 : (eraseFV a').SumWeightedViol = (eraseFV a).SumWeightedViol := by rw [h]
  have e9 : (eraseFV a').SumWeights = (eraseFV a).SumWeights := by rw [h]
  exact ⟨e1, e2, e3, e4, e5, e6, e7, e8, e9⟩

theorem eraseFV_eq_of_fields (a a' : CVAcc K)
    (h : a'.NINF = a.NINF ∧ a'.SFD = a.SFD ∧ a'.SINF = a.SINF ∧ a'.MaxViol = a.MaxViol ∧
      a'.MaxFVLength = a.MaxFVLength ∧ a'.NumViol = a.NumViol ∧ a'.SumViol = a.SumViol ∧
      a'.SumWeightedViol = a.SumWeightedViol ∧ a'.SumWeights = a.SumWeights) :
    eraseFV a' = eraseFV a := by
  obtain ⟨h1, h2, h3, h4, h5, h6, h7, h8, h9⟩ := h
  unfold eraseFV
  rw [h1, h2, h3, h4, h5, h6, h7, h8, h9]

/-! ### Counting and reversing in `SortByImpact` -/

theorem foldl_count (p : Nat → Prop) [DecidablePred p] (l : List Nat) (c : Nat) :
    l.foldl (fun c j => if p j then c + 1 else c) c =
      c + (l.filter (fun j => decide (p j))).length := by
  induction l generalizing c with
  | nil => simp
  | cons j t ih =>
    rw [List.foldl_cons, ih]
    by_cases h : p j
    · simp [h]; omega
    · simp [h]

theorem SortByImpact_count_eq (E : Env K) (imp : List Bool) :
    SortByImpact_count E imp =
      ((List.range E.NumRows).filter (fun j => imp.getD j false)).length := by
  unfold SortByImpact_count
  rw [foldl_count (fun j => imp.getD j false = true), zero_add]
  congr 1
  apply List.filter_congr
  intro j _
  simp

theorem reverse_fold_spec (d : List IMPACT) (l : List Nat) (j : Nat) (out : List Nat)
    (h : j + l.length ≤ out.length) :
    (l.foldl
      (fun (st : Int × List Nat) i =>
        (st.1 + 1, st.2.set (st.1 + 1).toNat (d.getD i ⟨0, 0⟩).Row))
      ((j : Int) - 1, out)).2 =
    out.take j ++ l.map (fun i => (d.getD i ⟨0, 0⟩).Row) ++ out.drop (j + l.length) := by
  induction l generalizing j out with
  | nil => simp
  | cons i t ih =>
    rw [List.foldl_cons]
    have e1 : ((j : Int) - 1 + 1) = ((j + 1 : Nat) : Int) - 1 := by push_cast; ring
    have e2 : ((j : Int) - 1 + 1).toNat = j := by simp
    rw [e2, e1]
    have hlen : j + 1 + t.length ≤ (out.set j (d.getD i ⟨0, 0⟩).Row).length := by
      simp only [List.length_set, List.length_cons] at h ⊢
      omega
    rw [ih (j + 1) _ hlen]
    have hj : j < out.length := by simp only [List.length_cons] at h; omega
    have t1 : (out.set j (d.getD i ⟨0, 0⟩).Row).take (j + 1) =
        out.take j ++ [(d.getD i ⟨0, 0⟩).Row] := by
      rw [List.take_succ, List.set_take, List.set_eq_of_length_le (by simp),
        List.getElem?_set_self hj]
      rfl
    have t2 : (out.set j (d.getD i ⟨0, 0⟩).Row).drop (j + 1 + t.length) =
        out.drop (j + (i :: t).length) := by
      rw [List.drop_set_of_lt _ _ (by omega)]
      congr 1
      simp only [List.length_cons]
      omega
    rw [t1, t2]
    simp

theorem SortByImpact_reverse_eq (E : Env K) (d : List IMPACT) (hd : d.length = E.NumRows) :
    SortByImpact_reverse E d = (d.map (fun r => r.Row)).reverse := by
  unfold SortByImpact_reverse
  have h := reverse_fold_spec d (List.range E.NumRows).reverse 0
    (List.replicate E.NumRows 0) (by simp)
  simp only [Nat.cast_zero, zero_sub, List.take_zero, List.nil_append, zero_add,
    List.length_reverse, List.length_range] at h
  rw [show ((-1 : Int), List.replicate E.NumRows 0) = ((-1 : Int), List.replicate E.NumRows 0)
    from rfl] at h
  rw [h]
  have hdrop : (List.replicate E.NumRows (0 : Nat)).drop E.NumRows = [] := by simp
  rw [hdrop, List.append_nil, List.map_reverse]
  congr 1
  apply List.ext_getElem
  · simp [hd]
  · intro k h1 h2
    simp only [List.length_map, List.length_range] at h1
    simp [List.getD_eq_getElem?_getD, List.getElem?_eq_getElem (hd ▸ h1 : k < d.length)]

end Plain

section Proofs

variable {K : Type} [LinearOrderedField K]

theorem foldl_add_eq_sum {α : Type} (f : α → K) (l : List α) (a : K) :
    l.foldl (fun acc e => acc + f e) a = a + (l.map f).sum := by
  induction l generalizing a with
  | nil => simp
  | cons h t ih => simp [ih, add_assoc]

theorem ConBodyValue_fst (E : Env K) (icon : Nat) (x : List K) (hin : icon < E.NumRows) :
    (ConBodyValue E icon x).1 = rowBody E icon x := by
  unfold ConBodyValue rowBody
  rw [if_neg (by omega)]
  simp only [foldl_add_eq_sum, zero_add]
  split <;> rfl

theorem ConBodyValue_snd (E : Env K) (icon : Nat) (x : List K) (hin : icon < E.NumRows) :
    (ConBodyValue E icon x).2 = if (E.row icon).Typ = "N" then 1 else 0 := by
  unfold ConBodyValue
  rw [if_neg (by omega)]
  split <;> rfl

/-! ### Generic facts about loops -/

theorem foldl_inv {α β : Type} (P : β → Prop) (step : β → α → β) (l : List α) (acc : β)
    (h0 : P acc) (hstep : ∀ a i, i ∈ l → P a → P (step a i)) : P (l.foldl step acc) := by
  induction l generalizing acc with
  | nil => simpa using h0
  | cons h t ih =>
    simp only [List.foldl_cons]
    apply ih
    · exact hstep acc h (List.mem_cons_self h t) h0
    · intro a i hi ha
      exact hstep a i (List.mem_cons_of_mem h hi) ha

theorem foldl_proj_add {α β M : Type} [AddCommMonoid M] (step : β → α → β) (proj : β → M)
    (g : α → M) (l : List α) (acc : β)
    (h : ∀ a i, i ∈ l → proj (step a i) = proj a + g i) :
    proj (l.foldl step acc) = proj acc + (l.map g).sum := by
  induction l generalizing acc with
  | nil => simp
  | cons x t ih =>
    simp only [List.foldl_cons, List.map_cons, List.sum_cons]
    rw [ih (step acc x) (fun a i hi => h a i (List.mem_cons_of_mem x hi)),
      h acc x (List.mem_cons_self x t), add_assoc]

theorem sum_map_ite_eq_filter {α M : Type} [AddCommMonoid M] (p : α → Prop) [DecidablePred p]
    (f : α → M) (l : List α) :
    (l.map (fun i => if p i then f i else 0)).sum = ((l.filter (fun i => decide (p i))).map f).sum := by
  induction l with
  | nil => simp
  | cons x t ih =>
    by_cases hx : p x
    · simp [List.filter_cons, hx, ih]
    · simp [List.filter_cons, hx, ih]

theorem sum_map_ite_one_eq_length {α : Type} (p : α → Prop) [DecidablePred p] (l : List α) :
    (l.map (fun i => if p i then (1 : Int) else 0)).sum =
      ((l.filter (fun i => decide (p i))).length : Int) := by
  induction l with
  | nil => simp
  | cons x t ih =>
    by_cases hx : p x
    · simp [List.filter_cons, hx, ih]; ring
    · simp [List.filter_cons, hx, ih]

/-! ### Square roots -/

theorem sqrt_eq_of_mul_self (sqrt : K → K) (hs : SqrtSpec sqrt) (a y : K) (ha : 0 ≤ a)
    (hy : a * a = y) : sqrt y = a := by
  have hy0 : 0 ≤ y := by rw [← hy]; exact mul_self_nonneg a
  obtain ⟨h1, h2⟩ := hs y hy0
  exact (mul_self_inj h1 ha).mp (by rw [h2, hy])

theorem le_sqrt_of_mul_self_le (sqrt : K → K) (hs : SqrtSpec sqrt) (a y : K)
    (hy : a * a ≤ y) : a ≤ sqrt y := by
  have hy0 : 0 ≤ y := le_trans (mul_self_nonneg a) hy
  obtain ⟨h1, h2⟩ := hs y hy0
  by_contra hlt
  have hlt2 : sqrt y < a := not_le.mp hlt
  have : sqrt y * sqrt y < a * a := mul_self_lt_mul_self h1 hlt2
  rw [h2] at this
  exact absurd hy (not_le.mpr this)

/-! ### The feasibility vector of a row -/

theorem GradVecLenSqOf_eq_sum (E : Env K) (icon : Nat) :
    GradVecLenSqOf E icon =
      ((E.row icon).ElList.map (fun e => (E.elem e).Value * (E.elem e).Value)).sum := by
  unfold GradVecLenSqOf
  rw [foldl_add_eq_sum (fun e => (E.elem e).Value * (E.elem e).Value)]
  simp

theorem FVLenSq_eq (E : Env K) (icon : Nat) (v : K) :
    FVLenSq E icon v =
      v * v / ((E.row icon).GradVecLenSq * (E.row icon).GradVecLenSq) * GradVecLenSqOf E icon := by
  unfold FVLenSq
  rw [foldl_add_eq_sum (fun e => (v * (E.elem e).Value / (E.row icon).GradVecLenSq) *
        (v * (E.elem e).Value / (E.row icon).GradVecLenSq)), GradVecLenSqOf_eq_sum, zero_add,
    ← List.sum_map_mul_left]
  congr 1
  apply List.map_congr_left
  intro e _
  by_cases hg : (E.row icon).GradVecLenSq = 0
  · simp [hg]
  · field_simp
    ring

theorem FVLenSq_nonneg (E : Env K) (icon : Nat) (v : K) : 0 ≤ FVLenSq E icon v := by
  unfold FVLenSq
  rw [foldl_add_eq_sum (fun e => (v * (E.elem e).Value / (E.row icon).GradVecLenSq) *
        (v * (E.elem e).Value / (E.row icon).GradVecLenSq)), zero_add]
  apply List.sum_nonneg
  intro y hy
  obtain ⟨e, _, rfl⟩ := List.mem_map.mp hy
  exact mul_self_nonneg _

theorem GetSFD_con_SFDout (E : Env K) (x : List K) (acc : SFDResult K) (i : Nat) :
    (GetSFD_con E x acc i).SFDout = acc.SFDout +
      (if rowCounted E x i then E.sqrt (FVLenSq E i (GetViolation E i x).Violation) else 0) := by
  unfold GetSFD_con
  by_cases h1 : (GetViolation E i x).FVStatus = 0
  · by_cases h2 : (GetViolation E i x).ViolStatus = 0
    · by_cases h3 : FVLenSq E i (GetViolation E i x).Violation < E.Alpha * E.Alpha
      · have hc : ¬ rowCounted E x i := fun h => absurd h.2.2 (not_le.mpr h3)
        simp [h1, h2, h3, hc]
      · have hc : rowCounted E x i := ⟨h1, h2, not_lt.mp h3⟩
        simp only [h1, h2, h3, hc, if_true, if_false, gt_iff_lt, lt_irrefl]
        split_ifs <;> rfl
    · have h2p : (GetViolation E i x).ViolStatus > 0 := Nat.pos_of_ne_zero h2
      have hc : ¬ rowCounted E x i := fun h => h2 h.2.1
      simp [h1, h2p, hc]
  · have h1p : (GetViolation E i x).FVStatus > 0 := Nat.pos_of_ne_zero h1
    have hc : ¬ rowCounted E x i := fun h => h1 h.1
    simp [h1p, hc]

theorem GetSFD_con_NINF (E : Env K) (x : List K) (acc : SFDResult K) (i : Nat) :
    (GetSFD_con E x acc i).NINF = acc.NINF + (if rowCounted E x i then 1 else 0) := by
  unfold GetSFD_con
  by_cases h1 : (GetViolation E i x).FVStatus = 0
  · by_cases h2 : (GetViolation E i x).ViolStatus = 0
    · by_cases h3 : FVLenSq E i (GetViolation E i x).Violation < E.Alpha * E.Alpha
      · have hc : ¬ rowCounted E x i := fun h => absurd h.2.2 (not_le.mpr h3)
        simp [h1, h2, h3, hc]
      · have hc : rowCounted E x i := ⟨h1, h2, not_lt.mp h3⟩
        simp only [h1, h2, h3, hc, if_true, if_false, gt_iff_lt, lt_irrefl]
        split_ifs <;> rfl
    · have h2p : (GetViolation E i x).ViolStatus > 0 := Nat.pos_of_ne_zero h2
      have hc : ¬ rowCounted E x i := fun h => h2 h.2.1
      simp [h1, h2p, hc]
  · have h1p : (GetViolation E i x).FVStatus > 0 := Nat.pos_of_ne_zero h1
    have hc : ¬ rowCounted E x i := fun h => h1 h.1
    simp [h1p, hc]

/-- The excess that the bound loops add for variable `j`: the code's own case analysis. -/
theorem bnd_cases (E : Env K) (x : List K) (j : Nat) (hA : 0 ≤ E.Alpha)
    (hb : (E.col j).BndLo ≤ (E.col j).BndUp) :
    (x.getD j 0 ≥ (E.col j).BndLo - E.Alpha ∧ x.getD j 0 ≤ (E.col j).BndUp + E.Alpha ∧
        ¬ bndOut E x j) ∨
    (x.getD j 0 ≥ (E.col j).BndLo - E.Alpha ∧ ¬ x.getD j 0 ≤ (E.col j).BndUp + E.Alpha ∧
        x.getD j 0 - (E.col j).BndUp > E.Alpha ∧ bndOut E x j ∧
        bndExcess E x j = x.getD j 0 - (E.col j).BndUp) ∨
    (¬ x.getD j 0 ≥ (E.col j).BndLo - E.Alpha ∧ (E.col j).BndLo - x.getD j 0 > E.Alpha ∧
        bndOut E x j ∧ bndExcess E x j = (E.col j).BndLo - x.getD j 0) := by
  unfold bndOut bndExcess
  by_cases h1 : x.getD j 0 ≥ (E.col j).BndLo - E.Alpha
  · by_cases h2 : x.getD j 0 ≤ (E.col j).BndUp + E.Alpha
    · left
      refine ⟨h1, h2, ?_⟩
      rw [not_lt, max_le_iff]
      constructor <;> linarith
    · right; left
      have h2p : (E.col j).BndUp + E.Alpha < x.getD j 0 := not_le.mp h2
      have hmax : max ((E.col j).BndLo - x.getD j 0) (x.getD j 0 - (E.col j).BndUp) =
          x.getD j 0 - (E.col j).BndUp := max_eq_right (by linarith)
      refine ⟨h1, h2, by linarith, ?_, hmax⟩
      rw [hmax]; linarith
  · right; right
    have h1p : x.getD j 0 < (E.col j).BndLo - E.Alpha := not_le.mp h1
    have hmax : max ((E.col j).BndLo - x.getD j 0) (x.getD j 0 - (E.col j).BndUp) =
        (E.col j).BndLo - x.getD j 0 := max_eq_left (by linarith)
    refine ⟨h1, by linarith, ?_, hmax⟩
    rw [hmax]; linarith

theorem GetSFD_bnd_NINF (E : Env K) (x : List K) (acc : SFDResult K) (j : Nat)
    (hA : 0 ≤ E.Alpha) (hb : (E.col j).BndLo ≤ (E.col j).BndUp) :
    (GetSFD_bnd E x acc j).NINF = acc.NINF + (if bndOut E x j then 1 else 0) := by
  unfold GetSFD_bnd
  rcases bnd_cases E x j hA hb with ⟨h1, h2, h3⟩ | ⟨h1, h2, h3, h4, h5⟩ | ⟨h1, h2, h3, h4⟩
  · rw [if_pos h1, if_pos h2, if_neg h3, add_zero]
  · rw [if_pos h1, if_neg h2, if_pos h3, if_pos h4]
    dsimp only
    split_ifs <;> rfl
  · rw [if_neg h1, if_pos h2, if_pos h3]
    dsimp only
    split_ifs <;> rfl

theorem GetSFD_loops_NINF (E : Env K) (x : List K) (hA : 0 ≤ E.Alpha)
    (hb : BoundsOrdered E) :
    (GetSFD_loops E x).NINF =
      ((countedRows E x).length : Int) + ((outVars E x).length : Int) := by
  unfold GetSFD_loops countedRows outVars
  rw [foldl_proj_add (GetSFD_bnd E x) SFDResult.NINF
      (fun j => if bndOut E x j then 1 else 0) _ _
      (fun a j hj => GetSFD_bnd_NINF E x a j hA (hb j (List.mem_range.mp hj))),
    foldl_proj_add (GetSFD_con E x) SFDResult.NINF
      (fun i => if rowCounted E x i then 1 else 0) _ _
      (fun a i _ => GetSFD_con_NINF E x a i),
    sum_map_ite_one_eq_length, sum_map_ite_one_eq_length, zero_add]

theorem mem_countedRows (E : Env K) (x : List K) (i : Nat) :
    i ∈ countedRows E x ↔ i < E.NumRows ∧ rowCounted E x i := by
  unfold countedRows
  simp [List.mem_filter]

theorem GetSFD_SFDout_of_ne (E : Env K) (x : List K) (h : (GetSFD_loops E x).NINF ≠ 0) :
    (GetSFD E x).SFDout = (GetSFD_loops E x).SFDout := by
  unfold GetSFD
  simp [h]

theorem GetSFD_NINF (E : Env K) (x : List K) : (GetSFD E x).NINF = (GetSFD_loops E x).NINF := by
  unfold GetSFD
  by_cases h : (GetSFD_loops E x).NINF = 0
  · simp [h]
  · simp [h]

theorem GetSFD_of_NINF_zero (E : Env K) (x : List K) (h : (GetSFD_loops E x).NINF = 0) :
    GetSFD E x = ⟨1, 0, 0, -1, -1, 0⟩ := by
  unfold GetSFD
  simp [h]

theorem GetSFD_con_inv (E : Env K) (hs : SqrtSpec E.sqrt) (x : List K) (acc : SFDResult K)
    (i : Nat) (h : SFDInv E acc) : SFDInv E (GetSFD_con E x acc i) := by
  unfold SFDInv at *
  rw [GetSFD_con_SFDout, GetSFD_con_NINF]
  by_cases hc : rowCounted E x i
  · have := le_sqrt_of_mul_self_le E.sqrt hs E.Alpha _ hc.2.2
    simp only [hc, if_true]
    push_cast
    constructor
    · linarith [h.1]
    · linarith [h.2]
  · simpa [hc] using h

theorem GetSFD_bnd_inv (E : Env K) (x : List K) (acc : SFDResult K)
    (j : Nat) (h : SFDInv E acc) : SFDInv E (GetSFD_bnd E x acc j) := by
  unfold SFDInv at *
  unfold GetSFD_bnd
  obtain ⟨h1, h2⟩ := h
  dsimp only
  split_ifs <;> constructor <;> (try dsimp only) <;> (try push_cast) <;> first
    | assumption
    | linarith

theorem GetSFD_loops_inv (E : Env K) (hs : SqrtSpec E.sqrt) (x : List K) :
    SFDInv E (GetSFD_loops E x) := by
  unfold GetSFD_loops
  apply foldl_inv
  · apply foldl_inv
    · unfold SFDInv; simp
    · intro a i _ ha; exact GetSFD_con_inv E hs x a i ha
  · intro a j _ ha; exact GetSFD_bnd_inv E x a j ha

/-! ### `GetCV1` measures a point as `GetSFD` does -/

theorem foldl_rel {α β γ : Type} (R : β → γ → Prop) (f : β → α → β) (g : γ → α → γ)
    (l : List α) (a : β) (b : γ) (h0 : R a b)
    (hstep : ∀ a b i, R a b → R (f a i) (g b i)) : R (l.foldl f a) (l.foldl g b) := by
  induction l generalizing a b with
  | nil => simpa using h0
  | cons x t ih =>
    simp only [List.foldl_cons]
    exact ih _ _ (hstep a b x h0)

theorem GetCV1_el_fold_NINF_SFD (E : Env K) (icon : Nat) (v : K) (b1 b2 : Bool)
    (l : List Nat) (acc : CVAcc K) :
    (l.foldl (GetCV1_el E icon v b1 b2) acc).NINF = acc.NINF ∧
    (l.foldl (GetCV1_el E icon v b1 b2) acc).SFD = acc.SFD ∧
    (l.foldl (GetCV1_el E icon v b1 b2) acc).SINF = acc.SINF := by
  apply foldl_inv (fun a : CVAcc K => a.NINF = acc.NINF ∧ a.SFD = acc.SFD ∧ a.SINF = acc.SINF)
  · exact ⟨rfl, rfl, rfl⟩
  · intro a i _ ha
    exact ha

theorem GetCV1_con_SFD (E : Env K) (x : List K) (acc : CVAcc K) (i : Nat) :
    (GetCV1_con E x acc i).SFD = acc.SFD +
      (if rowCounted E x i then E.sqrt (FVLenSq E i (GetViolation E i x).Violation) else 0) := by
  unfold GetCV1_con
  by_cases h1 : (GetViolation E i x).FVStatus = 0
  · by_cases h2 : (GetViolation E i x).ViolStatus = 0
    · by_cases h3 : FVLenSq E i (GetViolation E i x).Violation < E.Alpha * E.Alpha
      · have hc : ¬ rowCounted E x i := fun h => absurd h.2.2 (not_le.mpr h3)
        simp [h1, h2, h3, hc]
      · have hc : rowCounted E x i := ⟨h1, h2, not_lt.mp h3⟩
        simp only [h1, h2, h3, hc, if_true, if_false, gt_iff_lt, lt_irrefl]
        rw [(GetCV1_el_fold_NINF_SFD E i _ _ _ _ _).2.1]
        split_ifs <;> rfl
    · have h2p : (GetViolation E i x).ViolStatus > 0 := Nat.pos_of_ne_zero h2
      have hc : ¬ rowCounted E x i := fun h => h2 h.2.1
      simp [h1, h2p, hc]
  · have h1p : (GetViolation E i x).FVStatus > 0 := Nat.pos_of_ne_zero h1
    have hc : ¬ rowCounted E x i := fun h => h1 h.1
    simp [h1p, hc]

theorem GetCV1_con_NINF (E : Env K) (x : List K) (acc : CVAcc K) (i : Nat) :
    (GetCV1_con E x acc i).NINF = acc.NINF + (if rowCounted E x i then 1 else 0) := by
  unfold GetCV1_con
  by_cases h1 : (GetViolation E i x).FVStatus = 0
  · by_cases h2 : (GetViolation E i x).ViolStatus = 0
    · by_cases h3 : FVLenSq E i (GetViolation E i x).Violation < E.Alpha * E.Alpha
      · have hc : ¬ rowCounted E x i := fun h => absurd h.2.2 (not_le.mpr h3)
        simp [h1, h2, h3, hc]
      · have hc : rowCounted E x i := ⟨h1, h2, not_lt.mp h3⟩
        simp only [h1, h2, h3, hc, if_true, if_false, gt_iff_lt, lt_irrefl]
        rw [(GetCV1_el_fold_NINF_SFD E i _ _ _ _ _).1]
        split_ifs <;> rfl
    · have h2p : (GetViolation E i x).ViolStatus > 0 := Nat.pos_of_ne_zero h2
      have hc : ¬ rowCounted E x i := fun h => h2 h.2.1
      simp [h1, h2p, hc]
  · have h1p : (GetViolation E i x).FVStatus > 0 := Nat.pos_of_ne_zero h1
    have hc : ¬ rowCounted E x i := fun h => h1 h.1
    simp [h1p, hc]

theorem GetCV1_bnd_same (E : Env K) (hA : 0 ≤ E.Alpha) (x : List K) (a : CVAcc K)
    (b : SFDResult K) (j : Nat) (h : SameMeasure a b) :
    SameMeasure (GetCV1_bnd E x a j) (GetSFD_bnd E x b j) := by
  unfold SameMeasure at *
  unfold GetCV1_bnd GetSFD_bnd
  obtain ⟨h1, h2⟩ := h
  dsimp only
  by_cases c1 : x.getD j 0 ≥ (E.col j).BndLo - E.Alpha
  · by_cases c2 : x.getD j 0 ≤ (E.col j).BndUp + E.Alpha
    · rw [if_pos c1, if_pos c2, if_pos c1, if_pos c2]; exact ⟨h1, h2⟩
    · by_cases c3 : x.getD j 0 - (E.col j).BndUp > E.Alpha
      · rw [if_pos c1, if_neg c2, if_pos c3, if_pos c1, if_neg c2, if_pos c3]
        have habs : |(E.col j).BndUp - x.getD j 0| = x.getD j 0 - (E.col j).BndUp := by
          rw [abs_sub_comm]; exact abs_of_nonneg (by linarith)
        split_ifs <;> dsimp only <;> rw [habs, h1, h2] <;> exact ⟨rfl, rfl⟩
      · rw [if_pos c1, if_neg c2, if_neg c3, if_pos c1, if_neg c2, if_neg c3]; exact ⟨h1, h2⟩
  · by_cases c3 : (E.col j).BndLo - x.getD j 0 > E.Alpha
    · rw [if_neg c1, if_pos c3, if_neg c1, if_pos c3]
      split_ifs <;> dsimp only <;> rw [h1, h2] <;> exact ⟨rfl, rfl⟩
    · rw [if_neg c1, if_neg c3, if_neg c1, if_neg c3]; exact ⟨h1, h2⟩

theorem GetCV1_loops_same (E : Env K) (hA : 0 ≤ E.Alpha) (x : List K) :
    SameMeasure (GetCV1_loops E x) (GetSFD_loops E x) := by
  unfold GetCV1_loops GetSFD_loops
  apply foldl_rel
  · apply foldl_rel
    · exact ⟨rfl, rfl⟩
    · intro a b i h
      unfold SameMeasure at *
      rw [GetCV1_con_SFD, GetCV1_con_NINF, GetSFD_con_SFDout, GetSFD_con_NINF, h.1, h.2]
      exact ⟨rfl, rfl⟩
  · intro a b j h
    exact GetCV1_bnd_same E hA x a b j h

/-- The state of `GetViolation` on an in-range row, in terms of the spec's body value. -/
theorem GetViolation_eq (E : Env K) (icon : Nat) (x : List K) (hin : icon < E.NumRows) :
    GetViolation E icon x =
      if (E.row icon).Typ = "N" then ⟨0, 1, 0⟩
      else
        let sw := violSwitch E (E.row icon) (rowBody E icon x)
        if sw.1 ≥ 1 then ⟨0, sw.1, 0⟩ else ⟨0, 0, sw.2⟩ := by
  unfold GetViolation
  simp only [ConBodyValue_snd E icon x hin, ConBodyValue_fst E icon x hin]
  by_cases hN : (E.row icon).Typ = "N"
  · simp [hN]
  · simp [hN]

/-- C1: for an in-range row, with `featol ≥ 0` and `rhs_lo ≤ rhs_up`, `GetViolation`
classifies the row from `body = Σ a_ij x_j`: an N row is not violated with violation 0;
a G row is violated iff `body < rhs_lo - featol`, and then the violation is
`rhs_lo - body > 0`; an L row is violated iff `body > rhs_up + featol`, and then the
violation is `rhs_up - body < 0`; an E or R row below `rhs_lo - featol` is violated with
violation `rhs_lo - body > 0`, above `rhs_up + featol` with `rhs_up - body < 0`; and a
row reported not violated has violation 0. -/
theorem C1_GetViolation_classifies (E : Env K) (icon : Nat) (x : List K)
    (hin : icon < E.NumRows) (hfeatol : 0 ≤ E.featol)
    (hrhs : (E.row icon).RHSlo ≤ (E.row icon).RHSup) :
    (GetViolation E icon x).FVStatus = 0 ∧
    ((E.row icon).Typ = "N" →
      (GetViolation E icon x).ViolStatus ≠ 0 ∧ (GetViolation E icon x).Violation = 0) ∧
    ((E.row icon).Typ = "G" →
      ((GetViolation E icon x).ViolStatus = 0 ↔
        rowBody E icon x < (E.row icon).RHSlo - E.featol) ∧
      ((GetViolation E icon x).ViolStatus = 0 →
        (GetViolation E icon x).Violation = (E.row icon).RHSlo - rowBody E icon x ∧
        0 < (GetViolation E icon x).Violation)) ∧
    ((E.row icon).Typ = "L" →
      ((GetViolation E icon x).ViolStatus = 0 ↔
        rowBody E icon x > (E.row icon).RHSup + E.featol) ∧
      ((GetViolation E icon x).ViolStatus = 0 →
        (GetViolation E icon x).Violation = (E.row icon).RHSup - rowBody E icon x ∧
        (GetViolation E icon x).Violation < 0)) ∧
    ((E.row icon).Typ = "E" ∨ (E.row icon).Typ = "R" →
      (rowBody E icon x < (E.row icon).RHSlo - E.featol →
        (GetViolation E icon x).ViolStatus = 0 ∧
        (GetViolation E icon x).Violation = (E.row icon).RHSlo - rowBody E icon x ∧
        0 < (GetViolation E icon x).Violation) ∧
      (rowBody E icon x > (E.row icon).RHSup + E.featol →
        (GetViolation E icon x).ViolStatus = 0 ∧
        (GetViolation E icon x).Violation = (E.row icon).RHSup - rowBody E icon x ∧
        (GetViolation E icon x).Violation < 0)) ∧
    ((GetViolation E icon x).ViolStatus ≠ 0 → (GetViolation E icon x).Violation = 0) := by
  rw [GetViolation_eq E icon x hin]
  refine ⟨?_, ?_, ?_, ?_, ?_, ?_⟩
  · by_cases hN : (E.row icon).Typ = "N"
    · simp [hN]
    · simp only [hN, if_false]; split <;> rfl
  · intro hN; simp [hN]
  · intro hG
    by_cases hb : rowBody E icon x ≥ (E.row icon).RHSlo - E.featol
    · have hnlt : ¬ rowBody E icon x < (E.row icon).RHSlo - E.featol := not_lt.mpr hb
      by_cases ht : rowBody E icon x - (E.row icon).RHSlo ≤ E.featol <;>
        simp [hG, violSwitch, hb, ht, hnlt]
    · have hlt : rowBody E icon x < (E.row icon).RHSlo - E.featol := not_le.mp hb
      simp only [hG, violSwitch, hb, hlt]
      simp
      linarith
  · intro hL
    by_cases hb : rowBody E icon x ≤ (E.row icon).RHSup + E.featol
    · have hnlt : ¬ rowBody E icon x > (E.row icon).RHSup + E.featol := not_lt.mpr hb
      by_cases ht : (E.row icon).RHSup - rowBody E icon x ≤ E.featol <;>
        simp [hL, violSwitch, hb, ht, hnlt]
    · have hlt : rowBody E icon x > (E.row icon).RHSup + E.featol := not_le.mp hb
      simp only [hL, violSwitch, hb, hlt]
      simp
      linarith
  · intro hER
    have hN : (E.row icon).Typ ≠ "N" := by rcases hER with h | h <;> rw [h] <;> decide
    have hG : (E.row icon).Typ ≠ "G" := by rcases hER with h | h <;> rw [h] <;> decide
    have hL : (E.row icon).Typ ≠ "L" := by rcases hER with h | h <;> rw [h] <;> decide
    constructor
    · intro hlt
      have hle : rowBody E icon x ≤ (E.row icon).RHSlo - E.featol := le_of_lt hlt
      simp only [hN, hG, hL, if_false, violSwitch, hER, if_true, hle]
      simp
      linarith
    · intro hgt
      have hnle : ¬ rowBody E icon x ≤ (E.row icon).RHSlo - E.featol := by
        intro h; linarith
      have hge : rowBody E icon x ≥ (E.row icon).RHSup + E.featol := le_of_lt hgt
      simp only [hN, hG, hL, if_false, violSwitch, hER, if_true, hnle, hge]
      simp
      linarith
  · by_cases hN : (E.row icon).Typ = "N"
    · simp [hN]
    · simp only [hN, if_false]
      split
      · intro _; rfl
      · intro h; exact absurd rfl h

/-! ### The incumbent -/

theorem copy_eq_of_length_eq {α : Type} (dst src : List α) (h : src.length = dst.length) :
    copy dst src = src := by
  unfold copy
  rw [← h, List.take_length, List.drop_eq_nil_of_le (le_of_eq h.symm), List.append_nil]

theorem length_copy {α : Type} (dst src : List α) : (copy dst src).length = dst.length := by
  unfold copy
  simp only [List.length_append, List.length_take, List.length_drop]
  omega

theorem UpdateIncumbentSFD_SFD_le (s : State K) (PointIn : List K) (SFDin : K) (NINFin : Int)
    (UpdatedBy : Int) :
    (UpdateIncumbentSFD s PointIn SFDin NINFin UpdatedBy).2.IncumbentSFD ≤ s.IncumbentSFD := by
  unfold UpdateIncumbentSFD
  split_ifs with h1 h2
  · exact le_refl _
  · exact le_refl _
  · exact not_lt.mp h1

theorem UpdateIncumbentSFD_fold_SFD_le (cands : List (List K × K × Int × Int)) (s : State K) :
    (cands.foldl (fun st c => (UpdateIncumbentSFD st c.1 c.2.1 c.2.2.1 c.2.2.2).2) s).IncumbentSFD
      ≤ s.IncumbentSFD := by
  induction cands generalizing s with
  | nil => exact le_refl _
  | cons c t ih =>
    simp only [List.foldl_cons]
    exact le_trans (ih _) (UpdateIncumbentSFD_SFD_le s c.1 c.2.1 c.2.2.1 c.2.2.2)

/-- C10: `UpdateIncumbentSFD` replaces the incumbent (point, SFD and NINF become the
candidate's) if and only if `SFD < IncumbentSFD`, or `SFD = IncumbentSFD` and
`NINF < IncumbentNINF`; otherwise it returns 2 and leaves the state (`IncumbentPt`,
`IncumbentSFD`, `IncumbentNINF`, `TotUpdates`) unchanged. When it replaces it returns 1 if
the new NINF is 0 and 0 otherwise. Consequently `IncumbentSFD` never increases across any
sequence of calls. The candidate is a point: it has the length of `IncumbentPt`. -/
theorem C10_UpdateIncumbentSFD_order (s : State K) (PointIn : List K) (SFDin : K)
    (NINFin : Int) (UpdatedBy : Int) (hlen : PointIn.length = s.IncumbentPt.length) :
    ((SFDin < s.IncumbentSFD ∨ (SFDin = s.IncumbentSFD ∧ NINFin < s.IncumbentNINF)) →
      (UpdateIncumbentSFD s PointIn SFDin NINFin UpdatedBy).2.IncumbentPt = PointIn ∧
      (UpdateIncumbentSFD s PointIn SFDin NINFin UpdatedBy).2.IncumbentSFD = SFDin ∧
      (UpdateIncumbentSFD s PointIn SFDin NINFin UpdatedBy).2.IncumbentNINF = NINFin ∧
      (UpdateIncumbentSFD s PointIn SFDin NINFin UpdatedBy).2.TotUpdates = s.TotUpdates + 1 ∧
      (UpdateIncumbentSFD s PointIn SFDin NINFin UpdatedBy).1 = if NINFin = 0 then 1 else 0) ∧
    (¬ (SFDin < s.IncumbentSFD ∨ (SFDin = s.IncumbentSFD ∧ NINFin < s.IncumbentNINF)) →
      (UpdateIncumbentSFD s PointIn SFDin NINFin UpdatedBy).1 = 2 ∧
      (UpdateIncumbentSFD s PointIn SFDin NINFin UpdatedBy).2 = s) ∧
    (∀ cands : List (List K × K × Int × Int),
      (cands.foldl (fun st c => (UpdateIncumbentSFD st c.1 c.2.1 c.2.2.1 c.2.2.2).2)
        s).IncumbentSFD ≤ s.IncumbentSFD) := by
  refine ⟨?_, ?_, fun cands => UpdateIncumbentSFD_fold_SFD_le cands s⟩
  · intro hrep
    have h1 : ¬ SFDin > s.IncumbentSFD := by
      rcases hrep with h | ⟨h, _⟩
      · exact not_lt.mpr (le_of_lt h)
      · exact not_lt.mpr (le_of_eq h)
    have h2 : ¬ (SFDin = s.IncumbentSFD ∧ NINFin ≥ s.IncumbentNINF) := by
      rintro ⟨he, hn⟩
      rcases hrep with h | ⟨_, h⟩
      · exact absurd he (ne_of_lt h)
      · exact absurd hn (not_le.mpr h)
    unfold UpdateIncumbentSFD
    rw [if_neg h1, if_neg h2]
    exact ⟨copy_eq_of_length_eq _ _ hlen, rfl, rfl, rfl, rfl⟩
  · intro hrep
    unfold UpdateIncumbentSFD
    by_cases h1 : SFDin > s.IncumbentSFD
    · rw [if_pos h1]; exact ⟨rfl, rfl⟩
    · have h2 : SFDin = s.IncumbentSFD ∧ NINFin ≥ s.IncumbentNINF := by
        have hle : SFDin ≤ s.IncumbentSFD := not_lt.mp h1
        rcases lt_or_eq_of_le hle with h | h
        · exact absurd (Or.inl h) hrep
        · refine ⟨h, ?_⟩
          by_contra hn
          exact hrep (Or.inr ⟨h, not_le.mp hn⟩)
      rw [if_neg h1, if_pos h2]; exact ⟨rfl, rfl⟩

/-! ### The projector -/

theorem GetSFD_Status (E : Env K) (x : List K) :
    ((GetSFD E x).Status = 0 ∧ (GetSFD E x).NINF ≠ 0) ∨
    ((GetSFD E x).Status = 1 ∧ (GetSFD E x).SFDout = 0 ∧ (GetSFD E x).NINF = 0) := by
  unfold GetSFD
  by_cases h : (GetSFD_loops E x).NINF = 0
  · right; simp [h]
  · left; simp [h]

theorem GetSFD_SFDout_nonneg (E : Env K) (hs : SqrtSpec E.sqrt) (hA : 0 ≤ E.Alpha)
    (x : List K) : 0 ≤ (GetSFD E x).SFDout := by
  have hinv := GetSFD_loops_inv E hs x
  unfold SFDInv at hinv
  unfold GetSFD
  by_cases h : (GetSFD_loops E x).NINF = 0
  · simp [h]
  · rw [if_neg h]
    have h1 : (0 : K) ≤ ((GetSFD_loops E x).NINF : K) := by exact_mod_cast hinv.2
    exact le_trans (mul_nonneg hA h1) hinv.1

theorem Project_Pt1_eq_zipWith (E : Env K) (Pt0 v : List K) (h0 : Pt0.length = E.NumCols)
    (hv : v.length = E.NumCols) : Project_Pt1 E Pt0 v = List.zipWith (· + ·) Pt0 v := by
  unfold Project_Pt1
  apply List.ext_getElem
  · simp [h0, hv]
  · intro i hi1 hi2
    simp only [List.length_map, List.length_range] at hi1
    have hi0 : i < Pt0.length := by omega
    have hiv : i < v.length := by omega
    simp [List.getElem?_eq_getElem hi0, List.getElem?_eq_getElem hiv]

theorem Project_quad_le (E : Env K) (hs : SqrtSpec E.sqrt) (hA : 0 ≤ E.Alpha) (s : State K)
    (Pt0 Pt1 Pt2 : List K) (SFD0 SFD1 SFD2 : K) (BestPt : Nat)
    (h1 : SFD1 = (GetSFD E Pt1).SFDout) (h2 : SFD2 = (GetSFD E Pt2).SFDout)
    (hB : BestPt = 1 ∨ (BestPt = 2 ∧ SFD2 < SFD1)) :
    (GetSFD E (Project_quad E s Pt0 Pt1 Pt2 SFD0 SFD1 SFD2 BestPt).PointOut).SFDout ≤ SFD1 := by
  have hn1 : 0 ≤ SFD1 := by rw [h1]; exact GetSFD_SFDout_nonneg E hs hA Pt1
  unfold Project_quad
  dsimp only
  split_ifs with c1 c2 c3 c4 c5 c6
  · exact le_of_eq h1.symm
  · rw [← h2]
    rcases hB with hB | ⟨_, hB⟩
    · rw [c2.2] at hB; exact absurd hB (by decide)
    · exact le_of_lt hB
  · rcases GetSFD_Status E (QuadApprox E Pt0 Pt1 Pt2 SFD0 SFD1 SFD2).2 with ⟨h, _⟩ | ⟨_, h, _⟩
    · rw [h] at c3; exact absurd c3 (by decide)
    · rw [h]; exact hn1
  · exact le_trans (le_of_lt c4) (min_le_right _ _)
  · exact le_of_eq h1.symm
  · rw [← h2]
    rcases hB with hB | ⟨_, hB⟩
    · rw [c6] at hB; exact absurd hB (by decide)
    · exact le_of_lt hB
  · exact le_of_eq h1.symm

theorem Project_quad_Status_le (E : Env K) (s : State K) (Pt0 Pt1 Pt2 : List K)
    (SFD0 SFD1 SFD2 : K) (BestPt : Nat) :
    (Project_quad E s Pt0 Pt1 Pt2 SFD0 SFD1 SFD2 BestPt).Status ≤ 1 := by
  unfold Project_quad
  dsimp only
  split_ifs <;> simp

theorem Project_lin_Status_le (E : Env K) (s : State K) (Pt0 v Pt1 : List K)
    (SFD0 SFD1 VL : K) : (Project_lin E s Pt0 v Pt1 SFD0 SFD1 VL).Status ≤ 1 := by
  unfold Project_lin
  dsimp only
  split_ifs
  all_goals first
    | exact Project_quad_Status_le E _ _ _ _ _ _ _ _
    | simp

theorem Project_Status_le (E : Env K) (s : State K) (Pt0 v : List K) :
    (Project E s Pt0 v).Status ≤ 2 := by
  unfold Project
  dsimp only
  split_ifs
  all_goals first
    | exact le_trans (Project_lin_Status_le E _ _ _ _ _ _ _) (by decide)
    | simp

theorem Project_lin_le (E : Env K) (hs : SqrtSpec E.sqrt) (hA : 0 ≤ E.Alpha) (s : State K)
    (Pt0 v Pt1 : List K) (SFD0 SFD1 VL : K) (h1 : SFD1 = (GetSFD E Pt1).SFDout) :
    (GetSFD E (Project_lin E s Pt0 v Pt1 SFD0 SFD1 VL).PointOut).SFDout ≤ SFD1 := by
  have hn1 : 0 ≤ SFD1 := by rw [h1]; exact GetSFD_SFDout_nonneg E hs hA Pt1
  unfold Project_lin
  dsimp only
  split_ifs with c1 c2 c3 c4 c5
  · exact le_of_eq h1.symm
  · exact le_of_eq h1.symm
  · exact le_of_eq h1.symm
  · rcases GetSFD_Status E _ with ⟨h, _⟩ | ⟨_, h, _⟩
    · rw [h] at c4; exact absurd c4 (by decide)
    · dsimp only; rw [h]; exact hn1
  · exact le_of_eq h1.symm
  · apply Project_quad_le E hs hA _ Pt0 Pt1 _ SFD0 SFD1 _ _ h1 rfl
    unfold linBestPt
    split_ifs with c
    · exact Or.inr ⟨rfl, c⟩
    · exact Or.inl rfl

theorem Project_le (E : Env K) (hs : SqrtSpec E.sqrt) (hA : 0 ≤ E.Alpha) (s : State K)
    (Pt0 v : List K) (hne : (Project E s Pt0 v).Status ≠ 2) :
    (GetSFD E (Project E s Pt0 v).PointOut).SFDout ≤ (GetSFD E (Project_Pt1 E Pt0 v)).SFDout ∧
    (GetSFD E (Project E s Pt0 v).PointOut).SFDout ≤ (GetSFD E Pt0).SFDout := by
  have hn0 := GetSFD_SFDout_nonneg E hs hA Pt0
  have hn1 := GetSFD_SFDout_nonneg E hs hA (Project_Pt1 E Pt0 v)
  unfold Project at hne ⊢
  dsimp only at hne ⊢
  split_ifs at hne ⊢ with c1 c2 c3 c4 c5
  · rcases GetSFD_Status E Pt0 with ⟨h, _⟩ | ⟨_, h, _⟩
    · rw [h] at c1; exact absurd c1 (by decide)
    · dsimp only; rw [h]; exact ⟨hn1, le_refl _⟩
  · exact absurd rfl hne
  · rcases GetSFD_Status E (Project_Pt1 E Pt0 v) with ⟨h, _⟩ | ⟨_, h, _⟩
    · rw [h] at c3; exact absurd c3 (by decide)
    · dsimp only; rw [h]; exact ⟨le_refl _, hn0⟩
  · exact absurd rfl hne
  · exact absurd rfl hne
  · have hq := Project_lin_le E hs hA s Pt0 v (Project_Pt1 E Pt0 v) (GetSFD E Pt0).SFDout
      (GetSFD E (Project_Pt1 E Pt0 v)).SFDout
      ((List.range E.NumCols).foldl (fun r j => r + v.getD j 0 * v.getD j 0) 0) rfl
    exact ⟨hq, le_trans hq (le_of_lt (not_le.mp c5))⟩

/-! ### The exits of `Project` that set the incumbent -/

theorem setFeasibleIncumbent_spec (s : State K) (Pt : List K)
    (h : Pt.length = s.IncumbentPt.length) :
    (setFeasibleIncumbent s Pt).IncumbentPt = Pt ∧
    (setFeasibleIncumbent s Pt).IncumbentSFD = 0 ∧
    (setFeasibleIncumbent s Pt).IncumbentNINF = 0 := by
  unfold setFeasibleIncumbent
  exact ⟨copy_eq_of_length_eq _ _ h, rfl, rfl⟩

theorem noteLinProj_IncumbentPt (s : State K) (SFD1 SFD2 : K) :
    (noteLinProj s SFD1 SFD2).IncumbentPt = s.IncumbentPt := by
  unfold noteLinProj
  split_ifs <;> rfl

theorem length_QuadApprox (E : Env K) (Pt0 Pt1 Pt2 : List K) (Y0 Y1 Y2 : K)
    (h2 : Pt2.length = E.NumCols) : (QuadApprox E Pt0 Pt1 Pt2 Y0 Y1 Y2).2.length = E.NumCols := by
  unfold QuadApprox
  dsimp only
  split_ifs
  · exact h2
  · simp

theorem Project_quad_feasible (E : Env K) (s : State K) (Pt0 Pt1 Pt2 : List K)
    (SFD0 SFD1 SFD2 : K) (BestPt : Nat) (h2 : Pt2.length = E.NumCols)
    (hlen : s.IncumbentPt.length = E.NumCols)
    (h1 : (Project_quad E s Pt0 Pt1 Pt2 SFD0 SFD1 SFD2 BestPt).Status = 1) :
    (Project_quad E s Pt0 Pt1 Pt2 SFD0 SFD1 SFD2 BestPt).state.IncumbentPt =
      (Project_quad E s Pt0 Pt1 Pt2 SFD0 SFD1 SFD2 BestPt).PointOut ∧
    (Project_quad E s Pt0 Pt1 Pt2 SFD0 SFD1 SFD2 BestPt).state.IncumbentSFD = 0 ∧
    (Project_quad E s Pt0 Pt1 Pt2 SFD0 SFD1 SFD2 BestPt).state.IncumbentNINF = 0 := by
  have hq : ∀ st : Nat, (noteQuadFail s st).IncumbentPt.length = E.NumCols := by
    intro st
    unfold noteQuadFail
    split_ifs <;> exact hlen
  unfold Project_quad at h1 ⊢
  dsimp only at h1 ⊢
  split_ifs at h1 ⊢
  all_goals first
    | (simp at h1; done)
    | (apply setFeasibleIncumbent_spec
       dsimp only
       rw [length_QuadApprox E Pt0 Pt1 Pt2 SFD0 SFD1 SFD2 h2, hq])

theorem length_Project_Pt2 (E : Env K) (Pt0 v : List K) (a b : K) :
    (Project_Pt2 E Pt0 v a b).length = E.NumCols := by
  unfold Project_Pt2
  simp

theorem length_Project_Pt1 (E : Env K) (Pt0 v : List K) :
    (Project_Pt1 E Pt0 v).length = E.NumCols := by
  unfold Project_Pt1
  simp

theorem Project_lin_feasible (E : Env K) (s : State K) (Pt0 v Pt1 : List K)
    (SFD0 SFD1 VL : K) (hlen : s.IncumbentPt.length = E.NumCols)
    (h1 : (Project_lin E s Pt0 v Pt1 SFD0 SFD1 VL).Status = 1) :
    (Project_lin E s Pt0 v Pt1 SFD0 SFD1 VL).state.IncumbentPt =
      (Project_lin E s Pt0 v Pt1 SFD0 SFD1 VL).PointOut ∧
    (Project_lin E s Pt0 v Pt1 SFD0 SFD1 VL).state.IncumbentSFD = 0 ∧
    (Project_lin E s Pt0 v Pt1 SFD0 SFD1 VL).state.IncumbentNINF = 0 := by
  unfold Project_lin at h1 ⊢
  dsimp only at h1 ⊢
  split_ifs at h1 ⊢
  all_goals first
    | (simp at h1; done)
    | (apply setFeasibleIncumbent_spec
       dsimp only
       rw [length_Project_Pt2, hlen])
    | (apply Project_quad_feasible E _ _ _ _ _ _ _ _ (length_Project_Pt2 E _ _ _ _) _ h1
       dsimp only
       rw [noteLinProj_IncumbentPt]
       exact hlen)

/-- When the base point is not feasible, a return of `Project` with status 1 has set the
incumbent to the returned point, with `IncumbentSFD = 0` and `IncumbentNINF = 0`. -/
theorem Project_feasible_sets_incumbent (E : Env K) (s : State K) (Pt0 v : List K)
    (hlen : s.IncumbentPt.length = E.NumCols) (h0 : (GetSFD E Pt0).Status ≠ 1)
    (h1 : (Project E s Pt0 v).Status = 1) :
    (Project E s Pt0 v).state.IncumbentPt = (Project E s Pt0 v).PointOut ∧
    (Project E s Pt0 v).state.IncumbentSFD = 0 ∧
    (Project E s Pt0 v).state.IncumbentNINF = 0 := by
  unfold Project at h1 ⊢
  dsimp only at h1 ⊢
  split_ifs at h1 ⊢
  all_goals first
    | (simp at h1; done)
    | (apply setFeasibleIncumbent_spec
       rw [length_Project_Pt1, hlen])
    | exact Project_lin_feasible E s Pt0 v _ _ _ _ hlen h1
    | (exfalso; apply h0; assumption)

/-- C8: whenever `Project` returns a status other than no-progress (status 0 or 1), the
SFD of the returned point, as evaluated by `GetSFD`, is at most
`min(SFD(Pt0 + v), SFD(Pt0))`. Points have `NumCols` coordinates and `Alpha ≥ 0`. -/
theorem C8_Project_never_worse (E : Env K) (s : State K) (Pt0 v : List K)
    (hs : SqrtSpec E.sqrt) (hA : 0 ≤ E.Alpha)
    (h0 : Pt0.length = E.NumCols) (hv : v.length = E.NumCols)
    (hne : (Project E s Pt0 v).Status ≠ 2) :
    ((Project E s Pt0 v).Status = 0 ∨ (Project E s Pt0 v).Status = 1) ∧
    (GetSFD E (Project E s Pt0 v).PointOut).SFDout ≤
      min (GetSFD E (List.zipWith (· + ·) Pt0 v)).SFDout (GetSFD E Pt0).SFDout := by
  have hle := Project_le E hs hA s Pt0 v hne
  rw [Project_Pt1_eq_zipWith E Pt0 v h0 hv] at hle
  refine ⟨?_, le_min hle.1 hle.2⟩
  have hst : (Project E s Pt0 v).Status ≤ 2 := Project_Status_le E s Pt0 v
  omega

/-! ### `CCSimple` and `Solve` -/

theorem CCSimple_el_fold_NINF (E : Env K) (icon : Nat) (v : K) (l : List Nat)
    (acc : CCAcc K) :
    (l.foldl (CCSimple_el E icon v) acc).NINF = acc.NINF ∧
    (l.foldl (CCSimple_el E icon v) acc).SFD = acc.SFD := by
  apply foldl_inv (fun a : CCAcc K => a.NINF = acc.NINF ∧ a.SFD = acc.SFD)
  · exact ⟨rfl, rfl⟩
  · intro a i _ ha
    exact ha

theorem CCSimple_con_NINF (E : Env K) (x : List K) (acc : CCAcc K) (i : Nat) :
    (CCSimple_con E x acc i).NINF = acc.NINF + (if rowCounted E x i then 1 else 0) := by
  unfold CCSimple_con
  by_cases h1 : (GetViolation E i x).FVStatus = 0
  · by_cases h2 : (GetViolation E i x).ViolStatus = 0
    · by_cases h3 : FVLenSq E i (GetViolation E i x).Violation < E.Alpha * E.Alpha
      · have hc : ¬ rowCounted E x i := fun h => absurd h.2.2 (not_le.mpr h3)
        simp [h1, h2, h3, hc]
      · have hc : rowCounted E x i := ⟨h1, h2, not_lt.mp h3⟩
        simp only [h1, h2, h3, hc, if_true, if_false, gt_iff_lt, lt_irrefl]
        rw [(CCSimple_el_fold_NINF E i _ _ _).1]
    · have h2p : (GetViolation E i x).ViolStatus > 0 := Nat.pos_of_ne_zero h2
      have hc : ¬ rowCounted E x i := fun h => h2 h.2.1
      simp [h1, h2p, hc]
  · have h1p : (GetViolation E i x).FVStatus > 0 := Nat.pos_of_ne_zero h1
    have hc : ¬ rowCounted E x i := fun h => h1 h.1
    simp [h1p, hc]

theorem CCSimple_bnd_NINF (E : Env K) (x : List K) (a : CCAcc K) (b : SFDResult K) (j : Nat)
    (h : a.NINF = b.NINF) : (CCSimple_bnd E x a j).NINF = (GetSFD_bnd E x b j).NINF := by
  unfold CCSimple_bnd GetSFD_bnd
  dsimp only
  split_ifs <;> (try dsimp only) <;> first
    | exact h
    | rw [h]

theorem CCSimple_loops_NINF (E : Env K) (x : List K) :
    (CCSimple_loops E x).NINF = (GetSFD_loops E x).NINF := by
  unfold CCSimple_loops GetSFD_loops
  apply foldl_rel (fun (a : CCAcc K) (b : SFDResult K) => a.NINF = b.NINF)
  · apply foldl_rel (fun (a : CCAcc K) (b : SFDResult K) => a.NINF = b.NINF)
    · rfl
    · intro a b i h
      rw [CCSimple_con_NINF, GetSFD_con_NINF, h]
  · intro a b j h
    exact CCSimple_bnd_NINF E x a b j h

theorem length_foldl_set {α : Type} (f : List α → Nat → α) (l : List Nat) (v : List α) :
    (l.foldl (fun w j => w.set j (f w j)) v).length = v.length := by
  induction l generalizing v with
  | nil => rfl
  | cons x t ih => simp only [List.foldl_cons]; rw [ih]; simp

theorem length_addCV (E : Env K) (pt CV : List K) : (addCV E pt CV).length = pt.length := by
  unfold addCV
  exact length_foldl_set (fun w j => w.getD j 0 + CV.getD j 0) _ _

theorem CCSimple_itns_good (E : Env K) (PointID : Int) (n : Nat) (s : State K)
    (pt : List K) (SFD : K) (NINF : Int) (hlen : pt.length = E.NumCols)
    (hn : NINF ≠ 0 ∨ 0 < n) :
    GoodRecord E (CCSimple_itns E PointID n s pt SFD NINF).1 ∧
    (CCSimple_itns E PointID n s pt SFD NINF).2.IncumbentPt.length = s.IncumbentPt.length := by
  induction n generalizing s pt SFD NINF with
  | zero =>
    rcases hn with hn | hn
    · unfold CCSimple_itns GoodRecord
      refine ⟨⟨?_, fun h => absurd h hn⟩, rfl⟩
      rw [length_copy]; simp
    · exact absurd hn (lt_irrefl 0)
  | succ n ih =>
    unfold CCSimple_itns
    dsimp only
    by_cases h0 : (CCSimple_loops E pt).NINF = 0
    · rw [if_pos h0]
      have hcopy : copy (List.replicate E.NumCols (0 : K)) pt = pt :=
        copy_eq_of_length_eq _ _ (by simp [hlen])
      refine ⟨⟨?_, fun _ => ?_⟩, rfl⟩
      · dsimp only; rw [hcopy]; exact hlen
      · dsimp only
        rw [hcopy, GetSFD_NINF, ← CCSimple_loops_NINF]
        exact h0
    · rw [if_neg h0]
      have := ih (UpdateIncumbentSFD s (addCV E pt (CCSimple_CV E (CCSimple_loops E pt) pt.length))
          (CCSimple_loops E pt).SFD (CCSimple_loops E pt).NINF PointID).2
        (addCV E pt (CCSimple_CV E (CCSimple_loops E pt) pt.length))
        (CCSimple_loops E pt).SFD (CCSimple_loops E pt).NINF
        (by rw [length_addCV]; exact hlen) (Or.inl h0)
      refine ⟨this.1, ?_⟩
      rw [this.2]
      unfold UpdateIncumbentSFD
      split_ifs
      · rfl
      · rfl
      · exact length_copy _ _

theorem CCSimple_good (E : Env K) (s : State K) (PointIn : List K) (PointID : Int)
    (hlen : PointIn.length = E.NumCols) :
    GoodRecord E (CCSimple E s PointIn PointID).1 ∧
    (CCSimple E s PointIn PointID).2.IncumbentPt.length = s.IncumbentPt.length := by
  unfold CCSimple
  apply CCSimple_itns_good
  · rw [length_copy]; simp [hlen]
  · exact Or.inr (by decide)

theorem length_samplePoint (E : Env K) (s : State K) (r : Nat → K) :
    (samplePoint E s r).length = E.NumCols := by
  unfold samplePoint
  simp

theorem Solve_launch_good (E : Env K) (s : State K) (r : Nat → Nat → K) :
    (∀ p ∈ (Solve_launch E s r).2, GoodRecord E p) ∧
    (Solve_launch E s r).1.IncumbentPt.length = s.IncumbentPt.length := by
  unfold Solve_launch
  apply foldl_inv (fun sr : State K × List (POINTDATA K) =>
    (∀ p ∈ sr.2, GoodRecord E p) ∧ sr.1.IncumbentPt.length = s.IncumbentPt.length)
  · exact ⟨fun p hp => absurd hp (List.not_mem_nil p), rfl⟩
  · intro sr i _ hsr
    have hg := CCSimple_good E sr.1 (samplePoint E s (r i)) (i : Int)
      (length_samplePoint E s (r i))
    dsimp only
    refine ⟨?_, by rw [hg.2]; exact hsr.2⟩
    intro p hp
    rcases List.mem_append.mp hp with h | h
    · exact hsr.1 p h
    · rw [List.mem_singleton.mp h]; exact hg.1

theorem Solve_collect_some (E : Env K) (LastAvgSFD : K) (l : List (POINTDATA K))
    (acc : SolveAcc K) (pt : List K) (h : (Solve_collect E LastAvgSFD l acc).1 = some pt) :
    ∃ p ∈ l, p.NINF = 0 ∧ p.Point = pt := by
  induction l generalizing acc with
  | nil => simp [Solve_collect] at h
  | cons p rest ih =>
    unfold Solve_collect at h
    dsimp only at h
    by_cases h0 : p.NINF = 0
    · rw [if_pos h0] at h
      exact ⟨p, List.mem_cons_self p rest, h0, Option.some.inj h⟩
    · rw [if_neg h0] at h
      obtain ⟨q, hq, hq0, hqp⟩ := ih _ h
      exact ⟨q, List.mem_cons_of_mem p hq, hq0, hqp⟩

theorem Solve_round_good (E : Env K) (r : Nat → Nat → K) (avg : K → K) (s : State K)
    (LastAvgSFD : K) (NumCCRuns : Nat) (hlen : s.IncumbentPt.length = E.NumCols) :
    (∀ res, Solve_round E r avg s LastAvgSFD NumCCRuns = some (Sum.inl res) →
      res.Status = 0 ∧ (GetSFD E res.PointOut).NINF = 0) ∧
    (∀ next, Solve_round E r avg s LastAvgSFD NumCCRuns = some (Sum.inr next) →
      next.1.IncumbentPt.length = E.NumCols) := by
  have hl := Solve_launch_good E s r
  unfold Solve_round
  dsimp only
  split
  · rename_i Point hsome
    obtain ⟨p, hp, hp0, hpt⟩ := Solve_collect_some E LastAvgSFD _ _ Point hsome
    have hg := hl.1 p hp
    constructor
    · intro res hres
      cases hres
      refine ⟨rfl, ?_⟩
      dsimp only
      rw [copy_eq_of_length_eq _ _ (by rw [← hpt, hg.1, hl.2, hlen]), ← hpt]
      exact hg.2 hp0
    · intro next hnext
      cases hnext
  · split
    · constructor
      · intro res hres
        cases hres
      · intro next hnext
        cases hnext
    · constructor
      · intro res hres
        cases hres
      · intro next hnext
        cases hnext
        dsimp only
        rw [hl.2]; exact hlen

theorem Solve_rounds_zero (E : Env K) (rand : Nat → Nat → Nat → K) (fl : Nat → K → K)
    (itn : Nat) (s : State K) (LastAvgSFD : K) (NumCCRuns : Nat) :
    Solve_rounds E rand fl 0 itn s LastAvgSFD NumCCRuns = some ⟨s.IncumbentPt, 1, s⟩ := rfl

theorem Solve_rounds_succ (E : Env K) (rand : Nat → Nat → Nat → K) (fl : Nat → K → K)
    (n itn : Nat) (s : State K) (LastAvgSFD : K) (NumCCRuns : Nat) :
    Solve_rounds E rand fl (n + 1) itn s LastAvgSFD NumCCRuns =
      match Solve_round E (rand itn) (fl itn) s LastAvgSFD NumCCRuns with
      | none =>
        if n = 0 then
          some ⟨(Solve_launch E s (rand itn)).1.IncumbentPt, 1,
            (Solve_launch E s (rand itn)).1⟩
        else none
      | some (Sum.inl res) => some res
      | some (Sum.inr next) =>
        Solve_rounds E rand fl n (itn + 1) next.1 next.2.1 next.2.2 := rfl

/-- A round of `Solve` that ends with a new box is followed by the next round. -/
theorem Solve_rounds_succ_next (E : Env K) (rand : Nat → Nat → Nat → K) (fl : Nat → K → K)
    (n itn : Nat) (s : State K) (LastAvgSFD : K) (NumCCRuns : Nat) (s1 : State K) (L1 : K)
    (N1 : Nat)
    (h : Solve_round E (rand itn) (fl itn) s LastAvgSFD NumCCRuns = some (Sum.inr (s1, L1, N1))) :
    Solve_rounds E rand fl (n + 1) itn s LastAvgSFD NumCCRuns =
      Solve_rounds E rand fl n (itn + 1) s1 L1 N1 := by
  rw [Solve_rounds_succ, h]

/-- A round of `Solve` before the last that ends with a box that is not a number ends the
run without a result. -/
theorem Solve_rounds_succ_nan (E : Env K) (rand : Nat → Nat → Nat → K) (fl : Nat → K → K)
    (n itn : Nat) (s : State K) (LastAvgSFD : K) (NumCCRuns : Nat)
    (h : Solve_round E (rand itn) (fl itn) s LastAvgSFD NumCCRuns = none) :
    Solve_rounds E rand fl (n + 1 + 1) itn s LastAvgSFD NumCCRuns = none := by
  rw [Solve_rounds_succ, h]
  rfl

theorem Solve_rounds_feasible (E : Env K) (rand : Nat → Nat → Nat → K) (fl : Nat → K → K)
    (n itn : Nat) (s : State K) (LastAvgSFD : K) (NumCCRuns : Nat)
    (hlen : s.IncumbentPt.length = E.NumCols) (res : SolveResult K)
    (hres : Solve_rounds E rand fl n itn s LastAvgSFD NumCCRuns = some res)
    (h0 : res.Status = 0) :
    (GetSFD E res.PointOut).NINF = 0 := by
  induction n generalizing itn s LastAvgSFD NumCCRuns with
  | zero =>
    rw [Solve_rounds_zero] at hres
    cases hres
    simp at h0
  | succ n ih =>
    have hg := Solve_round_good E (rand itn) (fl itn) s LastAvgSFD NumCCRuns hlen
    rw [Solve_rounds_succ] at hres
    cases hr : Solve_round E (rand itn) (fl itn) s LastAvgSFD NumCCRuns with
    | none =>
      rw [hr] at hres
      dsimp only at hres
      split_ifs at hres
      cases hres
      simp at h0
    | some o =>
      cases o with
      | inl res1 =>
        rw [hr] at hres
        cases hres
        exact (hg.1 res hr).2
      | inr next =>
        rw [hr] at hres
        exact ih _ _ _ _ (hg.2 next hr) hres

theorem CCSimple_feasible (E : Env K) (s : State K) (pt : List K) (PointID : Int)
    (hlen : pt.length = E.NumCols) (hf : (GetSFD E pt).NINF = 0) :
    (CCSimple E s pt PointID).1 = ⟨pt, 0, 0⟩ := by
  have h1 : copy (List.replicate pt.length (0 : K)) pt = pt :=
    copy_eq_of_length_eq _ _ (by simp)
  have h2 : copy (List.replicate E.NumCols (0 : K)) pt = pt :=
    copy_eq_of_length_eq _ _ (by simp [hlen])
  have h3 : (CCSimple_loops E pt).NINF = 0 := by
    rw [CCSimple_loops_NINF, ← GetSFD_NINF]; exact hf
  unfold CCSimple
  rw [h1]
  unfold CCSimple_itns
  dsimp only
  rw [if_pos h3, h2]

theorem Solve_launch_fold_records (E : Env K) (s : State K) (r : Nat → Nat → K)
    (hf : ∀ i, (GetSFD E (samplePoint E s (r i))).NINF = 0) (l : List Nat)
    (st : State K) (recs : List (POINTDATA K)) :
    (l.foldl
      (fun sr i =>
        let res := CCSimple E sr.1 (samplePoint E s (r i)) (i : Int)
        (res.2, sr.2 ++ [res.1]))
      (st, recs)).2 = recs ++ l.map (fun i => ⟨samplePoint E s (r i), 0, 0⟩) := by
  induction l generalizing st recs with
  | nil => simp
  | cons i t ih =>
    simp only [List.foldl_cons, List.map_cons]
    rw [ih, CCSimple_feasible E st _ _ (length_samplePoint E s (r i)) (hf i)]
    simp

theorem Solve_launch_records (E : Env K) (s : State K) (r : Nat → Nat → K)
    (hf : ∀ i, (GetSFD E (samplePoint E s (r i))).NINF = 0) :
    (Solve_launch E s r).2 =
      (List.range 100).map (fun i => ⟨samplePoint E s (r i), 0, 0⟩) := by
  unfold Solve_launch
  rw [Solve_launch_fold_records E s r hf]
  simp

theorem Solve_round_feasible_samples (E : Env K) (s : State K) (r : Nat → Nat → K)
    (avg : K → K) (LastAvgSFD : K) (NumCCRuns : Nat)
    (hf : ∀ i, (GetSFD E (samplePoint E s (r i))).NINF = 0) :
    ∃ res, Solve_round E r avg s LastAvgSFD NumCCRuns = some (Sum.inl res) ∧
      res.Status = 0 := by
  have hrec := Solve_launch_records E s r hf
  have hr : List.range 100 = 0 :: (List.range 99).map Nat.succ := List.range_succ_eq_map 99
  unfold Solve_round
  dsimp only
  rw [hrec, hr, List.map_cons]
  unfold Solve_collect
  simp

theorem Solve_status_zero_of_feasible_samples (E0 : Env K) (AlphaIn BetaIn : K)
    (MaxItnsIn MaxSwarmPtsIn : Nat) (plinfyIn featolIn : K) (rand : Nat → Nat → Nat → K)
    (fl : Nat → K → K)
    (hf : ∀ i, (GetSFD (Solve_env E0 AlphaIn BetaIn MaxItnsIn plinfyIn featolIn)
      (samplePoint (Solve_env E0 AlphaIn BetaIn MaxItnsIn plinfyIn featolIn)
        (initBox (Solve_env E0 AlphaIn BetaIn MaxItnsIn plinfyIn featolIn)
          (initState (Solve_env E0 AlphaIn BetaIn MaxItnsIn plinfyIn featolIn)))
        (rand 0 i))).NINF = 0) :
    ∃ res, Solve E0 AlphaIn BetaIn MaxItnsIn MaxSwarmPtsIn plinfyIn featolIn rand fl =
      some res ∧ res.Status = 0 := by
  unfold Solve
  dsimp only
  obtain ⟨res, hres, h0⟩ := Solve_round_feasible_samples _ _ (rand 0) (fl 0)
    (Solve_env E0 AlphaIn BetaIn MaxItnsIn plinfyIn featolIn).plinfy 0 hf
  rw [show (100 : Nat) = 99 + 1 from rfl, Solve_rounds_succ, hres]
  exact ⟨res, rfl, h0⟩

/-- C7: whenever `Solve` returns status 0, the point it returns is feasible under the
solver's own test: `GetSFD` on that point reports `NINF = 0` and status 1. The worker
results are consumed one at a time; the random draws and the rounding of the mean `SFD`
of each round are arbitrary. -/
theorem C7_Solve_success_is_feasible (E0 : Env K) (AlphaIn BetaIn : K)
    (MaxItnsIn MaxSwarmPtsIn : Nat) (plinfyIn featolIn : K) (rand : Nat → Nat → Nat → K)
    (fl : Nat → K → K) (res : SolveResult K) :
    Solve E0 AlphaIn BetaIn MaxItnsIn MaxSwarmPtsIn plinfyIn featolIn rand fl = some res →
    res.Status = 0 →
    (GetSFD (Solve_env E0 AlphaIn BetaIn MaxItnsIn plinfyIn featolIn) res.PointOut).NINF = 0 ∧
    (GetSFD (Solve_env E0 AlphaIn BetaIn MaxItnsIn plinfyIn featolIn) res.PointOut).Status = 1 := by
  intro hres h0
  have hN : (GetSFD (Solve_env E0 AlphaIn BetaIn MaxItnsIn plinfyIn featolIn)
      res.PointOut).NINF = 0 := by
    unfold Solve at hres
    exact Solve_rounds_feasible _ rand fl _ _ _ _ _ (by simp [initBox, initState]) res hres h0
  refine ⟨hN, ?_⟩
  rcases GetSFD_Status (Solve_env E0 AlphaIn BetaIn MaxItnsIn plinfyIn featolIn)
    res.PointOut with ⟨_, h⟩ | ⟨h, _⟩
  · exact absurd hN h
  · exact h

/-! ### `GetCV1` at a feasible point -/

theorem zeroFirst_replicate (n m : Nat) :
    zeroFirst n (List.replicate m (0 : K)) = List.replicate m 0 := by
  unfold zeroFirst
  apply foldl_inv (fun w : List K => w = List.replicate m 0)
  · rfl
  · intro a i _ ha
    rw [ha, List.set_replicate_self]

theorem GetCV1_isSome (E : Env K) (x : List K) (hx : x.length ≠ 1) :
    ∃ r, GetCV1 E x = some r := by
  unfold GetCV1
  rw [if_neg hx]
  dsimp only
  split_ifs
  · exact ⟨_, rfl⟩
  · exact ⟨_, rfl⟩

theorem GetCV1_of_NINF_zero (E : Env K) (x : List K) (r : CVResult K)
    (hr : GetCV1 E x = some r) (h0 : r.NINF = 0) :
    r = ⟨1, List.replicate x.length 0, List.replicate x.length 0, List.replicate x.length 0,
      List.replicate x.length 0, true, true, true, true, 0, 0, 0⟩ := by
  unfold GetCV1 at hr
  by_cases hlen : x.length = 1
  · simp [hlen] at hr
  · rw [if_neg hlen] at hr
    dsimp only at hr
    by_cases hN : (GetCV1_loops E x).NINF = 0
    · rw [if_pos hN, zeroFirst_replicate] at hr
      exact (Option.some.inj hr).symm
    · rw [if_neg hN] at hr
      have := Option.some.inj hr
      rw [← this] at h0
      exact absurd h0 hN

theorem GetCV1_Status (E : Env K) (x : List K) (r : CVResult K) (hr : GetCV1 E x = some r) :
    (r.Status = 1 ∧ r.NINF = 0) ∨ (r.Status = 0 ∧ r.NINF ≠ 0) := by
  unfold GetCV1 at hr
  by_cases hlen : x.length = 1
  · simp [hlen] at hr
  · rw [if_neg hlen] at hr
    dsimp only at hr
    by_cases hN : (GetCV1_loops E x).NINF = 0
    · rw [if_pos hN] at hr
      rw [← Option.some.inj hr]
      exact Or.inl ⟨rfl, rfl⟩
    · rw [if_neg hN] at hr
      rw [← Option.some.inj hr]
      exact Or.inr ⟨rfl, hN⟩

/-- C5: on a model with at least two columns, `GetCV1` returns a result at every point,
and if the returned `NINF` is 0 then the four consensus vectors `CV0`, `CV1`, `CV2`, `CV3`
are the zero vector of length `n_cols`, the returned `SFD` and `SINF` are 0, and the
returned status is 1 (feasible). -/
theorem C5_GetCV1_feasible_returns_zero (E : Env K) (x : List K) (h2 : 2 ≤ E.NumCols)
    (hx : x.length = E.NumCols) :
    ∃ r, GetCV1 E x = some r ∧
      (r.NINF = 0 →
        r.CV0 = List.replicate E.NumCols 0 ∧ r.CV1 = List.replicate E.NumCols 0 ∧
        r.CV2 = List.replicate E.NumCols 0 ∧ r.CV3 = List.replicate E.NumCols 0 ∧
        r.SFD = 0 ∧ r.SINF = 0 ∧ r.Status = 1) := by
  obtain ⟨r, hr⟩ := GetCV1_isSome E x (by omega)
  refine ⟨r, hr, fun h0 => ?_⟩
  rw [GetCV1_of_NINF_zero E x r hr h0, hx]
  exact ⟨rfl, rfl, rfl, rfl, rfl, rfl, rfl⟩

/-! ### The longest feasibility vector in `CV1` -/

theorem getD_set_eq {α : Type} (l : List α) (i : Nat) (v d : α) (h : i < l.length) :
    (l.set i v).getD i d = v := by
  simp [List.getD_eq_getElem?_getD, List.getElem?_set_self h]

theorem getD_set_ne {α : Type} (l : List α) (i j : Nat) (v d : α) (h : i ≠ j) :
    (l.set i v).getD j d = l.getD j d := by
  simp [List.getD_eq_getElem?_getD, List.getElem?_set_ne h]

theorem incrAt_getD_ne_zero (l : List Nat) (i c : Nat) (h : l.getD c 0 ≠ 0) :
    (incrAt l i).getD c 0 ≠ 0 := by
  unfold incrAt
  by_cases hic : i = c
  · subst hic
    by_cases hl : i < l.length
    · rw [getD_set_eq _ _ _ _ hl]; omega
    · rw [List.set_eq_of_length_le (not_lt.mp hl)]; exact h
  · rw [getD_set_ne _ _ _ _ _ hic]; exact h

theorem length_zeroFirst (n : Nat) (v : List K) : (zeroFirst n v).length = v.length := by
  unfold zeroFirst
  exact length_foldl_set (fun _ _ => (0 : K)) _ _

theorem length_incrAt (l : List Nat) (i : Nat) : (incrAt l i).length = l.length := by
  unfold incrAt; simp

theorem GetCV1_el_fold_frame (E : Env K) (icon : Nat) (v : K) (b1 b2 : Bool) (l : List Nat)
    (acc : CVAcc K) :
    (l.foldl (GetCV1_el E icon v b1 b2) acc).MaxFVLength = acc.MaxFVLength ∧
    (l.foldl (GetCV1_el E icon v b1 b2) acc).NumViol.length = acc.NumViol.length ∧
    (l.foldl (GetCV1_el E icon v b1 b2) acc).FVMaxFVLength.length =
      acc.FVMaxFVLength.length ∧
    (∀ c, acc.NumViol.getD c 0 ≠ 0 →
      (l.foldl (GetCV1_el E icon v b1 b2) acc).NumViol.getD c 0 ≠ 0) ∧
    (b2 = false → (l.foldl (GetCV1_el E icon v b1 b2) acc).FVMaxFVLength =
      acc.FVMaxFVLength) := by
  apply foldl_inv (fun a : CVAcc K =>
    a.MaxFVLength = acc.MaxFVLength ∧ a.NumViol.length = acc.NumViol.length ∧
    a.FVMaxFVLength.length = acc.FVMaxFVLength.length ∧
    (∀ c, acc.NumViol.getD c 0 ≠ 0 → a.NumViol.getD c 0 ≠ 0) ∧
    (b2 = false → a.FVMaxFVLength = acc.FVMaxFVLength))
  · exact ⟨rfl, rfl, rfl, fun _ h => h, fun _ => rfl⟩
  · intro a e _ ha
    obtain ⟨h1, h2, h3, h4, h5⟩ := ha
    unfold GetCV1_el
    dsimp only
    refine ⟨h1, ?_, ?_, ?_, ?_⟩
    · rw [length_incrAt]; exact h2
    · split_ifs
      · rw [List.length_set]; exact h3
      · exact h3
    · intro c hc
      exact incrAt_getD_ne_zero _ _ _ (h4 c hc)
    · intro hb
      rw [if_neg (by rw [hb]; decide)]
      exact h5 hb

theorem GetCV1_el_fold_new_max (E : Env K) (icon : Nat) (v : K) (b1 : Bool) (n : Nat)
    (l : List Nat) (hl : l ≠ [])
    (hel : ∀ e ∈ l, (E.elem e).Col < n ∧
      v * (E.elem e).Value / (E.row icon).GradVecLenSq ≠ 0)
    (acc : CVAcc K) (h1 : acc.FVMaxFVLength.length = n) (h2 : acc.NumViol.length = n) :
    ∃ c, c < n ∧ (l.foldl (GetCV1_el E icon v b1 true) acc).FVMaxFVLength.getD c 0 ≠ 0 ∧
      (l.foldl (GetCV1_el E icon v b1 true) acc).NumViol.getD c 0 ≠ 0 := by
  induction l generalizing acc with
  | nil => exact absurd rfl hl
  | cons e t ih =>
    simp only [List.foldl_cons]
    have he := hel e (List.mem_cons_self e t)
    have hs1 : (GetCV1_el E icon v b1 true acc e).FVMaxFVLength.length = n := by
      unfold GetCV1_el
      dsimp only
      rw [if_pos rfl, List.length_set]; exact h1
    have hs2 : (GetCV1_el E icon v b1 true acc e).NumViol.length = n := by
      unfold GetCV1_el
      dsimp only
      rw [length_incrAt]; exact h2
    by_cases ht : t = []
    · subst ht
      refine ⟨(E.elem e).Col, he.1, ?_, ?_⟩
      · simp only [List.foldl_nil]
        unfold GetCV1_el
        dsimp only
        rw [if_pos rfl, getD_set_eq _ _ _ _ (by rw [h1]; exact he.1)]
        exact he.2
      · simp only [List.foldl_nil]
        unfold GetCV1_el
        dsimp only
        unfold incrAt
        rw [getD_set_eq _ _ _ _ (by rw [h2]; exact he.1)]
        omega
    · exact ih ht (fun e' he' => hel e' (List.mem_cons_of_mem e he')) _ hs1 hs2

theorem GetCV1_con_of_not_counted (E : Env K) (x : List K) (acc : CVAcc K) (i : Nat)
    (hc : ¬ rowCounted E x i) : GetCV1_con E x acc i = acc := by
  unfold GetCV1_con
  by_cases h1 : (GetViolation E i x).FVStatus = 0
  · by_cases h2 : (GetViolation E i x).ViolStatus = 0
    · by_cases h3 : FVLenSq E i (GetViolation E i x).Violation < E.Alpha * E.Alpha
      · simp [h1, h2, h3]
      · exact absurd ⟨h1, h2, not_lt.mp h3⟩ hc
    · have h2p : (GetViolation E i x).ViolStatus > 0 := Nat.pos_of_ne_zero h2
      simp [h1, h2p]
  · have h1p : (GetViolation E i x).FVStatus > 0 := Nat.pos_of_ne_zero h1
    simp [h1p]

/-- The form of one pass of the constraint loop of `GetCV1` on a counted row. -/
theorem GetCV1_con_of_counted (E : Env K) (x : List K) (acc : CVAcc K) (i : Nat)
    (hc : rowCounted E x i) :
    ∃ (b1 : Bool) (acc3 : CVAcc K),
      GetCV1_con E x acc i =
        (E.row i).ElList.foldl
          (GetCV1_el E i (GetViolation E i x).Violation b1
            (decide (E.sqrt (FVLenSq E i (GetViolation E i x).Violation) > acc.MaxFVLength)))
          acc3 ∧
      acc3.NINF = acc.NINF + 1 ∧ acc3.NumViol = acc.NumViol ∧
      acc3.FVMaxFVLength =
        (if E.sqrt (FVLenSq E i (GetViolation E i x).Violation) > acc.MaxFVLength then
          zeroFirst E.NumCols acc.FVMaxFVLength else acc.FVMaxFVLength) := by
  obtain ⟨h1, h2, h3⟩ := hc
  unfold GetCV1_con
  simp only [h1, h2, not_lt.mpr h3, gt_iff_lt, lt_irrefl, if_false]
  by_cases hb1 : acc.MaxViol < |(GetViolation E i x).Violation|
  · by_cases hb2 : acc.MaxFVLength < E.sqrt (FVLenSq E i (GetViolation E i x).Violation)
    · simp only [hb1, hb2, decide_True, if_true]
      exact ⟨true, _, rfl, rfl, rfl, rfl⟩
    · simp only [hb1, hb2, decide_True, decide_False, if_true, if_false, Bool.false_eq_true]
      exact ⟨true, _, rfl, rfl, rfl, rfl⟩
  · by_cases hb2 : acc.MaxFVLength < E.sqrt (FVLenSq E i (GetViolation E i x).Violation)
    · simp only [hb1, hb2, decide_True, decide_False, if_true, if_false, Bool.false_eq_true]
      exact ⟨false, _, rfl, rfl, rfl, rfl⟩
    · simp only [hb1, hb2, decide_False, if_false, Bool.false_eq_true]
      exact ⟨false, _, rfl, rfl, rfl, rfl⟩

theorem counted_facts (E : Env K) (x : List K) (i : Nat) (hA : 0 < E.Alpha)
    (hc : rowCounted E x i) :
    (GetViolation E i x).Violation ≠ 0 ∧ (E.row i).GradVecLenSq ≠ 0 ∧
    (E.row i).ElList ≠ [] := by
  have hpos : 0 < FVLenSq E i (GetViolation E i x).Violation :=
    lt_of_lt_of_le (mul_pos hA hA) hc.2.2
  refine ⟨?_, ?_, ?_⟩
  · intro h0
    rw [FVLenSq_eq, h0] at hpos
    simp at hpos
  · intro h0
    rw [FVLenSq_eq, h0] at hpos
    simp at hpos
  · intro h0
    unfold FVLenSq at hpos
    rw [h0] at hpos
    simp at hpos

theorem GetCV1_con_CVInv (E : Env K) (hs : SqrtSpec E.sqrt) (hA : 0 < E.Alpha)
    (hp : 0 ≤ E.plinfy) (hwf : RowsWellFormed E) (x : List K) (acc : CVAcc K) (i : Nat)
    (hi : i < E.NumRows) (h : CVInv E E.NumCols acc) :
    CVInv E E.NumCols (GetCV1_con E x acc i) := by
  by_cases hc : rowCounted E x i
  · obtain ⟨hv, hg, hne⟩ := counted_facts E x i hA hc
    obtain ⟨b1, acc3, heq, hN, hNV, hFV⟩ := GetCV1_con_of_counted E x acc i hc
    obtain ⟨i1, i2, i3, i4, i5⟩ := h
    have hfr := GetCV1_el_fold_frame E i (GetViolation E i x).Violation b1
      (decide (E.sqrt (FVLenSq E i (GetViolation E i x).Violation) > acc.MaxFVLength))
      (E.row i).ElList acc3
    have hNfold := (GetCV1_el_fold_NINF_SFD E i (GetViolation E i x).Violation b1
      (decide (E.sqrt (FVLenSq E i (GetViolation E i x).Violation) > acc.MaxFVLength))
      (E.row i).ElList acc3).1
    have hlen3 : acc3.FVMaxFVLength.length = E.NumCols := by
      rw [hFV]; split_ifs
      · rw [length_zeroFirst]; exact i1
      · exact i1
    have hsq : E.Alpha ≤ E.sqrt (FVLenSq E i (GetViolation E i x).Violation) :=
      le_sqrt_of_mul_self_le E.sqrt hs _ _ hc.2.2
    rw [heq]
    refine ⟨by rw [hfr.2.2.1]; exact hlen3, by rw [hfr.2.1, hNV]; exact i2,
      by rw [hNfold, hN]; omega, fun h0 => ?_, fun _ => ?_⟩
    · rw [hNfold, hN] at h0; omega
    · by_cases hmax : E.sqrt (FVLenSq E i (GetViolation E i x).Violation) > acc.MaxFVLength
      · have hd : decide (E.sqrt (FVLenSq E i (GetViolation E i x).Violation) >
            acc.MaxFVLength) = true := decide_eq_true hmax
        rw [hd]
        apply GetCV1_el_fold_new_max E i _ b1 E.NumCols _ hne _ acc3 hlen3 (by rw [hNV]; exact i2)
        intro e he
        obtain ⟨hcol, hval⟩ := hwf i hi e he
        exact ⟨hcol, div_ne_zero (mul_ne_zero hv hval) hg⟩
      · have hd : decide (E.sqrt (FVLenSq E i (GetViolation E i x).Violation) >
            acc.MaxFVLength) = false := decide_eq_false hmax
        have hNpos : 0 < acc.NINF := by
          by_contra hn
          have h0 : acc.NINF = 0 := by omega
          rw [i4 h0] at hmax
          exact hmax (by linarith)
        obtain ⟨c, hc1, hc2, hc3⟩ := i5 hNpos
        rw [hd] at hfr ⊢
        refine ⟨c, hc1, ?_, hfr.2.2.2.1 c (by rw [hNV]; exact hc3)⟩
        rw [hfr.2.2.2.2 rfl, hFV, if_neg hmax]
        exact hc2
  · rw [GetCV1_con_of_not_counted E x acc i hc]
    exact h

/-- The variable bound that `GetCV1` counts as violated at `x_j`, if any: the signed
correction `bound - x_j` and its length. -/
theorem GetCV1_bnd_cases (E : Env K) (hA : 0 ≤ E.Alpha) (x : List K) (acc : CVAcc K)
    (j : Nat) :
    GetCV1_bnd E x acc j = acc ∨
    ∃ d : K, E.Alpha < |d| ∧
      (GetCV1_bnd E x acc j).NINF = acc.NINF + 1 ∧
      (GetCV1_bnd E x acc j).NumViol = incrAt acc.NumViol j ∧
      (GetCV1_bnd E x acc j).FVMaxFVLength =
        (if |d| > acc.MaxFVLength then (zeroFirst E.NumCols acc.FVMaxFVLength).set j d
         else acc.FVMaxFVLength) := by
  unfold GetCV1_bnd
  by_cases c1 : x.getD j 0 ≥ (E.col j).BndLo - E.Alpha
  · by_cases c2 : x.getD j 0 ≤ (E.col j).BndUp + E.Alpha
    · left; rw [if_pos c1, if_pos c2]
    · by_cases c3 : x.getD j 0 - (E.col j).BndUp > E.Alpha
      · right
        refine ⟨(E.col j).BndUp - x.getD j 0, ?_, ?_⟩
        · rw [abs_sub_comm]
          exact lt_of_lt_of_le c3 (le_abs_self _)
        · rw [if_pos c1, if_neg c2, if_pos c3]
          dsimp only
          split_ifs <;> exact ⟨rfl, rfl, rfl⟩
      · left; rw [if_pos c1, if_neg c2, if_neg c3]
  · by_cases c3 : (E.col j).BndLo - x.getD j 0 > E.Alpha
    · right
      refine ⟨(E.col j).BndLo - x.getD j 0, lt_of_lt_of_le c3 (le_abs_self _), ?_⟩
      rw [if_neg c1, if_pos c3]
      have habs : |(E.col j).BndLo - x.getD j 0| = (E.col j).BndLo - x.getD j 0 :=
        abs_of_pos (lt_of_le_of_lt hA c3)
      dsimp only
      rw [habs]
      split_ifs <;> exact ⟨rfl, rfl, rfl⟩
    · left; rw [if_neg c1, if_neg c3]

theorem GetCV1_bnd_CVInv (E : Env K) (hA : 0 < E.Alpha) (hp : 0 ≤ E.plinfy) (x : List K)
    (acc : CVAcc K) (j : Nat) (hj : j < E.NumCols) (h : CVInv E E.NumCols acc) :
    CVInv E E.NumCols (GetCV1_bnd E x acc j) := by
  rcases GetCV1_bnd_cases E (le_of_lt hA) x acc j with heq | ⟨d, hd, hN, hNV, hFV⟩
  · rw [heq]; exact h
  · obtain ⟨i1, i2, i3, i4, i5⟩ := h
    have hd0 : d ≠ 0 := by
      intro h0
      rw [h0, abs_zero] at hd
      exact absurd hd (not_lt.mpr (le_of_lt hA))
    refine ⟨?_, by rw [hNV, length_incrAt]; exact i2, by rw [hN]; omega,
      fun h0 => by rw [hN] at h0; omega, fun _ => ?_⟩
    · rw [hFV]
      split_ifs
      · rw [List.length_set, length_zeroFirst]; exact i1
      · exact i1
    · by_cases hmax : |d| > acc.MaxFVLength
      · refine ⟨j, hj, ?_, ?_⟩
        · rw [hFV, if_pos hmax, getD_set_eq _ _ _ _ (by rw [length_zeroFirst, i1]; exact hj)]
          exact hd0
        · rw [hNV]
          unfold incrAt
          rw [getD_set_eq _ _ _ _ (by rw [i2]; exact hj)]
          omega
      · have hNpos : 0 < acc.NINF := by
          by_contra hn
          have h0 : acc.NINF = 0 := by omega
          rw [i4 h0] at hmax
          exact hmax (by linarith)
        obtain ⟨c, hc1, hc2, hc3⟩ := i5 hNpos
        refine ⟨c, hc1, ?_, ?_⟩
        · rw [hFV, if_neg hmax]; exact hc2
        · rw [hNV]; exact incrAt_getD_ne_zero _ _ _ hc3

theorem GetCV1_loops_CVInv (E : Env K) (hs : SqrtSpec E.sqrt) (hA : 0 < E.Alpha)
    (hp : 0 ≤ E.plinfy) (hwf : RowsWellFormed E) (x : List K) (hx : x.length = E.NumCols) :
    CVInv E E.NumCols (GetCV1_loops E x) := by
  unfold GetCV1_loops
  dsimp only
  apply foldl_inv
  · apply foldl_inv
    · refine ⟨by simp [hx], by simp [hx], le_refl _, fun _ => rfl, fun h => ?_⟩
      exact absurd h (lt_irrefl 0)
    · intro a i hi ha
      exact GetCV1_con_CVInv E hs hA hp hwf x a i (List.mem_range.mp hi) ha
  · intro a j hj ha
    exact GetCV1_bnd_CVInv E hA hp x a j (List.mem_range.mp hj) ha

theorem foldl_set_getD {α : Type} (g : Nat → α) (d : α) (n : Nat) (w : List α) (c : Nat)
    (hc : c < n) (hw : c < w.length) :
    ((List.range n).foldl (fun w j => w.set j (g j)) w).getD c d = g c := by
  induction n with
  | zero => exact absurd hc (Nat.not_lt_zero c)
  | succ n ih =>
    rw [List.range_succ, List.foldl_append]
    simp only [List.foldl_cons, List.foldl_nil]
    by_cases hcn : c = n
    · subst hcn
      apply getD_set_eq
      rw [length_foldl_set (fun _ j => g j)]
      exact hw
    · rw [getD_set_ne _ _ _ _ _ (Ne.symm hcn)]
      exact ih (by omega)

/-- The entry of `CV1` that the last loop of `GetCV1` writes for column `j`. -/
theorem GetCV1_fin_CV1 (acc : CVAcc K) (l : List Nat) (f : CVFin K) :
    (l.foldl (GetCV1_fin acc) f).CV1 =
      l.foldl (fun w j => w.set j
        (if acc.NumViol.getD j 0 = 0 then 0
         else if acc.FVMaxFVLength.getD j 0 ≠ 0 then acc.FVMaxFVLength.getD j 0
         else acc.SumViol.getD j 0 / ((acc.NumViol.getD j 0 : Nat) : K))) f.CV1 := by
  induction l generalizing f with
  | nil => rfl
  | cons j t ih =>
    simp only [List.foldl_cons]
    rw [ih]
    congr 1
    unfold GetCV1_fin
    split_ifs <;> rfl

theorem GetCV1_CV1_ne_zero (E : Env K) (hs : SqrtSpec E.sqrt) (hA : 0 < E.Alpha)
    (hp : 0 ≤ E.plinfy) (hwf : RowsWellFormed E) (x : List K) (hx : x.length = E.NumCols)
    (r : CVResult K) (hr : GetCV1 E x = some r) (hne : r.NINF ≠ 0) :
    r.CV1 ≠ List.replicate E.NumCols 0 := by
  obtain ⟨_, _, i3, _, i5⟩ := GetCV1_loops_CVInv E hs hA hp hwf x hx
  unfold GetCV1 at hr
  by_cases hlen : x.length = 1
  · simp [hlen] at hr
  · rw [if_neg hlen] at hr
    dsimp only at hr
    by_cases hN : (GetCV1_loops E x).NINF = 0
    · rw [if_pos hN] at hr
      rw [← Option.some.inj hr] at hne
      exact absurd rfl hne
    · rw [if_neg hN] at hr
      rw [← Option.some.inj hr]
      dsimp only
      obtain ⟨c, hc1, hc2, hc3⟩ := i5 (lt_of_le_of_ne i3 (Ne.symm hN))
      intro hzero
      have hget := congrArg (fun l => l.getD c 0) hzero
      dsimp only at hget
      rw [GetCV1_fin_CV1, foldl_set_getD _ _ _ _ _ hc1 (by simp [hx, hc1]),
        if_neg hc3, if_pos hc2] at hget
      have hrep : (List.replicate E.NumCols (0 : K)).getD c 0 = 0 := by
        simp [List.getD_eq_getElem?_getD, List.getElem?_replicate, hc1]
      rw [hrep] at hget
      exact hc2 hget

/-- C6, as amended: on a well-formed model with at least two columns, `Alpha > 0` and
`plinfy ≥ 0`, `GetCV1` returns four zero consensus vectors if and only if it returns
`NINF = 0`, and status 1 exactly then: whenever `NINF > 0` the vector `CV1`, which
carries the longest feasibility vector, is not the zero vector. Nothing is claimed about
`CV0` being nonzero when `NINF > 0`. -/
theorem C6_zero_vectors_iff_NINF_zero (E : Env K) (x : List K) (h2 : 2 ≤ E.NumCols)
    (hx : x.length = E.NumCols) (hs : SqrtSpec E.sqrt) (hA : 0 < E.Alpha)
    (hp : 0 ≤ E.plinfy) (hwf : RowsWellFormed E) :
    ∃ r, GetCV1 E x = some r ∧
      ((r.CV0 = List.replicate E.NumCols 0 ∧ r.CV1 = List.replicate E.NumCols 0 ∧
        r.CV2 = List.replicate E.NumCols 0 ∧ r.CV3 = List.replicate E.NumCols 0) ↔
        r.NINF = 0) ∧
      (r.NINF ≠ 0 → 0 < r.NINF ∧ r.CV1 ≠ List.replicate E.NumCols 0) ∧
      (r.Status = 1 ↔ r.NINF = 0) := by
  obtain ⟨r, hr⟩ := GetCV1_isSome E x (by omega)
  have hcv1 := GetCV1_CV1_ne_zero E hs hA hp hwf x hx r hr
  refine ⟨r, hr, ⟨fun hz => ?_, fun h0 => ?_⟩, fun hne => ⟨?_, hcv1 hne⟩, ?_⟩
  · by_contra hne
    exact hcv1 hne hz.2.1
  · rw [GetCV1_of_NINF_zero E x r hr h0, hx]
    exact ⟨rfl, rfl, rfl, rfl⟩
  · have hinv := GetSFD_loops_inv E hs x
    rcases lt_trichotomy r.NINF 0 with h | h | h
    · exfalso
      have hsame := GetCV1_loops_same E (le_of_lt hA) x
      unfold GetCV1 at hr
      rw [if_neg (by omega)] at hr
      dsimp only at hr
      split_ifs at hr with hN
      · rw [← Option.some.inj hr] at hne; exact hne rfl
      · rw [← Option.some.inj hr] at h
        dsimp only at h
        rw [hsame.2] at h
        exact absurd hinv.2 (not_le.mpr h)
    · exact absurd h hne
    · exact h
  · rcases GetCV1_Status E x r hr with ⟨h1, h2⟩ | ⟨h1, h2⟩
    · exact ⟨fun _ => h2, fun _ => h1⟩
    · exact ⟨fun h => by rw [h1] at h; exact absurd h (by decide), fun h => absurd h h2⟩

/-! ## Concrete evaluations, witnesses and counterexamples -/

theorem C1_witness :
    (0 < (modelG ℚ sqrtQ).NumRows ∧ 0 ≤ (modelG ℚ sqrtQ).featol ∧
      ((modelG ℚ sqrtQ).row 0).RHSlo ≤ ((modelG ℚ sqrtQ).row 0).RHSup) ∧
    (GetViolation (modelG ℚ sqrtQ) 0 [0, 0]).ViolStatus = 0 ∧
    (GetViolation (modelG ℚ sqrtQ) 0 [0, 0]).Violation = 4 := by
  have h1 : 0 < (modelG ℚ sqrtQ).NumRows := by decide
  have h2 : 0 ≤ (modelG ℚ sqrtQ).featol := by norm_num [modelG]
  have h3 : ((modelG ℚ sqrtQ).row 0).RHSlo ≤ ((modelG ℚ sqrtQ).row 0).RHSup := by
    norm_num [modelG, Env.row]
  have hb : rowBody (modelG ℚ sqrtQ) 0 [0, 0] = 0 := by
    norm_num [rowBody, modelG, Env.row, Env.elem]
  have hlt : rowBody (modelG ℚ sqrtQ) 0 [0, 0] <
      ((modelG ℚ sqrtQ).row 0).RHSlo - (modelG ℚ sqrtQ).featol := by
    rw [hb]; norm_num [modelG, Env.row]
  obtain ⟨_, _, hG, _⟩ := C1_GetViolation_classifies (modelG ℚ sqrtQ) 0 [0, 0] h1 h2 h3
  have hv := (hG rfl).1.mpr hlt
  refine ⟨⟨h1, h2, h3⟩, hv, ?_⟩
  rw [((hG rfl).2 hv).1, hb]
  norm_num [modelG, Env.row]



/-! ### Evaluations on the concrete models -/

theorem sqrtSpec_real : SqrtSpec Real.sqrt :=
  fun y hy => ⟨Real.sqrt_nonneg y, Real.mul_self_sqrt hy⟩

theorem sqrtQ_quarter : sqrtQ (1 / 4) = 1 / 2 := by
  have h : Nat.sqrt 4 = 2 := Nat.sqrt_eq 2
  norm_num [sqrtQ, h]

theorem sqrtQ_zero : sqrtQ 0 = 0 := by
  norm_num [sqrtQ]

theorem abs_half : |(1 / 2 : ℚ)| = 1 / 2 := abs_of_pos (by norm_num)

theorem abs_neg_half : |(-1 / 2 : ℚ)| = 1 / 2 := by
  rw [neg_div, abs_neg]; exact abs_half

theorem modelG_GradStored (sqrt : K → K) : GradStored (modelG K sqrt) := by
  intro icon h
  have h0 : icon = 0 := by
    have : icon < 1 := h
    omega
  subst h0
  norm_num [modelG, Env.row, GradVecLenSqOf, Env.elem]

theorem modelG_BoundsOrdered (sqrt : K → K) : BoundsOrdered (modelG K sqrt) := by
  intro j h
  have h2 : j < 2 := h
  interval_cases j <;> norm_num [modelG, Env.col]

theorem modelG_Alpha_pos (sqrt : K → K) : 0 < (modelG K sqrt).Alpha := by
  norm_num [modelG]

/-- The point `(2, 0)` is feasible for the model of scenario 2. -/
theorem modelG_feasible (sqrt : K → K) : GetSFD (modelG K sqrt) [2, 0] = ⟨1, 0, 0, -1, -1, 0⟩ := by
  have v0 : GetViolation (modelG K sqrt) 0 [2, 0] = ⟨0, 2, 0⟩ := by
    simp +decide [GetViolation, ConBodyValue, violSwitch, modelG, Env.NumRows, Env.row, Env.elem]
    norm_num
  have hr : (modelG K sqrt).NumRows = 1 := rfl
  have hc : (modelG K sqrt).NumCols = 2 := rfl
  have c0 : ∀ acc, GetSFD_con (modelG K sqrt) [2, 0] acc 0 = acc := by
    intro acc
    simp [GetSFD_con, v0]
  have b0 : ∀ acc, GetSFD_bnd (modelG K sqrt) [2, 0] acc 0 = acc := by
    intro acc
    norm_num [GetSFD_bnd, modelG, Env.col]
  have b1 : ∀ acc, GetSFD_bnd (modelG K sqrt) [2, 0] acc 1 = acc := by
    intro acc
    norm_num [GetSFD_bnd, modelG, Env.col]
  have hl : GetSFD_loops (modelG K sqrt) [2, 0] = ⟨0, 0, 0, -1, -1, 0⟩ := by
    have r1 : List.range 1 = [0] := rfl
    have r2 : List.range 2 = [0, 1] := rfl
    rw [GetSFD_loops, hr, hc, r1, r2]
    simp only [List.foldl, c0, b0, b1]
  simp [GetSFD, hl]

theorem initState_IncumbentSFD_pos (E : Env K) : 0 < (initState E).IncumbentSFD := by
  unfold initState
  dsimp only
  exact sub_pos.mpr (pow_lt_pow_right₀ (by norm_num) (by norm_num))

/-- C9, counterexample: at the feasible base point `(2, 0)` of the model of scenario 2,
`Project` returns status 1 with that point and leaves the package state as it was:
`IncumbentPt` is still `(0, 0)`, not the returned point, `IncumbentSFD` is still positive
and `IncumbentNINF` is still `MaxInt32`. -/
theorem C9_counterexample :
    (Project (modelG ℚ sqrtQ) (initState (modelG ℚ sqrtQ)) [2, 0] [1, 1]).Status = 1 ∧
    (Project (modelG ℚ sqrtQ) (initState (modelG ℚ sqrtQ)) [2, 0] [1, 1]).PointOut = [2, 0] ∧
    (Project (modelG ℚ sqrtQ) (initState (modelG ℚ sqrtQ)) [2, 0] [1, 1]).state =
      initState (modelG ℚ sqrtQ) ∧
    (Project (modelG ℚ sqrtQ) (initState (modelG ℚ sqrtQ)) [2, 0] [1, 1]).state.IncumbentPt
      = [0, 0] ∧
    (Project (modelG ℚ sqrtQ) (initState (modelG ℚ sqrtQ)) [2, 0] [1, 1]).state.IncumbentPt
      ≠ (Project (modelG ℚ sqrtQ) (initState (modelG ℚ sqrtQ)) [2, 0] [1, 1]).PointOut ∧
    0 < (Project (modelG ℚ sqrtQ) (initState (modelG ℚ sqrtQ)) [2, 0] [1, 1]).state.IncumbentSFD ∧
    (Project (modelG ℚ sqrtQ) (initState (modelG ℚ sqrtQ)) [2, 0] [1, 1]).state.IncumbentNINF
      = 2147483647 := by
  have h : Project (modelG ℚ sqrtQ) (initState (modelG ℚ sqrtQ)) [2, 0] [1, 1] =
      ⟨1, [2, 0], initState (modelG ℚ sqrtQ)⟩ := by
    unfold Project
    simp [modelG_feasible]
  rw [h]
  refine ⟨rfl, rfl, rfl, rfl, ?_, initState_IncumbentSFD_pos _, rfl⟩
  show ([0, 0] : List ℚ) ≠ [2, 0]
  simp

theorem C5_witness :
    (2 ≤ (modelG ℚ sqrtQ).NumCols ∧ ([2, 0] : List ℚ).length = (modelG ℚ sqrtQ).NumCols) ∧
    ∃ r, GetCV1 (modelG ℚ sqrtQ) [2, 0] = some r ∧
      (r.NINF = 0 →
        r.CV0 = List.replicate (modelG ℚ sqrtQ).NumCols 0 ∧
        r.CV1 = List.replicate (modelG ℚ sqrtQ).NumCols 0 ∧
        r.CV2 = List.replicate (modelG ℚ sqrtQ).NumCols 0 ∧
        r.CV3 = List.replicate (modelG ℚ sqrtQ).NumCols 0 ∧
        r.SFD = 0 ∧ r.SINF = 0 ∧ r.Status = 1) :=
  ⟨⟨by decide, rfl⟩,
    C5_GetCV1_feasible_returns_zero (modelG ℚ sqrtQ) [2, 0] (by decide) rfl⟩

theorem modelG_RowsWellFormed (sqrt : K → K) : RowsWellFormed (modelG K sqrt) := by
  intro i hi e he
  have h0 : i = 0 := by
    have : i < 1 := hi
    omega
  subst h0
  have he2 : e = 0 ∨ e = 1 := by
    simpa [modelG, Env.row] using he
  rcases he2 with h | h <;> subst h <;> norm_num [modelG, Env.elem, Env.NumCols]

theorem modelG_plinfy_nonneg (sqrt : K → K) : 0 ≤ (modelG K sqrt).plinfy := by
  norm_num [modelG]

/-- The origin is not feasible for the model of scenario 2: its row is counted. -/
theorem modelG_origin_infeasible (sqrt : K → K) :
    (GetSFD (modelG K sqrt) [0, 0]).Status = 0 := by
  have v0 : GetViolation (modelG K sqrt) 0 [0, 0] = ⟨0, 0, 4⟩ := by
    simp +decide [GetViolation, ConBodyValue, violSwitch, modelG, Env.NumRows, Env.row, Env.elem]
    norm_num
  have hc : rowCounted (modelG K sqrt) [0, 0] 0 := by
    unfold rowCounted
    rw [v0]
    refine ⟨rfl, rfl, ?_⟩
    norm_num [FVLenSq, modelG, Env.row, Env.elem]
  have hN := GetSFD_loops_NINF (modelG K sqrt) [0, 0] (le_of_lt (modelG_Alpha_pos sqrt))
    (modelG_BoundsOrdered sqrt)
  have hmem : 0 ∈ countedRows (modelG K sqrt) [0, 0] :=
    (mem_countedRows _ _ _).mpr ⟨Nat.one_pos, hc⟩
  have hpos : 0 < (countedRows (modelG K sqrt) [0, 0]).length := List.length_pos_of_mem hmem
  rcases GetSFD_Status (modelG K sqrt) [0, 0] with ⟨h, _⟩ | ⟨_, _, h⟩
  · exact h
  · rw [GetSFD_NINF, hN] at h
    omega

/-- From the origin with the update `(2, 0)`, `Project` finds the feasible point `(2, 0)`
at its second test and sets the incumbent. -/
theorem modelG_Project_origin (sqrt : K → K) (s : State K) :
    Project (modelG K sqrt) s [0, 0] [2, 0] = ⟨1, [2, 0], setFeasibleIncumbent s [2, 0]⟩ := by
  have hP : Project_Pt1 (modelG K sqrt) [0, 0] [2, 0] = [2, 0] := by
    have hc : (modelG K sqrt).NumCols = 2 := rfl
    have r2 : List.range 2 = [0, 1] := rfl
    simp [Project_Pt1, hc, r2]
  unfold Project
  simp [modelG_origin_infeasible, hP, modelG_feasible]

theorem C6_witness :
    (2 ≤ (modelG ℝ Real.sqrt).NumCols ∧
      ([0, 0] : List ℝ).length = (modelG ℝ Real.sqrt).NumCols ∧
      SqrtSpec (modelG ℝ Real.sqrt).sqrt ∧ 0 < (modelG ℝ Real.sqrt).Alpha ∧
      0 ≤ (modelG ℝ Real.sqrt).plinfy ∧ RowsWellFormed (modelG ℝ Real.sqrt)) ∧
    ∃ r, GetCV1 (modelG ℝ Real.sqrt) [0, 0] = some r ∧
      ((r.CV0 = List.replicate (modelG ℝ Real.sqrt).NumCols 0 ∧
        r.CV1 = List.replicate (modelG ℝ Real.sqrt).NumCols 0 ∧
        r.CV2 = List.replicate (modelG ℝ Real.sqrt).NumCols 0 ∧
        r.CV3 = List.replicate (modelG ℝ Real.sqrt).NumCols 0) ↔ r.NINF = 0) ∧
      (r.NINF ≠ 0 → 0 < r.NINF ∧ r.CV1 ≠ List.replicate (modelG ℝ Real.sqrt).NumCols 0) ∧
      (r.Status = 1 ↔ r.NINF = 0) :=
  ⟨⟨by decide, rfl, sqrtSpec_real, modelG_Alpha_pos Real.sqrt, modelG_plinfy_nonneg Real.sqrt,
      modelG_RowsWellFormed Real.sqrt⟩,
    C6_zero_vectors_iff_NINF_zero (modelG ℝ Real.sqrt) [0, 0] (by decide) rfl sqrtSpec_real
      (modelG_Alpha_pos Real.sqrt) (modelG_plinfy_nonneg Real.sqrt)
      (modelG_RowsWellFormed Real.sqrt)⟩

theorem C8_witness :
    (SqrtSpec (modelG ℝ Real.sqrt).sqrt ∧ 0 ≤ (modelG ℝ Real.sqrt).Alpha ∧
      ([0, 0] : List ℝ).length = (modelG ℝ Real.sqrt).NumCols ∧
      ([2, 0] : List ℝ).length = (modelG ℝ Real.sqrt).NumCols ∧
      (Project (modelG ℝ Real.sqrt) (initState (modelG ℝ Real.sqrt)) [0, 0] [2, 0]).Status ≠ 2) ∧
    (Project (modelG ℝ Real.sqrt) (initState (modelG ℝ Real.sqrt)) [0, 0] [2, 0]).Status = 1 ∧
    (GetSFD (modelG ℝ Real.sqrt)
        (Project (modelG ℝ Real.sqrt) (initState (modelG ℝ Real.sqrt)) [0, 0] [2, 0]).PointOut).SFDout ≤
      min (GetSFD (modelG ℝ Real.sqrt) (List.zipWith (· + ·) [0, 0] [2, 0])).SFDout
        (GetSFD (modelG ℝ Real.sqrt) [0, 0]).SFDout := by
  have hst : (Project (modelG ℝ Real.sqrt) (initState (modelG ℝ Real.sqrt)) [0, 0] [2, 0]).Status
      = 1 := by
    rw [modelG_Project_origin]
  have hne : (Project (modelG ℝ Real.sqrt) (initState (modelG ℝ Real.sqrt)) [0, 0] [2, 0]).Status
      ≠ 2 := by
    rw [hst]; decide
  exact ⟨⟨sqrtSpec_real, le_of_lt (modelG_Alpha_pos Real.sqrt), rfl, rfl, hne⟩, hst,
    (C8_Project_never_worse (modelG ℝ Real.sqrt) (initState (modelG ℝ Real.sqrt)) [0, 0] [2, 0]
      sqrtSpec_real (le_of_lt (modelG_Alpha_pos Real.sqrt)) rfl rfl hne).2⟩

theorem C10_witness :
    ([1, 1] : List ℚ).length = (initState (modelG ℚ sqrtQ)).IncumbentPt.length ∧
    (UpdateIncumbentSFD (initState (modelG ℚ sqrtQ)) [1, 1] 1 1 0).2.IncumbentPt = [1, 1] ∧
    (UpdateIncumbentSFD (initState (modelG ℚ sqrtQ)) [1, 1] 1 1 0).2.IncumbentSFD = 1 ∧
    (UpdateIncumbentSFD (initState (modelG ℚ sqrtQ)) [1, 1] 1 1 0).1 = 0 := by
  have h := (C10_UpdateIncumbentSFD_order (initState (modelG ℚ sqrtQ)) [1, 1] 1 1 0 rfl).1
    (Or.inl (by norm_num [initState]))
  exact ⟨rfl, h.1, h.2.1, by rw [h.2.2.2.2]; rfl⟩

/-! ### The clash model at the point `(3/2, 1)` -/

theorem clash_v0 : GetViolation (modelClash ℚ sqrtQ) 0 [3 / 2, 1] = ⟨0, 0, 1 / 2⟩ := by
  simp +decide [GetViolation, ConBodyValue, violSwitch, modelClash, Env.NumRows, Env.row,
    Env.elem]
  norm_num

theorem clash_v1 : GetViolation (modelClash ℚ sqrtQ) 1 [3 / 2, 1] = ⟨0, 0, -1 / 2⟩ := by
  simp +decide [GetViolation, ConBodyValue, violSwitch, modelClash, Env.NumRows, Env.row,
    Env.elem]
  norm_num

theorem clash_v2 : GetViolation (modelClash ℚ sqrtQ) 2 [3 / 2, 1] = ⟨0, 1, 0⟩ := by
  simp +decide [GetViolation, ConBodyValue, violSwitch, modelClash, Env.NumRows, Env.row,
    Env.elem]
  norm_num

theorem clash_con0 :
    GetCV1_con (modelClash ℚ sqrtQ) [3 / 2, 1]
      ⟨0, 0, 0, -10000000000, -10000000000, [0, 0], [0, 0], [0, 0], [0, 0], [0, 0], [0, 0]⟩ 0 =
      ⟨1, 1 / 2, 1 / 2, 1 / 2, 1 / 2, [1, 0], [1 / 2, 0], [1 / 4, 0], [1 / 2, 0], [1 / 2, 0],
        [1 / 2, 0]⟩ := by
  have f0 : FVLenSq (modelClash ℚ sqrtQ) 0 (1 / 2) = 1 / 4 := by
    norm_num [FVLenSq, modelClash, Env.row, Env.elem]
  have hA : (modelClash ℚ sqrtQ).Alpha = 1 / 1000000 := rfl
  have hsq : (modelClash ℚ sqrtQ).sqrt = sqrtQ := rfl
  have hc : (modelClash ℚ sqrtQ).NumCols = 2 := rfl
  have hel : ((modelClash ℚ sqrtQ).row 0).ElList = [0] := rfl
  have he0 : (modelClash ℚ sqrtQ).elem 0 = ⟨0, 0, 1⟩ := rfl
  have hg : ((modelClash ℚ sqrtQ).row 0).GradVecLenSq = 1 := rfl
  simp only [GetCV1_con, clash_v0, abs_half, f0, hA, hsq, sqrtQ_quarter, hc, hel, List.foldl,
    GetCV1_el, he0, hg, zeroFirst, List.range, List.range.loop, incrAt, addAt]
  norm_num

theorem clash_con1 :
    GetCV1_con (modelClash ℚ sqrtQ) [3 / 2, 1]
      ⟨1, 1 / 2, 1 / 2, 1 / 2, 1 / 2, [1, 0], [1 / 2, 0], [1 / 4, 0], [1 / 2, 0], [1 / 2, 0],
        [1 / 2, 0]⟩ 1 =
      ⟨2, 1, 1, 1 / 2, 1 / 2, [2, 0], [0, 0], [0, 0], [1, 0], [1 / 2, 0], [1 / 2, 0]⟩ := by
  have f0 : FVLenSq (modelClash ℚ sqrtQ) 1 (-1 / 2) = 1 / 4 := by
    norm_num [FVLenSq, modelClash, Env.row, Env.elem]
  have hA : (modelClash ℚ sqrtQ).Alpha = 1 / 1000000 := rfl
  have hsq : (modelClash ℚ sqrtQ).sqrt = sqrtQ := rfl
  have hc : (modelClash ℚ sqrtQ).NumCols = 2 := rfl
  have hel : ((modelClash ℚ sqrtQ).row 1).ElList = [1] := rfl
  have he0 : (modelClash ℚ sqrtQ).elem 1 = ⟨1, 0, 1⟩ := rfl
  have hg : ((modelClash ℚ sqrtQ).row 1).GradVecLenSq = 1 := rfl
  simp only [GetCV1_con, clash_v1, abs_neg_half, f0, hA, hsq, sqrtQ_quarter, hc, hel,
    List.foldl, GetCV1_el, he0, hg, zeroFirst, List.range, List.range.loop, incrAt, addAt]
  norm_num

theorem clash_con2 (acc : CVAcc ℚ) :
    GetCV1_con (modelClash ℚ sqrtQ) [3 / 2, 1] acc 2 = acc := by
  simp [GetCV1_con, clash_v2]

theorem clash_bnd0 (acc : CVAcc ℚ) :
    GetCV1_bnd (modelClash ℚ sqrtQ) [3 / 2, 1] acc 0 = acc := by
  norm_num [GetCV1_bnd, modelClash, Env.col]

theorem clash_bnd1 (acc : CVAcc ℚ) :
    GetCV1_bnd (modelClash ℚ sqrtQ) [3 / 2, 1] acc 1 = acc := by
  norm_num [GetCV1_bnd, modelClash, Env.col]

theorem clash_loops :
    GetCV1_loops (modelClash ℚ sqrtQ) [3 / 2, 1] =
      ⟨2, 1, 1, 1 / 2, 1 / 2, [2, 0], [0, 0], [0, 0], [1, 0], [1 / 2, 0], [1 / 2, 0]⟩ := by
  have hr : (modelClash ℚ sqrtQ).NumRows = 3 := rfl
  have hc : (modelClash ℚ sqrtQ).NumCols = 2 := rfl
  have hp : (modelClash ℚ sqrtQ).plinfy = 10000000000 := rfl
  have r3 : List.range 3 = [0, 1, 2] := rfl
  have r2 : List.range 2 = [0, 1] := rfl
  have hz : List.replicate ([3 / 2, 1] : List ℚ).length (0 : ℚ) = [0, 0] := rfl
  have hzn : List.replicate ([3 / 2, 1] : List ℚ).length (0 : ℕ) = [0, 0] := rfl
  rw [GetCV1_loops, hr, hc, hp, r3, r2]
  simp only [hz, hzn, List.foldl, clash_con0, clash_con1, clash_con2, clash_bnd0, clash_bnd1]

theorem clash_GetCV1 :
    GetCV1 (modelClash ℚ sqrtQ) [3 / 2, 1] =
      some ⟨0, [0, 0], [1 / 2, 0], [0, 0], [0, 0], true, false, true, true, 1, 1, 2⟩ := by
  have hc : (modelClash ℚ sqrtQ).NumCols = 2 := rfl
  have hsq : (modelClash ℚ sqrtQ).sqrt = sqrtQ := rfl
  have hB : (modelClash ℚ sqrtQ).Beta = 1 / 10000 := rfl
  have r2 : List.range 2 = [0, 1] := rfl
  have hz : List.replicate ([3 / 2, 1] : List ℚ).length (0 : ℚ) = [0, 0] := rfl
  have hlen : ([3 / 2, 1] : List ℚ).length ≠ 1 := by decide
  rw [GetCV1, if_neg hlen]
  simp only [clash_loops, hc, hsq, hB, r2, hz, List.foldl, GetCV1_fin]
  norm_num [sqrtQ_quarter, sqrtQ_zero]

/-- C6, counterexample: on the clash model (rows `x1 ≥ 2`, `x1 ≤ 1`, `x2 ≥ 0`) at the
point `(3/2, 1)` two rows are counted violated (`NINF = 2 > 0`) and their feasibility
vectors cancel: `CV0` is the zero vector, and so are `CV2` and `CV3`. -/
theorem C6_counterexample :
    ∃ r, GetCV1 (modelClash ℚ sqrtQ) [3 / 2, 1] = some r ∧ r.NINF = 2 ∧ 0 < r.NINF ∧
      r.CV0 = [0, 0] ∧ r.CV2 = [0, 0] ∧ r.CV3 = [0, 0] :=
  ⟨_, clash_GetCV1, rfl, by decide, rfl, rfl, rfl⟩


/-- The point `(0, 0)` is feasible for `modelL`. -/
theorem modelL_feasible (sqrt : K → K) : GetSFD (modelL K sqrt) [0, 0] = ⟨1, 0, 0, -1, -1, 0⟩ := by
  have v0 : GetViolation (modelL K sqrt) 0 [0, 0] = ⟨0, 1, 0⟩ := by
    simp +decide [GetViolation, ConBodyValue, violSwitch, modelL, Env.NumRows, Env.row, Env.elem]
    norm_num
  have hr : (modelL K sqrt).NumRows = 1 := rfl
  have hc : (modelL K sqrt).NumCols = 2 := rfl
  have c0 : ∀ acc, GetSFD_con (modelL K sqrt) [0, 0] acc 0 = acc := by
    intro acc
    simp [GetSFD_con, v0]
  have b0 : ∀ acc, GetSFD_bnd (modelL K sqrt) [0, 0] acc 0 = acc := by
    intro acc
    norm_num [GetSFD_bnd, modelL, Env.col]
  have b1 : ∀ acc, GetSFD_bnd (modelL K sqrt) [0, 0] acc 1 = acc := by
    intro acc
    norm_num [GetSFD_bnd, modelL, Env.col]
  have hl : GetSFD_loops (modelL K sqrt) [0, 0] = ⟨0, 0, 0, -1, -1, 0⟩ := by
    have r1 : List.range 1 = [0] := rfl
    have r2 : List.range 2 = [0, 1] := rfl
    rw [GetSFD_loops, hr, hc, r1, r2]
    simp only [List.foldl, c0, b0, b1]
  simp [GetSFD, hl]

theorem modelL_Solve_env :
    Solve_env (modelL ℚ sqrtQ) (1 / 1000000) (1 / 10000) 50 10000000000 (1 / 1000000) =
      modelL ℚ sqrtQ := rfl

theorem modelL_samplePoint :
    samplePoint (modelL ℚ sqrtQ) (initBox (modelL ℚ sqrtQ) (initState (modelL ℚ sqrtQ)))
      (fun _ => 0) = [0, 0] := by
  have hc : (modelL ℚ sqrtQ).NumCols = 2 := rfl
  have r2 : List.range 2 = [0, 1] := rfl
  simp only [samplePoint, initBox, hc, r2]
  norm_num [modelL, Env.col]

/-- C7 on the model of scenario 1 with draws 0: round 0 samples the origin, which is
feasible, and `Solve` returns it with status 0. -/
theorem C7_witness :
    ∃ res, Solve (modelL ℚ sqrtQ) (1 / 1000000) (1 / 10000) 50 8 10000000000 (1 / 1000000)
        (fun _ _ _ => 0) (fun _ x => x) = some res ∧
      res.Status = 0 ∧
      (GetSFD (Solve_env (modelL ℚ sqrtQ) (1 / 1000000) (1 / 10000) 50 10000000000
        (1 / 1000000)) res.PointOut).NINF = 0 := by
  obtain ⟨res, hres, h0⟩ := Solve_status_zero_of_feasible_samples (modelL ℚ sqrtQ)
    (1 / 1000000) (1 / 10000) 50 8 10000000000 (1 / 1000000) (fun _ _ _ => 0) (fun _ x => x)
    (by
      intro i
      rw [modelL_Solve_env, modelL_samplePoint, modelL_feasible])
  exact ⟨res, hres, h0, (C7_Solve_success_is_feasible (modelL ℚ sqrtQ) (1 / 1000000)
    (1 / 10000) 50 8 10000000000 (1 / 1000000) (fun _ _ _ => 0) (fun _ x => x) res hres h0).1⟩

/-! ### The incumbent ordered by `NINF` -/

/-- C11: `UpdateIncumbentSFDforNINF` accepts a candidate (status other than 2) exactly
when `NINF < IncumbentNINF`, or `NINF = IncumbentNINF` and `SFD ≤ IncumbentSFD`: the test
on `SFD` is not strict. So a candidate that equals the incumbent in both measures is
accepted: the status is not 2, `TotUpdates` is incremented and `IncumbentPt` is
overwritten by the candidate. -/
theorem C11_equal_candidate_replaces (s : State K) (PointIn : List K) (SFDin : K)
    (NINFin : Int) (UpdatedBy : Int) :
    ((UpdateIncumbentSFDforNINF s PointIn SFDin NINFin UpdatedBy).1 ≠ 2 ↔
      (NINFin < s.IncumbentNINF ∨ (NINFin = s.IncumbentNINF ∧ SFDin ≤ s.IncumbentSFD))) ∧
    (UpdateIncumbentSFDforNINF s PointIn s.IncumbentSFD s.IncumbentNINF UpdatedBy).1 ≠ 2 ∧
    (UpdateIncumbentSFDforNINF s PointIn s.IncumbentSFD s.IncumbentNINF UpdatedBy).2.TotUpdates =
      s.TotUpdates + 1 ∧
    (UpdateIncumbentSFDforNINF s PointIn s.IncumbentSFD s.IncumbentNINF UpdatedBy).2.IncumbentPt =
      copy s.IncumbentPt PointIn := by
  have key : ∀ (S : K) (N : Int), ¬ N > s.IncumbentNINF →
      ¬ (N = s.IncumbentNINF ∧ S > s.IncumbentSFD) →
      (UpdateIncumbentSFDforNINF s PointIn S N UpdatedBy).1 ≠ 2 ∧
      (UpdateIncumbentSFDforNINF s PointIn S N UpdatedBy).2.TotUpdates = s.TotUpdates + 1 ∧
      (UpdateIncumbentSFDforNINF s PointIn S N UpdatedBy).2.IncumbentPt =
        copy s.IncumbentPt PointIn := by
    intro S N h1 h2
    unfold UpdateIncumbentSFDforNINF
    rw [if_neg h1, if_neg h2]
    dsimp only
    refine ⟨?_, ?_, ?_⟩
    · split_ifs <;> decide
    · split_ifs <;> rfl
    · split_ifs <;> rfl
  refine ⟨⟨fun h => ?_, fun h => ?_⟩, ?_⟩
  · by_contra hn
    rw [not_or, not_and_or] at hn
    apply h
    unfold UpdateIncumbentSFDforNINF
    by_cases h1 : NINFin > s.IncumbentNINF
    · rw [if_pos h1]
    · rw [if_neg h1]
      have heq : NINFin = s.IncumbentNINF := by omega
      have hgt : SFDin > s.IncumbentSFD := by
        rcases hn.2 with h3 | h3
        · exact absurd heq h3
        · exact not_le.mp h3
      rw [if_pos ⟨heq, hgt⟩]
  · apply (key SFDin NINFin _ _).1
    · rcases h with h | h <;> omega
    · rintro ⟨h1, h2⟩
      rcases h with h | h
      · omega
      · exact absurd h.2 (not_le.mpr h2)
  · exact key _ _ (lt_irrefl _) (fun h => lt_irrefl _ h.2)

/-! ### The boundary rule of `GetViolation` -/

/-- Where the boundary rule of `GetViolation` holds: a G row within `featol` of `rhs_lo`,
an L row within `featol` of `rhs_up`, and an E or R row within `featol` of one of its
sides and strictly between `rhs_lo - featol` and `rhs_up + featol`, are reported tight. -/
theorem GetViolation_tight_of_within (E : Env K) (icon : Nat) (x : List K)
    (hin : icon < E.NumRows) :
    ((E.row icon).Typ = "G" → |rowBody E icon x - (E.row icon).RHSlo| ≤ E.featol →
      (GetViolation E icon x).ViolStatus = 2) ∧
    ((E.row icon).Typ = "L" → |rowBody E icon x - (E.row icon).RHSup| ≤ E.featol →
      (GetViolation E icon x).ViolStatus = 2) ∧
    ((E.row icon).Typ = "E" ∨ (E.row icon).Typ = "R" →
      (|rowBody E icon x - (E.row icon).RHSlo| ≤ E.featol ∨
        |rowBody E icon x - (E.row icon).RHSup| ≤ E.featol) →
      (E.row icon).RHSlo - E.featol < rowBody E icon x →
      rowBody E icon x < (E.row icon).RHSup + E.featol →
      (GetViolation E icon x).ViolStatus = 2) := by
  rw [GetViolation_eq E icon x hin]
  refine ⟨?_, ?_, ?_⟩
  · intro hG ha
    have h1 := abs_le.mp ha
    have hb : rowBody E icon x ≥ (E.row icon).RHSlo - E.featol := by linarith [h1.1]
    have ht : rowBody E icon x - (E.row icon).RHSlo ≤ E.featol := h1.2
    simp [hG, violSwitch, hb, ht]
  · intro hL ha
    have h1 := abs_le.mp ha
    have hb : rowBody E icon x ≤ (E.row icon).RHSup + E.featol := by linarith [h1.2]
    have ht : (E.row icon).RHSup - rowBody E icon x ≤ E.featol := by linarith [h1.1]
    simp [hL, violSwitch, hb, ht]
  · intro hER ha hlo hup
    have hN : (E.row icon).Typ ≠ "N" := by rcases hER with h | h <;> rw [h] <;> decide
    have hG : (E.row icon).Typ ≠ "G" := by rcases hER with h | h <;> rw [h] <;> decide
    have hL : (E.row icon).Typ ≠ "L" := by rcases hER with h | h <;> rw [h] <;> decide
    have h1 : ¬ rowBody E icon x ≤ (E.row icon).RHSlo - E.featol := not_le.mpr hlo
    have h2 : ¬ rowBody E icon x ≥ (E.row icon).RHSup + E.featol := not_le.mpr hup
    simp only [hN, hG, hL, if_false, violSwitch, hER, if_true, h1, h2, ha]
    split_ifs with h3 h4 h5
    · rfl
    · exact absurd (by decide : (2 : Nat) ≥ 1) h4
    · rfl
    · exact absurd (by decide : (2 : Nat) ≥ 1) h5

/-- C18: on an E or R row whose body is exactly `rhs_lo - featol` (with `featol ≥ 0`), the
body is within `featol` of `rhs_lo`, and yet `GetViolation` reports the row violated
(`ViolStatus = 0`) with violation `featol`: the test `BodyVal <= RHSlo-featol` of the E/R
branch is not strict, while the G branch treats the same body as satisfied and tight. -/
theorem C18_ER_boundary_reported_violated (E : Env K) (icon : Nat) (x : List K)
    (hin : icon < E.NumRows) (hER : (E.row icon).Typ = "E" ∨ (E.row icon).Typ = "R")
    (hf : 0 ≤ E.featol) (hb : rowBody E icon x = (E.row icon).RHSlo - E.featol) :
    |rowBody E icon x - (E.row icon).RHSlo| ≤ E.featol ∧
    GetViolation E icon x = ⟨0, 0, E.featol⟩ := by
  constructor
  · rw [hb, sub_sub_cancel_left, abs_neg, abs_of_nonneg hf]
  · rw [GetViolation_eq E icon x hin]
    have hN : (E.row icon).Typ ≠ "N" := by rcases hER with h | h <;> rw [h] <;> decide
    have hG : (E.row icon).Typ ≠ "G" := by rcases hER with h | h <;> rw [h] <;> decide
    have hL : (E.row icon).Typ ≠ "L" := by rcases hER with h | h <;> rw [h] <;> decide
    have h1 : rowBody E icon x ≤ (E.row icon).RHSlo - E.featol := le_of_eq hb
    simp only [hN, hG, hL, if_false, violSwitch, hER, if_true, h1]
    simp [hb]

theorem C18_witness :
    |rowBody (modelE ℚ sqrtQ) 0 [3999999 / 1000000, 0] - ((modelE ℚ sqrtQ).row 0).RHSlo| ≤
      (modelE ℚ sqrtQ).featol ∧
    GetViolation (modelE ℚ sqrtQ) 0 [3999999 / 1000000, 0] = ⟨0, 0, (modelE ℚ sqrtQ).featol⟩ :=
  C18_ER_boundary_reported_violated (modelE ℚ sqrtQ) 0 [3999999 / 1000000, 0] Nat.one_pos
    (Or.inl rfl) (by norm_num [modelE])
    (by norm_num [rowBody, modelE, Env.row, Env.elem])

/-! ### The row step of `CCSeqImpact` -/

theorem length_addAt (w : List K) (i : Nat) (d : K) : (addAt w i d).length = w.length := by
  unfold addAt; simp

theorem addAt_getD (w : List K) (i c : Nat) (d : K) (hc : c < w.length) :
    (addAt w i d).getD c 0 = w.getD c 0 + (if i = c then d else 0) := by
  unfold addAt
  by_cases hic : i = c
  · subst hic
    rw [getD_set_eq _ _ _ _ hc, if_pos rfl]
  · rw [getD_set_ne _ _ _ _ _ hic, if_neg hic, add_zero]

/-- The entry in column `c` after a loop of updates `w[col e] = w[col e] + d e`. -/
theorem foldl_addAt_getD {α : Type} (col : α → Nat) (d : α → K) (l : List α) (w : List K)
    (c : Nat) (hc : c < w.length) :
    (l.foldl (fun w e => addAt w (col e) (d e)) w).getD c 0 =
      w.getD c 0 + ((l.filter (fun e => decide (col e = c))).map d).sum := by
  induction l generalizing w with
  | nil => simp
  | cons a t ih =>
    simp only [List.foldl_cons]
    rw [ih (addAt w (col a) (d a)) (by rw [length_addAt]; exact hc), addAt_getD _ _ _ _ hc]
    by_cases hac : col a = c
    · simp [List.filter_cons, hac, add_assoc]
    · simp [List.filter_cons, hac]

theorem length_foldl_addAt {α : Type} (col : α → Nat) (d : α → K) (l : List α) (w : List K) :
    (l.foldl (fun w e => addAt w (col e) (d e)) w).length = w.length := by
  induction l generalizing w with
  | nil => rfl
  | cons a t ih => simp only [List.foldl_cons]; rw [ih, length_addAt]

/-- In a list whose columns are pairwise distinct, the entries in the column of `e` are
`e` alone. -/
theorem sum_filter_col_eq {α : Type} (col : α → Nat) (f : α → K) (l : List α)
    (hd : (l.map col).Nodup) (e : α) (he : e ∈ l) :
    ((l.filter (fun a => decide (col a = col e))).map f).sum = f e := by
  induction l with
  | nil => exact absurd he (List.not_mem_nil e)
  | cons a t ih =>
    rw [List.map_cons, List.nodup_cons] at hd
    rcases List.mem_cons.mp he with h | h
    · subst h
      have hnone : t.filter (fun a => decide (col a = col e)) = [] := by
        rw [List.filter_eq_nil_iff]
        intro b hb hcb
        exact hd.1 (by rw [← of_decide_eq_true hcb]; exact List.mem_map_of_mem col hb)
      simp [List.filter_cons, hnone]
    · have hne : col a ≠ col e := by
        intro hae
        exact hd.1 (by rw [hae]; exact List.mem_map_of_mem col h)
      simp only [List.filter_cons, hne, decide_False, Bool.false_eq_true, if_false]
      exact ih hd.2 h

/-- The step of `CCSeqImpact` for a row moves the body of that row by the violation. -/
theorem rowBody_CCSeqImpact_step (E : Env K) (icon : Nat) (x : List K) (v : K)
    (hd : ((E.row icon).ElList.map (fun e => (E.elem e).Col)).Nodup)
    (hcol : ∀ e ∈ (E.row icon).ElList, (E.elem e).Col < x.length)
    (hg : (E.row icon).GradVecLenSq = GradVecLenSqOf E icon)
    (hpos : 0 < (E.row icon).GradVecLenSq) :
    (∀ e ∈ (E.row icon).ElList,
      (CCSeqImpact_step E icon v x).getD (E.elem e).Col 0 =
        x.getD (E.elem e).Col 0 + v * (E.elem e).Value / (E.row icon).GradVecLenSq) ∧
    rowBody E icon (CCSeqImpact_step E icon v x) = rowBody E icon x + v := by
  have hpt : ∀ e ∈ (E.row icon).ElList,
      (CCSeqImpact_step E icon v x).getD (E.elem e).Col 0 =
        x.getD (E.elem e).Col 0 + v * (E.elem e).Value / (E.row icon).GradVecLenSq := by
    intro e he
    unfold CCSeqImpact_step
    rw [foldl_addAt_getD (fun e => (E.elem e).Col)
      (fun e => v * (E.elem e).Value / (E.row icon).GradVecLenSq) _ _ _ (hcol e he),
      sum_filter_col_eq (fun e => (E.elem e).Col) _ _ hd e he]
  refine ⟨hpt, ?_⟩
  have hsum : rowBody E icon (CCSeqImpact_step E icon v x) =
      ((E.row icon).ElList.map (fun e => (E.elem e).Value * x.getD (E.elem e).Col 0 +
        v / (E.row icon).GradVecLenSq * ((E.elem e).Value * (E.elem e).Value))).sum := by
    unfold rowBody
    congr 1
    apply List.map_congr_left
    intro e he
    rw [hpt e he]
    ring
  rw [hsum, List.sum_map_add, List.sum_map_mul_left, ← GradVecLenSqOf_eq_sum, ← hg]
  unfold rowBody
  rw [div_mul_cancel₀ _ (ne_of_gt hpos)]

/-- `GetViolation` on a G row. -/
theorem GetViolation_G (E : Env K) (icon : Nat) (x : List K) (hin : icon < E.NumRows)
    (hG : (E.row icon).Typ = "G") :
    (rowBody E icon x ≥ (E.row icon).RHSlo - E.featol →
      (GetViolation E icon x).ViolStatus ≠ 0) ∧
    (¬ rowBody E icon x ≥ (E.row icon).RHSlo - E.featol →
      GetViolation E icon x = ⟨0, 0, (E.row icon).RHSlo - rowBody E icon x⟩) := by
  rw [GetViolation_eq E icon x hin]
  constructor
  · intro hb
    by_cases ht : rowBody E icon x - (E.row icon).RHSlo ≤ E.featol <;>
      simp [hG, violSwitch, hb, ht]
  · intro hb
    simp [hG, violSwitch, hb]

/-- `GetViolation` on an L row. -/
theorem GetViolation_L (E : Env K) (icon : Nat) (x : List K) (hin : icon < E.NumRows)
    (hL : (E.row icon).Typ = "L") :
    (rowBody E icon x ≤ (E.row icon).RHSup + E.featol →
      (GetViolation E icon x).ViolStatus ≠ 0) ∧
    (¬ rowBody E icon x ≤ (E.row icon).RHSup + E.featol →
      GetViolation E icon x = ⟨0, 0, (E.row icon).RHSup - rowBody E icon x⟩) := by
  rw [GetViolation_eq E icon x hin]
  constructor
  · intro hb
    by_cases ht : (E.row icon).RHSup - rowBody E icon x ≤ E.featol <;>
      simp [hL, violSwitch, hb, ht]
  · intro hb
    simp [hL, violSwitch, hb]

/-- `GetViolation` on an E or R row. -/
theorem GetViolation_ER (E : Env K) (icon : Nat) (x : List K) (hin : icon < E.NumRows)
    (hER : (E.row icon).Typ = "E" ∨ (E.row icon).Typ = "R") :
    (rowBody E icon x ≤ (E.row icon).RHSlo - E.featol →
      GetViolation E icon x = ⟨0, 0, (E.row icon).RHSlo - rowBody E icon x⟩) ∧
    (¬ rowBody E icon x ≤ (E.row icon).RHSlo - E.featol →
      rowBody E icon x ≥ (E.row icon).RHSup + E.featol →
      GetViolation E icon x = ⟨0, 0, (E.row icon).RHSup - rowBody E icon x⟩) ∧
    (¬ rowBody E icon x ≤ (E.row icon).RHSlo - E.featol →
      ¬ rowBody E icon x ≥ (E.row icon).RHSup + E.featol →
      (GetViolation E icon x).ViolStatus ≠ 0) := by
  rw [GetViolation_eq E icon x hin]
  have hN : (E.row icon).Typ ≠ "N" := by rcases hER with h | h <;> rw [h] <;> decide
  have hG : (E.row icon).Typ ≠ "G" := by rcases hER with h | h <;> rw [h] <;> decide
  have hL : (E.row icon).Typ ≠ "L" := by rcases hER with h | h <;> rw [h] <;> decide
  refine ⟨?_, ?_, ?_⟩
  · intro h1
    simp only [hN, hG, hL, if_false, violSwitch, hER, if_true, h1]
    simp
  · intro h1 h2
    simp only [hN, hG, hL, if_false, violSwitch, hER, if_true, h1, h2]
    simp
  · intro h1 h2
    simp only [hN, hG, hL, if_false, violSwitch, hER, if_true, h1, h2]
    split_ifs <;> simp_all

/-- The sides on which a row of type G, L, E or R can be reported violated. -/
theorem GetViolation_violated_cases (E : Env K) (icon : Nat) (x : List K)
    (hin : icon < E.NumRows)
    (hT : (E.row icon).Typ = "G" ∨ (E.row icon).Typ = "L" ∨ (E.row icon).Typ = "E" ∨
      (E.row icon).Typ = "R")
    (hv : (GetViolation E icon x).ViolStatus = 0) :
    (((E.row icon).Typ = "G" ∨ (E.row icon).Typ = "E" ∨ (E.row icon).Typ = "R") ∧
      rowBody E icon x ≤ (E.row icon).RHSlo - E.featol ∧
      (GetViolation E icon x).Violation = (E.row icon).RHSlo - rowBody E icon x) ∨
    (((E.row icon).Typ = "L" ∨ (E.row icon).Typ = "E" ∨ (E.row icon).Typ = "R") ∧
      rowBody E icon x ≥ (E.row icon).RHSup + E.featol ∧
      (GetViolation E icon x).Violation = (E.row icon).RHSup - rowBody E icon x) := by
  rcases hT with hG | hL | hER
  · obtain ⟨h1, h2⟩ := GetViolation_G E icon x hin hG
    by_cases hb : rowBody E icon x ≥ (E.row icon).RHSlo - E.featol
    · exact absurd hv (h1 hb)
    · left
      refine ⟨Or.inl hG, le_of_lt (not_le.mp hb), ?_⟩
      rw [h2 hb]
  · obtain ⟨h1, h2⟩ := GetViolation_L E icon x hin hL
    by_cases hb : rowBody E icon x ≤ (E.row icon).RHSup + E.featol
    · exact absurd hv (h1 hb)
    · right
      refine ⟨Or.inl hL, le_of_lt (not_le.mp hb), ?_⟩
      rw [h2 hb]
  · obtain ⟨h1, h2, h3⟩ := GetViolation_ER E icon x hin hER
    by_cases hb1 : rowBody E icon x ≤ (E.row icon).RHSlo - E.featol
    · left
      refine ⟨Or.inr hER, hb1, ?_⟩
      rw [h1 hb1]
    · by_cases hb2 : rowBody E icon x ≥ (E.row icon).RHSup + E.featol
      · right
        refine ⟨Or.inr hER, hb2, ?_⟩
        rw [h2 hb1 hb2]
      · exact absurd hv (h3 hb1 hb2)

/-- A row whose body is at `rhs_lo` (types G, E, R) or at `rhs_up` (types L, E, R) is
not reported violated when `featol > 0` and `rhs_lo ≤ rhs_up`. -/
theorem GetViolation_at_rhs (E : Env K) (icon : Nat) (x : List K) (hin : icon < E.NumRows)
    (hf : 0 < E.featol) (hrhs : (E.row icon).RHSlo ≤ (E.row icon).RHSup) :
    (((E.row icon).Typ = "G" ∨ (E.row icon).Typ = "E" ∨ (E.row icon).Typ = "R") →
      rowBody E icon x = (E.row icon).RHSlo → (GetViolation E icon x).ViolStatus ≠ 0) ∧
    (((E.row icon).Typ = "L" ∨ (E.row icon).Typ = "E" ∨ (E.row icon).Typ = "R") →
      rowBody E icon x = (E.row icon).RHSup → (GetViolation E icon x).ViolStatus ≠ 0) := by
  constructor
  · intro hT hb
    rcases hT with hG | hER
    · exact (GetViolation_G E icon x hin hG).1 (by rw [hb]; linarith)
    · exact (GetViolation_ER E icon x hin hER).2.2 (by rw [hb]; linarith)
        (by rw [hb]; linarith)
  · intro hT hb
    rcases hT with hL | hER
    · exact (GetViolation_L E icon x hin hL).1 (by rw [hb]; linarith)
    · exact (GetViolation_ER E icon x hin hER).2.2 (by rw [hb]; linarith)
        (by rw [hb]; linarith)

/-- C17: for an in-range row of type G, L, E or R that `GetViolation` reports violated at
`x`, with pairwise distinct columns that are indices of `x`, the stored
`g = Σ a_ij² > 0`, `featol > 0` and `rhs_lo ≤ rhs_up`: the step that `CCSeqImpact`
applies for the row gives `x'_j = x_j + violation * a_ij / g` on the columns of the row;
the violation is not 0; the body at `x'` is `rhs_lo` when the violation is positive and
`rhs_up` when it is negative; and `GetViolation` no longer reports the row violated at
`x'`. -/
theorem C17_row_step_reaches_rhs (E : Env K) (icon : Nat) (x : List K)
    (hin : icon < E.NumRows) (hf : 0 < E.featol)
    (hrhs : (E.row icon).RHSlo ≤ (E.row icon).RHSup)
    (hT : (E.row icon).Typ = "G" ∨ (E.row icon).Typ = "L" ∨ (E.row icon).Typ = "E" ∨
      (E.row icon).Typ = "R")
    (hd : ((E.row icon).ElList.map (fun e => (E.elem e).Col)).Nodup)
    (hcol : ∀ e ∈ (E.row icon).ElList, (E.elem e).Col < x.length)
    (hg : (E.row icon).GradVecLenSq = GradVecLenSqOf E icon)
    (hpos : 0 < (E.row icon).GradVecLenSq)
    (hv : (GetViolation E icon x).ViolStatus = 0) :
    (∀ e ∈ (E.row icon).ElList,
      (CCSeqImpact_step E icon (GetViolation E icon x).Violation x).getD (E.elem e).Col 0 =
        x.getD (E.elem e).Col 0 +
          (GetViolation E icon x).Violation * (E.elem e).Value / (E.row icon).GradVecLenSq) ∧
    (GetViolation E icon x).Violation ≠ 0 ∧
    (0 < (GetViolation E icon x).Violation →
      rowBody E icon (CCSeqImpact_step E icon (GetViolation E icon x).Violation x) =
        (E.row icon).RHSlo) ∧
    ((GetViolation E icon x).Violation < 0 →
      rowBody E icon (CCSeqImpact_step E icon (GetViolation E icon x).Violation x) =
        (E.row icon).RHSup) ∧
    (GetViolation E icon (CCSeqImpact_step E icon (GetViolation E icon x).Violation x)).ViolStatus
      ≠ 0 := by
  obtain ⟨hpt, hbody⟩ := rowBody_CCSeqImpact_step E icon x (GetViolation E icon x).Violation
    hd hcol hg hpos
  refine ⟨hpt, ?_⟩
  obtain ⟨hlo, hup⟩ := GetViolation_at_rhs E icon
    (CCSeqImpact_step E icon (GetViolation E icon x).Violation x) hin hf hrhs
  rcases GetViolation_violated_cases E icon x hin hT hv with ⟨hT1, hb, hval⟩ | ⟨hT1, hb, hval⟩
  · have hvpos : 0 < (GetViolation E icon x).Violation := by rw [hval]; linarith
    have hb' : rowBody E icon (CCSeqImpact_step E icon (GetViolation E icon x).Violation x) =
        (E.row icon).RHSlo := by rw [hbody, hval]; ring
    exact ⟨ne_of_gt hvpos, fun _ => hb', fun h => absurd hvpos (not_lt.mpr (le_of_lt h)),
      hlo hT1 hb'⟩
  · have hvneg : (GetViolation E icon x).Violation < 0 := by rw [hval]; linarith
    have hb' : rowBody E icon (CCSeqImpact_step E icon (GetViolation E icon x).Violation x) =
        (E.row icon).RHSup := by rw [hbody, hval]; ring
    exact ⟨ne_of_lt hvneg, fun h => absurd hvneg (not_lt.mpr (le_of_lt h)), fun _ => hb',
      hup hT1 hb'⟩

theorem modelG_origin_violation (sqrt : K → K) :
    GetViolation (modelG K sqrt) 0 [0, 0] = ⟨0, 0, 4⟩ := by
  simp +decide [GetViolation, ConBodyValue, violSwitch, modelG, Env.NumRows, Env.row, Env.elem]
  norm_num

theorem C17_witness :
    (GetViolation (modelG ℚ sqrtQ) 0 [0, 0]).ViolStatus = 0 ∧
    rowBody (modelG ℚ sqrtQ) 0
      (CCSeqImpact_step (modelG ℚ sqrtQ) 0 (GetViolation (modelG ℚ sqrtQ) 0 [0, 0]).Violation
        [0, 0]) = ((modelG ℚ sqrtQ).row 0).RHSlo ∧
    (GetViolation (modelG ℚ sqrtQ) 0
      (CCSeqImpact_step (modelG ℚ sqrtQ) 0 (GetViolation (modelG ℚ sqrtQ) 0 [0, 0]).Violation
        [0, 0])).ViolStatus ≠ 0 := by
  have hv : (GetViolation (modelG ℚ sqrtQ) 0 [0, 0]).ViolStatus = 0 := by
    rw [modelG_origin_violation]
  have h := C17_row_step_reaches_rhs (modelG ℚ sqrtQ) 0 [0, 0] Nat.one_pos
    (by norm_num [modelG]) (by norm_num [modelG, Env.row]) (Or.inl rfl)
    (by simp [modelG, Env.row, Env.elem])
    (by intro e he
        have he2 : e = 0 ∨ e = 1 := by simpa [modelG, Env.row] using he
        rcases he2 with h | h <;> subst h <;> simp [modelG, Env.elem])
    (modelG_GradStored sqrtQ 0 Nat.one_pos) (by norm_num [modelG, Env.row]) hv
  exact ⟨hv, h.2.2.1 (by rw [modelG_origin_violation]; norm_num), h.2.2.2.2⟩

/-! ### The model of scenario 2 at `(12, 0)`: one variable above its upper bound -/

theorem sqrtQ_four : sqrtQ 4 = 2 := by
  have h : Nat.sqrt (Int.toNat 4) = 2 := Nat.sqrt_eq 2
  norm_num [sqrtQ, h]

theorem sqrtQ_one : sqrtQ 1 = 1 := by
  norm_num [sqrtQ]

theorem over_v0 : GetViolation (modelG ℚ sqrtQ) 0 [12, 0] = ⟨0, 1, 0⟩ := by
  simp +decide [GetViolation, ConBodyValue, violSwitch, modelG, Env.NumRows, Env.row, Env.elem]
  norm_num

theorem over_con0 (acc : CVAcc ℚ) : GetCV1_con (modelG ℚ sqrtQ) [12, 0] acc 0 = acc := by
  simp [GetCV1_con, over_v0]

theorem over_bnd0 :
    GetCV1_bnd (modelG ℚ sqrtQ) [12, 0]
      ⟨0, 0, 0, -10000000000, -10000000000, [0, 0], [0, 0], [0, 0], [0, 0], [0, 0], [0, 0]⟩ 0 =
      ⟨1, 2, 0, 2, 2, [1, 0], [-2, 0], [-2, 0], [-2, 0], [-2, 0], [-2, 0]⟩ := by
  have hc : (modelG ℚ sqrtQ).NumCols = 2 := rfl
  have hA : (modelG ℚ sqrtQ).Alpha = 1 / 1000000 := rfl
  have hcol : (modelG ℚ sqrtQ).col 0 = ⟨"R", 10, 0, [0]⟩ := rfl
  have habs : |(10 : ℚ) - 12| = 2 := by norm_num [abs_of_neg]
  simp only [GetCV1_bnd, hc, hA, hcol, zeroFirst, List.range, List.range.loop, List.foldl,
    incrAt, addAt]
  norm_num [habs]

theorem over_bnd1 (acc : CVAcc ℚ) : GetCV1_bnd (modelG ℚ sqrtQ) [12, 0] acc 1 = acc := by
  norm_num [GetCV1_bnd, modelG, Env.col]

theorem over_loops :
    GetCV1_loops (modelG ℚ sqrtQ) [12, 0] =
      ⟨1, 2, 0, 2, 2, [1, 0], [-2, 0], [-2, 0], [-2, 0], [-2, 0], [-2, 0]⟩ := by
  have hr : (modelG ℚ sqrtQ).NumRows = 1 := rfl
  have hc : (modelG ℚ sqrtQ).NumCols = 2 := rfl
  have hp : (modelG ℚ sqrtQ).plinfy = 10000000000 := rfl
  have r1 : List.range 1 = [0] := rfl
  have r2 : List.range 2 = [0, 1] := rfl
  have hz : List.replicate ([12, 0] : List ℚ).length (0 : ℚ) = [0, 0] := rfl
  have hzn : List.replicate ([12, 0] : List ℚ).length (0 : ℕ) = [0, 0] := rfl
  rw [GetCV1_loops, hr, hc, hp, r1, r2]
  simp only [hz, hzn, List.foldl, over_con0, over_bnd0, over_bnd1]

/-- C16: on the model of scenario 2 at `(12, 0)` the only violation is variable 1, above
its upper bound 10 by `d = 2` (the point `(10, 0)` is feasible). `GetCV1` returns -2 on
column 1 in `CV0`, `CV1` and `CV3`, but `CV2` has `+1` there: for a bound the code sets
`SumWeightedViol[ivar] = SumViol[ivar]` and adds the signed `rhold = -2` to
`SumWeights[ivar]`, so that `CV2 = (-2)/(-2)`, where a row with one unit coefficient
would give `(-2 * 2)/2 = -2`. -/
theorem C16_bound_violation_CV2 :
    GetSFD (modelG ℚ sqrtQ) [10, 0] = ⟨1, 0, 0, -1, -1, 0⟩ ∧
    GetCV1 (modelG ℚ sqrtQ) [12, 0] =
      some ⟨0, [-2, 0], [-2, 0], [1, 0], [-2, 0], false, false, false, false, 2, 0, 1⟩ := by
  constructor
  · have v0 : GetViolation (modelG ℚ sqrtQ) 0 [10, 0] = ⟨0, 1, 0⟩ := by
      simp +decide [GetViolation, ConBodyValue, violSwitch, modelG, Env.NumRows, Env.row,
        Env.elem]
      norm_num
    have hr : (modelG ℚ sqrtQ).NumRows = 1 := rfl
    have hc : (modelG ℚ sqrtQ).NumCols = 2 := rfl
    have c0 : ∀ acc, GetSFD_con (modelG ℚ sqrtQ) [10, 0] acc 0 = acc := by
      intro acc; simp [GetSFD_con, v0]
    have b0 : ∀ acc, GetSFD_bnd (modelG ℚ sqrtQ) [10, 0] acc 0 = acc := by
      intro acc; norm_num [GetSFD_bnd, modelG, Env.col]
    have b1 : ∀ acc, GetSFD_bnd (modelG ℚ sqrtQ) [10, 0] acc 1 = acc := by
      intro acc; norm_num [GetSFD_bnd, modelG, Env.col]
    have hl : GetSFD_loops (modelG ℚ sqrtQ) [10, 0] = ⟨0, 0, 0, -1, -1, 0⟩ := by
      have r1 : List.range 1 = [0] := rfl
      have r2 : List.range 2 = [0, 1] := rfl
      rw [GetSFD_loops, hr, hc, r1, r2]
      simp only [List.foldl, c0, b0, b1]
    simp [GetSFD, hl]
  · have hc : (modelG ℚ sqrtQ).NumCols = 2 := rfl
    have hsq : (modelG ℚ sqrtQ).sqrt = sqrtQ := rfl
    have hB : (modelG ℚ sqrtQ).Beta = 1 / 10000 := rfl
    have r2 : List.range 2 = [0, 1] := rfl
    have hz : List.replicate ([12, 0] : List ℚ).length (0 : ℚ) = [0, 0] := rfl
    have hlen : ([12, 0] : List ℚ).length ≠ 1 := by decide
    rw [GetCV1, if_neg hlen]
    simp only [over_loops, hc, hsq, hB, r2, hz, List.foldl, GetCV1_fin]
    norm_num [sqrtQ_four, sqrtQ_one]

/-! ### `TestPoint` and `GetSFD` on the model of scenario 2 at `(1.999999, 0)` -/

theorem near_v0 :
    GetViolation (modelG ℚ sqrtQ) 0 [1999999 / 1000000, 0] = ⟨0, 0, 1 / 500000⟩ := by
  simp +decide [GetViolation, ConBodyValue, violSwitch, modelG, Env.NumRows, Env.row, Env.elem]
  norm_num

theorem near_GetSFD :
    GetSFD (modelG ℚ sqrtQ) [1999999 / 1000000, 0] = ⟨1, 0, 0, -1, -1, 0⟩ := by
  have hr : (modelG ℚ sqrtQ).NumRows = 1 := rfl
  have hc : (modelG ℚ sqrtQ).NumCols = 2 := rfl
  have f0 : FVLenSq (modelG ℚ sqrtQ) 0 (1 / 500000) = 1 / 1250000000000 := by
    norm_num [FVLenSq, modelG, Env.row, Env.elem]
  have hA : (modelG ℚ sqrtQ).Alpha = 1 / 1000000 := rfl
  have c0 : ∀ acc, GetSFD_con (modelG ℚ sqrtQ) [1999999 / 1000000, 0] acc 0 = acc := by
    intro acc
    simp only [GetSFD_con, near_v0, f0, hA]
    norm_num
  have b0 : ∀ acc, GetSFD_bnd (modelG ℚ sqrtQ) [1999999 / 1000000, 0] acc 0 = acc := by
    intro acc; norm_num [GetSFD_bnd, modelG, Env.col]
  have b1 : ∀ acc, GetSFD_bnd (modelG ℚ sqrtQ) [1999999 / 1000000, 0] acc 1 = acc := by
    intro acc; norm_num [GetSFD_bnd, modelG, Env.col]
  have hl : GetSFD_loops (modelG ℚ sqrtQ) [1999999 / 1000000, 0] = ⟨0, 0, 0, -1, -1, 0⟩ := by
    have r1 : List.range 1 = [0] := rfl
    have r2 : List.range 2 = [0, 1] := rfl
    rw [GetSFD_loops, hr, hc, r1, r2]
    simp only [List.foldl, c0, b0, b1]
  simp [GetSFD, hl]

theorem near_TestPoint :
    TestPoint (modelG ℚ sqrtQ) [1999999 / 1000000, 0] =
      ⟨0, 1, 4, 1, 1 / 500000, 1 / 500000, 1 / 500000⟩ := by
  have hr : (modelG ℚ sqrtQ).NumRows = 1 := rfl
  have hc : (modelG ℚ sqrtQ).NumCols = 2 := rfl
  have r1 : List.range 1 = [0] := rfl
  have r2 : List.range 2 = [0, 1] := rfl
  have c0 : TestPoint_con (modelG ℚ sqrtQ) [1999999 / 1000000, 0] ⟨0, 0, 0, 0, 0, 0, 0⟩ 0 =
      ⟨0, 1, 0, 0, 1 / 500000, 1 / 500000, 0⟩ := by
    simp only [TestPoint_con, near_v0]
    norm_num
  have b0 : TestPoint_bnd (modelG ℚ sqrtQ) [1999999 / 1000000, 0]
      ⟨0, 1, 0, 0, 1 / 500000, 1 / 500000, 0⟩ 0 = ⟨0, 1, 2, 0, 1 / 500000, 1 / 500000, 0⟩ := by
    norm_num [TestPoint_bnd, TestPoint_lo, TestPoint_up, modelG, Env.col]
  have b1 : TestPoint_bnd (modelG ℚ sqrtQ) [1999999 / 1000000, 0]
      ⟨0, 1, 2, 0, 1 / 500000, 1 / 500000, 0⟩ 1 = ⟨0, 1, 4, 1, 1 / 500000, 1 / 500000, 0⟩ := by
    norm_num [TestPoint_bnd, TestPoint_lo, TestPoint_up, modelG, Env.col]
  rw [TestPoint, hr, hc, r1, r2]
  simp only [List.foldl, c0, b0, b1]
  norm_num

/-- C19, counterexample: on the model of scenario 2 (row `2*x1 + x2 ≥ 4`, whose gradient
has length `√5`, with `Alpha = featol = 1e-6`) at `(1.999999, 0)`, `GetSFD` reports
`NINF = 0` and `TestPoint` reports `NINF = 1`: the row is violated by `2e-6 > featol`,
but its feasibility vector has squared length `8e-13`, below `Alpha²`, so `GetSFD` skips
it. -/
theorem C19_counterexample :
    0 < (modelG ℚ sqrtQ).Alpha ∧ (modelG ℚ sqrtQ).Alpha ≤ (modelG ℚ sqrtQ).featol ∧
    (GetSFD (modelG ℚ sqrtQ) [1999999 / 1000000, 0]).NINF = 0 ∧
    (TestPoint (modelG ℚ sqrtQ) [1999999 / 1000000, 0]).NINF = 1 := by
  refine ⟨by norm_num [modelG], by norm_num [modelG], ?_, ?_⟩
  · rw [near_GetSFD]
  · rw [near_TestPoint]

/-! ### The workers at a feasible point -/

theorem bndOut_iff (E : Env K) (x : List K) (j : Nat) :
    bndOut E x j ↔
      ¬ (x.getD j 0 ≥ (E.col j).BndLo - E.Alpha ∧ x.getD j 0 ≤ (E.col j).BndUp + E.Alpha) := by
  unfold bndOut bndExcess
  rw [lt_max_iff, not_and_or, not_le, not_le]
  constructor
  · rintro (h | h)
    · left; linarith
    · right; linarith
  · rintro (h | h)
    · left; linarith
    · right; linarith

theorem GetSFD_bnd_NINF_of (E : Env K) (x : List K) (acc : SFDResult K) (j : Nat) :
    (GetSFD_bnd E x acc j).NINF = acc.NINF + (if bndOut E x j then 1 else 0) := by
  unfold GetSFD_bnd
  by_cases h1 : x.getD j 0 ≥ (E.col j).BndLo - E.Alpha
  · by_cases h2 : x.getD j 0 ≤ (E.col j).BndUp + E.Alpha
    · have hb : ¬ bndOut E x j := by rw [bndOut_iff]; exact not_not.mpr ⟨h1, h2⟩
      rw [if_pos h1, if_pos h2, if_neg hb, add_zero]
    · have hb : bndOut E x j := by rw [bndOut_iff]; exact fun h => h2 h.2
      have h3 : x.getD j 0 - (E.col j).BndUp > E.Alpha := by
        have := not_le.mp h2; linarith
      rw [if_pos h1, if_neg h2, if_pos h3, if_pos hb]
      dsimp only
      split_ifs <;> rfl
  · have hb : bndOut E x j := by rw [bndOut_iff]; exact fun h => h1 h.1
    have h3 : (E.col j).BndLo - x.getD j 0 > E.Alpha := by
      have := not_le.mp h1; linarith
    rw [if_neg h1, if_pos h3, if_pos hb]
    dsimp only
    split_ifs <;> rfl

/-- The count of `GetSFD`, with no assumption on the model. -/
theorem GetSFD_loops_NINF_eq (E : Env K) (x : List K) :
    (GetSFD_loops E x).NINF =
      ((countedRows E x).length : Int) + ((outVars E x).length : Int) := by
  unfold GetSFD_loops countedRows outVars
  rw [foldl_proj_add (GetSFD_bnd E x) SFDResult.NINF
      (fun j => if bndOut E x j then 1 else 0) _ _
      (fun a j _ => GetSFD_bnd_NINF_of E x a j),
    foldl_proj_add (GetSFD_con E x) SFDResult.NINF
      (fun i => if rowCounted E x i then 1 else 0) _ _
      (fun a i _ => GetSFD_con_NINF E x a i),
    sum_map_ite_one_eq_length, sum_map_ite_one_eq_length, zero_add]

/-- At a point that `GetSFD` finds feasible no row is counted and every variable is
within `Alpha` of its bounds. -/
theorem feasible_facts (E : Env K) (x : List K) (h : (GetSFD E x).NINF = 0) :
    (∀ i, i < E.NumRows → ¬ rowCounted E x i) ∧ (∀ j, j < E.NumCols → ¬ bndOut E x j) := by
  rw [GetSFD_NINF, GetSFD_loops_NINF_eq] at h
  have h1 : (countedRows E x).length = 0 := by omega
  have h2 : (outVars E x).length = 0 := by omega
  constructor
  · intro i hi hc
    have hm : i ∈ countedRows E x := (mem_countedRows E x i).mpr ⟨hi, hc⟩
    rw [List.length_eq_zero.mp h1] at hm
    exact absurd hm (List.not_mem_nil i)
  · intro j hj hb
    have hm : j ∈ outVars E x := by
      unfold outVars
      simp [List.mem_filter, hj, hb]
    rw [List.length_eq_zero.mp h2] at hm
    exact absurd hm (List.not_mem_nil j)

theorem GetCV1_loops_NINF_of_feasible (E : Env K) (hA : 0 ≤ E.Alpha) (x : List K)
    (h : (GetSFD E x).NINF = 0) : (GetCV1_loops E x).NINF = 0 := by
  rw [(GetCV1_loops_same E hA x).2, ← GetSFD_NINF]
  exact h

theorem copy_replicate (x : List K) : copy (List.replicate x.length (0 : K)) x = x :=
  copy_eq_of_length_eq _ _ (by simp)

theorem CCOriginal1_feasible (E : Env K) (hA : 0 ≤ E.Alpha) (hM : 1 ≤ E.MaxItns)
    (s : State K) (x : List K) (PointID : Int) (h : (GetSFD E x).NINF = 0) :
    (CCOriginal1 E s x PointID).1 = x := by
  obtain ⟨n, hn⟩ : ∃ n, E.MaxItns = n + 1 := ⟨E.MaxItns - 1, by omega⟩
  unfold CCOriginal1
  dsimp only
  rw [hn, copy_replicate]
  unfold CCOriginal1_itns
  simp only [GetCV1_loops_NINF_of_feasible E hA x h, if_true]

theorem CCImpact_feasible (E : Env K) (hA : 0 ≤ E.Alpha) (hM : 1 ≤ E.MaxItns)
    (s : State K) (x : List K) (PointID : Int) (h : (GetSFD E x).NINF = 0) :
    (CCImpact E s x PointID).1 = x := by
  obtain ⟨n, hn⟩ : ∃ n, E.MaxItns = n + 1 := ⟨E.MaxItns - 1, by omega⟩
  unfold CCImpact
  dsimp only
  rw [hn, copy_replicate]
  unfold CCImpact_itns
  simp only [GetCV1_loops_NINF_of_feasible E hA x h, if_true]

theorem GetCV1_feasible (E : Env K) (hA : 0 ≤ E.Alpha) (x : List K) (hlen : x.length ≠ 1)
    (h : (GetSFD E x).NINF = 0) :
    ∃ r, GetCV1 E x = some r ∧ r.Status = 1 ∧ r.NINF = 0 := by
  unfold GetCV1
  rw [if_neg hlen]
  dsimp only
  rw [if_pos (GetCV1_loops_NINF_of_feasible E hA x h)]
  exact ⟨_, rfl, rfl, rfl⟩

theorem CCOriginal2_select_feasible (E : Env K) (hA : 0 ≤ E.Alpha) (Round PointID : Int)
    (v : CC2Vars K) (hlen : v.CCPoint.length ≠ 1) (hS : v.Status = 0) (hN : v.NINF = 0)
    (h : (GetSFD E v.CCPoint).NINF = 0) :
    ∃ w, CCOriginal2_select E Round PointID v = some w ∧ w.CCPoint = v.CCPoint ∧
      w.Status ≠ 2 ∧ w.NINF = 0 := by
  obtain ⟨r, hr, hr1, hr2⟩ := GetCV1_feasible E hA v.CCPoint hlen h
  have h12 : (1 : Nat) ≠ 2 := by decide
  unfold CCOriginal2_select
  split_ifs
  · rw [hr]; exact ⟨_, rfl, rfl, by dsimp only; rw [hr1]; exact h12, hr2⟩
  · rw [hr]; exact ⟨_, rfl, rfl, by dsimp only; rw [hr1]; exact h12, hr2⟩
  · rw [hr]; exact ⟨_, rfl, rfl, by dsimp only; rw [hr1]; exact h12, hr2⟩
  · rw [hr]; exact ⟨_, rfl, rfl, by dsimp only; rw [hr1]; exact h12, hr2⟩
  · rw [hr]; exact ⟨_, rfl, rfl, by dsimp only; rw [hr1]; exact h12, hr2⟩
  · exact ⟨v, rfl, rfl, by rw [hS]; decide, hN⟩

theorem CCOriginal2_feasible (E : Env K) (hA : 0 ≤ E.Alpha) (hM : 1 ≤ E.MaxItns)
    (s : State K) (x : List K) (Round PointID : Int) (hlen : x.length ≠ 1)
    (h : (GetSFD E x).NINF = 0) :
    ∃ r, CCOriginal2 E s x Round PointID = some r ∧ r.1 = x := by
  obtain ⟨n, hn⟩ : ∃ n, E.MaxItns = n + 1 := ⟨E.MaxItns - 1, by omega⟩
  unfold CCOriginal2
  dsimp only
  rw [hn, copy_replicate]
  obtain ⟨w, hw, hw1, hw2, hw3⟩ := CCOriginal2_select_feasible E hA Round PointID
    ⟨x, List.replicate x.length 0, E.plinfy, 0, 0, 0, 0, 0, List.replicate x.length 0,
      List.replicate x.length 0, false⟩ hlen rfl rfl h
  unfold CCOriginal2_itns
  rw [hw]
  dsimp only
  rw [if_neg hw2, if_pos (Or.inr hw3)]
  exact ⟨_, rfl, hw1⟩

theorem not_rowCounted_of_feasible (E : Env K) (x : List K) (h : (GetSFD E x).NINF = 0)
    (icon : Nat) : ¬ rowCounted E x icon := by
  by_cases hi : icon < E.NumRows
  · exact (feasible_facts E x h).1 icon hi
  · intro hc
    have h1 := hc.1
    unfold GetViolation ConBodyValue at h1
    rw [if_pos (not_lt.mp hi)] at h1
    simp at h1

theorem CCSeqImpact_con_skip (E : Env K) (ImpactList : List Nat) (acc : SeqAcc K)
    (icon1 : Nat) (hc : ¬ rowCounted E acc.CCPoint (ImpactList.getD icon1 0)) :
    CCSeqImpact_con E ImpactList acc icon1 = acc := by
  unfold CCSeqImpact_con
  dsimp only
  generalize ImpactList.getD icon1 0 = icon at hc ⊢
  by_cases h1 : (GetViolation E icon acc.CCPoint).FVStatus > 0
  · rw [if_pos h1]
  · rw [if_neg h1]
    by_cases h2 : (GetViolation E icon acc.CCPoint).ViolStatus > 0
    · rw [if_pos h2]
    · rw [if_neg h2]
      by_cases h3 : FVLenSq E icon (GetViolation E icon acc.CCPoint).Violation <
          E.Alpha * E.Alpha
      · rw [if_pos h3]
      · exact absurd ⟨by omega, by omega, not_lt.mp h3⟩ hc

theorem CCSeqImpact_bnd_skip (E : Env K) (hAf : E.Alpha = E.featol) (acc : SeqAcc K) (j : Nat)
    (hb : ¬ bndOut E acc.CCPoint j) : CCSeqImpact_bnd E acc j = acc := by
  rw [bndOut_iff, not_not, hAf] at hb
  unfold CCSeqImpact_bnd
  dsimp only
  rw [if_neg (by linarith [hb.1]), if_neg (by linarith [hb.2])]

theorem CCSeqImpact_loops_feasible (E : Env K) (hAf : E.Alpha = E.featol)
    (ImpactList : List Nat) (x : List K) (h : (GetSFD E x).NINF = 0) :
    CCSeqImpact_loops E ImpactList x = ⟨x, 0, 0, -E.plinfy⟩ := by
  unfold CCSeqImpact_loops
  have hb : (List.range E.NumCols).foldl (CCSeqImpact_bnd E) ⟨x, 0, 0, -E.plinfy⟩ =
      ⟨x, 0, 0, -E.plinfy⟩ := by
    apply foldl_inv (fun a : SeqAcc K => a = ⟨x, 0, 0, -E.plinfy⟩)
    · rfl
    · intro a j hj ha
      rw [ha]
      exact CCSeqImpact_bnd_skip E hAf _ j ((feasible_facts E x h).2 j (List.mem_range.mp hj))
  rw [hb]
  apply foldl_inv (fun a : SeqAcc K => a = ⟨x, 0, 0, -E.plinfy⟩)
  · rfl
  · intro a i _ ha
    rw [ha]
    exact CCSeqImpact_con_skip E ImpactList _ i (not_rowCounted_of_feasible E x h _)

theorem CCSeqImpact_feasible (E : Env K) (hAf : E.Alpha = E.featol) (hM : 1 ≤ E.MaxItns)
    (ImpactList : List Nat) (hI : E.NumRows ≤ ImpactList.length)
    (s : State K) (x : List K) (PointID : Int) (h : (GetSFD E x).NINF = 0) :
    ∃ r, CCSeqImpact E ImpactList s x PointID = some r ∧ r.1 = x := by
  obtain ⟨n, hn⟩ : ∃ n, E.MaxItns = n + 1 := ⟨E.MaxItns - 1, by omega⟩
  unfold CCSeqImpact
  rw [if_neg (by omega)]
  dsimp only
  rw [hn, copy_replicate]
  unfold CCSeqImpact_itns
  rw [CCSeqImpact_loops_feasible E hAf ImpactList x h]
  exact ⟨_, rfl, rfl⟩

/-- C12: with `MaxItns ≥ 1`, `Alpha = featol > 0`, at least two columns, a point `x` with
one entry per column that `GetSFD` finds feasible (`NINF = 0`), and `ImpactList`
covering the rows: each of `CCSimple`, `CCOriginal1`, `CCOriginal2`, `CCImpact` and
`CCSeqImpact` sends, from its iteration 0, a point equal to `x` entry for entry, and
`CCSimple` sends it with `SFD = 0` and `NINF = 0`. (The input is a value of the
embedding: the workers write to their own copy `CCPoint` only.) -/
theorem C12_workers_emit_feasible_input (E : Env K) (ImpactList : List Nat) (s : State K)
    (x : List K) (Round PointID : Int) (hM : 1 ≤ E.MaxItns) (hA : 0 < E.Alpha)
    (hAf : E.Alpha = E.featol) (h2 : 2 ≤ E.NumCols) (hx : x.length = E.NumCols)
    (hI : E.NumRows ≤ ImpactList.length) (h : (GetSFD E x).NINF = 0) :
    (CCSimple E s x PointID).1 = ⟨x, 0, 0⟩ ∧
    (CCOriginal1 E s x PointID).1 = x ∧
    (∃ r, CCOriginal2 E s x Round PointID = some r ∧ r.1 = x) ∧
    (CCImpact E s x PointID).1 = x ∧
    (∃ r, CCSeqImpact E ImpactList s x PointID = some r ∧ r.1 = x) :=
  ⟨CCSimple_feasible E s x PointID hx h,
    CCOriginal1_feasible E (le_of_lt hA) hM s x PointID h,
    CCOriginal2_feasible E (le_of_lt hA) hM s x Round PointID (by omega) h,
    CCImpact_feasible E (le_of_lt hA) hM s x PointID h,
    CCSeqImpact_feasible E hAf hM ImpactList hI s x PointID h⟩

theorem C12_witness :
    (1 ≤ (modelG ℚ sqrtQ).MaxItns ∧ 0 < (modelG ℚ sqrtQ).Alpha ∧
      (modelG ℚ sqrtQ).Alpha = (modelG ℚ sqrtQ).featol ∧ 2 ≤ (modelG ℚ sqrtQ).NumCols ∧
      ([2, 0] : List ℚ).length = (modelG ℚ sqrtQ).NumCols ∧
      (modelG ℚ sqrtQ).NumRows ≤ [0].length ∧ (GetSFD (modelG ℚ sqrtQ) [2, 0]).NINF = 0) ∧
    (CCSimple (modelG ℚ sqrtQ) (initState (modelG ℚ sqrtQ)) [2, 0] 0).1 = ⟨[2, 0], 0, 0⟩ ∧
    (CCOriginal1 (modelG ℚ sqrtQ) (initState (modelG ℚ sqrtQ)) [2, 0] 0).1 = [2, 0] ∧
    (∃ r, CCOriginal2 (modelG ℚ sqrtQ) (initState (modelG ℚ sqrtQ)) [2, 0] 0 0 = some r ∧
      r.1 = [2, 0]) ∧
    (CCImpact (modelG ℚ sqrtQ) (initState (modelG ℚ sqrtQ)) [2, 0] 0).1 = [2, 0] ∧
    (∃ r, CCSeqImpact (modelG ℚ sqrtQ) [0] (initState (modelG ℚ sqrtQ)) [2, 0] 0 = some r ∧
      r.1 = [2, 0]) := by
  have hM : 1 ≤ (modelG ℚ sqrtQ).MaxItns := by norm_num [modelG]
  have hf : (GetSFD (modelG ℚ sqrtQ) [2, 0]).NINF = 0 := by rw [modelG_feasible]
  exact ⟨⟨hM, modelG_Alpha_pos sqrtQ, rfl, by decide, rfl, by decide, hf⟩,
    C12_workers_emit_feasible_input (modelG ℚ sqrtQ) [0] (initState (modelG ℚ sqrtQ)) [2, 0]
      0 0 hM (modelG_Alpha_pos sqrtQ) rfl (by decide) rfl (by decide) hf⟩

/-! ### The accumulators of `GetCV1`, column by column -/

theorem incrAt_getD (w : List Nat) (i c : Nat) (hc : c < w.length) :
    (incrAt w i).getD c 0 = w.getD c 0 + (if i = c then 1 else 0) := by
  unfold incrAt
  by_cases hic : i = c
  · subst hic
    rw [getD_set_eq _ _ _ _ hc, if_pos rfl]
  · rw [getD_set_ne _ _ _ _ _ hic, if_neg hic, add_zero]

theorem foldl_incrAt_getD {α : Type} (col : α → Nat) (l : List α) (w : List Nat)
    (c : Nat) (hc : c < w.length) :
    (l.foldl (fun w e => incrAt w (col e)) w).getD c 0 =
      w.getD c 0 + (l.filter (fun e => decide (col e = c))).length := by
  induction l generalizing w with
  | nil => simp
  | cons a t ih =>
    simp only [List.foldl_cons]
    rw [ih (incrAt w (col a)) (by rw [length_incrAt]; exact hc), incrAt_getD _ _ _ hc]
    by_cases hac : col a = c
    · simp [List.filter_cons, hac]; omega
    · simp [List.filter_cons, hac]

theorem length_foldl_incrAt {α : Type} (col : α → Nat) (l : List α) (w : List Nat) :
    (l.foldl (fun w e => incrAt w (col e)) w).length = w.length := by
  induction l generalizing w with
  | nil => rfl
  | cons a t ih => simp only [List.foldl_cons]; rw [ih, length_incrAt]

/-- The four sums that the element loop of `GetCV1` accumulates, each as a loop of its
own. -/
theorem GetCV1_el_fold_sums (E : Env K) (icon : Nat) (v : K) (b1 b2 : Bool) (l : List Nat)
    (acc : CVAcc K) :
    (l.foldl (GetCV1_el E icon v b1 b2) acc).NumViol =
      l.foldl (fun w e => incrAt w (E.elem e).Col) acc.NumViol ∧
    (l.foldl (GetCV1_el E icon v b1 b2) acc).SumViol =
      l.foldl (fun w e => addAt w (E.elem e).Col
        (v * (E.elem e).Value / (E.row icon).GradVecLenSq)) acc.SumViol ∧
    (l.foldl (GetCV1_el E icon v b1 b2) acc).SumWeightedViol =
      l.foldl (fun w e => addAt w (E.elem e).Col
        (v * (E.elem e).Value / (E.row icon).GradVecLenSq * |v|)) acc.SumWeightedViol ∧
    (l.foldl (GetCV1_el E icon v b1 b2) acc).SumWeights =
      l.foldl (fun w e => addAt w (E.elem e).Col |v|) acc.SumWeights := by
  induction l generalizing acc with
  | nil => exact ⟨rfl, rfl, rfl, rfl⟩
  | cons e t ih =>
    simp only [List.foldl_cons]
    obtain ⟨h1, h2, h3, h4⟩ := ih (GetCV1_el E icon v b1 b2 acc e)
    exact ⟨h1, h2, h3, h4⟩

/-- The form of one pass of the constraint loop of `GetCV1` on a counted row, with the
values from which the element loop starts. -/
theorem GetCV1_con_counted (E : Env K) (x : List K) (acc : CVAcc K) (i : Nat)
    (hc : rowCounted E x i) :
    ∃ (b1 : Bool) (acc3 : CVAcc K),
      GetCV1_con E x acc i =
        (E.row i).ElList.foldl
          (GetCV1_el E i (GetViolation E i x).Violation b1
            (decide (E.sqrt (FVLenSq E i (GetViolation E i x).Violation) > acc.MaxFVLength)))
          acc3 ∧
      acc3.NumViol = acc.NumViol ∧ acc3.SumViol = acc.SumViol ∧
      acc3.SumWeightedViol = acc.SumWeightedViol ∧ acc3.SumWeights = acc.SumWeights ∧
      acc3.MaxFVLength =
        (if E.sqrt (FVLenSq E i (GetViolation E i x).Violation) > acc.MaxFVLength then
          E.sqrt (FVLenSq E i (GetViolation E i x).Violation) else acc.MaxFVLength) ∧
      acc3.FVMaxFVLength =
        (if E.sqrt (FVLenSq E i (GetViolation E i x).Violation) > acc.MaxFVLength then
          zeroFirst E.NumCols acc.FVMaxFVLength else acc.FVMaxFVLength) := by
  obtain ⟨h1, h2, h3⟩ := hc
  unfold GetCV1_con
  simp only [h1, h2, not_lt.mpr h3, gt_iff_lt, lt_irrefl, if_false]
  by_cases hb1 : acc.MaxViol < |(GetViolation E i x).Violation|
  · by_cases hb2 : acc.MaxFVLength < E.sqrt (FVLenSq E i (GetViolation E i x).Violation)
    · simp only [hb1, hb2, decide_True, if_true]
      exact ⟨true, _, rfl, rfl, rfl, rfl, rfl, rfl, rfl⟩
    · simp only [hb1, hb2, decide_True, decide_False, if_true, if_false, Bool.false_eq_true]
      exact ⟨true, _, rfl, rfl, rfl, rfl, rfl, rfl, rfl⟩
  · by_cases hb2 : acc.MaxFVLength < E.sqrt (FVLenSq E i (GetViolation E i x).Violation)
    · simp only [hb1, hb2, decide_True, decide_False, if_true, if_false, Bool.false_eq_true]
      exact ⟨false, _, rfl, rfl, rfl, rfl, rfl, rfl, rfl⟩
    · simp only [hb1, hb2, decide_False, if_false, Bool.false_eq_true]
      exact ⟨false, _, rfl, rfl, rfl, rfl, rfl, rfl, rfl⟩

theorem GetCV1_con_SumsLen (E : Env K) (x : List K) (n : Nat) (acc : CVAcc K) (i : Nat)
    (h : SumsLen n acc) : SumsLen n (GetCV1_con E x acc i) := by
  by_cases hc : rowCounted E x i
  · obtain ⟨b1, acc3, heq, e1, e2, e3, e4, _, _⟩ := GetCV1_con_counted E x acc i hc
    obtain ⟨s1, s2, s3, s4⟩ := GetCV1_el_fold_sums E i (GetViolation E i x).Violation b1
      (decide (E.sqrt (FVLenSq E i (GetViolation E i x).Violation) > acc.MaxFVLength))
      (E.row i).ElList acc3
    rw [heq]
    refine ⟨?_, ?_, ?_, ?_⟩
    · rw [s1, length_foldl_incrAt, e1]; exact h.1
    · rw [s2, length_foldl_addAt (fun e => (E.elem e).Col), e2]; exact h.2.1
    · rw [s3, length_foldl_addAt (fun e => (E.elem e).Col), e3]; exact h.2.2.1
    · rw [s4, length_foldl_addAt (fun e => (E.elem e).Col), e4]; exact h.2.2.2
  · rw [GetCV1_con_of_not_counted E x acc i hc]; exact h

/-- What one pass of the constraint loop of `GetCV1` adds in column `c`. -/
theorem GetCV1_con_getD (E : Env K) (x : List K) (n : Nat) (acc : CVAcc K) (i c : Nat)
    (h : SumsLen n acc) (hc : c < n) :
    (GetCV1_con E x acc i).NumViol.getD c 0 = acc.NumViol.getD c 0 +
      (if rowCounted E x i then
        ((E.row i).ElList.filter (fun e => decide ((E.elem e).Col = c))).length else 0) ∧
    (GetCV1_con E x acc i).SumViol.getD c 0 = acc.SumViol.getD c 0 +
      (if rowCounted E x i then
        (((E.row i).ElList.filter (fun e => decide ((E.elem e).Col = c))).map
          (fvComp E x i)).sum else 0) ∧
    (GetCV1_con E x acc i).SumWeightedViol.getD c 0 = acc.SumWeightedViol.getD c 0 +
      (if rowCounted E x i then
        (((E.row i).ElList.filter (fun e => decide ((E.elem e).Col = c))).map
          (fun e => fvComp E x i e * |(GetViolation E i x).Violation|)).sum else 0) ∧
    (GetCV1_con E x acc i).SumWeights.getD c 0 = acc.SumWeights.getD c 0 +
      (if rowCounted E x i then
        (((E.row i).ElList.filter (fun e => decide ((E.elem e).Col = c))).map
          (fun _ => |(GetViolation E i x).Violation|)).sum else 0) := by
  by_cases hcnt : rowCounted E x i
  · obtain ⟨b1, acc3, heq, e1, e2, e3, e4, _, _⟩ := GetCV1_con_counted E x acc i hcnt
    obtain ⟨s1, s2, s3, s4⟩ := GetCV1_el_fold_sums E i (GetViolation E i x).Violation b1
      (decide (E.sqrt (FVLenSq E i (GetViolation E i x).Violation) > acc.MaxFVLength))
      (E.row i).ElList acc3
    obtain ⟨l1, l2, l3, l4⟩ := h
    rw [heq, s1, s2, s3, s4, e1, e2, e3, e4]
    simp only [hcnt, if_true]
    refine ⟨?_, ?_, ?_, ?_⟩
    · exact foldl_incrAt_getD (fun e => (E.elem e).Col) _ _ c (by rw [l1]; exact hc)
    · exact foldl_addAt_getD (fun e => (E.elem e).Col) _ _ _ c (by rw [l2]; exact hc)
    · exact foldl_addAt_getD (fun e => (E.elem e).Col) _ _ _ c (by rw [l3]; exact hc)
    · exact foldl_addAt_getD (fun e => (E.elem e).Col) _ _ _ c (by rw [l4]; exact hc)
  · rw [GetCV1_con_of_not_counted E x acc i hcnt]
    simp [hcnt]

theorem foldl_proj_add_inv {α β M : Type} [AddCommMonoid M] (P : β → Prop)
    (step : β → α → β) (proj : β → M) (g : α → M) (l : List α) (acc : β) (h0 : P acc)
    (hP : ∀ a i, i ∈ l → P a → P (step a i))
    (h : ∀ a i, i ∈ l → P a → proj (step a i) = proj a + g i) :
    proj (l.foldl step acc) = proj acc + (l.map g).sum := by
  induction l generalizing acc with
  | nil => simp
  | cons x t ih =>
    simp only [List.foldl_cons, List.map_cons, List.sum_cons]
    rw [ih (step acc x) (hP acc x (List.mem_cons_self x t) h0)
        (fun a i hi => hP a i (List.mem_cons_of_mem x hi))
        (fun a i hi => h a i (List.mem_cons_of_mem x hi)),
      h acc x (List.mem_cons_self x t) h0, add_assoc]

theorem sum_range_ite_eq {M : Type} [AddCommMonoid M] (n c : Nat) (f : Nat → M) (hc : c < n) :
    ((List.range n).map (fun j => if j = c then f j else 0)).sum = f c := by
  induction n with
  | zero => exact absurd hc (Nat.not_lt_zero c)
  | succ n ih =>
    rw [List.range_succ, List.map_append, List.sum_append]
    by_cases hcn : c = n
    · subst hcn
      have hz : ((List.range c).map (fun j => if j = c then f j else 0)).sum = 0 := by
        apply List.sum_eq_zero
        intro y hy
        obtain ⟨j, hj, rfl⟩ := List.mem_map.mp hy
        rw [if_neg (ne_of_lt (List.mem_range.mp hj))]
      simp [hz]
    · rw [ih (by omega)]
      simp [Ne.symm hcn]

/-- A variable within `Alpha` of its bounds is passed over by the bound loop of
`GetCV1`. -/
theorem GetCV1_bnd_of_not_out (E : Env K) (x : List K) (acc : CVAcc K) (j : Nat)
    (hb : ¬ bndOut E x j) : GetCV1_bnd E x acc j = acc := by
  rw [bndOut_iff, not_not] at hb
  unfold GetCV1_bnd
  rw [if_pos hb.1, if_pos hb.2]

/-- What the bound loop of `GetCV1` does to the counts and the sums for a variable more
than `Alpha` outside its bounds. -/
theorem GetCV1_bnd_of_out (E : Env K) (x : List K) (acc : CVAcc K) (j : Nat)
    (hb : bndOut E x j) :
    (GetCV1_bnd E x acc j).NumViol = incrAt acc.NumViol j ∧
    (GetCV1_bnd E x acc j).SumViol = addAt acc.SumViol j (bndCorr E x j) ∧
    (GetCV1_bnd E x acc j).SumWeightedViol.length = acc.SumWeightedViol.length ∧
    (GetCV1_bnd E x acc j).SumWeights.length = acc.SumWeights.length := by
  rw [bndOut_iff] at hb
  unfold GetCV1_bnd bndCorr
  by_cases h1 : x.getD j 0 ≥ (E.col j).BndLo - E.Alpha
  · have h2 : ¬ x.getD j 0 ≤ (E.col j).BndUp + E.Alpha := fun h => hb ⟨h1, h⟩
    have h3 : x.getD j 0 - (E.col j).BndUp > E.Alpha := by
      have := not_le.mp h2; linarith
    have h4 : ¬ (E.col j).BndLo - x.getD j 0 > E.Alpha := by
      rw [not_lt]; linarith
    rw [if_pos h1, if_neg h2, if_pos h3, if_neg h4]
    dsimp only
    split_ifs <;> simp [length_addAt]
  · have h3 : (E.col j).BndLo - x.getD j 0 > E.Alpha := by
      have := not_le.mp h1; linarith
    rw [if_neg h1, if_pos h3, if_pos h3]
    dsimp only
    split_ifs <;> simp

theorem GetCV1_bnd_SumsLen (E : Env K) (x : List K) (n : Nat) (acc : CVAcc K) (j : Nat)
    (h : SumsLen n acc) : SumsLen n (GetCV1_bnd E x acc j) := by
  by_cases hb : bndOut E x j
  · obtain ⟨h1, h2, h3, h4⟩ := GetCV1_bnd_of_out E x acc j hb
    exact ⟨by rw [h1, length_incrAt]; exact h.1, by rw [h2, length_addAt]; exact h.2.1,
      by rw [h3]; exact h.2.2.1, by rw [h4]; exact h.2.2.2⟩
  · rw [GetCV1_bnd_of_not_out E x acc j hb]; exact h

/-- What one pass of the bound loop of `GetCV1` adds in column `c`. -/
theorem GetCV1_bnd_getD (E : Env K) (x : List K) (n : Nat) (acc : CVAcc K) (j c : Nat)
    (h : SumsLen n acc) (hc : c < n) :
    (GetCV1_bnd E x acc j).NumViol.getD c 0 = acc.NumViol.getD c 0 +
      (if j = c then (if bndOut E x j then 1 else 0) else 0) ∧
    (GetCV1_bnd E x acc j).SumViol.getD c 0 = acc.SumViol.getD c 0 +
      (if j = c then (if bndOut E x j then bndCorr E x j else 0) else 0) := by
  by_cases hb : bndOut E x j
  · obtain ⟨h1, h2, _, _⟩ := GetCV1_bnd_of_out E x acc j hb
    rw [h1, h2, incrAt_getD _ _ _ (by rw [h.1]; exact hc),
      addAt_getD _ _ _ _ (by rw [h.2.1]; exact hc)]
    simp [hb]
  · rw [GetCV1_bnd_of_not_out E x acc j hb]
    simp [hb]

theorem SumsLen_init (n : Nat) (a : Int) (b c d e : K) (z1 z2 : List K) :
    SumsLen n (⟨a, b, c, d, e, List.replicate n 0, List.replicate n 0, List.replicate n 0,
      List.replicate n 0, z1, z2⟩ : CVAcc K) := by
  refine ⟨?_, ?_, ?_, ?_⟩ <;> simp

theorem getD_replicate_zero {α : Type} [Zero α] (n c : Nat) :
    (List.replicate n (0 : α)).getD c 0 = 0 := by
  by_cases hc : c < n
  · simp [List.getD_eq_getElem?_getD, List.getElem?_replicate, hc]
  · simp [List.getD_eq_getElem?_getD, List.getElem?_replicate, hc]

theorem GetCV1_loops_eq (E : Env K) (x : List K) :
    GetCV1_loops E x = (List.range E.NumCols).foldl (GetCV1_bnd E x) (GetCV1_rows E x) := rfl

theorem GetCV1_rows_SumsLen (E : Env K) (x : List K) : SumsLen x.length (GetCV1_rows E x) := by
  unfold GetCV1_rows
  apply foldl_inv
  · exact SumsLen_init _ _ _ _ _ _ _ _
  · intro a i _ ha
    exact GetCV1_con_SumsLen E x _ a i ha

/-- The counts and sums in column `c` after the constraint loop of `GetCV1`. -/
theorem GetCV1_rows_getD (E : Env K) (x : List K) (c : Nat) (hc : c < x.length) :
    (GetCV1_rows E x).NumViol.getD c 0 =
      ((countedRows E x).map (fun i =>
        ((E.row i).ElList.filter (fun e => decide ((E.elem e).Col = c))).length)).sum ∧
    (GetCV1_rows E x).SumViol.getD c 0 =
      ((countedRows E x).map (fun i =>
        (((E.row i).ElList.filter (fun e => decide ((E.elem e).Col = c))).map
          (fvComp E x i)).sum)).sum ∧
    (GetCV1_rows E x).SumWeightedViol.getD c 0 =
      ((countedRows E x).map (fun i =>
        (((E.row i).ElList.filter (fun e => decide ((E.elem e).Col = c))).map
          (fun e => fvComp E x i e * |(GetViolation E i x).Violation|)).sum)).sum ∧
    (GetCV1_rows E x).SumWeights.getD c 0 =
      ((countedRows E x).map (fun i =>
        (((E.row i).ElList.filter (fun e => decide ((E.elem e).Col = c))).map
          (fun _ => |(GetViolation E i x).Violation|)).sum)).sum := by
  have hinit := SumsLen_init x.length (0 : Int) (0 : K) 0 (-E.plinfy) (-E.plinfy)
    (List.replicate x.length 0) (List.replicate x.length 0)
  unfold GetCV1_rows countedRows
  refine ⟨?_, ?_, ?_, ?_⟩
  · rw [foldl_proj_add_inv (SumsLen x.length) (GetCV1_con E x)
      (fun a : CVAcc K => a.NumViol.getD c 0) _ _ _ hinit
      (fun a i _ ha => GetCV1_con_SumsLen E x _ a i ha)
      (fun a i _ ha => (GetCV1_con_getD E x _ a i c ha hc).1),
      sum_map_ite_eq_filter]
    simp [getD_replicate_zero]
  · rw [foldl_proj_add_inv (SumsLen x.length) (GetCV1_con E x)
      (fun a : CVAcc K => a.SumViol.getD c 0) _ _ _ hinit
      (fun a i _ ha => GetCV1_con_SumsLen E x _ a i ha)
      (fun a i _ ha => (GetCV1_con_getD E x _ a i c ha hc).2.1),
      sum_map_ite_eq_filter]
    simp [getD_replicate_zero]
  · rw [foldl_proj_add_inv (SumsLen x.length) (GetCV1_con E x)
      (fun a : CVAcc K => a.SumWeightedViol.getD c 0) _ _ _ hinit
      (fun a i _ ha => GetCV1_con_SumsLen E x _ a i ha)
      (fun a i _ ha => (GetCV1_con_getD E x _ a i c ha hc).2.2.1),
      sum_map_ite_eq_filter]
    simp [getD_replicate_zero]
  · rw [foldl_proj_add_inv (SumsLen x.length) (GetCV1_con E x)
      (fun a : CVAcc K => a.SumWeights.getD c 0) _ _ _ hinit
      (fun a i _ ha => GetCV1_con_SumsLen E x _ a i ha)
      (fun a i _ ha => (GetCV1_con_getD E x _ a i c ha hc).2.2.2),
      sum_map_ite_eq_filter]
    simp [getD_replicate_zero]

theorem GetCV1_loops_SumsLen (E : Env K) (x : List K) :
    SumsLen x.length (GetCV1_loops E x) := by
  rw [GetCV1_loops_eq]
  apply foldl_inv
  · exact GetCV1_rows_SumsLen E x
  · intro a j _ ha
    exact GetCV1_bnd_SumsLen E x _ a j ha

/-- The counts and sums of `CV0` in column `c` after the two loops of `GetCV1`. -/
theorem GetCV1_loops_getD (E : Env K) (x : List K) (c : Nat) (hc : c < x.length)
    (hcn : c < E.NumCols) :
    (GetCV1_loops E x).NumViol.getD c 0 =
      (GetCV1_rows E x).NumViol.getD c 0 + (if bndOut E x c then 1 else 0) ∧
    (GetCV1_loops E x).SumViol.getD c 0 =
      (GetCV1_rows E x).SumViol.getD c 0 + (if bndOut E x c then bndCorr E x c else 0) := by
  rw [GetCV1_loops_eq]
  constructor
  · rw [foldl_proj_add_inv (SumsLen x.length) (GetCV1_bnd E x)
      (fun a : CVAcc K => a.NumViol.getD c 0) _ _ _ (GetCV1_rows_SumsLen E x)
      (fun a j _ ha => GetCV1_bnd_SumsLen E x _ a j ha)
      (fun a j _ ha => (GetCV1_bnd_getD E x _ a j c ha hc).1),
      sum_range_ite_eq _ _ (fun j => if bndOut E x j then 1 else 0) hcn]
  · rw [foldl_proj_add_inv (SumsLen x.length) (GetCV1_bnd E x)
      (fun a : CVAcc K => a.SumViol.getD c 0) _ _ _ (GetCV1_rows_SumsLen E x)
      (fun a j _ ha => GetCV1_bnd_SumsLen E x _ a j ha)
      (fun a j _ ha => (GetCV1_bnd_getD E x _ a j c ha hc).2),
      sum_range_ite_eq _ _ (fun j => if bndOut E x j then bndCorr E x j else 0) hcn]

/-- The entries of `CV0` and `CV2` that the last loop of `GetCV1` writes. -/
theorem GetCV1_fin_CV0_CV2 (acc : CVAcc K) (l : List Nat) (f : CVFin K) :
    (l.foldl (GetCV1_fin acc) f).CV0 =
      l.foldl (fun w j => w.set j
        (if acc.NumViol.getD j 0 = 0 then 0
         else acc.SumViol.getD j 0 / ((acc.NumViol.getD j 0 : Nat) : K))) f.CV0 ∧
    (l.foldl (GetCV1_fin acc) f).CV2 =
      l.foldl (fun w j => w.set j
        (if acc.NumViol.getD j 0 = 0 then 0
         else acc.SumWeightedViol.getD j 0 / acc.SumWeights.getD j 0)) f.CV2 := by
  induction l generalizing f with
  | nil => exact ⟨rfl, rfl⟩
  | cons j t ih =>
    simp only [List.foldl_cons]
    obtain ⟨h1, h2⟩ := ih (GetCV1_fin acc f j)
    rw [h1, h2]
    constructor
    · congr 1
      unfold GetCV1_fin
      split_ifs <;> rfl
    · congr 1
      unfold GetCV1_fin
      split_ifs <;> rfl

/-- The result of `GetCV1` at a point where some violation is counted, entry by entry
for `CV0`, `CV1` and `CV2`, in terms of the accumulators. -/
theorem GetCV1_entries (E : Env K) (x : List K) (r : CVResult K) (hr : GetCV1 E x = some r)
    (hne : r.NINF ≠ 0) (c : Nat) (hc : c < x.length) (hcn : c < E.NumCols) :
    r.CV0.getD c 0 =
      (if (GetCV1_loops E x).NumViol.getD c 0 = 0 then 0
       else (GetCV1_loops E x).SumViol.getD c 0 /
         (((GetCV1_loops E x).NumViol.getD c 0 : Nat) : K)) ∧
    r.CV1.getD c 0 =
      (if (GetCV1_loops E x).NumViol.getD c 0 = 0 then 0
       else if (GetCV1_loops E x).FVMaxFVLength.getD c 0 ≠ 0 then
         (GetCV1_loops E x).FVMaxFVLength.getD c 0
       else (GetCV1_loops E x).SumViol.getD c 0 /
         (((GetCV1_loops E x).NumViol.getD c 0 : Nat) : K)) ∧
    r.CV2.getD c 0 =
      (if (GetCV1_loops E x).NumViol.getD c 0 = 0 then 0
       else (GetCV1_loops E x).SumWeightedViol.getD c 0 /
         (GetCV1_loops E x).SumWeights.getD c 0) := by
  unfold GetCV1 at hr
  by_cases hlen : x.length = 1
  · simp [hlen] at hr
  · rw [if_neg hlen] at hr
    dsimp only at hr
    by_cases hN : (GetCV1_loops E x).NINF = 0
    · rw [if_pos hN] at hr
      rw [← Option.some.inj hr] at hne
      exact absurd rfl hne
    · rw [if_neg hN] at hr
      rw [← Option.some.inj hr]
      dsimp only
      obtain ⟨h0, h2⟩ := GetCV1_fin_CV0_CV2 (GetCV1_loops E x) (List.range E.NumCols)
        ⟨List.replicate x.length 0, List.replicate x.length 0, List.replicate x.length 0,
          List.replicate x.length 0, 0, 0, 0, 0⟩
      refine ⟨?_, ?_, ?_⟩
      · rw [h0, foldl_set_getD _ _ _ _ _ hcn (by simp [hc])]
      · rw [GetCV1_fin_CV1, foldl_set_getD _ _ _ _ _ hcn (by simp [hc])]
      · rw [h2, foldl_set_getD _ _ _ _ _ hcn (by simp [hc])]

/-! ### The contributions to a column -/

theorem touching_map_sum (E : Env K) (x : List K) (c : Nat) (f : Nat → Nat → K) :
    ((touching E x c).map (fun p => f p.1 p.2)).sum =
      ((countedRows E x).map (fun i =>
        (((E.row i).ElList.filter (fun e => decide ((E.elem e).Col = c))).map (f i)).sum)).sum := by
  unfold touching
  induction countedRows E x with
  | nil => simp
  | cons i t ih =>
    simp only [List.map_cons, List.flatten_cons, List.map_append, List.sum_append, List.sum_cons,
      List.map_map]
    rw [ih]
    congr 1

theorem touching_length (E : Env K) (x : List K) (c : Nat) :
    (touching E x c).length =
      ((countedRows E x).map (fun i =>
        ((E.row i).ElList.filter (fun e => decide ((E.elem e).Col = c))).length)).sum := by
  unfold touching
  induction countedRows E x with
  | nil => simp
  | cons i t ih =>
    simp only [List.map_cons, List.flatten_cons, List.length_append, List.sum_cons,
      List.length_map]
    rw [ih]

theorem contribs_length (E : Env K) (x : List K) (c : Nat) (hc : c < x.length)
    (hcn : c < E.NumCols) :
    (contribs E x c).length = (GetCV1_loops E x).NumViol.getD c 0 := by
  rw [(GetCV1_loops_getD E x c hc hcn).1, (GetCV1_rows_getD E x c hc).1, ← touching_length]
  unfold contribs
  split_ifs <;> simp

theorem contribs_sum (E : Env K) (x : List K) (c : Nat) (hc : c < x.length)
    (hcn : c < E.NumCols) :
    (contribs E x c).sum = (GetCV1_loops E x).SumViol.getD c 0 := by
  rw [(GetCV1_loops_getD E x c hc hcn).2, (GetCV1_rows_getD E x c hc).2.1,
    ← touching_map_sum E x c (fvComp E x)]
  unfold contribs
  split_ifs <;> simp

/-- C13: at a point with one entry per column where `GetCV1` counts some violation (the
returned `NINF` is not 0), for every column `j`: `CV0[j]` is 0 if no counted violation
contributes to column `j`, and otherwise the arithmetic mean of the contributions to
column `j`, which are `violation_i * a_e / g_i` for each element `e` in column `j` of a
counted row `i`, and `bound - x_j` if variable `j` is more than `Alpha` outside its
bounds. -/
theorem C13_CV0_is_mean_of_contributions (E : Env K) (x : List K) (r : CVResult K)
    (hx : x.length = E.NumCols) (hr : GetCV1 E x = some r) (hne : r.NINF ≠ 0)
    (j : Nat) (hj : j < E.NumCols) :
    r.CV0.getD j 0 =
      (if contribs E x j = [] then 0
       else (contribs E x j).sum / ((contribs E x j).length : K)) := by
  have hjx : j < x.length := by rw [hx]; exact hj
  rw [(GetCV1_entries E x r hr hne j hjx hj).1, contribs_sum E x j hjx hj,
    contribs_length E x j hjx hj, ← contribs_length E x j hjx hj]
  by_cases h0 : contribs E x j = []
  · rw [if_pos h0, if_pos (by rw [h0]; rfl)]
  · rw [if_neg h0, if_neg (by rw [List.length_eq_zero]; exact h0)]

theorem foldl_inv_prefix {α β : Type} (P : List α → β → Prop) (step : β → α → β)
    (l : List α) (acc : β) (h0 : P [] acc)
    (hstep : ∀ pre a b, a ∈ l → P pre b → P (pre ++ [a]) (step b a)) :
    P l (l.foldl step acc) := by
  induction l generalizing P acc with
  | nil => exact h0
  | cons x t ih =>
    simp only [List.foldl_cons]
    apply ih (fun pre b => P (x :: pre) b)
    · exact hstep [] x acc (List.mem_cons_self x t) h0
    · intro pre a b ha hb
      exact hstep (x :: pre) a b (List.mem_cons_of_mem x ha) hb

theorem zeroFirst_getD (n : Nat) (w : List K) (c : Nat) (hc : c < n) (hw : c < w.length) :
    (zeroFirst n w).getD c 0 = 0 := by
  unfold zeroFirst
  exact foldl_set_getD (fun _ => (0 : K)) 0 n w c hc hw

/-- The entry in column `c` after a loop of writes `w[col e] = d e` over a list whose
columns are pairwise distinct. -/
theorem foldl_set_getD_nodup {α : Type} (col : α → Nat) (d : α → K) (l : List α)
    (hd : (l.map col).Nodup) (w : List K) (c : Nat) (hc : c < w.length) :
    (l.foldl (fun w e => w.set (col e) (d e)) w).getD c 0 =
      (if l.any (fun e => decide (col e = c)) = true then
        ((l.filter (fun e => decide (col e = c))).map d).sum
       else w.getD c 0) := by
  induction l generalizing w with
  | nil => simp
  | cons a t ih =>
    rw [List.map_cons, List.nodup_cons] at hd
    simp only [List.foldl_cons]
    rw [ih hd.2 (w.set (col a) (d a)) (by rw [List.length_set]; exact hc)]
    by_cases hac : col a = c
    · have hnone : ∀ b ∈ t, ¬ col b = c := by
        intro b hb hcb
        apply hd.1
        rw [hac, ← hcb]
        exact List.mem_map_of_mem col hb
      have hany : t.any (fun e => decide (col e = c)) = false := by
        rw [List.any_eq_false]
        intro b hb
        simpa using hnone b hb
      have hfil : t.filter (fun e => decide (col e = c)) = [] := by
        rw [List.filter_eq_nil_iff]
        intro b hb
        simpa using hnone b hb
      rw [hany]
      simp only [List.any_cons, hac, decide_True, Bool.true_or, if_true, List.filter_cons, hfil,
        Bool.false_eq_true, if_false]
      rw [← hac, getD_set_eq _ _ _ _ (by rw [hac]; exact hc)]
      simp
    · simp only [List.any_cons, List.filter_cons, hac, decide_False, Bool.false_eq_true,
        if_false, Bool.false_or]
      rw [getD_set_ne _ _ _ _ _ hac]

theorem GetCV1_el_fold_FVMax (E : Env K) (icon : Nat) (v : K) (b1 : Bool) (l : List Nat)
    (acc : CVAcc K) :
    (l.foldl (GetCV1_el E icon v b1 true) acc).FVMaxFVLength =
      l.foldl (fun w e => w.set (E.elem e).Col
        (v * (E.elem e).Value / (E.row icon).GradVecLenSq)) acc.FVMaxFVLength := by
  induction l generalizing acc with
  | nil => rfl
  | cons e t ih =>
    simp only [List.foldl_cons]
    rw [ih]
    rfl

theorem LongInv_con (E : Env K) (hs : SqrtSpec E.sqrt) (hA : 0 < E.Alpha)
    (hp : 0 ≤ E.plinfy) (hd : RowsDistinctCols E) (x : List K) (hx : x.length = E.NumCols)
    (best : Option (Nat ⊕ Nat)) (acc : CVAcc K) (i : Nat) (hi : i < E.NumRows)
    (h : LongInv E x x.length best acc) :
    LongInv E x x.length (if rowCounted E x i then longerOf E x best (Sum.inl i) else best)
      (GetCV1_con E x acc i) := by
  by_cases hc : rowCounted E x i
  · rw [if_pos hc]
    obtain ⟨b1, acc3, heq, _, _, _, _, eM, eF⟩ := GetCV1_con_counted E x acc i hc
    have hfr := GetCV1_el_fold_frame E i (GetViolation E i x).Violation b1
      (decide (E.sqrt (FVLenSq E i (GetViolation E i x).Violation) > acc.MaxFVLength))
      (E.row i).ElList acc3
    have hsq : E.Alpha ≤ E.sqrt (FVLenSq E i (GetViolation E i x).Violation) :=
      le_sqrt_of_mul_self_le E.sqrt hs _ _ hc.2.2
    obtain ⟨hlen, hbest⟩ := h
    have hlen3 : acc3.FVMaxFVLength.length = x.length := by
      rw [eF]; split_ifs
      · rw [length_zeroFirst]; exact hlen
      · exact hlen
    -- the state reached when the row is a new longest vector
    have hnew : E.sqrt (FVLenSq E i (GetViolation E i x).Violation) > acc.MaxFVLength →
        LongInv E x x.length (some (Sum.inl i)) (GetCV1_con E x acc i) := by
      intro hmax
      have hdec : decide (E.sqrt (FVLenSq E i (GetViolation E i x).Violation) >
          acc.MaxFVLength) = true := decide_eq_true hmax
      rw [heq]
      rw [hdec] at hfr ⊢
      refine ⟨by rw [hfr.2.2.1]; exact hlen3, ?_⟩
      refine ⟨by rw [hfr.1, eM, if_pos hmax]; rfl, ?_⟩
      intro c hcx
      rw [GetCV1_el_fold_FVMax, foldl_set_getD_nodup (fun e => (E.elem e).Col) _ _ (hd i hi) _ c
        (by rw [hlen3]; exact hcx)]
      rw [eF, if_pos hmax, zeroFirst_getD _ _ _ (by rw [← hx]; exact hcx)
        (by rw [hlen]; exact hcx)]
      show _ = (((E.row i).ElList.filter (fun e => decide ((E.elem e).Col = c))).map
        (fvComp E x i)).sum
      split_ifs with h0
      · rfl
      · rw [Bool.not_eq_true, List.any_eq_false] at h0
        have hfil : (E.row i).ElList.filter (fun e => decide ((E.elem e).Col = c)) = [] := by
          rw [List.filter_eq_nil_iff]
          intro e he
          exact h0 e he
        rw [hfil]; rfl
    -- the state reached otherwise
    have hold : ¬ E.sqrt (FVLenSq E i (GetViolation E i x).Violation) > acc.MaxFVLength →
        (GetCV1_con E x acc i).MaxFVLength = acc.MaxFVLength ∧
        (GetCV1_con E x acc i).FVMaxFVLength = acc.FVMaxFVLength := by
      intro hmax
      have hdec : decide (E.sqrt (FVLenSq E i (GetViolation E i x).Violation) >
          acc.MaxFVLength) = false := decide_eq_false hmax
      rw [heq]
      rw [hdec] at hfr ⊢
      exact ⟨by rw [hfr.1, eM, if_neg hmax], by rw [hfr.2.2.2.2 rfl, eF, if_neg hmax]⟩
    cases best with
    | none =>
      have hM : acc.MaxFVLength = -E.plinfy := hbest
      exact hnew (by rw [hM]; linarith)
    | some b =>
      obtain ⟨hM, hF⟩ := hbest
      show LongInv E x x.length
        (if fvLength E x (Sum.inl i) > fvLength E x b then some (Sum.inl i) else some b) _
      by_cases hmax : E.sqrt (FVLenSq E i (GetViolation E i x).Violation) > acc.MaxFVLength
      · have hgt : fvLength E x (Sum.inl i) > fvLength E x b := by
          rw [← hM]; exact hmax
        rw [if_pos hgt]
        exact hnew hmax
      · have hgt : ¬ fvLength E x (Sum.inl i) > fvLength E x b := by
          rw [← hM]; exact hmax
        rw [if_neg hgt]
        obtain ⟨e1, e2⟩ := hold hmax
        exact ⟨by rw [e2]; exact hlen, by rw [e1]; exact hM, by rw [e2]; exact hF⟩
  · rw [if_neg hc, GetCV1_con_of_not_counted E x acc i hc]
    exact h

theorem bndCorr_abs_gt (E : Env K) (x : List K) (j : Nat)
    (hb : bndOut E x j) : E.Alpha < |bndCorr E x j| := by
  rw [bndOut_iff, not_and_or, not_le, not_le] at hb
  unfold bndCorr
  by_cases h3 : (E.col j).BndLo - x.getD j 0 > E.Alpha
  · rw [if_pos h3]
    exact lt_of_lt_of_le h3 (le_abs_self _)
  · rw [if_neg h3]
    rcases hb with h | h
    · exact absurd (by linarith) h3
    · rw [abs_sub_comm]
      exact lt_of_lt_of_le (by linarith) (le_abs_self _)

/-- What the bound loop of `GetCV1` does to the longest feasibility vector for a variable
more than `Alpha` outside its bounds. -/
theorem GetCV1_bnd_out_long (E : Env K) (hA : 0 ≤ E.Alpha) (x : List K) (acc : CVAcc K)
    (j : Nat) (hb : bndOut E x j) :
    (GetCV1_bnd E x acc j).MaxFVLength =
      (if |bndCorr E x j| > acc.MaxFVLength then |bndCorr E x j| else acc.MaxFVLength) ∧
    (GetCV1_bnd E x acc j).FVMaxFVLength =
      (if |bndCorr E x j| > acc.MaxFVLength then
        (zeroFirst E.NumCols acc.FVMaxFVLength).set j (bndCorr E x j)
       else acc.FVMaxFVLength) := by
  rw [bndOut_iff] at hb
  unfold GetCV1_bnd bndCorr
  by_cases h1 : x.getD j 0 ≥ (E.col j).BndLo - E.Alpha
  · have h2 : ¬ x.getD j 0 ≤ (E.col j).BndUp + E.Alpha := fun h => hb ⟨h1, h⟩
    have h3 : x.getD j 0 - (E.col j).BndUp > E.Alpha := by
      have := not_le.mp h2; linarith
    have h4 : ¬ (E.col j).BndLo - x.getD j 0 > E.Alpha := by
      rw [not_lt]; linarith
    rw [if_pos h1, if_neg h2, if_pos h3, if_neg h4]
    dsimp only
    split_ifs <;> exact ⟨rfl, rfl⟩
  · have h3 : (E.col j).BndLo - x.getD j 0 > E.Alpha := by
      have := not_le.mp h1; linarith
    have habs : |(E.col j).BndLo - x.getD j 0| = (E.col j).BndLo - x.getD j 0 :=
      abs_of_pos (lt_of_le_of_lt hA h3)
    rw [if_neg h1, if_pos h3, if_pos h3, habs]
    dsimp only
    split_ifs <;> exact ⟨rfl, rfl⟩

theorem LongInv_bnd (E : Env K) (hA : 0 < E.Alpha) (hp : 0 ≤ E.plinfy) (x : List K)
    (hx : x.length = E.NumCols) (best : Option (Nat ⊕ Nat)) (acc : CVAcc K) (j : Nat)
    (h : LongInv E x x.length best acc) :
    LongInv E x x.length (if bndOut E x j then longerOf E x best (Sum.inr j) else best)
      (GetCV1_bnd E x acc j) := by
  by_cases hb : bndOut E x j
  · rw [if_pos hb]
    obtain ⟨eM, eF⟩ := GetCV1_bnd_out_long E (le_of_lt hA) x acc j hb
    have hgtA := bndCorr_abs_gt E x j hb
    obtain ⟨hlen, hbest⟩ := h
    have hnew : |bndCorr E x j| > acc.MaxFVLength →
        LongInv E x x.length (some (Sum.inr j)) (GetCV1_bnd E x acc j) := by
      intro hmax
      refine ⟨by rw [eF, if_pos hmax, List.length_set, length_zeroFirst]; exact hlen, ?_⟩
      refine ⟨by rw [eM, if_pos hmax]; rfl, ?_⟩
      intro c hcx
      rw [eF, if_pos hmax]
      show _ = (if j = c then bndCorr E x j else 0)
      by_cases hjc : j = c
      · rw [if_pos hjc, hjc, getD_set_eq _ _ _ _ (by rw [length_zeroFirst, hlen]; exact hcx)]
      · rw [if_neg hjc, getD_set_ne _ _ _ _ _ hjc,
          zeroFirst_getD _ _ _ (by rw [← hx]; exact hcx) (by rw [hlen]; exact hcx)]
    cases best with
    | none =>
      have hM : acc.MaxFVLength = -E.plinfy := hbest
      exact hnew (by rw [hM]; linarith)
    | some b =>
      obtain ⟨hM, hF⟩ := hbest
      show LongInv E x x.length
        (if fvLength E x (Sum.inr j) > fvLength E x b then some (Sum.inr j) else some b) _
      by_cases hmax : |bndCorr E x j| > acc.MaxFVLength
      · have hgt : fvLength E x (Sum.inr j) > fvLength E x b := by
          rw [← hM]; exact hmax
        rw [if_pos hgt]
        exact hnew hmax
      · have hgt : ¬ fvLength E x (Sum.inr j) > fvLength E x b := by
          rw [← hM]; exact hmax
        rw [if_neg hgt]
        exact ⟨by rw [eF, if_neg hmax]; exact hlen, by rw [eM, if_neg hmax]; exact hM,
          by rw [eF, if_neg hmax]; exact hF⟩
  · rw [if_neg hb, GetCV1_bnd_of_not_out E x acc j hb]
    exact h

theorem foldl_longerOf_filter_snoc (E : Env K) (x : List K) {α : Type} (p : α → Prop)
    [DecidablePred p] (inj : α → Nat ⊕ Nat) (best : Option (Nat ⊕ Nat)) (pre : List α) (a : α) :
    (((pre ++ [a]).filter (fun i => decide (p i))).map inj).foldl (longerOf E x) best =
      (if p a then
        longerOf E x (((pre.filter (fun i => decide (p i))).map inj).foldl (longerOf E x) best)
          (inj a)
       else ((pre.filter (fun i => decide (p i))).map inj).foldl (longerOf E x) best) := by
  by_cases ha : p a
  · simp [List.filter_append, List.filter_cons, ha, List.foldl_append]
  · simp [List.filter_append, List.filter_cons, ha]

/-- After the two loops of `GetCV1` the stored longest feasibility vector is that of
`longestFirst`. -/
theorem GetCV1_loops_LongInv (E : Env K) (hs : SqrtSpec E.sqrt) (hA : 0 < E.Alpha)
    (hp : 0 ≤ E.plinfy) (hd : RowsDistinctCols E) (x : List K) (hx : x.length = E.NumCols) :
    LongInv E x x.length (longestFirst E x) (GetCV1_loops E x) := by
  have hrows : LongInv E x x.length
      (((countedRows E x).map Sum.inl).foldl (longerOf E x) none) (GetCV1_rows E x) := by
    unfold GetCV1_rows countedRows
    apply foldl_inv_prefix (fun pre acc => LongInv E x x.length
      (((pre.filter (fun i => decide (rowCounted E x i))).map Sum.inl).foldl (longerOf E x) none)
      acc)
    · exact ⟨by simp, rfl⟩
    · intro pre i acc hi hacc
      rw [foldl_longerOf_filter_snoc E x (rowCounted E x) Sum.inl none pre i]
      exact LongInv_con E hs hA hp hd x hx _ acc i (List.mem_range.mp hi) hacc
  rw [GetCV1_loops_eq]
  unfold longestFirst violations
  rw [List.foldl_append]
  unfold outVars
  apply foldl_inv_prefix (fun pre acc => LongInv E x x.length
    (((pre.filter (fun j => decide (bndOut E x j))).map Sum.inr).foldl (longerOf E x)
      (((countedRows E x).map Sum.inl).foldl (longerOf E x) none)) acc)
  · exact hrows
  · intro pre j acc _ hacc
    rw [foldl_longerOf_filter_snoc E x (bndOut E x) Sum.inr _ pre j]
    exact LongInv_bnd E hA hp x hx _ acc j hacc

theorem longerOf_some (E : Env K) (x : List K) (a b : Nat ⊕ Nat) :
    longerOf E x (some b) a = some a ∨ longerOf E x (some b) a = some b := by
  show (if fvLength E x a > fvLength E x b then some a else some b) = some a ∨
    (if fvLength E x a > fvLength E x b then some a else some b) = some b
  split_ifs
  · exact Or.inl rfl
  · exact Or.inr rfl

theorem foldl_longerOf_some (E : Env K) (x : List K) (l : List (Nat ⊕ Nat)) (b : Nat ⊕ Nat) :
    ∃ b', l.foldl (longerOf E x) (some b) = some b' ∧ (b' = b ∨ b' ∈ l) := by
  induction l generalizing b with
  | nil => exact ⟨b, rfl, Or.inl rfl⟩
  | cons a t ih =>
    simp only [List.foldl_cons]
    rcases longerOf_some E x a b with h | h
    · rw [h]
      obtain ⟨b', hb', hm⟩ := ih a
      refine ⟨b', hb', Or.inr ?_⟩
      rcases hm with hm | hm
      · rw [hm]; exact List.mem_cons_self a t
      · exact List.mem_cons_of_mem a hm
    · rw [h]
      obtain ⟨b', hb', hm⟩ := ih b
      refine ⟨b', hb', ?_⟩
      rcases hm with hm | hm
      · exact Or.inl hm
      · exact Or.inr (List.mem_cons_of_mem a hm)

/-- Where some violation is counted, `longestFirst` is one of the counted violations. -/
theorem longestFirst_mem (E : Env K) (x : List K) (hne : violations E x ≠ []) :
    ∃ b, longestFirst E x = some b ∧ b ∈ violations E x := by
  unfold longestFirst
  cases hv : violations E x with
  | nil => exact absurd hv hne
  | cons a t =>
    simp only [List.foldl_cons]
    obtain ⟨b', hb', hm⟩ := foldl_longerOf_some E x t a
    refine ⟨b', hb', ?_⟩
    rcases hm with hm | hm
    · rw [hm]; exact List.mem_cons_self a t
    · exact List.mem_cons_of_mem a hm

theorem GetCV1_NINF (E : Env K) (x : List K) (r : CVResult K) (hr : GetCV1 E x = some r) :
    r.NINF = (GetCV1_loops E x).NINF := by
  unfold GetCV1 at hr
  by_cases hlen : x.length = 1
  · simp [hlen] at hr
  · rw [if_neg hlen] at hr
    dsimp only at hr
    by_cases hN : (GetCV1_loops E x).NINF = 0
    · rw [if_pos hN] at hr
      rw [← Option.some.inj hr, hN]
    · rw [if_neg hN] at hr
      rw [← Option.some.inj hr]

theorem violations_ne_nil (E : Env K) (hA : 0 ≤ E.Alpha) (x : List K) (r : CVResult K)
    (hr : GetCV1 E x = some r) (hne : r.NINF ≠ 0) : violations E x ≠ [] := by
  rw [GetCV1_NINF E x r hr, (GetCV1_loops_same E hA x).2, GetSFD_loops_NINF_eq] at hne
  intro h0
  have hl := congrArg List.length h0
  unfold violations at hl
  simp only [List.length_append, List.length_map, List.length_nil] at hl
  omega

/-- A counted violation that touches column `c` gives a contribution to that column. -/
theorem contribs_ne_nil_of_touches (E : Env K) (x : List K) (b : Nat ⊕ Nat) (c : Nat)
    (hb : b ∈ violations E x) (ht : touches E b c = true) : contribs E x c ≠ [] := by
  unfold violations at hb
  rw [List.mem_append] at hb
  intro h0
  unfold contribs at h0
  rw [List.append_eq_nil] at h0
  obtain ⟨h1, h2⟩ := h0
  rcases hb with hb | hb
  · obtain ⟨i, hi, rfl⟩ := List.mem_map.mp hb
    have ht' : (E.row i).ElList.any (fun e => decide ((E.elem e).Col = c)) = true := ht
    rw [List.any_eq_true] at ht'
    obtain ⟨e, he, hec⟩ := ht'
    have hmem : (i, e) ∈ touching E x c := by
      unfold touching
      rw [List.mem_flatten]
      refine ⟨_, List.mem_map.mpr ⟨i, hi, rfl⟩, List.mem_map.mpr ⟨e, ?_, rfl⟩⟩
      rw [List.mem_filter]
      exact ⟨he, hec⟩
    rw [List.map_eq_nil_iff] at h1
    rw [h1] at hmem
    exact absurd hmem (List.not_mem_nil _)
  · obtain ⟨j, hj, rfl⟩ := List.mem_map.mp hb
    have hjc : j = c := of_decide_eq_true ht
    subst hjc
    have hout : bndOut E x j := by
      unfold outVars at hj
      rw [List.mem_filter] at hj
      exact of_decide_eq_true hj.2
    rw [if_pos hout] at h2
    exact absurd h2 (List.cons_ne_nil _ _)

/-- On the columns that a counted violation touches its feasibility vector is not 0, and
on the others it is 0. -/
theorem fvAt_touches (E : Env K) (hA : 0 < E.Alpha) (hwf : RowsWellFormed E)
    (hd : RowsDistinctCols E) (x : List K) (b : Nat ⊕ Nat) (c : Nat)
    (hb : b ∈ violations E x) :
    (touches E b c = true → fvAt E x b c ≠ 0) ∧ (touches E b c ≠ true → fvAt E x b c = 0) := by
  unfold violations at hb
  rw [List.mem_append] at hb
  rcases hb with hb | hb
  · obtain ⟨i, hi, rfl⟩ := List.mem_map.mp hb
    obtain ⟨hin, hcnt⟩ := (mem_countedRows E x i).mp hi
    obtain ⟨hv, hg, _⟩ := counted_facts E x i hA hcnt
    constructor
    · intro ht
      have ht' : (E.row i).ElList.any (fun e => decide ((E.elem e).Col = c)) = true := ht
      rw [List.any_eq_true] at ht'
      obtain ⟨e, he, hec⟩ := ht'
      have hec' : (E.elem e).Col = c := of_decide_eq_true hec
      show (((E.row i).ElList.filter (fun e => decide ((E.elem e).Col = c))).map
        (fvComp E x i)).sum ≠ 0
      rw [← hec', sum_filter_col_eq (fun e => (E.elem e).Col) _ _ (hd i hin) e he]
      exact div_ne_zero (mul_ne_zero hv (hwf i hin e he).2) hg
    · intro ht
      have ht' : ¬ (E.row i).ElList.any (fun e => decide ((E.elem e).Col = c)) = true := ht
      rw [Bool.not_eq_true, List.any_eq_false] at ht'
      have hfil : (E.row i).ElList.filter (fun e => decide ((E.elem e).Col = c)) = [] := by
        rw [List.filter_eq_nil_iff]
        intro e he
        exact ht' e he
      show (((E.row i).ElList.filter (fun e => decide ((E.elem e).Col = c))).map
        (fvComp E x i)).sum = 0
      rw [hfil]; rfl
  · obtain ⟨j, hj, rfl⟩ := List.mem_map.mp hb
    have hout : bndOut E x j := by
      unfold outVars at hj
      rw [List.mem_filter] at hj
      exact of_decide_eq_true hj.2
    have hne : bndCorr E x j ≠ 0 := by
      intro h0
      have := bndCorr_abs_gt E x j hout
      rw [h0, abs_zero] at this
      exact absurd this (not_lt.mpr (le_of_lt hA))
    constructor
    · intro ht
      have hjc : j = c := of_decide_eq_true ht
      show (if j = c then bndCorr E x j else 0) ≠ 0
      rw [if_pos hjc]; exact hne
    · intro ht
      have hjc : ¬ j = c := fun h => ht (decide_eq_true h)
      show (if j = c then bndCorr E x j else 0) = 0
      rw [if_neg hjc]

/-- The vector `CV1` in terms of `longestFirst`. -/
theorem CV1_of_longestFirst (E : Env K) (x : List K) (r : CVResult K)
    (hs : SqrtSpec E.sqrt) (hA : 0 < E.Alpha) (hp : 0 ≤ E.plinfy)
    (hwf : RowsWellFormed E) (hd : RowsDistinctCols E)
    (hx : x.length = E.NumCols) (hr : GetCV1 E x = some r) (hne : r.NINF ≠ 0) :
    ∃ b, longestFirst E x = some b ∧ b ∈ violations E x ∧
      ∀ j, j < E.NumCols →
        r.CV1.getD j 0 = (if touches E b j = true then fvAt E x b j else r.CV0.getD j 0) := by
  obtain ⟨b, hb, hmem⟩ := longestFirst_mem E x (violations_ne_nil E (le_of_lt hA) x r hr hne)
  refine ⟨b, hb, hmem, ?_⟩
  intro j hj
  have hjx : j < x.length := by rw [hx]; exact hj
  obtain ⟨e0, e1, _⟩ := GetCV1_entries E x r hr hne j hjx hj
  have hinv := GetCV1_loops_LongInv E hs hA hp hd x hx
  rw [hb] at hinv
  have hF : (GetCV1_loops E x).FVMaxFVLength.getD j 0 = fvAt E x b j := hinv.2.2 j hjx
  obtain ⟨ht1, ht2⟩ := fvAt_touches E hA hwf hd x b j hmem
  rw [e1, hF]
  by_cases ht : touches E b j = true
  · have hN : (GetCV1_loops E x).NumViol.getD j 0 ≠ 0 := by
      rw [← contribs_length E x j hjx hj, Ne, List.length_eq_zero]
      exact contribs_ne_nil_of_touches E x b j hmem ht
    rw [if_pos ht, if_neg hN, if_pos (ht1 ht)]
  · rw [if_neg ht, ht2 ht, e0]
    by_cases hN : (GetCV1_loops E x).NumViol.getD j 0 = 0
    · rw [if_pos hN, if_pos hN]
    · rw [if_neg hN, if_neg (not_not.mpr rfl), if_neg hN]

/-- The search `longerOf` keeps the first of the longest: at every stage the best so far
is strictly longer than what comes before it and at least as long as what follows. -/
theorem foldl_longerOf_first_longest (E : Env K) (x : List K) (t done : List (Nat ⊕ Nat))
    (c b : Nat ⊕ Nat)
    (hdone : ∃ pre post, done = pre ++ c :: post ∧
      (∀ a ∈ pre, fvLength E x a < fvLength E x c) ∧
      (∀ a ∈ post, fvLength E x a ≤ fvLength E x c))
    (hb : t.foldl (longerOf E x) (some c) = some b) :
    ∃ pre post, done ++ t = pre ++ b :: post ∧
      (∀ a ∈ pre, fvLength E x a < fvLength E x b) ∧
      (∀ a ∈ post, fvLength E x a ≤ fvLength E x b) := by
  induction t generalizing done c with
  | nil =>
    simp only [List.foldl_nil, Option.some.injEq] at hb
    rw [List.append_nil, ← hb]
    exact hdone
  | cons a t ih =>
    simp only [List.foldl_cons] at hb
    obtain ⟨pre, post, hd, hpre, hpost⟩ := hdone
    have hassoc : done ++ a :: t = (done ++ [a]) ++ t := by simp
    rw [hassoc]
    by_cases hgt : fvLength E x a > fvLength E x c
    · have hstep : longerOf E x (some c) a = some a := if_pos hgt
      rw [hstep] at hb
      apply ih (done ++ [a]) a _ hb
      refine ⟨done, [], rfl, ?_, ?_⟩
      · intro a' ha'
        rw [hd, List.mem_append, List.mem_cons] at ha'
        rcases ha' with h | h | h
        · exact lt_trans (hpre a' h) hgt
        · rw [h]; exact hgt
        · exact lt_of_le_of_lt (hpost a' h) hgt
      · intro a' ha'
        exact absurd ha' (List.not_mem_nil a')
    · have hstep : longerOf E x (some c) a = some c := if_neg hgt
      rw [hstep] at hb
      apply ih (done ++ [a]) c _ hb
      refine ⟨pre, post ++ [a], by rw [hd]; simp, hpre, ?_⟩
      intro a' ha'
      rw [List.mem_append, List.mem_singleton] at ha'
      rcases ha' with h | h
      · exact hpost a' h
      · rw [h]; exact not_lt.mp hgt

/-- The violation `longestFirst` is strictly longer than every counted violation before
it in scan order and at least as long as every one after it. -/
theorem longestFirst_spec (E : Env K) (x : List K) (b : Nat ⊕ Nat)
    (hb : longestFirst E x = some b) :
    ∃ pre post, violations E x = pre ++ b :: post ∧
      (∀ a ∈ pre, fvLength E x a < fvLength E x b) ∧
      (∀ a ∈ post, fvLength E x a ≤ fvLength E x b) := by
  unfold longestFirst at hb
  cases hv : violations E x with
  | nil =>
    rw [hv] at hb
    simp at hb
  | cons a t =>
    rw [hv] at hb
    simp only [List.foldl_cons] at hb
    have hstep : longerOf E x none a = some a := rfl
    rw [hstep] at hb
    have := foldl_longerOf_first_longest E x t [a] a b
      ⟨[], [], rfl, fun a' h => absurd h (List.not_mem_nil a'),
        fun a' h => absurd h (List.not_mem_nil a')⟩ hb
    simpa using this

/-! ### The order of the entries of a row -/

theorem perm_elem (E1 E2 : Env K) (h : SameUpToRowOrder E1 E2) (e : Nat) :
    E2.elem e = E1.elem e := by
  unfold Env.elem; rw [h.2.1]

theorem perm_col (E1 E2 : Env K) (h : SameUpToRowOrder E1 E2) (j : Nat) :
    E2.col j = E1.col j := by
  unfold Env.col; rw [h.1]

theorem perm_NumRows (E1 E2 : Env K) (h : SameUpToRowOrder E1 E2) : E2.NumRows = E1.NumRows :=
  h.2.2.2.2.2.2.2.2.1

theorem perm_NumCols (E1 E2 : Env K) (h : SameUpToRowOrder E1 E2) : E2.NumCols = E1.NumCols := by
  unfold Env.NumCols; rw [h.1]

theorem perm_ConBodyValue (E1 E2 : Env K) (h : SameUpToRowOrder E1 E2) (i : Nat) (x : List K) :
    ConBodyValue E2 i x = ConBodyValue E1 i x := by
  obtain ⟨hT, _, _, _, hP⟩ := h.2.2.2.2.2.2.2.2.2 i
  unfold ConBodyValue
  rw [perm_NumRows E1 E2 h, hT]
  have hsum : (E2.row i).ElList.foldl
      (fun acc ielem => acc + (E2.elem ielem).Value * x.getD (E2.elem ielem).Col 0) 0 =
      (E1.row i).ElList.foldl
      (fun acc ielem => acc + (E1.elem ielem).Value * x.getD (E1.elem ielem).Col 0) 0 := by
    rw [foldl_add_eq_sum (fun e => (E2.elem e).Value * x.getD (E2.elem e).Col 0),
      foldl_add_eq_sum (fun e => (E1.elem e).Value * x.getD (E1.elem e).Col 0)]
    congr 1
    simp only [perm_elem E1 E2 h]
    exact (hP.map _).sum_eq
  rw [hsum]

theorem perm_GetViolation (E1 E2 : Env K) (h : SameUpToRowOrder E1 E2) (i : Nat)
    (x : List K) : GetViolation E2 i x = GetViolation E1 i x := by
  obtain ⟨hT, hlo, hup, _, _⟩ := h.2.2.2.2.2.2.2.2.2 i
  unfold GetViolation violSwitch
  rw [perm_ConBodyValue E1 E2 h, hT, hlo, hup, h.2.2.2.1]

theorem perm_FVLenSq (E1 E2 : Env K) (h : SameUpToRowOrder E1 E2) (i : Nat) (v : K) :
    FVLenSq E2 i v = FVLenSq E1 i v := by
  obtain ⟨_, _, _, hg, hP⟩ := h.2.2.2.2.2.2.2.2.2 i
  unfold FVLenSq
  rw [foldl_add_eq_sum (fun e => (v * (E2.elem e).Value / (E2.row i).GradVecLenSq) *
        (v * (E2.elem e).Value / (E2.row i).GradVecLenSq)),
    foldl_add_eq_sum (fun e => (v * (E1.elem e).Value / (E1.row i).GradVecLenSq) *
        (v * (E1.elem e).Value / (E1.row i).GradVecLenSq))]
  congr 1
  simp only [perm_elem E1 E2 h, hg]
  exact (hP.map _).sum_eq

theorem perm_GetSFD (E1 E2 : Env K) (h : SameUpToRowOrder E1 E2) (x : List K) :
    GetSFD E2 x = GetSFD E1 x := by
  have hc : GetSFD_con E2 x = GetSFD_con E1 x := by
    funext acc i
    unfold GetSFD_con
    simp only [perm_GetViolation E1 E2 h, perm_FVLenSq E1 E2 h, h.2.2.2.2.1, h.2.2.2.2.2.2.2.1]
  have hb : GetSFD_bnd E2 x = GetSFD_bnd E1 x := by
    funext acc j
    unfold GetSFD_bnd
    simp only [perm_col E1 E2 h, h.2.2.2.2.1]
  unfold GetSFD GetSFD_loops
  rw [hc, hb, perm_NumRows E1 E2 h, perm_NumCols E1 E2 h]

theorem perm_GetCV1_el (E1 E2 : Env K) (h : SameUpToRowOrder E1 E2) (i : Nat) :
    GetCV1_el E2 i = GetCV1_el E1 i := by
  funext v b1 b2 acc e
  unfold GetCV1_el
  simp only [perm_elem E1 E2 h, (h.2.2.2.2.2.2.2.2.2 i).2.2.2.1]

theorem perm_GetCV1_bnd (E1 E2 : Env K) (h : SameUpToRowOrder E1 E2) (x : List K) :
    GetCV1_bnd E2 x = GetCV1_bnd E1 x := by
  funext acc j
  unfold GetCV1_bnd
  simp only [perm_col E1 E2 h, h.2.2.2.2.1, perm_NumCols E1 E2 h]

theorem addAt_comm (w : List K) (i j : Nat) (a b : K) :
    addAt (addAt w i a) j b = addAt (addAt w j b) i a := by
  unfold addAt
  by_cases hij : i = j
  · subst hij
    by_cases hi : i < w.length
    · rw [getD_set_eq _ _ _ _ hi, getD_set_eq _ _ _ _ hi, List.set_set, List.set_set]
      congr 1
      ring
    · rw [List.set_eq_of_length_le (not_lt.mp hi), List.set_eq_of_length_le (not_lt.mp hi),
        List.set_eq_of_length_le (not_lt.mp hi)]
  · rw [getD_set_ne _ _ _ _ _ hij, getD_set_ne _ _ _ _ _ (Ne.symm hij), List.set_comm _ _ _ hij]

theorem incrAt_comm (w : List Nat) (i j : Nat) :
    incrAt (incrAt w i) j = incrAt (incrAt w j) i := by
  unfold incrAt
  by_cases hij : i = j
  · subst hij; rfl
  · rw [getD_set_ne _ _ _ _ _ hij, getD_set_ne _ _ _ _ _ (Ne.symm hij), List.set_comm _ _ _ hij]

theorem GetCV1_el_comm_core (E : Env K) (i : Nat) (v : K) (z : CVAcc K) (e1 e2 : Nat) :
    GetCV1_el E i v false false (GetCV1_el E i v false false z e1) e2 =
      GetCV1_el E i v false false (GetCV1_el E i v false false z e2) e1 := by
  unfold GetCV1_el
  simp only [Bool.false_eq_true, if_false]
  rw [incrAt_comm, addAt_comm z.SumViol, addAt_comm z.SumWeightedViol, addAt_comm z.SumWeights]

theorem GetCV1_el_comm_distinct (E : Env K) (i : Nat) (v : K) (b1 b2 : Bool) (z : CVAcc K)
    (e1 e2 : Nat) (h : (E.elem e1).Col ≠ (E.elem e2).Col) :
    GetCV1_el E i v b1 b2 (GetCV1_el E i v b1 b2 z e1) e2 =
      GetCV1_el E i v b1 b2 (GetCV1_el E i v b1 b2 z e2) e1 := by
  unfold GetCV1_el
  dsimp only
  rw [incrAt_comm, addAt_comm z.SumViol, addAt_comm z.SumWeightedViol, addAt_comm z.SumWeights]
  cases b1 <;> cases b2 <;>
    simp only [Bool.false_eq_true, if_false, if_true, List.set_comm _ _ _ h]

theorem eraseFV_el_fold (E : Env K) (i : Nat) (v : K) (b1 b2 : Bool) (l : List Nat)
    (a : CVAcc K) :
    eraseFV (l.foldl (GetCV1_el E i v b1 b2) a) =
      l.foldl (GetCV1_el E i v false false) (eraseFV a) := by
  induction l generalizing a with
  | nil => rfl
  | cons e t ih =>
    simp only [List.foldl_cons]
    rw [ih]
    rfl

theorem eraseFV_el_fold_perm (E : Env K) (i : Nat) (v : K) (b1 b2 b1' b2' : Bool)
    (l1 l2 : List Nat) (hp : l2.Perm l1) (a a' : CVAcc K) (ha : eraseFV a' = eraseFV a) :
    eraseFV (l2.foldl (GetCV1_el E i v b1' b2') a') =
      eraseFV (l1.foldl (GetCV1_el E i v b1 b2) a) := by
  rw [eraseFV_el_fold, eraseFV_el_fold, ha]
  exact hp.foldl_eq' (fun e1 _ e2 _ z => GetCV1_el_comm_core E i v z e1 e2) _

/-- One pass of the constraint loop of `GetCV1` on the two models, from accumulators that
agree outside the stored vectors. -/
theorem eraseFV_GetCV1_con (E1 E2 : Env K) (h : SameUpToRowOrder E1 E2) (x : List K)
    (a a' : CVAcc K) (ha : eraseFV a' = eraseFV a) (i : Nat) :
    eraseFV (GetCV1_con E2 x a' i) = eraseFV (GetCV1_con E1 x a i) := by
  obtain ⟨h1, h2, h3, h4, h5, h6, h7, h8, h9⟩ := eraseFV_fields a a' ha
  have hP := (h.2.2.2.2.2.2.2.2.2 i).2.2.2.2
  unfold GetCV1_con
  simp only [perm_GetViolation E1 E2 h, perm_FVLenSq E1 E2 h, h.2.2.2.2.1, h.2.2.2.2.2.2.2.1,
    perm_NumCols E1 E2 h, perm_GetCV1_el E1 E2 h]
  by_cases c1 : (GetViolation E1 i x).FVStatus > 0
  · rw [if_pos c1, if_pos c1]; exact ha
  · rw [if_neg c1, if_neg c1]
    by_cases c2 : (GetViolation E1 i x).ViolStatus > 0
    · rw [if_pos c2, if_pos c2]; exact ha
    · rw [if_neg c2, if_neg c2]
      by_cases c3 : FVLenSq E1 i (GetViolation E1 i x).Violation < E1.Alpha * E1.Alpha
      · rw [if_pos c3, if_pos c3]; exact ha
      · rw [if_neg c3, if_neg c3]
        apply eraseFV_el_fold_perm E1 i _ _ _ _ _ _ _ hP
        apply eraseFV_eq_of_fields
        rw [h4, h5]
        split_ifs <;> simp [h1, h2, h3, h4, h5, h6, h7, h8, h9]

/-- One pass of the bound loop of `GetCV1` from accumulators that agree outside the
stored vectors. -/
theorem eraseFV_GetCV1_bnd (E : Env K) (x : List K) (a a' : CVAcc K)
    (ha : eraseFV a' = eraseFV a) (j : Nat) :
    eraseFV (GetCV1_bnd E x a' j) = eraseFV (GetCV1_bnd E x a j) := by
  obtain ⟨h1, h2, h3, h4, h5, h6, h7, h8, h9⟩ := eraseFV_fields a a' ha
  unfold GetCV1_bnd
  by_cases c1 : x.getD j 0 ≥ (E.col j).BndLo - E.Alpha
  · rw [if_pos c1, if_pos c1]
    by_cases c2 : x.getD j 0 ≤ (E.col j).BndUp + E.Alpha
    · rw [if_pos c2, if_pos c2]; exact ha
    · rw [if_neg c2, if_neg c2]
      by_cases c3 : x.getD j 0 - (E.col j).BndUp > E.Alpha
      · rw [if_pos c3, if_pos c3]
        apply eraseFV_eq_of_fields
        dsimp only
        rw [h4, h5]
        split_ifs <;> simp [h1, h2, h3, h4, h5, h6, h7, h8, h9]
      · rw [if_neg c3, if_neg c3]; exact ha
  · rw [if_neg c1, if_neg c1]
    by_cases c3 : (E.col j).BndLo - x.getD j 0 > E.Alpha
    · rw [if_pos c3, if_pos c3]
      apply eraseFV_eq_of_fields
      dsimp only
      rw [h4, h5]
      split_ifs <;> simp [h1, h2, h3, h4, h5, h6, h7, h8, h9]
    · rw [if_neg c3, if_neg c3]; exact ha

theorem eraseFV_GetCV1_loops (E1 E2 : Env K) (h : SameUpToRowOrder E1 E2) (x : List K) :
    eraseFV (GetCV1_loops E2 x) = eraseFV (GetCV1_loops E1 x) := by
  unfold GetCV1_loops
  dsimp only
  rw [perm_NumRows E1 E2 h, perm_NumCols E1 E2 h, perm_GetCV1_bnd E1 E2 h, h.2.2.1]
  apply foldl_rel (fun a' a : CVAcc K => eraseFV a' = eraseFV a)
  · apply foldl_rel (fun a' a : CVAcc K => eraseFV a' = eraseFV a)
    · rfl
    · intro a' a i ha
      exact eraseFV_GetCV1_con E1 E2 h x a a' ha i
  · intro a' a j ha
    exact eraseFV_GetCV1_bnd E1 x a a' ha j

/-- The last loop of `GetCV1` from accumulators that agree outside the stored vectors:
`CV0`, `CV2`, `CV3` and the sums of their squares agree. -/
theorem GetCV1_fin_erased (a a' : CVAcc K) (ha : eraseFV a' = eraseFV a) (l : List Nat)
    (f f' : CVFin K)
    (hf : f'.CV0 = f.CV0 ∧ f'.CV2 = f.CV2 ∧ f'.CV3 = f.CV3 ∧ f'.rhold0 = f.rhold0 ∧
      f'.rhold2 = f.rhold2 ∧ f'.rhold3 = f.rhold3) :
    (l.foldl (GetCV1_fin a') f').CV0 = (l.foldl (GetCV1_fin a) f).CV0 ∧
    (l.foldl (GetCV1_fin a') f').CV2 = (l.foldl (GetCV1_fin a) f).CV2 ∧
    (l.foldl (GetCV1_fin a') f').CV3 = (l.foldl (GetCV1_fin a) f).CV3 ∧
    (l.foldl (GetCV1_fin a') f').rhold0 = (l.foldl (GetCV1_fin a) f).rhold0 ∧
    (l.foldl (GetCV1_fin a') f').rhold2 = (l.foldl (GetCV1_fin a) f).rhold2 ∧
    (l.foldl (GetCV1_fin a') f').rhold3 = (l.foldl (GetCV1_fin a) f).rhold3 := by
  obtain ⟨_, _, _, _, _, h6, h7, h8, h9⟩ := eraseFV_fields a a' ha
  apply foldl_rel (fun g' g : CVFin K => g'.CV0 = g.CV0 ∧ g'.CV2 = g.CV2 ∧ g'.CV3 = g.CV3 ∧
    g'.rhold0 = g.rhold0 ∧ g'.rhold2 = g.rhold2 ∧ g'.rhold3 = g.rhold3)
  · exact hf
  · intro g' g j hg
    obtain ⟨g1, g2, g3, g4, g5, g6⟩ := hg
    unfold GetCV1_fin
    rw [h6, h7, h8, h9]
    split_ifs <;> simp [g1, g2, g3, g4, g5, g6]

/-- The results of `GetCV1` on the two models: everything but `CV1` agrees. -/
theorem perm_GetCV1 (E1 E2 : Env K) (h : SameUpToRowOrder E1 E2) (x : List K) :
    (GetCV1 E2 x).map (fun r => (r.CV0, r.CV2, r.CV3, r.SFD, r.SINF, r.NINF)) =
      (GetCV1 E1 x).map (fun r => (r.CV0, r.CV2, r.CV3, r.SFD, r.SINF, r.NINF)) := by
  have he := eraseFV_GetCV1_loops E1 E2 h x
  obtain ⟨h1, h2, h3, _, _, _, _, _, _⟩ := eraseFV_fields _ _ he
  unfold GetCV1
  by_cases hlen : x.length = 1
  · rw [if_pos hlen, if_pos hlen]
  · rw [if_neg hlen, if_neg hlen]
    dsimp only
    rw [h1, perm_NumCols E1 E2 h]
    by_cases hN : (GetCV1_loops E1 x).NINF = 0
    · rw [if_pos hN, if_pos hN]
    · rw [if_neg hN, if_neg hN]
      obtain ⟨f0, f2, f3, _, _, _⟩ := GetCV1_fin_erased _ _ he (List.range E1.NumCols)
        ⟨List.replicate x.length 0, List.replicate x.length 0, List.replicate x.length 0,
          List.replicate x.length 0, 0, 0, 0, 0⟩
        ⟨List.replicate x.length 0, List.replicate x.length 0, List.replicate x.length 0,
          List.replicate x.length 0, 0, 0, 0, 0⟩ ⟨rfl, rfl, rfl, rfl, rfl, rfl⟩
      simp only [Option.map_some', f0, f2, f3, h2, h3]

/-- With pairwise distinct columns in every row the constraint loop of `GetCV1` gives
the same accumulators on the two models. -/
theorem perm_GetCV1_con (E1 E2 : Env K) (h : SameUpToRowOrder E1 E2)
    (hd : RowsDistinctCols E1) (x : List K) (a : CVAcc K) (i : Nat) :
    GetCV1_con E2 x a i = GetCV1_con E1 x a i := by
  have hP := (h.2.2.2.2.2.2.2.2.2 i).2.2.2.2
  unfold GetCV1_con
  simp only [perm_GetViolation E1 E2 h, perm_FVLenSq E1 E2 h, h.2.2.2.2.1, h.2.2.2.2.2.2.2.1,
    perm_NumCols E1 E2 h, perm_GetCV1_el E1 E2 h]
  by_cases c1 : (GetViolation E1 i x).FVStatus > 0
  · rw [if_pos c1, if_pos c1]
  · rw [if_neg c1, if_neg c1]
    by_cases c2 : (GetViolation E1 i x).ViolStatus > 0
    · rw [if_pos c2, if_pos c2]
    · rw [if_neg c2, if_neg c2]
      by_cases c3 : FVLenSq E1 i (GetViolation E1 i x).Violation < E1.Alpha * E1.Alpha
      · rw [if_pos c3, if_pos c3]
      · rw [if_neg c3, if_neg c3]
        have hin : i < E1.NumRows := by
          by_contra hge
          apply c1
          unfold GetViolation ConBodyValue
          rw [if_pos (not_lt.mp hge)]
          simp
        apply hP.foldl_eq'
        intro e1 he1 e2 he2 z
        by_cases hcol : (E1.elem e1).Col = (E1.elem e2).Col
        · have he : e1 = e2 :=
            List.inj_on_of_nodup_map (hd i hin) (hP.subset he1) (hP.subset he2) hcol
          rw [he]
        · exact GetCV1_el_comm_distinct E1 i _ _ _ z e1 e2 hcol

theorem perm_GetCV1_distinct (E1 E2 : Env K) (h : SameUpToRowOrder E1 E2)
    (hd : RowsDistinctCols E1) (x : List K) : GetCV1 E2 x = GetCV1 E1 x := by
  have hc : GetCV1_con E2 x = GetCV1_con E1 x := by
    funext a i
    exact perm_GetCV1_con E1 E2 h hd x a i
  have hl : GetCV1_loops E2 x = GetCV1_loops E1 x := by
    unfold GetCV1_loops
    rw [hc, perm_GetCV1_bnd E1 E2 h, perm_NumRows E1 E2 h, perm_NumCols E1 E2 h, h.2.2.1]
  unfold GetCV1
  rw [hl, perm_NumCols E1 E2 h, h.2.2.2.2.2.2.2.1, h.2.2.2.2.2.1]

/-- C20, as amended: if `E2` is `E1` with the entries of the element lists of its rows
permuted, then at every point the body value and the result of `GetViolation` of every
row, the result of `GetSFD` (`SFD` and `NINF` among it), and `CV0`, `CV2`, `CV3`, `SFD`,
`SINF`, `NINF` of `GetCV1` are the same on both models; and if every row of `E1`
references each column at most once, the whole result of `GetCV1`, `CV1` included, is
the same. -/
theorem C20_row_order_invariance (E1 E2 : Env K) (h : SameUpToRowOrder E1 E2) (x : List K) :
    (∀ i, ConBodyValue E2 i x = ConBodyValue E1 i x) ∧
    (∀ i, GetViolation E2 i x = GetViolation E1 i x) ∧
    GetSFD E2 x = GetSFD E1 x ∧
    (GetCV1 E2 x).map (fun r => (r.CV0, r.CV2, r.CV3, r.SFD, r.SINF, r.NINF)) =
      (GetCV1 E1 x).map (fun r => (r.CV0, r.CV2, r.CV3, r.SFD, r.SINF, r.NINF)) ∧
    (RowsDistinctCols E1 → GetCV1 E2 x = GetCV1 E1 x) :=
  ⟨fun i => perm_ConBodyValue E1 E2 h i x, fun i => perm_GetViolation E1 E2 h i x,
    perm_GetSFD E1 E2 h x, perm_GetCV1 E1 E2 h x, fun hd => perm_GetCV1_distinct E1 E2 h hd x⟩

/-! ### A row that lists a column twice -/

theorem sqrtQ_25 : sqrtQ 25 = 5 := by
  have h : Nat.sqrt (Int.toNat 25) = 5 := Nat.sqrt_eq 5
  norm_num [sqrtQ, h]

theorem sqrtQ_16 : sqrtQ 16 = 4 := by
  have h : Nat.sqrt (Int.toNat 16) = 4 := Nat.sqrt_eq 4
  norm_num [sqrtQ, h]

theorem sqrtQ_9 : sqrtQ 9 = 3 := by
  have h : Nat.sqrt (Int.toNat 9) = 3 := Nat.sqrt_eq 3
  norm_num [sqrtQ, h]

theorem sqrtQ_49 : sqrtQ 49 = 7 := by
  have h : Nat.sqrt (Int.toNat 49) = 7 := Nat.sqrt_eq 7
  norm_num [sqrtQ, h]

theorem sqrtQ_49_4 : sqrtQ (49 / 4) = 7 / 2 := by
  have h : Nat.sqrt (Int.toNat 49) = 7 := Nat.sqrt_eq 7
  have h2 : Nat.sqrt 4 = 2 := Nat.sqrt_eq 2
  norm_num [sqrtQ, h, h2]


theorem dupA_v0 : GetViolation (modelDup ℚ sqrtQ [0, 1]) 0 [0, 0] = ⟨0, 0, 25⟩ := by
  simp +decide [GetViolation, ConBodyValue, violSwitch, modelDup, Env.NumRows, Env.row,
    Env.elem]
  norm_num

theorem dupA_con0 :
    GetCV1_con (modelDup ℚ sqrtQ [0, 1]) [0, 0]
      ⟨0, 0, 0, -10000000000, -10000000000, [0, 0], [0, 0], [0, 0], [0, 0], [0, 0], [0, 0]⟩ 0 =
      ⟨1, 5, 25, 25, 5, [2, 0], [7, 0], [175, 0], [50, 0], [4, 0], [4, 0]⟩ := by
  have f0 : FVLenSq (modelDup ℚ sqrtQ [0, 1]) 0 25 = 25 := by
    norm_num [FVLenSq, modelDup, Env.row, Env.elem]
  have hA : (modelDup ℚ sqrtQ [0, 1]).Alpha = 1 / 1000000 := rfl
  have hsq : (modelDup ℚ sqrtQ [0, 1]).sqrt = sqrtQ := rfl
  have hc : (modelDup ℚ sqrtQ [0, 1]).NumCols = 2 := rfl
  have hel : ((modelDup ℚ sqrtQ [0, 1]).row 0).ElList = [0, 1] := rfl
  have he0 : (modelDup ℚ sqrtQ [0, 1]).elem 0 = ⟨0, 0, 3⟩ := rfl
  have he1 : (modelDup ℚ sqrtQ [0, 1]).elem 1 = ⟨0, 0, 4⟩ := rfl
  have hg : ((modelDup ℚ sqrtQ [0, 1]).row 0).GradVecLenSq = 25 := rfl
  have habs : |(25 : ℚ)| = 25 := abs_of_pos (by norm_num)
  simp only [GetCV1_con, dupA_v0, habs, f0, hA, hsq, sqrtQ_25, hc, hel, List.foldl,
    GetCV1_el, he0, he1, hg, zeroFirst, List.range, List.range.loop, incrAt, addAt]
  norm_num

theorem dupA_bnd (acc : CVAcc ℚ) (j : Nat) :
    GetCV1_bnd (modelDup ℚ sqrtQ [0, 1]) [0, 0] acc j = acc := by
  have hcol : (modelDup ℚ sqrtQ [0, 1]).col j = ⟨"R", 10, 0, (if j = 0 then [0, 1] else [])⟩ ∨
      (modelDup ℚ sqrtQ [0, 1]).col j = ⟨"", 0, 0, []⟩ := by
    rcases j with _ | _ | j
    · left; rfl
    · left; rfl
    · right; rfl
  have hx : ([0, 0] : List ℚ).getD j 0 = 0 := by
    rcases j with _ | _ | j <;> rfl
  unfold GetCV1_bnd
  rcases hcol with hcol | hcol <;> rw [hcol, hx] <;> norm_num [modelDup]

theorem dupA_loops :
    GetCV1_loops (modelDup ℚ sqrtQ [0, 1]) [0, 0] =
      ⟨1, 5, 25, 25, 5, [2, 0], [7, 0], [175, 0], [50, 0], [4, 0], [4, 0]⟩ := by
  have hr : (modelDup ℚ sqrtQ [0, 1]).NumRows = 1 := rfl
  have hc : (modelDup ℚ sqrtQ [0, 1]).NumCols = 2 := rfl
  have hp : (modelDup ℚ sqrtQ [0, 1]).plinfy = 10000000000 := rfl
  have r1 : List.range 1 = [0] := rfl
  have r2 : List.range 2 = [0, 1] := rfl
  have hz : List.replicate ([0, 0] : List ℚ).length (0 : ℚ) = [0, 0] := rfl
  have hzn : List.replicate ([0, 0] : List ℚ).length (0 : ℕ) = [0, 0] := rfl
  rw [GetCV1_loops, hr, hc, hp, r1, r2]
  simp only [hz, hzn, List.foldl, dupA_con0, dupA_bnd]

theorem dupA_GetCV1 :
    GetCV1 (modelDup ℚ sqrtQ [0, 1]) [0, 0] =
      some ⟨0, [7 / 2, 0], [4, 0], [7 / 2, 0], [7, 0], false, false, false, false, 5, 25, 1⟩ := by
  have hc : (modelDup ℚ sqrtQ [0, 1]).NumCols = 2 := rfl
  have hsq : (modelDup ℚ sqrtQ [0, 1]).sqrt = sqrtQ := rfl
  have hB : (modelDup ℚ sqrtQ [0, 1]).Beta = 1 / 10000 := rfl
  have r2 : List.range 2 = [0, 1] := rfl
  have hz : List.replicate ([0, 0] : List ℚ).length (0 : ℚ) = [0, 0] := rfl
  have hlen : ([0, 0] : List ℚ).length ≠ 1 := by decide
  rw [GetCV1, if_neg hlen]
  simp only [dupA_loops, hc, hsq, hB, r2, hz, List.foldl, GetCV1_fin]
  norm_num [sqrtQ_49_4, sqrtQ_16, sqrtQ_49]

theorem dupB_v0 : GetViolation (modelDup ℚ sqrtQ [1, 0]) 0 [0, 0] = ⟨0, 0, 25⟩ := by
  simp +decide [GetViolation, ConBodyValue, violSwitch, modelDup, Env.NumRows, Env.row,
    Env.elem]
  norm_num

theorem dupB_con0 :
    GetCV1_con (modelDup ℚ sqrtQ [1, 0]) [0, 0]
      ⟨0, 0, 0, -10000000000, -10000000000, [0, 0], [0, 0], [0, 0], [0, 0], [0, 0], [0, 0]⟩ 0 =
      ⟨1, 5, 25, 25, 5, [2, 0], [7, 0], [175, 0], [50, 0], [3, 0], [3, 0]⟩ := by
  have f0 : FVLenSq (modelDup ℚ sqrtQ [1, 0]) 0 25 = 25 := by
    norm_num [FVLenSq, modelDup, Env.row, Env.elem]
  have hA : (modelDup ℚ sqrtQ [1, 0]).Alpha = 1 / 1000000 := rfl
  have hsq : (modelDup ℚ sqrtQ [1, 0]).sqrt = sqrtQ := rfl
  have hc : (modelDup ℚ sqrtQ [1, 0]).NumCols = 2 := rfl
  have hel : ((modelDup ℚ sqrtQ [1, 0]).row 0).ElList = [1, 0] := rfl
  have he0 : (modelDup ℚ sqrtQ [1, 0]).elem 0 = ⟨0, 0, 3⟩ := rfl
  have he1 : (modelDup ℚ sqrtQ [1, 0]).elem 1 = ⟨0, 0, 4⟩ := rfl
  have hg : ((modelDup ℚ sqrtQ [1, 0]).row 0).GradVecLenSq = 25 := rfl
  have habs : |(25 : ℚ)| = 25 := abs_of_pos (by norm_num)
  simp only [GetCV1_con, dupB_v0, habs, f0, hA, hsq, sqrtQ_25, hc, hel, List.foldl,
    GetCV1_el, he0, he1, hg, zeroFirst, List.range, List.range.loop, incrAt, addAt]
  norm_num

theorem dupB_bnd (acc : CVAcc ℚ) (j : Nat) :
    GetCV1_bnd (modelDup ℚ sqrtQ [1, 0]) [0, 0] acc j = acc := by
  have hcol : (modelDup ℚ sqrtQ [1, 0]).col j = ⟨"R", 10, 0, (if j = 0 then [0, 1] else [])⟩ ∨
      (modelDup ℚ sqrtQ [1, 0]).col j = ⟨"", 0, 0, []⟩ := by
    rcases j with _ | _ | j
    · left; rfl
    · left; rfl
    · right; rfl
  have hx : ([0, 0] : List ℚ).getD j 0 = 0 := by
    rcases j with _ | _ | j <;> rfl
  unfold GetCV1_bnd
  rcases hcol with hcol | hcol <;> rw [hcol, hx] <;> norm_num [modelDup]

theorem dupB_loops :
    GetCV1_loops (modelDup ℚ sqrtQ [1, 0]) [0, 0] =
      ⟨1, 5, 25, 25, 5, [2, 0], [7, 0], [175, 0], [50, 0], [3, 0], [3, 0]⟩ := by
  have hr : (modelDup ℚ sqrtQ [1, 0]).NumRows = 1 := rfl
  have hc : (modelDup ℚ sqrtQ [1, 0]).NumCols = 2 := rfl
  have hp : (modelDup ℚ sqrtQ [1, 0]).plinfy = 10000000000 := rfl
  have r1 : List.range 1 = [0] := rfl
  have r2 : List.range 2 = [0, 1] := rfl
  have hz : List.replicate ([0, 0] : List ℚ).length (0 : ℚ) = [0, 0] := rfl
  have hzn : List.replicate ([0, 0] : List ℚ).length (0 : ℕ) = [0, 0] := rfl
  rw [GetCV1_loops, hr, hc, hp, r1, r2]
  simp only [hz, hzn, List.foldl, dupB_con0, dupB_bnd]

theorem dupB_GetCV1 :
    GetCV1 (modelDup ℚ sqrtQ [1, 0]) [0, 0] =
      some ⟨0, [7 / 2, 0], [3, 0], [7 / 2, 0], [7, 0], false, false, false, false, 5, 25, 1⟩ := by
  have hc : (modelDup ℚ sqrtQ [1, 0]).NumCols = 2 := rfl
  have hsq : (modelDup ℚ sqrtQ [1, 0]).sqrt = sqrtQ := rfl
  have hB : (modelDup ℚ sqrtQ [1, 0]).Beta = 1 / 10000 := rfl
  have r2 : List.range 2 = [0, 1] := rfl
  have hz : List.replicate ([0, 0] : List ℚ).length (0 : ℚ) = [0, 0] := rfl
  have hlen : ([0, 0] : List ℚ).length ≠ 1 := by decide
  rw [GetCV1, if_neg hlen]
  simp only [dupB_loops, hc, hsq, hB, r2, hz, List.foldl, GetCV1_fin]
  norm_num [sqrtQ_49_4, sqrtQ_9, sqrtQ_49]

theorem modelDup_SameUpToRowOrder :
    SameUpToRowOrder (modelDup ℚ sqrtQ [0, 1]) (modelDup ℚ sqrtQ [1, 0]) := by
  refine ⟨rfl, rfl, rfl, rfl, rfl, rfl, rfl, rfl, rfl, ?_⟩
  intro i
  rcases i with _ | i
  · exact ⟨rfl, rfl, rfl, rfl, List.Perm.swap 0 1 []⟩
  · exact ⟨rfl, rfl, rfl, rfl, List.Perm.refl _⟩

/-- C20, counterexample: the row `3*x1 + 4*x1 ≥ 25` lists column 1 twice. At `(0, 0)`
`GetCV1` returns `CV1 = (4, 0)` when the element list of the row is `[0, 1]` and
`CV1 = (3, 0)` when it is `[1, 0]`: the stored longest feasibility vector keeps the entry
written last to a column. -/
theorem C20_counterexample :
    SameUpToRowOrder (modelDup ℚ sqrtQ [0, 1]) (modelDup ℚ sqrtQ [1, 0]) ∧
    ∃ r1 r2, GetCV1 (modelDup ℚ sqrtQ [0, 1]) [0, 0] = some r1 ∧
      GetCV1 (modelDup ℚ sqrtQ [1, 0]) [0, 0] = some r2 ∧
      r1.CV1 = [4, 0] ∧ r2.CV1 = [3, 0] ∧ r1.CV1 ≠ r2.CV1 :=
  ⟨modelDup_SameUpToRowOrder, _, _, dupA_GetCV1, dupB_GetCV1, rfl, rfl, by decide⟩

theorem C20_witness :
    SameUpToRowOrder (modelDup ℚ sqrtQ [0, 1]) (modelDup ℚ sqrtQ [1, 0]) ∧
    GetSFD (modelDup ℚ sqrtQ [1, 0]) [0, 0] = GetSFD (modelDup ℚ sqrtQ [0, 1]) [0, 0] ∧
    (GetCV1 (modelDup ℚ sqrtQ [1, 0]) [0, 0]).map
        (fun r => (r.CV0, r.CV2, r.CV3, r.SFD, r.SINF, r.NINF)) =
      (GetCV1 (modelDup ℚ sqrtQ [0, 1]) [0, 0]).map
        (fun r => (r.CV0, r.CV2, r.CV3, r.SFD, r.SINF, r.NINF)) :=
  ⟨modelDup_SameUpToRowOrder,
    (C20_row_order_invariance (modelDup ℚ sqrtQ [0, 1]) (modelDup ℚ sqrtQ [1, 0])
      modelDup_SameUpToRowOrder [0, 0]).2.2.1,
    (C20_row_order_invariance (modelDup ℚ sqrtQ [0, 1]) (modelDup ℚ sqrtQ [1, 0])
      modelDup_SameUpToRowOrder [0, 0]).2.2.2.1⟩

/-- C14: on a model whose row elements are nonzero and lie in columns of the model and
whose rows reference each column at most once, with `Alpha > 0` and `plinfy ≥ 0`, at a
point with one entry per column where `GetCV1` counts some violation: there is a counted
violation `b` (a row or an out-of-bounds variable) that is strictly longer than every
counted violation before it in scan order (rows in index order, then variables) and at
least as long as every one after it, and `CV1[j]` is the component of the feasibility
vector of `b` on every column `j` that `b` touches and `CV0[j]` on every other column. -/
theorem C14_CV1_imposes_longest_vector (E : Env K) (x : List K) (r : CVResult K)
    (hs : SqrtSpec E.sqrt) (hA : 0 < E.Alpha) (hp : 0 ≤ E.plinfy)
    (hwf : RowsWellFormed E) (hd : RowsDistinctCols E)
    (hx : x.length = E.NumCols) (hr : GetCV1 E x = some r) (hne : r.NINF ≠ 0) :
    ∃ b pre post, longestFirst E x = some b ∧ violations E x = pre ++ b :: post ∧
      (∀ a ∈ pre, fvLength E x a < fvLength E x b) ∧
      (∀ a ∈ post, fvLength E x a ≤ fvLength E x b) ∧
      ∀ j, j < E.NumCols →
        r.CV1.getD j 0 = (if touches E b j = true then fvAt E x b j else r.CV0.getD j 0) := by
  obtain ⟨b, hb, _, hcv⟩ := CV1_of_longestFirst E x r hs hA hp hwf hd hx hr hne
  obtain ⟨pre, post, hv, h1, h2⟩ := longestFirst_spec E x b hb
  exact ⟨b, pre, post, hb, hv, h1, h2, hcv⟩

theorem modelG_RowsDistinctCols (sqrt : K → K) : RowsDistinctCols (modelG K sqrt) := by
  intro i hi
  have h0 : i = 0 := by
    have : i < 1 := hi
    omega
  subst h0
  simp [modelG, Env.row, Env.elem]

theorem modelG_origin_NINF (sqrt : K → K) (r : CVResult K)
    (hr : GetCV1 (modelG K sqrt) [0, 0] = some r) : r.NINF ≠ 0 := by
  have hc : rowCounted (modelG K sqrt) [0, 0] 0 := by
    unfold rowCounted
    rw [modelG_origin_violation]
    refine ⟨rfl, rfl, ?_⟩
    norm_num [FVLenSq, modelG, Env.row, Env.elem]
  have hmem : 0 ∈ countedRows (modelG K sqrt) [0, 0] :=
    (mem_countedRows _ _ _).mpr ⟨Nat.one_pos, hc⟩
  have hpos : 0 < (countedRows (modelG K sqrt) [0, 0]).length := List.length_pos_of_mem hmem
  rw [GetCV1_NINF _ _ r hr,
    (GetCV1_loops_same (modelG K sqrt) (le_of_lt (modelG_Alpha_pos sqrt)) [0, 0]).2,
    GetSFD_loops_NINF_eq]
  omega

theorem C14_witness :
    (SqrtSpec (modelG ℝ Real.sqrt).sqrt ∧ 0 < (modelG ℝ Real.sqrt).Alpha ∧
      0 ≤ (modelG ℝ Real.sqrt).plinfy ∧ RowsWellFormed (modelG ℝ Real.sqrt) ∧
      RowsDistinctCols (modelG ℝ Real.sqrt) ∧
      ([0, 0] : List ℝ).length = (modelG ℝ Real.sqrt).NumCols) ∧
    ∃ r, GetCV1 (modelG ℝ Real.sqrt) [0, 0] = some r ∧ r.NINF ≠ 0 ∧
      ∃ b pre post, longestFirst (modelG ℝ Real.sqrt) [0, 0] = some b ∧
        violations (modelG ℝ Real.sqrt) [0, 0] = pre ++ b :: post ∧
        (∀ a ∈ pre, fvLength (modelG ℝ Real.sqrt) [0, 0] a <
          fvLength (modelG ℝ Real.sqrt) [0, 0] b) ∧
        (∀ a ∈ post, fvLength (modelG ℝ Real.sqrt) [0, 0] a ≤
          fvLength (modelG ℝ Real.sqrt) [0, 0] b) ∧
        ∀ j, j < (modelG ℝ Real.sqrt).NumCols →
          r.CV1.getD j 0 =
            (if touches (modelG ℝ Real.sqrt) b j = true then
              fvAt (modelG ℝ Real.sqrt) [0, 0] b j else r.CV0.getD j 0) := by
  obtain ⟨r, hr⟩ := GetCV1_isSome (modelG ℝ Real.sqrt) [0, 0] (by decide)
  have hne := modelG_origin_NINF Real.sqrt r hr
  exact ⟨⟨sqrtSpec_real, modelG_Alpha_pos Real.sqrt, modelG_plinfy_nonneg Real.sqrt,
      modelG_RowsWellFormed Real.sqrt, modelG_RowsDistinctCols Real.sqrt, rfl⟩,
    r, hr, hne,
    C14_CV1_imposes_longest_vector (modelG ℝ Real.sqrt) [0, 0] r sqrtSpec_real
      (modelG_Alpha_pos Real.sqrt) (modelG_plinfy_nonneg Real.sqrt)
      (modelG_RowsWellFormed Real.sqrt) (modelG_RowsDistinctCols Real.sqrt) rfl hr hne⟩

theorem C13_witness :
    ([0, 0] : List ℚ).length = (modelDup ℚ sqrtQ [0, 1]).NumCols ∧
    ∃ r, GetCV1 (modelDup ℚ sqrtQ [0, 1]) [0, 0] = some r ∧ r.NINF ≠ 0 ∧
      0 < (modelDup ℚ sqrtQ [0, 1]).NumCols ∧
      r.CV0.getD 0 0 =
        (if contribs (modelDup ℚ sqrtQ [0, 1]) [0, 0] 0 = [] then 0
         else (contribs (modelDup ℚ sqrtQ [0, 1]) [0, 0] 0).sum /
           ((contribs (modelDup ℚ sqrtQ [0, 1]) [0, 0] 0).length : ℚ)) :=
  ⟨rfl, _, dupA_GetCV1, by decide, by decide,
    C13_CV0_is_mean_of_contributions (modelDup ℚ sqrtQ [0, 1]) [0, 0] _ rfl dupA_GetCV1
      (by decide) 0 (by decide)⟩

/-- A row that `GetViolation` reports violated is counted by `GetSFD` when
`Alpha² * g ≤ featol²`, for the stored `g = Σ a_ij² > 0`. -/
theorem counted_of_violated (E : Env K) (x : List K) (i : Nat) (hin : i < E.NumRows)
    (hf : 0 ≤ E.featol)
    (hT : (E.row i).Typ = "G" ∨ (E.row i).Typ = "L" ∨ (E.row i).Typ = "E" ∨
      (E.row i).Typ = "R")
    (hg : (E.row i).GradVecLenSq = GradVecLenSqOf E i) (hpos : 0 < (E.row i).GradVecLenSq)
    (hlen : E.Alpha * E.Alpha * (E.row i).GradVecLenSq ≤ E.featol * E.featol)
    (hv : (GetViolation E i x).ViolStatus = 0) : rowCounted E x i := by
  have hFV : (GetViolation E i x).FVStatus = 0 := by
    rw [GetViolation_eq E i x hin]
    by_cases hN : (E.row i).Typ = "N"
    · simp [hN]
    · simp only [hN, if_false]
      split <;> rfl
  refine ⟨hFV, hv, ?_⟩
  have hsq : E.featol * E.featol ≤
      (GetViolation E i x).Violation * (GetViolation E i x).Violation := by
    rcases GetViolation_violated_cases E i x hin hT hv with ⟨_, hb, hval⟩ | ⟨_, hb, hval⟩
    · rw [hval]
      exact mul_self_le_mul_self hf (by linarith)
    · rw [hval]
      have h1 : E.featol ≤ -((E.row i).RHSup - rowBody E i x) := by linarith
      have := mul_self_le_mul_self hf h1
      rw [neg_mul_neg] at this
      exact this
  rw [FVLenSq_eq, ← hg]
  have hne : (E.row i).GradVecLenSq ≠ 0 := ne_of_gt hpos
  have hform : (GetViolation E i x).Violation * (GetViolation E i x).Violation /
      ((E.row i).GradVecLenSq * (E.row i).GradVecLenSq) * (E.row i).GradVecLenSq =
      (GetViolation E i x).Violation * (GetViolation E i x).Violation /
        (E.row i).GradVecLenSq := by
    field_simp
    ring
  rw [hform, le_div_iff₀ hpos]
  exact le_trans hlen hsq

theorem TestPoint_con_NINF (E : Env K) (x : List K) (acc : TestResult K) (i : Nat)
    (hv : (GetViolation E i x).FVStatus > 0 ∨ (GetViolation E i x).ViolStatus > 0) :
    (TestPoint_con E x acc i).NINF = acc.NINF := by
  unfold TestPoint_con
  dsimp only
  by_cases h1 : (GetViolation E i x).FVStatus > 0
  · rw [if_pos h1]
  · rw [if_neg h1]
    have h2 : (GetViolation E i x).ViolStatus > 0 := by
      rcases hv with h | h
      · exact absurd h h1
      · exact h
    rw [if_pos h2]

theorem TestPoint_bnd_NINF (E : Env K) (x : List K) (acc : TestResult K) (j : Nat)
    (hAf : E.Alpha ≤ E.featol) (hb : ¬ bndOut E x j) :
    (TestPoint_bnd E x acc j).NINF = acc.NINF := by
  rw [bndOut_iff, not_not] at hb
  have h1 : x.getD j 0 ≥ (E.col j).BndLo - E.featol := by linarith [hb.1]
  have h2 : x.getD j 0 ≤ (E.col j).BndUp + E.featol := by linarith [hb.2]
  unfold TestPoint_bnd TestPoint_up TestPoint_lo
  by_cases c1 : (E.col j).BndLo > -E.plinfy
  · by_cases c2 : (E.col j).BndUp < E.plinfy
    · rw [if_pos c1, if_pos h1, if_pos c2, if_pos h2]
    · rw [if_pos c1, if_pos h1, if_neg c2]
  · by_cases c2 : (E.col j).BndUp < E.plinfy
    · rw [if_neg c1, if_pos c2, if_pos h2]
    · rw [if_neg c1, if_neg c2]

/-- C19, as amended: if `0 < Alpha ≤ featol`, every row has a type among N, G, L, E, R
and a stored `g = Σ a_ij²` with `0 < g` and `Alpha² * g ≤ featol²` (a gradient of length
at most `featol / Alpha`, which is 1 when `Alpha = featol`), then at every point where
`GetSFD` reports `NINF = 0`, `TestPoint` reports `NINF = 0`. -/
theorem C19_TestPoint_feasible_of_short_gradients (E : Env K) (x : List K)
    (hA : 0 < E.Alpha) (hAf : E.Alpha ≤ E.featol)
    (hT : ∀ i, i < E.NumRows → (E.row i).Typ = "N" ∨ (E.row i).Typ = "G" ∨
      (E.row i).Typ = "L" ∨ (E.row i).Typ = "E" ∨ (E.row i).Typ = "R")
    (hg : GradStored E)
    (hlen : ∀ i, i < E.NumRows → 0 < (E.row i).GradVecLenSq ∧
      E.Alpha * E.Alpha * (E.row i).GradVecLenSq ≤ E.featol * E.featol)
    (h : (GetSFD E x).NINF = 0) : (TestPoint E x).NINF = 0 := by
  obtain ⟨hrows, hcols⟩ := feasible_facts E x h
  have hf : 0 ≤ E.featol := le_trans (le_of_lt hA) hAf
  unfold TestPoint
  dsimp only
  apply foldl_inv (fun a : TestResult K => a.NINF = 0)
  · apply foldl_inv (fun a : TestResult K => a.NINF = 0)
    · rfl
    · intro a i hi ha
      have hin := List.mem_range.mp hi
      rw [TestPoint_con_NINF E x a i, ha]
      right
      rcases hT i hin with hN | hGLER
      · rw [GetViolation_eq E i x hin, if_pos hN]
        exact Nat.one_pos
      · by_contra hv
        have hv0 : (GetViolation E i x).ViolStatus = 0 := by omega
        exact hrows i hin (counted_of_violated E x i hin hf hGLER (hg i hin) (hlen i hin).1
          (hlen i hin).2 hv0)
  · intro a j hj ha
    rw [TestPoint_bnd_NINF E x a j hAf (hcols j (List.mem_range.mp hj)), ha]

theorem modelUnit_feasible (sqrt : K → K) :
    GetSFD (modelUnit K sqrt) [2, 0] = ⟨1, 0, 0, -1, -1, 0⟩ := by
  have v0 : GetViolation (modelUnit K sqrt) 0 [2, 0] = ⟨0, 2, 0⟩ := by
    simp +decide [GetViolation, ConBodyValue, violSwitch, modelUnit, Env.NumRows, Env.row,
      Env.elem]
  have hr : (modelUnit K sqrt).NumRows = 1 := rfl
  have hc : (modelUnit K sqrt).NumCols = 2 := rfl
  have c0 : ∀ acc, GetSFD_con (modelUnit K sqrt) [2, 0] acc 0 = acc := by
    intro acc; simp [GetSFD_con, v0]
  have b0 : ∀ acc, GetSFD_bnd (modelUnit K sqrt) [2, 0] acc 0 = acc := by
    intro acc; norm_num [GetSFD_bnd, modelUnit, Env.col]
  have b1 : ∀ acc, GetSFD_bnd (modelUnit K sqrt) [2, 0] acc 1 = acc := by
    intro acc; norm_num [GetSFD_bnd, modelUnit, Env.col]
  have hl : GetSFD_loops (modelUnit K sqrt) [2, 0] = ⟨0, 0, 0, -1, -1, 0⟩ := by
    have r1 : List.range 1 = [0] := rfl
    have r2 : List.range 2 = [0, 1] := rfl
    rw [GetSFD_loops, hr, hc, r1, r2]
    simp only [List.foldl, c0, b0, b1]
  simp [GetSFD, hl]

theorem modelUnit_rows (sqrt : K → K) (i : Nat) (hi : i < (modelUnit K sqrt).NumRows) :
    (modelUnit K sqrt).row i = ⟨"G", 2, 10000000000, 1, [0]⟩ := by
  have h0 : i = 0 := by
    have : i < 1 := hi
    omega
  subst h0
  rfl

theorem C19_witness :
    (0 < (modelUnit ℚ sqrtQ).Alpha ∧ (modelUnit ℚ sqrtQ).Alpha ≤ (modelUnit ℚ sqrtQ).featol ∧
      GradStored (modelUnit ℚ sqrtQ) ∧ (GetSFD (modelUnit ℚ sqrtQ) [2, 0]).NINF = 0) ∧
    (TestPoint (modelUnit ℚ sqrtQ) [2, 0]).NINF = 0 := by
  have hA : 0 < (modelUnit ℚ sqrtQ).Alpha := by norm_num [modelUnit]
  have hAf : (modelUnit ℚ sqrtQ).Alpha ≤ (modelUnit ℚ sqrtQ).featol := by norm_num [modelUnit]
  have hg : GradStored (modelUnit ℚ sqrtQ) := by
    intro i hi
    rw [modelUnit_rows sqrtQ i hi]
    have h0 : i = 0 := by
      have : i < 1 := hi
      omega
    subst h0
    norm_num [GradVecLenSqOf, modelUnit, Env.row, Env.elem]
  have hf : (GetSFD (modelUnit ℚ sqrtQ) [2, 0]).NINF = 0 := by rw [modelUnit_feasible]
  exact ⟨⟨hA, hAf, hg, hf⟩,
    C19_TestPoint_feasible_of_short_gradients (modelUnit ℚ sqrtQ) [2, 0] hA hAf
      (fun i hi => by rw [modelUnit_rows sqrtQ i hi]; exact Or.inr (Or.inl rfl)) hg
      (fun i hi => by rw [modelUnit_rows sqrtQ i hi]; norm_num [modelUnit]) hf⟩

/-! ### The incumbent ordered by `SFD` keeps no record of the source -/

/-- C24: `UpdateIncumbentSFD` never writes to `NumUpdate` or `FracUpdate`, whatever the
candidate and the source `UpdatedBy`. In particular when a candidate with a smaller
`SFD` replaces the incumbent (status other than 2, `TotUpdates` incremented,
`IncumbentSFD` set to the candidate's), both lists are as before. The sibling
`UpdateIncumbentSFDforNINF` does record a replacement that is not the first one:
`NumUpdate[UpdatedBy]` grows by 1. -/
theorem C24_UpdateIncumbentSFD_records_nothing (s : State K) (PointIn : List K) (SFDin : K)
    (NINFin UpdatedBy : Int) :
    (UpdateIncumbentSFD s PointIn SFDin NINFin UpdatedBy).2.NumUpdate = s.NumUpdate ∧
    (UpdateIncumbentSFD s PointIn SFDin NINFin UpdatedBy).2.FracUpdate = s.FracUpdate ∧
    (SFDin < s.IncumbentSFD →
      (UpdateIncumbentSFD s PointIn SFDin NINFin UpdatedBy).1 ≠ 2 ∧
      (UpdateIncumbentSFD s PointIn SFDin NINFin UpdatedBy).2.IncumbentSFD = SFDin ∧
      (UpdateIncumbentSFD s PointIn SFDin NINFin UpdatedBy).2.TotUpdates = s.TotUpdates + 1 ∧
      (UpdateIncumbentSFD s PointIn SFDin NINFin UpdatedBy).2.NumUpdate = s.NumUpdate ∧
      (UpdateIncumbentSFD s PointIn SFDin NINFin UpdatedBy).2.FracUpdate = s.FracUpdate) ∧
    (NINFin < s.IncumbentNINF → 1 ≤ s.TotUpdates →
      (UpdateIncumbentSFDforNINF s PointIn SFDin NINFin UpdatedBy).2.NumUpdate =
        s.NumUpdate.set UpdatedBy.toNat (s.NumUpdate.getD UpdatedBy.toNat 0 + 1)) := by
  have hN : (UpdateIncumbentSFD s PointIn SFDin NINFin UpdatedBy).2.NumUpdate = s.NumUpdate := by
    unfold UpdateIncumbentSFD
    split_ifs <;> rfl
  have hF : (UpdateIncumbentSFD s PointIn SFDin NINFin UpdatedBy).2.FracUpdate = s.FracUpdate := by
    unfold UpdateIncumbentSFD
    split_ifs <;> rfl
  refine ⟨hN, hF, fun hlt => ⟨?_, ?_, ?_, hN, hF⟩, fun hlt hT => ?_⟩
  · unfold UpdateIncumbentSFD
    rw [if_neg (not_lt.mpr (le_of_lt hlt)), if_neg (fun h => absurd h.1 (ne_of_lt hlt))]
    dsimp only
    split_ifs <;> decide
  · unfold UpdateIncumbentSFD
    rw [if_neg (not_lt.mpr (le_of_lt hlt)), if_neg (fun h => absurd h.1 (ne_of_lt hlt))]
  · unfold UpdateIncumbentSFD
    rw [if_neg (not_lt.mpr (le_of_lt hlt)), if_neg (fun h => absurd h.1 (ne_of_lt hlt))]
  · unfold UpdateIncumbentSFDforNINF
    rw [if_neg (not_lt.mpr (le_of_lt hlt)), if_neg (fun h => absurd h.1 (ne_of_lt hlt))]
    have h1 : s.TotUpdates + 1 > 1 := by omega
    simp only [h1, if_true]

/-! ### `Project` without progress -/

/-- C29: for a point `Pt0` and an update vector `v` such that neither `Pt0` nor
`Pt1 = Pt0 + v` is feasible for `GetSFD`, `Project` returns status 2 exactly when
`SFD(Pt1) ≥ SFD(Pt0)`; and when it returns status 2 the point returned is `Pt0` and the
package state (incumbent and projection counters included) is the one it was called
with. -/
theorem C29_Project_no_progress (E : Env K) (s : State K) (Pt0 v : List K)
    (h0 : (GetSFD E Pt0).NINF ≠ 0) (h1 : (GetSFD E (Project_Pt1 E Pt0 v)).NINF ≠ 0) :
    ((Project E s Pt0 v).Status = 2 ↔
      (GetSFD E (Project_Pt1 E Pt0 v)).SFDout ≥ (GetSFD E Pt0).SFDout) ∧
    ((Project E s Pt0 v).Status = 2 →
      (Project E s Pt0 v).PointOut = Pt0 ∧ (Project E s Pt0 v).state = s) := by
  have s0 : (GetSFD E Pt0).Status = 0 := by
    rcases GetSFD_Status E Pt0 with ⟨h, _⟩ | ⟨_, _, h⟩
    · exact h
    · exact absurd h h0
  have s1 : (GetSFD E (Project_Pt1 E Pt0 v)).Status = 0 := by
    rcases GetSFD_Status E (Project_Pt1 E Pt0 v) with ⟨h, _⟩ | ⟨_, _, h⟩
    · exact h
    · exact absurd h h1
  by_cases hge : (GetSFD E (Project_Pt1 E Pt0 v)).SFDout ≥ (GetSFD E Pt0).SFDout
  · have hP : Project E s Pt0 v = ⟨2, Pt0, s⟩ := by
      unfold Project
      simp only [s0, s1, if_pos hge]
      simp
    rw [hP]
    exact ⟨⟨fun _ => hge, fun _ => rfl⟩, fun _ => ⟨rfl, rfl⟩⟩
  · have hP : Project E s Pt0 v = Project_lin E s Pt0 v (Project_Pt1 E Pt0 v)
        (GetSFD E Pt0).SFDout (GetSFD E (Project_Pt1 E Pt0 v)).SFDout
        ((List.range E.NumCols).foldl (fun r j => r + v.getD j 0 * v.getD j 0) 0) := by
      unfold Project
      simp only [s0, s1, if_neg hge]
      simp
    have hle := Project_lin_Status_le E s Pt0 v (Project_Pt1 E Pt0 v)
      (GetSFD E Pt0).SFDout (GetSFD E (Project_Pt1 E Pt0 v)).SFDout
      ((List.range E.NumCols).foldl (fun r j => r + v.getD j 0 * v.getD j 0) 0)
    rw [← hP] at hle
    have hne : (Project E s Pt0 v).Status ≠ 2 := by omega
    exact ⟨⟨fun h => absurd h hne, fun h => absurd h hge⟩, fun h => absurd h hne⟩


/-- C29 at a concrete input: on the model of scenario 2, from the origin with the zero
update vector, `Pt1` is the origin again, `Project` returns status 2 and the origin. -/
theorem C29_witness :
    (GetSFD (modelG ℚ sqrtQ) [0, 0]).NINF ≠ 0 ∧
    (GetSFD (modelG ℚ sqrtQ) (Project_Pt1 (modelG ℚ sqrtQ) [0, 0] [0, 0])).NINF ≠ 0 ∧
    (Project (modelG ℚ sqrtQ) (initState (modelG ℚ sqrtQ)) [0, 0] [0, 0]).Status = 2 ∧
    (Project (modelG ℚ sqrtQ) (initState (modelG ℚ sqrtQ)) [0, 0] [0, 0]).PointOut = [0, 0] ∧
    (Project (modelG ℚ sqrtQ) (initState (modelG ℚ sqrtQ)) [0, 0] [0, 0]).state =
      initState (modelG ℚ sqrtQ) := by
  have hP : Project_Pt1 (modelG ℚ sqrtQ) [0, 0] [0, 0] = [0, 0] := by
    simp [Project_Pt1, modelG, Env.NumCols, List.range, List.range.loop]
  have h0 : (GetSFD (modelG ℚ sqrtQ) [0, 0]).NINF ≠ 0 := by
    rcases GetSFD_Status (modelG ℚ sqrtQ) [0, 0] with ⟨_, h⟩ | ⟨h, _⟩
    · exact h
    · rw [modelG_origin_infeasible] at h; exact absurd h (by decide)
  have h1 : (GetSFD (modelG ℚ sqrtQ) (Project_Pt1 (modelG ℚ sqrtQ) [0, 0] [0, 0])).NINF ≠ 0 := by
    rw [hP]; exact h0
  have h := C29_Project_no_progress (modelG ℚ sqrtQ) (initState (modelG ℚ sqrtQ)) [0, 0] [0, 0]
    h0 h1
  have hst : (Project (modelG ℚ sqrtQ) (initState (modelG ℚ sqrtQ)) [0, 0] [0, 0]).Status = 2 :=
    h.1.mpr (by rw [hP])
  exact ⟨h0, h1, hst, (h.2 hst).1, (h.2 hst).2⟩

/-! ### The mean and variance accumulators of `Solve` -/

theorem getD_map_range (f : Nat → K) (n j : Nat) (hj : j < n) :
    ((List.range n).map f).getD j 0 = f j := by
  simp [List.getD_eq_getElem?_getD, List.getElem?_map, List.getElem?_range hj]

theorem sum_sq_shift {α : Type} (f : α → K) (c : K) (l : List α) :
    (l.map (fun p => (f p - c) * (f p - c))).sum =
      (l.map (fun p => f p * f p)).sum - 2 * c * (l.map f).sum + (l.length : K) * (c * c) := by
  induction l with
  | nil => simp
  | cons a t ih =>
    simp only [List.map_cons, List.sum_cons, List.length_cons, ih]
    push_cast
    ring

/-- The invariant of the accumulator loop of `Solve`: after records whose qualifying ones
are `qs`, the counter is their number and, if there is one, `M` and `Q` hold the running
mean and the sum of squares minus the square of the sum over the count. -/
theorem Solve_accumulate_inv (E : Env K) (L : K) (acc : SolveAcc K) (qs : List (POINTDATA K))
    (p : POINTDATA K) (hp : p.SFD ≤ L) (hc : acc.icount = qs.length)
    (hinv : qs ≠ [] → ∀ j, j < E.NumCols →
      acc.M.getD j 0 = (qs.map (fun q => q.Point.getD j 0)).sum / (qs.length : K) ∧
      acc.Q.getD j 0 = (qs.map (fun q => q.Point.getD j 0 * q.Point.getD j 0)).sum -
        (qs.map (fun q => q.Point.getD j 0)).sum * (qs.map (fun q => q.Point.getD j 0)).sum /
          (qs.length : K)) :
    (Solve_accumulate E L acc p).icount = (qs ++ [p]).length ∧
    ∀ j, j < E.NumCols →
      (Solve_accumulate E L acc p).M.getD j 0 =
        ((qs ++ [p]).map (fun q => q.Point.getD j 0)).sum / ((qs ++ [p]).length : K) ∧
      (Solve_accumulate E L acc p).Q.getD j 0 =
        ((qs ++ [p]).map (fun q => q.Point.getD j 0 * q.Point.getD j 0)).sum -
        ((qs ++ [p]).map (fun q => q.Point.getD j 0)).sum *
          ((qs ++ [p]).map (fun q => q.Point.getD j 0)).sum / ((qs ++ [p]).length : K) := by
  unfold Solve_accumulate
  rw [if_pos hp]
  dsimp only
  by_cases h1 : acc.icount + 1 = 1
  · rw [if_pos h1]
    have hq : qs = [] := by
      have : qs.length = 0 := by omega
      exact List.length_eq_zero.mp this
    subst hq
    refine ⟨by simp [hc], fun j hj => ?_⟩
    dsimp only
    rw [getD_map_range _ _ _ hj, getD_map_range _ _ _ hj]
    simp
  · rw [if_neg h1]
    have hne : qs ≠ [] := by
      intro h; rw [h] at hc; simp at hc; omega
    refine ⟨by simp [hc], fun j hj => ?_⟩
    dsimp only
    obtain ⟨hM, hQ⟩ := hinv hne j hj
    rw [getD_map_range _ _ _ hj, getD_map_range _ _ _ hj, hM, hQ, hc]
    have hk : (0 : K) < (qs.length : K) := by
      have : 0 < qs.length := List.length_pos.mpr hne
      exact_mod_cast this
    have hk1 : (0 : K) < (qs.length : K) + 1 := by linarith
    simp only [List.map_append, List.map_cons, List.map_nil, List.sum_append, List.sum_cons,
      List.sum_nil, add_zero, List.length_append, List.length_cons, List.length_nil, zero_add,
      Nat.add_sub_cancel]
    push_cast
    constructor
    · field_simp
      ring
    · field_simp
      ring

theorem Solve_collect_inv (E : Env K) (L : K) (recs : List (POINTDATA K)) :
    ∀ (acc : SolveAcc K) (qs : List (POINTDATA K)),
    (∀ p ∈ recs, p.NINF ≠ 0) → acc.icount = qs.length →
    (qs ≠ [] → ∀ j, j < E.NumCols →
      acc.M.getD j 0 = (qs.map (fun q => q.Point.getD j 0)).sum / (qs.length : K) ∧
      acc.Q.getD j 0 = (qs.map (fun q => q.Point.getD j 0 * q.Point.getD j 0)).sum -
        (qs.map (fun q => q.Point.getD j 0)).sum * (qs.map (fun q => q.Point.getD j 0)).sum /
          (qs.length : K)) →
    (Solve_collect E L recs acc).1 = none ∧
    (Solve_collect E L recs acc).2.icount =
      (qs ++ recs.filter (fun p => decide (p.SFD ≤ L))).length ∧
    ((qs ++ recs.filter (fun p => decide (p.SFD ≤ L))) ≠ [] → ∀ j, j < E.NumCols →
      (Solve_collect E L recs acc).2.M.getD j 0 =
        ((qs ++ recs.filter (fun p => decide (p.SFD ≤ L))).map
          (fun q => q.Point.getD j 0)).sum /
          ((qs ++ recs.filter (fun p => decide (p.SFD ≤ L))).length : K) ∧
      (Solve_collect E L recs acc).2.Q.getD j 0 =
        ((qs ++ recs.filter (fun p => decide (p.SFD ≤ L))).map
          (fun q => q.Point.getD j 0 * q.Point.getD j 0)).sum -
        ((qs ++ recs.filter (fun p => decide (p.SFD ≤ L))).map
          (fun q => q.Point.getD j 0)).sum *
        ((qs ++ recs.filter (fun p => decide (p.SFD ≤ L))).map
          (fun q => q.Point.getD j 0)).sum /
          ((qs ++ recs.filter (fun p => decide (p.SFD ≤ L))).length : K)) := by
  induction recs with
  | nil =>
    intro acc qs _ hc hinv
    simp only [Solve_collect, List.filter_nil, List.append_nil]
    exact ⟨trivial, hc, hinv⟩
  | cons p rest ih =>
    intro acc qs hN hc hinv
    have hp : p.NINF ≠ 0 := hN p (List.mem_cons_self _ _)
    have hrest : ∀ q ∈ rest, q.NINF ≠ 0 := fun q hq => hN q (List.mem_cons_of_mem _ hq)
    rw [Solve_collect]
    rw [if_neg hp]
    by_cases hq : p.SFD ≤ L
    · have hstep := Solve_accumulate_inv E L
        { acc with AvgSFD := acc.AvgSFD + p.SFD, NumCCRuns := acc.NumCCRuns + 1 } qs p hq hc hinv
      have := ih _ (qs ++ [p]) hrest hstep.1 (fun _ => hstep.2)
      rw [List.filter_cons_of_pos (by simpa using hq)]
      simpa [List.append_assoc] using this
    · have hacc : Solve_accumulate E L
          { acc with AvgSFD := acc.AvgSFD + p.SFD, NumCCRuns := acc.NumCCRuns + 1 } p =
          { acc with AvgSFD := acc.AvgSFD + p.SFD, NumCCRuns := acc.NumCCRuns + 1 } := by
        unfold Solve_accumulate
        rw [if_neg hq]
      rw [hacc, List.filter_cons_of_neg (by simpa using hq)]
      exact ih _ qs hrest hc hinv

theorem sqDevAt_eq (qs : List (POINTDATA K)) (j : Nat) (hne : qs ≠ []) :
    sqDevAt qs j = (qs.map (fun q => q.Point.getD j 0 * q.Point.getD j 0)).sum -
      (qs.map (fun q => q.Point.getD j 0)).sum * (qs.map (fun q => q.Point.getD j 0)).sum /
        (qs.length : K) := by
  have hk : (qs.length : K) ≠ 0 := by
    have : 0 < qs.length := List.length_pos.mpr hne
    exact_mod_cast (ne_of_gt this)
  unfold sqDevAt
  rw [sum_sq_shift (fun q : POINTDATA K => q.Point.getD j 0) (meanAt qs j) qs]
  unfold meanAt
  field_simp
  ring

/-- C30: in the loop of `Solve` that retrieves the records of a round, run on records
none of which is feasible (`NINF ≠ 0`, so that the loop is not left) from a counter at 0,
let `qs` be the records that qualify (`SFD ≤ LastAvgSFD`), `k ≥ 1` of them. After the
loop `icount = k` and, for every dimension `j`, `M[j]` is the arithmetic mean of the
coordinate `j` of the points of `qs` and `Q[j]` is the sum of their squared deviations
from that mean; the new box is built from `sqrt(Q[j]/icount)`, the square root of the
sum of squared deviations over `k`. -/
theorem C30_Welford_mean_and_deviation (E : Env K) (LastAvgSFD : K)
    (recs : List (POINTDATA K)) (acc0 : SolveAcc K) (h0 : acc0.icount = 0)
    (hN : ∀ p ∈ recs, p.NINF ≠ 0)
    (hk : 1 ≤ (recs.filter (fun p => decide (p.SFD ≤ LastAvgSFD))).length)
    (j : Nat) (hj : j < E.NumCols) :
    (Solve_collect E LastAvgSFD recs acc0).2.icount =
      (recs.filter (fun p => decide (p.SFD ≤ LastAvgSFD))).length ∧
    (Solve_collect E LastAvgSFD recs acc0).2.M.getD j 0 =
      meanAt (recs.filter (fun p => decide (p.SFD ≤ LastAvgSFD))) j ∧
    (Solve_collect E LastAvgSFD recs acc0).2.Q.getD j 0 =
      sqDevAt (recs.filter (fun p => decide (p.SFD ≤ LastAvgSFD))) j ∧
    newBox E (Solve_collect E LastAvgSFD recs acc0).2 j =
      newBox E ⟨0, (recs.filter (fun p => decide (p.SFD ≤ LastAvgSFD))).length, 0,
        (List.range E.NumCols).map
          (meanAt (recs.filter (fun p => decide (p.SFD ≤ LastAvgSFD)))),
        (List.range E.NumCols).map
          (sqDevAt (recs.filter (fun p => decide (p.SFD ≤ LastAvgSFD))))⟩ j := by
  have hne : recs.filter (fun p => decide (p.SFD ≤ LastAvgSFD)) ≠ [] := by
    intro h; rw [h] at hk; simp at hk
  have h := Solve_collect_inv E LastAvgSFD recs acc0 [] hN (by simpa using h0)
    (fun h => absurd rfl h)
  simp only [List.nil_append] at h
  obtain ⟨_, hc, hMQ⟩ := h
  obtain ⟨hM, hQ⟩ := hMQ hne j hj
  have hQ' := hQ
  rw [← sqDevAt_eq _ j hne] at hQ'
  refine ⟨hc, hM, hQ', ?_⟩
  unfold newBox
  simp only [getD_map_range _ _ _ hj]
  rw [hM, hQ', hc]
  rfl


/-- C30 at a concrete input: three records, of which the first and the third qualify,
with points `(1, 0)` and `(3, 4)`: the mean is `(2, 2)` and the sums of squared
deviations are `(2, 8)`. -/
theorem C30_witness :
    (Solve_collect (modelG ℚ sqrtQ) 5
        [⟨[1, 0], 2, 1⟩, ⟨[7, 7], 9, 1⟩, ⟨[3, 4], 5, 2⟩] ⟨0, 0, 0, [0, 0], [0, 0]⟩).2.icount = 2 ∧
    (Solve_collect (modelG ℚ sqrtQ) 5
        [⟨[1, 0], 2, 1⟩, ⟨[7, 7], 9, 1⟩, ⟨[3, 4], 5, 2⟩] ⟨0, 0, 0, [0, 0], [0, 0]⟩).2.M.getD 1 0
      = 2 ∧
    (Solve_collect (modelG ℚ sqrtQ) 5
        [⟨[1, 0], 2, 1⟩, ⟨[7, 7], 9, 1⟩, ⟨[3, 4], 5, 2⟩] ⟨0, 0, 0, [0, 0], [0, 0]⟩).2.Q.getD 1 0
      = 8 := by
  have hf : ([⟨[1, 0], 2, 1⟩, ⟨[7, 7], 9, 1⟩, ⟨[3, 4], 5, 2⟩] : List (POINTDATA ℚ)).filter
      (fun p => decide (p.SFD ≤ 5)) = [⟨[1, 0], 2, 1⟩, ⟨[3, 4], 5, 2⟩] := by
    simp +decide [List.filter]
  have h := C30_Welford_mean_and_deviation (modelG ℚ sqrtQ) 5
    [⟨[1, 0], 2, 1⟩, ⟨[7, 7], 9, 1⟩, ⟨[3, 4], 5, 2⟩] ⟨0, 0, 0, [0, 0], [0, 0]⟩ rfl
    (by intro p hp; simp at hp; rcases hp with h | h | h <;> rw [h] <;> decide)
    (by rw [hf]; decide) 1 (by decide)
  rw [hf] at h
  refine ⟨h.1, ?_, ?_⟩
  · rw [h.2.1]; norm_num [meanAt]
  · rw [h.2.2.1]; norm_num [sqDevAt, meanAt]

/-! ### `QuadApprox` -/

theorem getD_map_range' {α : Type} (f : Nat → α) (d : α) (n j : Nat) (hj : j < n) :
    ((List.range n).map f).getD j d = f j := by
  simp [List.getD_eq_getElem?_getD, List.getElem?_map, List.getElem?_range hj]

theorem foldl_range_congr (n : Nat) (f g : Nat → K) (h : ∀ j, j < n → f j = g j) (a : K) :
    (List.range n).foldl (fun r j => r + f j) a = a + ((List.range n).map g).sum := by
  rw [foldl_add_eq_sum]
  congr 1
  congr 1
  apply List.map_congr_left
  intro j hj
  exact h j (List.mem_range.mp hj)

/-- The two square roots of `QuadApprox` are the distances of `Pt1` and of `Pt2` from
`Pt0`, and its result in terms of `X2`, their quotient. -/
theorem QuadApprox_eq (E : Env K) (Pt0 Pt1 Pt2 : List K) (Y0 Y1 Y2 : K) :
    QuadApprox E Pt0 Pt1 Pt2 Y0 Y1 Y2 =
      if (2 * Y0) / ((0 - 1) * (0 - distOf E Pt2 Pt0 / distOf E Pt1 Pt0)) +
          (2 * Y1) / ((1 - 0) * (1 - distOf E Pt2 Pt0 / distOf E Pt1 Pt0)) +
          (2 * Y2) / ((distOf E Pt2 Pt0 / distOf E Pt1 Pt0 - 0) *
            (distOf E Pt2 Pt0 / distOf E Pt1 Pt0 - 1)) < E.featol then (1, Pt2)
      else (0, (List.range E.NumCols).map (fun j => Pt0.getD j 0 +
        ((Y0 * (distOf E Pt2 Pt0 / distOf E Pt1 Pt0) + Y0 * 1) /
            ((0 - 1) * (0 - distOf E Pt2 Pt0 / distOf E Pt1 Pt0)) +
          (Y1 * (distOf E Pt2 Pt0 / distOf E Pt1 Pt0) + Y1 * 0) /
            ((1 - 0) * (1 - distOf E Pt2 Pt0 / distOf E Pt1 Pt0)) +
          (Y2 * 1 + Y2 * 0) / ((distOf E Pt2 Pt0 / distOf E Pt1 Pt0 - 0) *
            (distOf E Pt2 Pt0 / distOf E Pt1 Pt0 - 1))) /
        ((2 * Y0) / ((0 - 1) * (0 - distOf E Pt2 Pt0 / distOf E Pt1 Pt0)) +
          (2 * Y1) / ((1 - 0) * (1 - distOf E Pt2 Pt0 / distOf E Pt1 Pt0)) +
          (2 * Y2) / ((distOf E Pt2 Pt0 / distOf E Pt1 Pt0 - 0) *
            (distOf E Pt2 Pt0 / distOf E Pt1 Pt0 - 1))) *
        (Pt1.getD j 0 - Pt0.getD j 0))) := by
  have h1 : (List.range E.NumCols).foldl
      (fun r j => r +
        ((List.range E.NumCols).map (fun j => Pt1.getD j 0 - Pt0.getD j 0)).getD j 0 *
        ((List.range E.NumCols).map (fun j => Pt1.getD j 0 - Pt0.getD j 0)).getD j 0) 0 =
      ((List.range E.NumCols).map
        (fun j => (Pt1.getD j 0 - Pt0.getD j 0) * (Pt1.getD j 0 - Pt0.getD j 0))).sum := by
    rw [foldl_range_congr E.NumCols _
      (fun j => (Pt1.getD j 0 - Pt0.getD j 0) * (Pt1.getD j 0 - Pt0.getD j 0))
      (fun j hj => by rw [getD_map_range' _ _ _ _ hj]), zero_add]
  have h2 : (List.range E.NumCols).foldl
      (fun r j => r + (Pt2.getD j 0 - Pt0.getD j 0) * (Pt2.getD j 0 - Pt0.getD j 0)) 0 =
      ((List.range E.NumCols).map
        (fun j => (Pt2.getD j 0 - Pt0.getD j 0) * (Pt2.getD j 0 - Pt0.getD j 0))).sum := by
    rw [foldl_add_eq_sum, zero_add]
  have h3 : ∀ c : K, (List.range E.NumCols).map (fun j => Pt0.getD j 0 +
        c * ((List.range E.NumCols).map (fun j => Pt1.getD j 0 - Pt0.getD j 0)).getD j 0) =
      (List.range E.NumCols).map (fun j => Pt0.getD j 0 +
        c * (Pt1.getD j 0 - Pt0.getD j 0)) := by
    intro c
    apply List.map_congr_left
    intro j hj
    rw [getD_map_range' _ _ _ _ (List.mem_range.mp hj)]
  unfold QuadApprox
  dsimp only
  rw [h1, h2, h3]
  rfl

/-- C23: let `X2` be the distance of `Pt2` from `Pt0` over that of `Pt1` from `Pt0`, not
0 and not 1, and let `q(X) = α*X^2 + β*X + γ` be a quadratic through `(0, Y0)`,
`(1, Y1)` and `(X2, Y2)`. With `featol > 0`, `QuadApprox` returns status 1 exactly when
the second derivative `2*α` of `q` is below `featol`; otherwise it returns status 0 and
the point `Pt0 + XMin*(Pt1 - Pt0)`, where `XMin = -β/(2*α)` is the strict minimiser of
`q`. -/
theorem C23_QuadApprox_minimiser (E : Env K) (Pt0 Pt1 Pt2 : List K) (Y0 Y1 Y2 α β γ : K)
    (hf : 0 < E.featol)
    (hX0 : distOf E Pt2 Pt0 / distOf E Pt1 Pt0 ≠ 0)
    (hX1 : distOf E Pt2 Pt0 / distOf E Pt1 Pt0 ≠ 1)
    (hq0 : α * 0 * 0 + β * 0 + γ = Y0)
    (hq1 : α * 1 * 1 + β * 1 + γ = Y1)
    (hq2 : α * (distOf E Pt2 Pt0 / distOf E Pt1 Pt0) * (distOf E Pt2 Pt0 / distOf E Pt1 Pt0) +
      β * (distOf E Pt2 Pt0 / distOf E Pt1 Pt0) + γ = Y2) :
    ((QuadApprox E Pt0 Pt1 Pt2 Y0 Y1 Y2).1 = 1 ↔ 2 * α < E.featol) ∧
    (¬ 2 * α < E.featol →
      (QuadApprox E Pt0 Pt1 Pt2 Y0 Y1 Y2).1 = 0 ∧
      (QuadApprox E Pt0 Pt1 Pt2 Y0 Y1 Y2).2 = (List.range E.NumCols).map
        (fun j => Pt0.getD j 0 + -β / (2 * α) * (Pt1.getD j 0 - Pt0.getD j 0)) ∧
      ∀ X, X ≠ -β / (2 * α) →
        α * (-β / (2 * α)) * (-β / (2 * α)) + β * (-β / (2 * α)) + γ <
          α * X * X + β * X + γ) := by
  have h1 : (1 : K) - distOf E Pt2 Pt0 / distOf E Pt1 Pt0 ≠ 0 := fun h =>
    hX1 (sub_eq_zero.mp h).symm
  have h2 : distOf E Pt2 Pt0 / distOf E Pt1 Pt0 - 1 ≠ 0 := fun h => hX1 (sub_eq_zero.mp h)
  have ha : (2 * Y0) / ((0 - 1) * (0 - distOf E Pt2 Pt0 / distOf E Pt1 Pt0)) +
      (2 * Y1) / ((1 - 0) * (1 - distOf E Pt2 Pt0 / distOf E Pt1 Pt0)) +
      (2 * Y2) / ((distOf E Pt2 Pt0 / distOf E Pt1 Pt0 - 0) *
        (distOf E Pt2 Pt0 / distOf E Pt1 Pt0 - 1)) = 2 * α := by
    rw [← hq0, ← hq1, ← hq2]
    generalize distOf E Pt2 Pt0 / distOf E Pt1 Pt0 = X2 at hX0 h1 h2
    field_simp
    ring
  have hb : (Y0 * (distOf E Pt2 Pt0 / distOf E Pt1 Pt0) + Y0 * 1) /
        ((0 - 1) * (0 - distOf E Pt2 Pt0 / distOf E Pt1 Pt0)) +
      (Y1 * (distOf E Pt2 Pt0 / distOf E Pt1 Pt0) + Y1 * 0) /
        ((1 - 0) * (1 - distOf E Pt2 Pt0 / distOf E Pt1 Pt0)) +
      (Y2 * 1 + Y2 * 0) / ((distOf E Pt2 Pt0 / distOf E Pt1 Pt0 - 0) *
        (distOf E Pt2 Pt0 / distOf E Pt1 Pt0 - 1)) = -β := by
    rw [← hq0, ← hq1, ← hq2]
    generalize distOf E Pt2 Pt0 / distOf E Pt1 Pt0 = X2 at hX0 h1 h2
    field_simp
    ring
  rw [QuadApprox_eq, ha, hb]
  constructor
  · constructor
    · intro h
      by_contra hn
      rw [if_neg hn] at h
      simp at h
    · intro h
      rw [if_pos h]
  · intro hn
    rw [if_neg hn]
    refine ⟨rfl, rfl, fun X hX => ?_⟩
    have hα : 0 < α := by
      have : E.featol ≤ 2 * α := not_lt.mp hn
      linarith
    have hd : X - -β / (2 * α) ≠ 0 := fun h => hX (sub_eq_zero.mp h)
    have hsq : 0 < (X - -β / (2 * α)) * (X - -β / (2 * α)) := mul_self_pos.mpr hd
    have key : α * X * X + β * X + γ -
        (α * (-β / (2 * α)) * (-β / (2 * α)) + β * (-β / (2 * α)) + γ) =
        α * ((X - -β / (2 * α)) * (X - -β / (2 * α))) := by
      field_simp
      ring
    have := mul_pos hα hsq
    linarith


/-- C23 at a concrete input: on the line through `(0, 0)` and `(1, 0)` with `Pt2 = (2, 0)`
and the metric values 4, 1, 2, the quadratic is `2*X^2 - 5*X + 4`, the status is 0 and
the point returned is `(5/4, 0)`. -/
theorem C23_witness :
    distOf (modelG ℚ sqrtQ) [2, 0] [0, 0] / distOf (modelG ℚ sqrtQ) [1, 0] [0, 0] = 2 ∧
    (QuadApprox (modelG ℚ sqrtQ) [0, 0] [1, 0] [2, 0] 4 1 2).1 = 0 ∧
    (QuadApprox (modelG ℚ sqrtQ) [0, 0] [1, 0] [2, 0] 4 1 2).2 = [5 / 4, 0] := by
  have d1 : distOf (modelG ℚ sqrtQ) [1, 0] [0, 0] = 1 := by
    have : sqrtQ 1 = 1 := sqrtQ_one
    simp [distOf, modelG, Env.NumCols, List.range, List.range.loop, this]
  have d2 : distOf (modelG ℚ sqrtQ) [2, 0] [0, 0] = 2 := by
    have : sqrtQ 4 = 2 := sqrtQ_four
    have e : (2 : ℚ) * 2 = 4 := by norm_num
    simp [distOf, modelG, Env.NumCols, List.range, List.range.loop, e, this]
  have h := C23_QuadApprox_minimiser (modelG ℚ sqrtQ) [0, 0] [1, 0] [2, 0] 4 1 2 2 (-5) 4
    (by norm_num [modelG]) (by rw [d1, d2]; norm_num) (by rw [d1, d2]; norm_num)
    (by norm_num) (by norm_num) (by rw [d1, d2]; norm_num)
  have hn : ¬ (2 * (2 : ℚ) < (modelG ℚ sqrtQ).featol) := by norm_num [modelG]
  refine ⟨by rw [d1, d2]; norm_num, (h.2 hn).1, ?_⟩
  rw [(h.2 hn).2.1]
  norm_num [modelG, Env.NumCols, List.range, List.range.loop]

/-! ### The infeasible model on one variable -/

theorem GetSFD_bnd_mono (E : Env K) (hA : 0 ≤ E.Alpha) (x : List K) (acc : SFDResult K)
    (j : Nat) :
    acc.SFDout ≤ (GetSFD_bnd E x acc j).SFDout ∧ acc.NINF ≤ (GetSFD_bnd E x acc j).NINF := by
  unfold GetSFD_bnd
  dsimp only
  split_ifs <;> constructor <;> (try dsimp only) <;> first
    | exact le_refl _
    | linarith

theorem GetSFD_bnd_fold_mono (E : Env K) (hA : 0 ≤ E.Alpha) (x : List K) (l : List Nat)
    (acc : SFDResult K) :
    acc.SFDout ≤ (l.foldl (GetSFD_bnd E x) acc).SFDout ∧
    acc.NINF ≤ (l.foldl (GetSFD_bnd E x) acc).NINF := by
  induction l generalizing acc with
  | nil => exact ⟨le_refl _, le_refl _⟩
  | cons j t ih =>
    rw [List.foldl_cons]
    have h1 := GetSFD_bnd_mono E hA x acc j
    have h2 := ih (GetSFD_bnd E x acc j)
    exact ⟨le_trans h1.1 h2.1, le_trans h1.2 h2.2⟩

/-- On a model with the rows and elements of the infeasible model on one variable and
`featol = Alpha = 1e-6`, whatever the bounds and the other settings, the loops of
`GetSFD` count at least one violation at every point and accumulate at least
`1 - featol`. -/
theorem infeasible_loops (E : Env K) (hs : SqrtSpec E.sqrt)
    (hR : E.Rows = [⟨"G", 2, 10000000000, 1, [0]⟩, ⟨"L", -10000000000, 1, 1, [1]⟩])
    (hE : E.Element = [⟨0, 0, 1⟩, ⟨1, 0, 1⟩])
    (hf : E.featol = 1 / 1000000) (hA : E.Alpha = 1 / 1000000) (x : List K) :
    1 ≤ (GetSFD_loops E x).NINF ∧ 1 - E.featol ≤ (GetSFD_loops E x).SFDout := by
  have hn : E.NumRows = 2 := by unfold Env.NumRows; rw [hR]; rfl
  have r0 : E.row 0 = ⟨"G", 2, 10000000000, 1, [0]⟩ := by unfold Env.row; rw [hR]; rfl
  have r1 : E.row 1 = ⟨"L", -10000000000, 1, 1, [1]⟩ := by unfold Env.row; rw [hR]; rfl
  have e0 : E.elem 0 = ⟨0, 0, 1⟩ := by unfold Env.elem; rw [hE]; rfl
  have e1 : E.elem 1 = ⟨1, 0, 1⟩ := by unfold Env.elem; rw [hE]; rfl
  have b0 : rowBody E 0 x = x.getD 0 0 := by
    unfold rowBody; rw [r0]; simp [e0]
  have b1 : rowBody E 1 x = x.getD 0 0 := by
    unfold rowBody; rw [r1]; simp [e1]
  have f0 : ∀ v : K, FVLenSq E 0 v = v * v := by
    intro v; unfold FVLenSq; rw [r0]; simp [e0]
  have f1 : ∀ v : K, FVLenSq E 1 v = v * v := by
    intro v; unfold FVLenSq; rw [r1]; simp [e1]
  have hAnn : (0 : K) ≤ E.Alpha := by rw [hA]; norm_num
  have hG := GetViolation_G E 0 x (by rw [hn]; decide) (by rw [r0])
  have hL := GetViolation_L E 1 x (by rw [hn]; decide) (by rw [r1])
  rw [b0, r0] at hG
  rw [b1, r1] at hL
  dsimp only at hG hL
  rw [hf] at hG hL
  have hsq : ∀ v : K, E.sqrt (v * v) = |v| := fun v =>
    sqrt_eq_of_mul_self E.sqrt hs |v| (v * v) (abs_nonneg v) (abs_mul_abs_self v)
  have hnn : ∀ i, (0 : K) ≤ (if rowCounted E x i then
      E.sqrt (FVLenSq E i (GetViolation E i x).Violation) else 0) := by
    intro i
    split_ifs
    · exact (hs _ (FVLenSq_nonneg E i _)).1
    · exact le_refl _
  have hrows : 1 ≤ ((List.range E.NumRows).foldl (GetSFD_con E x) ⟨0, 0, 0, -1, -1, 0⟩).NINF ∧
      1 - E.featol ≤
        ((List.range E.NumRows).foldl (GetSFD_con E x) ⟨0, 0, 0, -1, -1, 0⟩).SFDout := by
    have hr : List.range E.NumRows = [0, 1] := by rw [hn]; rfl
    rw [hr]
    simp only [List.foldl_cons, List.foldl_nil]
    rw [GetSFD_con_NINF, GetSFD_con_NINF, GetSFD_con_SFDout, GetSFD_con_SFDout, hf]
    by_cases c0 : x.getD 0 0 ≥ 2 - 1 / 1000000
    · -- row 1 is violated and counted
      have hv : GetViolation E 1 x = ⟨0, 0, 1 - x.getD 0 0⟩ :=
        hL.2 (by intro h; linarith)
      have hc1 : rowCounted E x 1 := by
        refine ⟨by rw [hv], by rw [hv], ?_⟩
        rw [hv, f1, hA]
        nlinarith
      have h0 := hnn 0
      rw [if_pos hc1, if_pos hc1, hv, f1, hsq]
      have habs : |1 - x.getD 0 0| = x.getD 0 0 - 1 := by
        rw [abs_of_nonpos (by linarith)]; ring
      rw [habs]
      constructor
      · split_ifs <;> norm_num
      · simp only [zero_add]
        linarith
    · -- row 0 is violated and counted
      have hv : GetViolation E 0 x = ⟨0, 0, 2 - x.getD 0 0⟩ := hG.2 c0
      have hlt : x.getD 0 0 < 2 - 1 / 1000000 := not_le.mp c0
      have hc0 : rowCounted E x 0 := by
        refine ⟨by rw [hv], by rw [hv], ?_⟩
        rw [hv, f0, hA]
        nlinarith
      have h1 := hnn 1
      rw [if_pos hc0, if_pos hc0, hv, f0, hsq]
      have habs : |2 - x.getD 0 0| = 2 - x.getD 0 0 := abs_of_nonneg (by linarith)
      rw [habs]
      constructor
      · split_ifs <;> norm_num
      · simp only [zero_add]
        by_cases c1 : x.getD 0 0 ≤ 1 + 1 / 1000000
        · linarith
        · have hv1 : GetViolation E 1 x = ⟨0, 0, 1 - x.getD 0 0⟩ := hL.2 c1
          have hgt : 1 + 1 / 1000000 < x.getD 0 0 := not_le.mp c1
          have hc1 : rowCounted E x 1 := by
            refine ⟨by rw [hv1], by rw [hv1], ?_⟩
            rw [hv1, f1, hA]
            nlinarith
          rw [if_pos hc1, hv1, f1, hsq]
          have habs1 : |1 - x.getD 0 0| = x.getD 0 0 - 1 := by
            rw [abs_of_nonpos (by linarith)]; ring
          rw [habs1]
          linarith
  unfold GetSFD_loops
  have hm := GetSFD_bnd_fold_mono E hAnn x (List.range E.NumCols)
    ((List.range E.NumRows).foldl (GetSFD_con E x) ⟨0, 0, 0, -1, -1, 0⟩)
  exact ⟨le_trans hrows.1 hm.2, le_trans hrows.2 hm.1⟩

theorem infeasible_GetSFD (E : Env K) (hs : SqrtSpec E.sqrt)
    (hR : E.Rows = [⟨"G", 2, 10000000000, 1, [0]⟩, ⟨"L", -10000000000, 1, 1, [1]⟩])
    (hE : E.Element = [⟨0, 0, 1⟩, ⟨1, 0, 1⟩])
    (hf : E.featol = 1 / 1000000) (hA : E.Alpha = 1 / 1000000) (x : List K) :
    1 ≤ (GetSFD E x).NINF ∧ 1 - E.featol ≤ (GetSFD E x).SFDout := by
  have h := infeasible_loops E hs hR hE hf hA x
  have hne : (GetSFD_loops E x).NINF ≠ 0 := by omega
  rw [GetSFD_NINF, GetSFD_SFDout_of_ne E x hne]
  exact h

theorem Solve_rounds_Status (E : Env K) (rand : Nat → Nat → Nat → K) (fl : Nat → K → K)
    (n itn : Nat) (s : State K) (LastAvgSFD : K) (NumCCRuns : Nat)
    (hlen : s.IncumbentPt.length = E.NumCols) (res : SolveResult K)
    (hres : Solve_rounds E rand fl n itn s LastAvgSFD NumCCRuns = some res) :
    res.Status = 0 ∨ res.Status = 1 := by
  induction n generalizing itn s LastAvgSFD NumCCRuns with
  | zero =>
    rw [Solve_rounds_zero] at hres
    cases hres
    exact Or.inr rfl
  | succ n ih =>
    have hg := Solve_round_good E (rand itn) (fl itn) s LastAvgSFD NumCCRuns hlen
    rw [Solve_rounds_succ] at hres
    cases hr : Solve_round E (rand itn) (fl itn) s LastAvgSFD NumCCRuns with
    | none =>
      rw [hr] at hres
      dsimp only at hres
      split_ifs at hres
      cases hres
      exact Or.inr rfl
    | some o =>
      cases o with
      | inl res1 =>
        rw [hr] at hres
        cases hres
        exact Or.inl (hg.1 res hr).1
      | inr next =>
        rw [hr] at hres
        exact ih (itn + 1) next.1 next.2.1 next.2.2 (hg.2 next hr) hres

/-! ### `CCSimple` on the infeasible model on one variable -/

theorem inf_v0 (x : ℚ) (h : x < 2 - 1 / 1000000) :
    GetViolation (modelInfeasible ℚ sqrtQ 0 10) 0 [x] = ⟨0, 0, 2 - x⟩ := by
  have hG := (GetViolation_G (modelInfeasible ℚ sqrtQ 0 10) 0 [x] (by decide) rfl).2
  have hb : rowBody (modelInfeasible ℚ sqrtQ 0 10) 0 [x] = x := by
    simp [rowBody, modelInfeasible, Env.row, Env.elem]
  rw [hb] at hG
  exact hG (by
    have : ((modelInfeasible ℚ sqrtQ 0 10).row 0).RHSlo = 2 := rfl
    have hf : (modelInfeasible ℚ sqrtQ 0 10).featol = 1 / 1000000 := rfl
    rw [this, hf]; exact not_le.mpr h)

theorem inf_v0_sat (x : ℚ) (h : 2 - 1 / 1000000 ≤ x) :
    (GetViolation (modelInfeasible ℚ sqrtQ 0 10) 0 [x]).ViolStatus ≠ 0 := by
  have hG := (GetViolation_G (modelInfeasible ℚ sqrtQ 0 10) 0 [x] (by decide) rfl).1
  have hb : rowBody (modelInfeasible ℚ sqrtQ 0 10) 0 [x] = x := by
    simp [rowBody, modelInfeasible, Env.row, Env.elem]
  rw [hb] at hG
  exact hG h

theorem inf_v1 (x : ℚ) (h : 1 + 1 / 1000000 < x) :
    GetViolation (modelInfeasible ℚ sqrtQ 0 10) 1 [x] = ⟨0, 0, 1 - x⟩ := by
  have hL := (GetViolation_L (modelInfeasible ℚ sqrtQ 0 10) 1 [x] (by decide) rfl).2
  have hb : rowBody (modelInfeasible ℚ sqrtQ 0 10) 1 [x] = x := by
    simp [rowBody, modelInfeasible, Env.row, Env.elem]
  rw [hb] at hL
  exact hL (by
    have : ((modelInfeasible ℚ sqrtQ 0 10).row 1).RHSup = 1 := rfl
    have hf : (modelInfeasible ℚ sqrtQ 0 10).featol = 1 / 1000000 := rfl
    rw [this, hf]; exact not_le.mpr h)

theorem inf_v1_sat (x : ℚ) (h : x ≤ 1 + 1 / 1000000) :
    (GetViolation (modelInfeasible ℚ sqrtQ 0 10) 1 [x]).ViolStatus ≠ 0 := by
  have hL := (GetViolation_L (modelInfeasible ℚ sqrtQ 0 10) 1 [x] (by decide) rfl).1
  have hb : rowBody (modelInfeasible ℚ sqrtQ 0 10) 1 [x] = x := by
    simp [rowBody, modelInfeasible, Env.row, Env.elem]
  rw [hb] at hL
  exact hL h

theorem inf_con_skip (x : List ℚ) (icon : Nat) (acc : CCAcc ℚ)
    (h : (GetViolation (modelInfeasible ℚ sqrtQ 0 10) icon x).ViolStatus ≠ 0) :
    CCSimple_con (modelInfeasible ℚ sqrtQ 0 10) x acc icon = acc := by
  unfold CCSimple_con
  dsimp only
  split_ifs with h1 h2
  · rfl
  · rfl
  · exact absurd (Nat.pos_of_ne_zero h) h2
  · exact absurd (Nat.pos_of_ne_zero h) h2

theorem inf_bnd (x : ℚ) (h0 : 0 ≤ x) (h1 : x ≤ 10) (acc : CCAcc ℚ) :
    CCSimple_bnd (modelInfeasible ℚ sqrtQ 0 10) [x] acc 0 = acc := by
  have c : (modelInfeasible ℚ sqrtQ 0 10).col 0 = ⟨"R", 10, 0, [0, 1]⟩ := rfl
  have hA : (modelInfeasible ℚ sqrtQ 0 10).Alpha = 1 / 1000000 := rfl
  unfold CCSimple_bnd
  rw [c, hA]
  have e : ([x] : List ℚ).getD 0 0 = x := rfl
  rw [e]
  dsimp only
  rw [if_pos (by linarith), if_pos (by linarith)]

/-- The loops of `CCSimple` at `x = 0`: only the row `x ≥ 2` is violated. -/
theorem inf_loops_zero :
    CCSimple_loops (modelInfeasible ℚ sqrtQ 0 10) [0] = ⟨1, 2, [1], [2], [4], [2]⟩ := by
  have hr : List.range (modelInfeasible ℚ sqrtQ 0 10).NumRows = [0, 1] := rfl
  have hc : List.range (modelInfeasible ℚ sqrtQ 0 10).NumCols = [0] := rfl
  have c0 : CCSimple_con (modelInfeasible ℚ sqrtQ 0 10) [0] ⟨0, 0, [0], [0], [0], [0]⟩ 0 =
      ⟨1, 2, [1], [2], [4], [2]⟩ := by
    have f : FVLenSq (modelInfeasible ℚ sqrtQ 0 10) 0 (2 - 0) = 4 := by
      norm_num [FVLenSq, modelInfeasible, Env.row, Env.elem]
    have hA : (modelInfeasible ℚ sqrtQ 0 10).Alpha = 1 / 1000000 := rfl
    have hsq : (modelInfeasible ℚ sqrtQ 0 10).sqrt = sqrtQ := rfl
    have hel : ((modelInfeasible ℚ sqrtQ 0 10).row 0).ElList = [0] := rfl
    have he0 : (modelInfeasible ℚ sqrtQ 0 10).elem 0 = ⟨0, 0, 1⟩ := rfl
    have hg : ((modelInfeasible ℚ sqrtQ 0 10).row 0).GradVecLenSq = 1 := rfl
    simp only [CCSimple_con, inf_v0 0 (by norm_num), f, hA, hsq, sqrtQ_four, hel, List.foldl,
      CCSimple_el, he0, hg, incrAt, addAt]
    norm_num
  unfold CCSimple_loops
  rw [hr, hc]
  simp only [List.foldl_cons, List.foldl_nil, List.length_singleton, List.replicate]
  rw [c0, inf_con_skip [0] 1 _ (inf_v1_sat 0 (by norm_num)), inf_bnd 0 (by norm_num) (by norm_num)]

/-- The loops of `CCSimple` at `x = 2`: only the row `x ≤ 1` is violated. -/
theorem inf_loops_two :
    CCSimple_loops (modelInfeasible ℚ sqrtQ 0 10) [2] = ⟨1, 1, [1], [-1], [-1], [1]⟩ := by
  have hr : List.range (modelInfeasible ℚ sqrtQ 0 10).NumRows = [0, 1] := rfl
  have hc : List.range (modelInfeasible ℚ sqrtQ 0 10).NumCols = [0] := rfl
  have c1 : CCSimple_con (modelInfeasible ℚ sqrtQ 0 10) [2] ⟨0, 0, [0], [0], [0], [0]⟩ 1 =
      ⟨1, 1, [1], [-1], [-1], [1]⟩ := by
    have f : FVLenSq (modelInfeasible ℚ sqrtQ 0 10) 1 (1 - 2) = 1 := by
      norm_num [FVLenSq, modelInfeasible, Env.row, Env.elem]
    have hA : (modelInfeasible ℚ sqrtQ 0 10).Alpha = 1 / 1000000 := rfl
    have hsq : (modelInfeasible ℚ sqrtQ 0 10).sqrt = sqrtQ := rfl
    have hel : ((modelInfeasible ℚ sqrtQ 0 10).row 1).ElList = [1] := rfl
    have he1 : (modelInfeasible ℚ sqrtQ 0 10).elem 1 = ⟨1, 0, 1⟩ := rfl
    have hg : ((modelInfeasible ℚ sqrtQ 0 10).row 1).GradVecLenSq = 1 := rfl
    simp only [CCSimple_con, inf_v1 2 (by norm_num), f, hA, hsq, sqrtQ_one, hel, List.foldl,
      CCSimple_el, he1, hg, incrAt, addAt]
    norm_num
  unfold CCSimple_loops
  rw [hr, hc]
  simp only [List.foldl_cons, List.foldl_nil, List.length_singleton, List.replicate]
  rw [inf_con_skip [2] 0 _ (inf_v0_sat 2 (by norm_num)), c1,
    inf_bnd 2 (by norm_num) (by norm_num)]

/-- The loops of `CCSimple` at `x = 1`: only the row `x ≥ 2` is violated. -/
theorem inf_loops_one :
    CCSimple_loops (modelInfeasible ℚ sqrtQ 0 10) [1] = ⟨1, 1, [1], [1], [1], [1]⟩ := by
  have hr : List.range (modelInfeasible ℚ sqrtQ 0 10).NumRows = [0, 1] := rfl
  have hc : List.range (modelInfeasible ℚ sqrtQ 0 10).NumCols = [0] := rfl
  have c0 : CCSimple_con (modelInfeasible ℚ sqrtQ 0 10) [1] ⟨0, 0, [0], [0], [0], [0]⟩ 0 =
      ⟨1, 1, [1], [1], [1], [1]⟩ := by
    have f : FVLenSq (modelInfeasible ℚ sqrtQ 0 10) 0 (2 - 1) = 1 := by
      norm_num [FVLenSq, modelInfeasible, Env.row, Env.elem]
    have hA : (modelInfeasible ℚ sqrtQ 0 10).Alpha = 1 / 1000000 := rfl
    have hsq : (modelInfeasible ℚ sqrtQ 0 10).sqrt = sqrtQ := rfl
    have hel : ((modelInfeasible ℚ sqrtQ 0 10).row 0).ElList = [0] := rfl
    have he0 : (modelInfeasible ℚ sqrtQ 0 10).elem 0 = ⟨0, 0, 1⟩ := rfl
    have hg : ((modelInfeasible ℚ sqrtQ 0 10).row 0).GradVecLenSq = 1 := rfl
    simp only [CCSimple_con, inf_v0 1 (by norm_num), f, hA, hsq, sqrtQ_one, hel, List.foldl,
      CCSimple_el, he0, hg, incrAt, addAt]
    norm_num
  unfold CCSimple_loops
  rw [hr, hc]
  simp only [List.foldl_cons, List.foldl_nil, List.length_singleton, List.replicate]
  rw [c0, inf_con_skip [1] 1 _ (inf_v1_sat 1 (by norm_num)), inf_bnd 1 (by norm_num) (by norm_num)]

/-- One iteration of `CCSimple` on the infeasible model from a point `[x]` at which the
loops count a violation: the next iteration starts from the point moved by the
consensus vector. -/
theorem inf_step (PointID : Int) (n : Nat) (s : State ℚ) (x y sfd : ℚ) (a : ℚ) (c : Int)
    (nv : Nat) (sv w1 w2 : ℚ)
    (hl : CCSimple_loops (modelInfeasible ℚ sqrtQ 0 10) [x] = ⟨1, sfd, [nv], [sv], [w1], [w2]⟩)
    (hnv : nv ≠ 0) (hy : x + sv / (nv : ℚ) = y) :
    ∃ s', CCSimple_itns (modelInfeasible ℚ sqrtQ 0 10) PointID (n + 1) s [x] a c =
      CCSimple_itns (modelInfeasible ℚ sqrtQ 0 10) PointID n s' [y] sfd 1 := by
  have hc : List.range (modelInfeasible ℚ sqrtQ 0 10).NumCols = [0] := rfl
  have hCV : CCSimple_CV (modelInfeasible ℚ sqrtQ 0 10) ⟨1, sfd, [nv], [sv], [w1], [w2]⟩ 1 =
      [sv / (nv : ℚ)] := by
    unfold CCSimple_CV
    rw [hc]
    simp [hnv]
  have hadd : addCV (modelInfeasible ℚ sqrtQ 0 10) [x] [sv / (nv : ℚ)] = [y] := by
    unfold addCV
    rw [hc]
    simp [hy]
  refine ⟨(UpdateIncumbentSFD s [y] sfd 1 PointID).2, ?_⟩
  rw [CCSimple_itns]
  simp only [hl, List.length_singleton, hCV, hadd]
  rw [if_neg (by decide)]

/-- A run of `CCSimple` on the infeasible model on one variable (rows `x ≥ 2`, `x ≤ 1`,
bounds `[0, 10]`) from `x = 0`: the point is infeasible and `x + CV_mean(x) = 2`; the
iterates are 2, 1, 2, 1, ... and the record that is sent holds the tenth, the point 1,
with the `SFD` and `NINF` of the ninth. -/
theorem inf_run_ten (s : State ℚ) (PointID : Int) :
    (GetSFD (modelInfeasible ℚ sqrtQ 0 10) [0]).NINF ≠ 0 ∧
    addCV (modelInfeasible ℚ sqrtQ 0 10) [0]
      (CCSimple_CV (modelInfeasible ℚ sqrtQ 0 10)
        (CCSimple_loops (modelInfeasible ℚ sqrtQ 0 10) [0]) 1) = [2] ∧
    (CCSimple (modelInfeasible ℚ sqrtQ 0 10) s [0] PointID).1 = ⟨[1], 1, 1⟩ := by
  refine ⟨?_, ?_, ?_⟩
  · rw [GetSFD_NINF, ← CCSimple_loops_NINF, inf_loops_zero]
    decide
  · have hc : List.range (modelInfeasible ℚ sqrtQ 0 10).NumCols = [0] := rfl
    rw [inf_loops_zero]
    unfold CCSimple_CV addCV
    rw [hc]
    simp
  · have h0 : CCSimple (modelInfeasible ℚ sqrtQ 0 10) s [0] PointID =
        CCSimple_itns (modelInfeasible ℚ sqrtQ 0 10) PointID 10 s [0] 0 0 := rfl
    obtain ⟨s1, e1⟩ := inf_step PointID 9 s 0 2 2 0 0 1 2 4 2 inf_loops_zero (by decide)
      (by norm_num)
    obtain ⟨s2, e2⟩ := inf_step PointID 8 s1 2 1 1 2 1 1 (-1) (-1) 1 inf_loops_two (by decide)
      (by norm_num)
    obtain ⟨s3, e3⟩ := inf_step PointID 7 s2 1 2 1 1 1 1 1 1 1 inf_loops_one (by decide)
      (by norm_num)
    obtain ⟨s4, e4⟩ := inf_step PointID 6 s3 2 1 1 1 1 1 (-1) (-1) 1 inf_loops_two (by decide)
      (by norm_num)
    obtain ⟨s5, e5⟩ := inf_step PointID 5 s4 1 2 1 1 1 1 1 1 1 inf_loops_one (by decide)
      (by norm_num)
    obtain ⟨s6, e6⟩ := inf_step PointID 4 s5 2 1 1 1 1 1 (-1) (-1) 1 inf_loops_two (by decide)
      (by norm_num)
    obtain ⟨s7, e7⟩ := inf_step PointID 3 s6 1 2 1 1 1 1 1 1 1 inf_loops_one (by decide)
      (by norm_num)
    obtain ⟨s8, e8⟩ := inf_step PointID 2 s7 2 1 1 1 1 1 (-1) (-1) 1 inf_loops_two (by decide)
      (by norm_num)
    obtain ⟨s9, e9⟩ := inf_step PointID 1 s8 1 2 1 1 1 1 1 1 1 inf_loops_one (by decide)
      (by norm_num)
    obtain ⟨s10, e10⟩ := inf_step PointID 0 s9 2 1 1 1 1 1 (-1) (-1) 1 inf_loops_two (by decide)
      (by norm_num)
    rw [h0, e1, e2, e3, e4, e5, e6, e7, e8, e9, e10]
    rfl

/-- C26, counterexample: on the infeasible model on one variable (rows `x ≥ 2`, `x ≤ 1`,
bounds `[0, 10]`) the input point `x = 0` is infeasible and `x + CV_mean(x) = 2`, but the
point that `CCSimple` emits is 1, the tenth iterate, not 2. -/
theorem C26_counterexample :
    (GetSFD (modelInfeasible ℚ sqrtQ 0 10) [0]).NINF ≠ 0 ∧
    CCSimple_next (modelInfeasible ℚ sqrtQ 0 10) [0] = [2] ∧
    (CCSimple (modelInfeasible ℚ sqrtQ 0 10) (initState (modelInfeasible ℚ sqrtQ 0 10))
      [0] 0).1 = ⟨[1], 1, 1⟩ ∧
    (CCSimple (modelInfeasible ℚ sqrtQ 0 10) (initState (modelInfeasible ℚ sqrtQ 0 10))
      [0] 0).1.Point ≠ CCSimple_next (modelInfeasible ℚ sqrtQ 0 10) [0] := by
  have h := inf_run_ten (initState (modelInfeasible ℚ sqrtQ 0 10)) 0
  have h2 : CCSimple_next (modelInfeasible ℚ sqrtQ 0 10) [0] = [2] := h.2.1
  refine ⟨h.1, h2, h.2.2, ?_⟩
  rw [h.2.2, h2]
  simp

/-! ### `SortByImpact`: the impact scores -/

theorem clear_eq_replicate (n : Nat) (w : List Bool) (hw : w.length = n) :
    (List.range n).foldl (fun w j => w.set j false) w = List.replicate n false := by
  apply List.ext_getElem
  · rw [length_foldl_set (fun _ _ => false)]; simp [hw]
  · intro c h1 h2
    have hc : c < n := by simpa using h2
    have := foldl_set_getD (fun _ => false) false n w c hc (by omega)
    rw [← List.getD_eq_getElem _ false h1, this]
    simp

theorem length_foldl_mark {α : Type} (p : α → Prop) [DecidablePred p] (f : α → Nat)
    (l : List α) (imp : List Bool) :
    (l.foldl (fun imp1 t => if p t then imp1 else imp1.set (f t) true) imp).length =
      imp.length := by
  induction l generalizing imp with
  | nil => rfl
  | cons t rest ih =>
    rw [List.foldl_cons, ih]
    split_ifs
    · rfl
    · simp

theorem foldl_mark_getD {α : Type} (p : α → Prop) [DecidablePred p] (f : α → Nat)
    (l : List α) (imp : List Bool) (k : Nat) :
    (l.foldl (fun imp1 t => if p t then imp1 else imp1.set (f t) true) imp).getD k false = true ↔
      imp.getD k false = true ∨ (k < imp.length ∧ ∃ t ∈ l, ¬ p t ∧ f t = k) := by
  induction l generalizing imp with
  | nil => simp
  | cons t rest ih =>
    rw [List.foldl_cons, ih]
    by_cases hp : p t
    · rw [if_pos hp]
      constructor
      · rintro (h | ⟨hk, u, hu, hpu, hfu⟩)
        · exact Or.inl h
        · exact Or.inr ⟨hk, u, List.mem_cons_of_mem _ hu, hpu, hfu⟩
      · rintro (h | ⟨hk, u, hu, hpu, hfu⟩)
        · exact Or.inl h
        · rcases List.mem_cons.mp hu with rfl | hu
          · exact absurd hp hpu
          · exact Or.inr ⟨hk, u, hu, hpu, hfu⟩
    · rw [if_neg hp, List.length_set]
      by_cases hft : f t = k
      · by_cases hk : k < imp.length
        · have : (imp.set (f t) true).getD k false = true := by
            rw [hft]; exact getD_set_eq imp k true false hk
          constructor
          · intro _
            exact Or.inr ⟨hk, t, List.mem_cons_self _ _, hp, hft⟩
          · intro _
            exact Or.inl this
        · have hg : ∀ w : List Bool, w.length = imp.length → w.getD k false = false := by
            intro w hw
            rw [List.getD_eq_default]
            omega
          rw [hg _ (List.length_set _ _ _), hg imp rfl]
          constructor
          · rintro (h | ⟨hk', _⟩)
            · exact absurd h (by decide)
            · exact absurd hk' hk
          · rintro (h | ⟨hk', _⟩)
            · exact absurd h (by decide)
            · exact absurd hk' hk
      · rw [getD_set_ne imp (f t) k true false hft]
        constructor
        · rintro (h | ⟨hk, u, hu, hpu, hfu⟩)
          · exact Or.inl h
          · exact Or.inr ⟨hk, u, List.mem_cons_of_mem _ hu, hpu, hfu⟩
        · rintro (h | ⟨hk, u, hu, hpu, hfu⟩)
          · exact Or.inl h
          · rcases List.mem_cons.mp hu with rfl | hu
            · exact absurd hfu hft
            · exact Or.inr ⟨hk, u, hu, hpu, hfu⟩

theorem mark_fold_spec (E : Env K) (l : List Nat) (imp : List Bool) (k : Nat) :
    ((l.foldl
      (fun imp iel =>
        (E.col (E.elem iel).Col).ElList.foldl
          (fun imp1 jel =>
            if (E.row (E.elem jel).Row).Typ = "N" then imp1
            else imp1.set (E.elem jel).Row true)
          imp)
      imp).length = imp.length) ∧
    ((l.foldl
      (fun imp iel =>
        (E.col (E.elem iel).Col).ElList.foldl
          (fun imp1 jel =>
            if (E.row (E.elem jel).Row).Typ = "N" then imp1
            else imp1.set (E.elem jel).Row true)
          imp)
      imp).getD k false = true ↔
      imp.getD k false = true ∨ (k < imp.length ∧ ∃ iel ∈ l,
        ∃ jel ∈ (E.col (E.elem iel).Col).ElList,
          (E.row (E.elem jel).Row).Typ ≠ "N" ∧ (E.elem jel).Row = k)) := by
  induction l generalizing imp with
  | nil => simp
  | cons iel rest ih =>
    rw [List.foldl_cons]
    have hlen := length_foldl_mark (fun jel => (E.row (E.elem jel).Row).Typ = "N")
      (fun jel => (E.elem jel).Row) (E.col (E.elem iel).Col).ElList imp
    have hget := foldl_mark_getD (fun jel => (E.row (E.elem jel).Row).Typ = "N")
      (fun jel => (E.elem jel).Row) (E.col (E.elem iel).Col).ElList imp k
    obtain ⟨ih1, ih2⟩ := ih
      ((E.col (E.elem iel).Col).ElList.foldl
        (fun imp1 jel =>
          if (E.row (E.elem jel).Row).Typ = "N" then imp1
          else imp1.set (E.elem jel).Row true) imp)
    refine ⟨by rw [ih1, hlen], ?_⟩
    rw [ih2, hget, hlen]
    constructor
    · rintro ((h | ⟨hk, jel, hj, hN, hr⟩) | ⟨hk, iel', hi', jel, hj, hN, hr⟩)
      · exact Or.inl h
      · exact Or.inr ⟨hk, iel, List.mem_cons_self _ _, jel, hj, hN, hr⟩
      · exact Or.inr ⟨hk, iel', List.mem_cons_of_mem _ hi', jel, hj, hN, hr⟩
    · rintro (h | ⟨hk, iel', hi', jel, hj, hN, hr⟩)
      · exact Or.inl (Or.inl h)
      · rcases List.mem_cons.mp hi' with rfl | hi'
        · exact Or.inl (Or.inr ⟨hk, jel, hj, hN, hr⟩)
        · exact Or.inr ⟨hk, iel', hi', jel, hj, hN, hr⟩

theorem SortByImpact_mark_getD (E : Env K) (i k : Nat) (hk : k < E.NumRows) :
    (SortByImpact_mark E i (List.replicate E.NumRows false)).getD k false = true ↔
      ∃ iel ∈ (E.row i).ElList, ∃ jel ∈ (E.col (E.elem iel).Col).ElList,
        (E.row (E.elem jel).Row).Typ ≠ "N" ∧ (E.elem jel).Row = k := by
  unfold SortByImpact_mark
  rw [(mark_fold_spec E (E.row i).ElList (List.replicate E.NumRows false) k).2]
  have h0 : (List.replicate E.NumRows false).getD k false = false := by
    simp [List.getD_eq_getElem?_getD]
  rw [h0]
  simp [hk]

theorem length_SortByImpact_mark (E : Env K) (i : Nat) (imp : List Bool) :
    (SortByImpact_mark E i imp).length = imp.length := by
  unfold SortByImpact_mark
  exact (mark_fold_spec E (E.row i).ElList imp 0).1

theorem filter_length_split (q : Nat → Bool) (n i : Nat) :
    ((List.range n).filter q).length =
      ((List.range n).filter (fun k => decide (k ≠ i) && q k)).length +
        (if i < n ∧ q i = true then 1 else 0) := by
  induction n with
  | zero => simp
  | succ n ih =>
    rw [List.range_succ, List.filter_append, List.filter_append, List.length_append,
      List.length_append, ih]
    by_cases hin : i = n
    · subst hin
      by_cases hq : q i = true
      · simp [hq]
      · simp [hq]
    · have hne : n ≠ i := fun h => hin h.symm
      by_cases hq : q n = true
      · by_cases hlt : i < n
        · have : i < n + 1 := by omega
          simp [hq, hne, hlt, this]
          omega
        · have : ¬ i < n + 1 := by omega
          simp [hq, hne, hlt, this]
      · by_cases hlt : i < n
        · have : i < n + 1 := by omega
          simp [hq, hlt, this]
        · have : ¬ i < n + 1 := by omega
          simp [hq, hlt, this]

/-- The first loop of `SortByImpact` leaves in `ImpactData[i]` the row index `i` and the
count of the marked rows, less one if it is positive, the marks being made from a
cleared list; free rows get 0. -/
theorem SortByImpact_data_upto (E : Env K) (m : Nat) (hm : m ≤ E.NumRows) :
    ((List.range m).foldl (SortByImpact_row E)
      (List.replicate E.NumRows ⟨0, 0⟩, List.replicate E.NumRows false)).1.length = E.NumRows ∧
    ((List.range m).foldl (SortByImpact_row E)
      (List.replicate E.NumRows ⟨0, 0⟩, List.replicate E.NumRows false)).2.length = E.NumRows ∧
    ∀ i, i < m →
      ((List.range m).foldl (SortByImpact_row E)
        (List.replicate E.NumRows ⟨0, 0⟩, List.replicate E.NumRows false)).1.getD i ⟨0, 0⟩ =
      ⟨i, if (E.row i).Typ = "N" then 0
          else if SortByImpact_count E
              (SortByImpact_mark E i (List.replicate E.NumRows false)) > 0 then
            SortByImpact_count E (SortByImpact_mark E i (List.replicate E.NumRows false)) - 1
          else SortByImpact_count E
            (SortByImpact_mark E i (List.replicate E.NumRows false))⟩ := by
  induction m with
  | zero =>
    refine ⟨by simp, by simp, fun i hi => absurd hi (Nat.not_lt_zero i)⟩
  | succ m ih =>
    obtain ⟨h1, h2, h3⟩ := ih (by omega)
    rw [List.range_succ, List.foldl_append]
    simp only [List.foldl_cons, List.foldl_nil]
    generalize (List.range m).foldl (SortByImpact_row E)
      (List.replicate E.NumRows ⟨0, 0⟩, List.replicate E.NumRows false) = st at h1 h2 h3
    have hml : m < st.1.length := by omega
    unfold SortByImpact_row
    dsimp only
    by_cases hN : (E.row m).Typ = "N"
    · rw [if_pos hN]
      refine ⟨by simp [h1], h2, fun i hi => ?_⟩
      by_cases him : i = m
      · subst him
        rw [getD_set_eq _ _ _ _ hml, if_pos hN]
      · rw [getD_set_ne _ _ _ _ _ (fun h => him h.symm)]
        exact h3 i (by omega)
    · rw [if_neg hN, clear_eq_replicate E.NumRows st.2 h2]
      refine ⟨by simp [h1], by rw [length_SortByImpact_mark]; simp, fun i hi => ?_⟩
      by_cases him : i = m
      · subst him
        rw [getD_set_eq _ _ _ _ (by simpa using hml), if_neg hN]
      · rw [getD_set_ne _ _ _ _ _ (fun h => him h.symm),
          getD_set_ne _ _ _ _ _ (fun h => him h.symm)]
        exact h3 i (by omega)

theorem length_SortByImpact_data (E : Env K) : (SortByImpact_data E).length = E.NumRows :=
  (SortByImpact_data_upto E E.NumRows (le_refl _)).1

theorem SortByImpact_data_Row (E : Env K) (i : Nat) (hi : i < E.NumRows) :
    ((SortByImpact_data E).getD i ⟨0, 0⟩).Row = i := by
  unfold SortByImpact_data
  rw [(SortByImpact_data_upto E E.NumRows (le_refl _)).2.2 i hi]

/-- Under consistency, the rows that row `i` marks are the rows not of type N that share
a column with it. -/
theorem marked_iff_shares (E : Env K) (hC : Consistent E) (i k : Nat) (hi : i < E.NumRows)
    (hk : k < E.NumRows) :
    (SortByImpact_mark E i (List.replicate E.NumRows false)).getD k false = true ↔
      ((E.row k).Typ ≠ "N" ∧ sharesColumn E i k = true) := by
  rw [SortByImpact_mark_getD E i k hk]
  unfold sharesColumn
  simp only [List.any_eq_true, decide_eq_true_eq]
  constructor
  · rintro ⟨iel, hiel, jel, hjel, hN, hr⟩
    obtain ⟨_, hcol, _⟩ := hC.1 i hi iel hiel
    obtain ⟨hc2, _, hmem⟩ := hC.2 _ hcol jel hjel
    rw [hr] at hN hmem
    exact ⟨hN, iel, hiel, jel, hmem, hc2⟩
  · rintro ⟨hN, e, he, e', he', hcc⟩
    obtain ⟨hr', _, hmem'⟩ := hC.1 k hk e' he'
    rw [hcc] at hmem'
    exact ⟨e, he, e', hmem', by rw [hr']; exact hN, hr'⟩

/-- C21: on a consistent model, the impact score that `SortByImpact` computes for a row
`i` not of type N is the number of rows other than `i`, not of type N, that share a
column with row `i`; the score of a row of type N is 0; and `ImpactData[i].Row = i`. -/
theorem C21_impact_score_counts_sharing_rows (E : Env K) (hC : Consistent E) (i : Nat)
    (hi : i < E.NumRows) :
    impactScore E i = (if (E.row i).Typ = "N" then 0 else impactOf E i) ∧
    ((SortByImpact_data E).getD i ⟨0, 0⟩).Row = i := by
  refine ⟨?_, SortByImpact_data_Row E i hi⟩
  unfold impactScore SortByImpact_data
  rw [(SortByImpact_data_upto E E.NumRows (le_refl _)).2.2 i hi]
  dsimp only
  by_cases hN : (E.row i).Typ = "N"
  · rw [if_pos hN, if_pos hN]
  · rw [if_neg hN, if_neg hN, SortByImpact_count_eq]
    have hf : (List.range E.NumRows).filter
        (fun j => (SortByImpact_mark E i (List.replicate E.NumRows false)).getD j false) =
        (List.range E.NumRows).filter
          (fun k => decide ((E.row k).Typ ≠ "N") && sharesColumn E i k) := by
      apply List.filter_congr
      intro k hk
      have := marked_iff_shares E hC i k hi (List.mem_range.mp hk)
      by_cases h : (SortByImpact_mark E i (List.replicate E.NumRows false)).getD k false = true
      · rw [h]
        have h' := this.mp h
        simp [h'.1, h'.2]
      · have hn : ¬ ((E.row k).Typ ≠ "N" ∧ sharesColumn E i k = true) := fun h' => h (this.mpr h')
        have hfalse : (SortByImpact_mark E i (List.replicate E.NumRows false)).getD k false
            = false := by
          simpa using h
        rw [hfalse]
        by_cases hNk : (E.row k).Typ = "N"
        · simp [hNk]
        · have : sharesColumn E i k = false := by
            by_contra hs
            exact hn ⟨hNk, by simpa using hs⟩
          simp [this]
    rw [hf, filter_length_split (fun k => decide ((E.row k).Typ ≠ "N") && sharesColumn E i k)
      E.NumRows i]
    have himp : impactOf E i = ((List.range E.NumRows).filter
        (fun k => decide (k ≠ i) &&
          (decide ((E.row k).Typ ≠ "N") && sharesColumn E i k))).length := by
      unfold impactOf
      congr 1
      apply List.filter_congr
      intro k _
      rw [Bool.and_assoc]
    rw [← himp]
    by_cases hs : sharesColumn E i i = true
    · have : i < E.NumRows ∧
          (decide ((E.row i).Typ ≠ "N") && sharesColumn E i i) = true := by
        refine ⟨hi, ?_⟩
        simp [hN, hs]
      rw [if_pos this]
      simp
    · have hno : ¬ (i < E.NumRows ∧
          (decide ((E.row i).Typ ≠ "N") && sharesColumn E i i) = true) := by
        rintro ⟨_, h⟩
        simp [hN] at h
        exact hs h
      rw [if_neg hno, add_zero]
      -- row `i` has no element, so nothing shares a column with it
      have hel : (E.row i).ElList = [] := by
        by_contra hne
        obtain ⟨e, he⟩ := List.exists_mem_of_ne_nil _ hne
        apply hs
        unfold sharesColumn
        simp only [List.any_eq_true, decide_eq_true_eq]
        exact ⟨e, he, e, he, rfl⟩
      have hz : impactOf E i = 0 := by
        unfold impactOf sharesColumn
        rw [hel]
        simp
      rw [hz]
      rfl

/-! ### `SortByImpact`: the order of `ImpactList` -/

theorem SortByImpact_data_rows (E : Env K) :
    (SortByImpact_data E).map (fun r => r.Row) = List.range E.NumRows := by
  apply List.ext_getElem
  · simp [length_SortByImpact_data]
  · intro k h1 h2
    simp only [List.length_range] at h2
    have := SortByImpact_data_Row E k h2
    have hk : k < (SortByImpact_data E).length := by rw [length_SortByImpact_data]; exact h2
    rw [List.getD_eq_getElem _ _ hk] at this
    simp [this]

theorem mem_SortByImpact_data (E : Env K) (r : IMPACT) (hr : r ∈ SortByImpact_data E) :
    r.Row < E.NumRows ∧ r.Sum = impactScore E r.Row := by
  obtain ⟨k, hk, hget⟩ := List.getElem_of_mem hr
  have hk' : k < E.NumRows := by rw [← length_SortByImpact_data E]; exact hk
  have hrow := SortByImpact_data_Row E k hk'
  rw [List.getD_eq_getElem _ _ hk, hget] at hrow
  refine ⟨by rw [hrow]; exact hk', ?_⟩
  unfold impactScore
  rw [hrow, List.getD_eq_getElem _ _ hk, hget]

/-- C22, amended: if the library sort does on `ImpactData` what `sort.Sort` promises,
then after `SortByImpact` the list `ImpactList` is a permutation of the row indices
`0..NumRows-1` and is in descending order of impact score: no row comes after a row of
strictly smaller score. The order of rows of equal score is not determined by this. -/
theorem C22_ImpactList_descending (E : Env K) (sortBySum : List IMPACT → List IMPACT)
    (hsort : SortsBySum sortBySum (SortByImpact_data E)) :
    (SortByImpact E sortBySum).Perm (List.range E.NumRows) ∧
    (SortByImpact E sortBySum).Pairwise (fun a b => impactScore E b ≤ impactScore E a) := by
  obtain ⟨hperm, hsorted⟩ := hsort
  have hlen : (sortBySum (SortByImpact_data E)).length = E.NumRows := by
    rw [hperm.length_eq, length_SortByImpact_data]
  unfold SortByImpact
  rw [SortByImpact_reverse_eq E _ hlen]
  constructor
  · refine (List.reverse_perm _).trans ?_
    rw [← SortByImpact_data_rows E]
    exact hperm.map _
  · rw [List.pairwise_reverse, List.pairwise_map]
    refine List.Pairwise.imp_of_mem ?_ hsorted
    intro a b ha hb hab
    have ha' := (mem_SortByImpact_data E a (hperm.subset ha)).2
    have hb' := (mem_SortByImpact_data E b (hperm.subset hb)).2
    rw [← ha', ← hb']
    exact hab


theorem modelClash_Consistent : Consistent (modelClash ℚ sqrtQ) := by
  constructor
  · intro i hi e he
    have hi' : i < 3 := hi
    interval_cases i
    · have : e = 0 := by simpa [modelClash, Env.row] using he
      subst this
      simp [modelClash, Env.elem, Env.col, Env.NumCols]
    · have : e = 1 := by simpa [modelClash, Env.row] using he
      subst this
      simp [modelClash, Env.elem, Env.col, Env.NumCols]
    · have : e = 2 := by simpa [modelClash, Env.row] using he
      subst this
      simp [modelClash, Env.elem, Env.col, Env.NumCols]
  · intro j hj e he
    have hj' : j < 2 := hj
    interval_cases j
    · have : e = 0 ∨ e = 1 := by simpa [modelClash, Env.col] using he
      rcases this with rfl | rfl <;> simp [modelClash, Env.elem, Env.row, Env.NumRows]
    · have : e = 2 := by simpa [modelClash, Env.col] using he
      subst this
      simp [modelClash, Env.elem, Env.row, Env.NumRows]

/-- C21 on the clash model (rows `x1 ≥ 2`, `x1 ≤ 1`, `x2 ≥ 0`): row 0 shares a column
with row 1 only, and its score is 1. -/
theorem C21_witness :
    Consistent (modelClash ℚ sqrtQ) ∧ impactOf (modelClash ℚ sqrtQ) 0 = 1 ∧
    impactScore (modelClash ℚ sqrtQ) 0 = 1 := by
  have h := (C21_impact_score_counts_sharing_rows (modelClash ℚ sqrtQ) modelClash_Consistent 0
    (by decide)).1
  have hi : impactOf (modelClash ℚ sqrtQ) 0 = 1 := by
    simp +decide [impactOf, sharesColumn, modelClash, Env.row, Env.elem, Env.NumRows,
      List.range, List.range.loop]
  have hT : ((modelClash ℚ sqrtQ).row 0).Typ ≠ "N" := by
    simp +decide [modelClash, Env.row]
  rw [if_neg hT, hi] at h
  exact ⟨modelClash_Consistent, hi, h⟩

theorem infeasible_data :
    SortByImpact_data (modelInfeasible ℚ sqrtQ 0 10) = [⟨0, 1⟩, ⟨1, 1⟩] := by
  simp +decide [SortByImpact_data, SortByImpact_row, SortByImpact_mark, SortByImpact_count,
    modelInfeasible, Env.row, Env.col, Env.elem, Env.NumRows, List.range, List.range.loop]

theorem insertionSort_pair :
    insertionSort [⟨0, 1⟩, ⟨1, 1⟩] = [⟨0, 1⟩, ⟨1, 1⟩] := by
  simp +decide [insertionSort, insertionSort_inner, BySum_Less, List.range, List.range.loop]

/-- C22, counterexample: on the model with the rows `x ≥ 2` and `x ≤ 1` on one variable
both rows have the impact score 1; the insertion sort of Go's package `sort` (what
`sort.Sort` runs on two records) leaves `ImpactData` as it is, and the last loop of
`SortByImpact` reverses it: `ImpactList = [1, 0]`, the rows of equal impact in
descending row-index order. -/
theorem C22_counterexample :
    impactScore (modelInfeasible ℚ sqrtQ 0 10) 0 = 1 ∧
    impactScore (modelInfeasible ℚ sqrtQ 0 10) 1 = 1 ∧
    SortByImpact (modelInfeasible ℚ sqrtQ 0 10) insertionSort = [1, 0] := by
  refine ⟨?_, ?_, ?_⟩
  · unfold impactScore; rw [infeasible_data]; rfl
  · unfold impactScore; rw [infeasible_data]; rfl
  · unfold SortByImpact
    rw [infeasible_data, insertionSort_pair]
    simp +decide [SortByImpact_reverse, modelInfeasible, Env.NumRows, List.range,
      List.range.loop]

/-- C22 on the same model with the insertion sort: the sort keeps its promise on
`ImpactData`, and `ImpactList = [1, 0]` is a permutation of `[0, 1]` in descending order
of score. -/
theorem C22_witness :
    SortsBySum insertionSort (SortByImpact_data (modelInfeasible ℚ sqrtQ 0 10)) ∧
    (SortByImpact (modelInfeasible ℚ sqrtQ 0 10) insertionSort).Perm
      (List.range (modelInfeasible ℚ sqrtQ 0 10).NumRows) := by
  have hs : SortsBySum insertionSort (SortByImpact_data (modelInfeasible ℚ sqrtQ 0 10)) := by
    unfold SortsBySum
    rw [infeasible_data, insertionSort_pair]
    exact ⟨List.Perm.refl _, by simp⟩
  exact ⟨hs, (C22_ImpactList_descending (modelInfeasible ℚ sqrtQ 0 10) insertionSort hs).1⟩

/-! ### The pinch model at the points `(6/5, 0)`, `(4/3, 0)` and `(2, 0)` -/

theorem sqrtQ_mul_self (r : ℚ) (hr : 0 ≤ r) : sqrtQ (r * r) = r := by
  unfold sqrtQ
  rw [Rat.mul_self_num, Rat.mul_self_den]
  have hn : 0 ≤ r.num := Rat.num_nonneg.mpr hr
  obtain ⟨n, hn'⟩ := Int.eq_ofNat_of_zero_le hn
  have h1 : (r.num * r.num).toNat = n * n := by
    rw [hn', ← Int.natCast_mul]
    exact Int.toNat_natCast _
  rw [h1, Nat.sqrt_eq, Nat.sqrt_eq]
  have h2 := Rat.num_div_den r
  rw [hn'] at h2
  simpa using h2

theorem sqrtQ_eq (q r : ℚ) (hr : 0 ≤ r) (h : r * r = q) : sqrtQ q = r := by
  rw [← h]; exact sqrtQ_mul_self r hr

theorem pinch_va0 : GetViolation (modelPinch ℚ sqrtQ) 0 [6 / 5, 0] = ⟨0, 0, 4 / 5⟩ := by
  simp +decide [GetViolation, ConBodyValue, violSwitch, modelPinch, Env.NumRows, Env.row,
    Env.elem]
  norm_num

theorem pinch_va1 : GetViolation (modelPinch ℚ sqrtQ) 1 [6 / 5, 0] = ⟨0, 0, -1 / 5⟩ := by
  simp +decide [GetViolation, ConBodyValue, violSwitch, modelPinch, Env.NumRows, Env.row,
    Env.elem]
  norm_num

theorem pinch_va2 : GetViolation (modelPinch ℚ sqrtQ) 2 [6 / 5, 0] = ⟨0, 0, -2 / 5⟩ := by
  simp +decide [GetViolation, ConBodyValue, violSwitch, modelPinch, Env.NumRows, Env.row,
    Env.elem]
  norm_num

theorem pinch_vb0 : GetViolation (modelPinch ℚ sqrtQ) 0 [4 / 3, 0] = ⟨0, 0, 2 / 3⟩ := by
  simp +decide [GetViolation, ConBodyValue, violSwitch, modelPinch, Env.NumRows, Env.row,
    Env.elem]
  norm_num

theorem pinch_vb1 : GetViolation (modelPinch ℚ sqrtQ) 1 [4 / 3, 0] = ⟨0, 0, -1 / 3⟩ := by
  simp +decide [GetViolation, ConBodyValue, violSwitch, modelPinch, Env.NumRows, Env.row,
    Env.elem]
  norm_num

theorem pinch_vb2 : GetViolation (modelPinch ℚ sqrtQ) 2 [4 / 3, 0] = ⟨0, 0, -2 / 3⟩ := by
  simp +decide [GetViolation, ConBodyValue, violSwitch, modelPinch, Env.NumRows, Env.row,
    Env.elem]
  norm_num

theorem pinch_con_a0 :
    GetCV1_con (modelPinch ℚ sqrtQ) [6 / 5, 0]
      ⟨0, 0, 0, -10000000000, -10000000000, [0, 0], [0, 0], [0, 0], [0, 0], [0, 0], [0, 0]⟩ 0 =
      ⟨1, 4 / 5, 4 / 5, 4 / 5, 4 / 5, [1, 0], [4 / 5, 0], [16 / 25, 0], [4 / 5, 0], [4 / 5, 0],
        [4 / 5, 0]⟩ := by
  have f0 : FVLenSq (modelPinch ℚ sqrtQ) 0 (4 / 5) = 16 / 25 := by
    norm_num [FVLenSq, modelPinch, Env.row, Env.elem]
  have hab : |(4 / 5 : ℚ)| = 4 / 5 := abs_of_pos (by norm_num)
  have hs : sqrtQ (16 / 25) = 4 / 5 := sqrtQ_eq _ _ (by norm_num) (by norm_num)
  have hA : (modelPinch ℚ sqrtQ).Alpha = 1 / 1000000 := rfl
  have hsq : (modelPinch ℚ sqrtQ).sqrt = sqrtQ := rfl
  have hc : (modelPinch ℚ sqrtQ).NumCols = 2 := rfl
  have hel : ((modelPinch ℚ sqrtQ).row 0).ElList = [0] := rfl
  have he0 : (modelPinch ℚ sqrtQ).elem 0 = ⟨0, 0, 1⟩ := rfl
  have hg : ((modelPinch ℚ sqrtQ).row 0).GradVecLenSq = 1 := rfl
  simp only [GetCV1_con, pinch_va0, hab, f0, hA, hsq, hs, hc, hel, List.foldl, GetCV1_el, he0,
    hg, zeroFirst, List.range, List.range.loop, incrAt, addAt]
  norm_num

theorem pinch_con_a1 :
    GetCV1_con (modelPinch ℚ sqrtQ) [6 / 5, 0]
      ⟨1, 4 / 5, 4 / 5, 4 / 5, 4 / 5, [1, 0], [4 / 5, 0], [16 / 25, 0], [4 / 5, 0], [4 / 5, 0],
        [4 / 5, 0]⟩ 1 =
      ⟨2, 1, 1, 4 / 5, 4 / 5, [2, 0], [3 / 5, 0], [3 / 5, 0], [1, 0], [4 / 5, 0],
        [4 / 5, 0]⟩ := by
  have f0 : FVLenSq (modelPinch ℚ sqrtQ) 1 (-1 / 5) = 1 / 25 := by
    norm_num [FVLenSq, modelPinch, Env.row, Env.elem]
  have hab : |(-1 / 5 : ℚ)| = 1 / 5 := by
    rw [abs_of_neg (by norm_num)]; norm_num
  have hs : sqrtQ (1 / 25) = 1 / 5 := sqrtQ_eq _ _ (by norm_num) (by norm_num)
  have hA : (modelPinch ℚ sqrtQ).Alpha = 1 / 1000000 := rfl
  have hsq : (modelPinch ℚ sqrtQ).sqrt = sqrtQ := rfl
  have hc : (modelPinch ℚ sqrtQ).NumCols = 2 := rfl
  have hel : ((modelPinch ℚ sqrtQ).row 1).ElList = [1] := rfl
  have he0 : (modelPinch ℚ sqrtQ).elem 1 = ⟨1, 0, 1⟩ := rfl
  have hg : ((modelPinch ℚ sqrtQ).row 1).GradVecLenSq = 1 := rfl
  simp only [GetCV1_con, pinch_va1, hab, f0, hA, hsq, hs, hc, hel, List.foldl, GetCV1_el, he0,
    hg, zeroFirst, List.range, List.range.loop, incrAt, addAt]
  norm_num

theorem pinch_con_a2 :
    GetCV1_con (modelPinch ℚ sqrtQ) [6 / 5, 0]
      ⟨2, 1, 1, 4 / 5, 4 / 5, [2, 0], [3 / 5, 0], [3 / 5, 0], [1, 0], [4 / 5, 0],
        [4 / 5, 0]⟩ 2 =
      ⟨3, 6 / 5, 7 / 5, 4 / 5, 4 / 5, [3, 0], [2 / 5, 0], [13 / 25, 0], [7 / 5, 0], [4 / 5, 0],
        [4 / 5, 0]⟩ := by
  have f0 : FVLenSq (modelPinch ℚ sqrtQ) 2 (-2 / 5) = 1 / 25 := by
    norm_num [FVLenSq, modelPinch, Env.row, Env.elem]
  have hab : |(-2 / 5 : ℚ)| = 2 / 5 := by
    rw [abs_of_neg (by norm_num)]; norm_num
  have hs : sqrtQ (1 / 25) = 1 / 5 := sqrtQ_eq _ _ (by norm_num) (by norm_num)
  have hA : (modelPinch ℚ sqrtQ).Alpha = 1 / 1000000 := rfl
  have hsq : (modelPinch ℚ sqrtQ).sqrt = sqrtQ := rfl
  have hc : (modelPinch ℚ sqrtQ).NumCols = 2 := rfl
  have hel : ((modelPinch ℚ sqrtQ).row 2).ElList = [2] := rfl
  have he0 : (modelPinch ℚ sqrtQ).elem 2 = ⟨2, 0, 2⟩ := rfl
  have hg : ((modelPinch ℚ sqrtQ).row 2).GradVecLenSq = 4 := rfl
  simp only [GetCV1_con, pinch_va2, hab, f0, hA, hsq, hs, hc, hel, List.foldl, GetCV1_el, he0,
    hg, zeroFirst, List.range, List.range.loop, incrAt, addAt]
  norm_num

theorem pinch_con_b0 :
    GetCV1_con (modelPinch ℚ sqrtQ) [4 / 3, 0]
      ⟨0, 0, 0, -10000000000, -10000000000, [0, 0], [0, 0], [0, 0], [0, 0], [0, 0], [0, 0]⟩ 0 =
      ⟨1, 2 / 3, 2 / 3, 2 / 3, 2 / 3, [1, 0], [2 / 3, 0], [4 / 9, 0], [2 / 3, 0], [2 / 3, 0],
        [2 / 3, 0]⟩ := by
  have f0 : FVLenSq (modelPinch ℚ sqrtQ) 0 (2 / 3) = 4 / 9 := by
    norm_num [FVLenSq, modelPinch, Env.row, Env.elem]
  have hab : |(2 / 3 : ℚ)| = 2 / 3 := abs_of_pos (by norm_num)
  have hs : sqrtQ (4 / 9) = 2 / 3 := sqrtQ_eq _ _ (by norm_num) (by norm_num)
  have hA : (modelPinch ℚ sqrtQ).Alpha = 1 / 1000000 := rfl
  have hsq : (modelPinch ℚ sqrtQ).sqrt = sqrtQ := rfl
  have hc : (modelPinch ℚ sqrtQ).NumCols = 2 := rfl
  have hel : ((modelPinch ℚ sqrtQ).row 0).ElList = [0] := rfl
  have he0 : (modelPinch ℚ sqrtQ).elem 0 = ⟨0, 0, 1⟩ := rfl
  have hg : ((modelPinch ℚ sqrtQ).row 0).GradVecLenSq = 1 := rfl
  simp only [GetCV1_con, pinch_vb0, hab, f0, hA, hsq, hs, hc, hel, List.foldl, GetCV1_el, he0,
    hg, zeroFirst, List.range, List.range.loop, incrAt, addAt]
  norm_num

theorem pinch_con_b1 :
    GetCV1_con (modelPinch ℚ sqrtQ) [4 / 3, 0]
      ⟨1, 2 / 3, 2 / 3, 2 / 3, 2 / 3, [1, 0], [2 / 3, 0], [4 / 9, 0], [2 / 3, 0], [2 / 3, 0],
        [2 / 3, 0]⟩ 1 =
      ⟨2, 1, 1, 2 / 3, 2 / 3, [2, 0], [1 / 3, 0], [1 / 3, 0], [1, 0], [2 / 3, 0],
        [2 / 3, 0]⟩ := by
  have f0 : FVLenSq (modelPinch ℚ sqrtQ) 1 (-1 / 3) = 1 / 9 := by
    norm_num [FVLenSq, modelPinch, Env.row, Env.elem]
  have hab : |(-1 / 3 : ℚ)| = 1 / 3 := by
    rw [abs_of_neg (by norm_num)]; norm_num
  have hs : sqrtQ (1 / 9) = 1 / 3 := sqrtQ_eq _ _ (by norm_num) (by norm_num)
  have hA : (modelPinch ℚ sqrtQ).Alpha = 1 / 1000000 := rfl
  have hsq : (modelPinch ℚ sqrtQ).sqrt = sqrtQ := rfl
  have hc : (modelPinch ℚ sqrtQ).NumCols = 2 := rfl
  have hel : ((modelPinch ℚ sqrtQ).row 1).ElList = [1] := rfl
  have he0 : (modelPinch ℚ sqrtQ).elem 1 = ⟨1, 0, 1⟩ := rfl
  have hg : ((modelPinch ℚ sqrtQ).row 1).GradVecLenSq = 1 := rfl
  simp only [GetCV1_con, pinch_vb1, hab, f0, hA, hsq, hs, hc, hel, List.foldl, GetCV1_el, he0,
    hg, zeroFirst, List.range, List.range.loop, incrAt, addAt]
  norm_num

theorem pinch_con_b2 :
    GetCV1_con (modelPinch ℚ sqrtQ) [4 / 3, 0]
      ⟨2, 1, 1, 2 / 3, 2 / 3, [2, 0], [1 / 3, 0], [1 / 3, 0], [1, 0], [2 / 3, 0],
        [2 / 3, 0]⟩ 2 =
      ⟨3, 4 / 3, 5 / 3, 2 / 3, 2 / 3, [3, 0], [0, 0], [1 / 9, 0], [5 / 3, 0], [2 / 3, 0],
        [2 / 3, 0]⟩ := by
  have f0 : FVLenSq (modelPinch ℚ sqrtQ) 2 (-2 / 3) = 1 / 9 := by
    norm_num [FVLenSq, modelPinch, Env.row, Env.elem]
  have hab : |(-2 / 3 : ℚ)| = 2 / 3 := by
    rw [abs_of_neg (by norm_num)]; norm_num
  have hs : sqrtQ (1 / 9) = 1 / 3 := sqrtQ_eq _ _ (by norm_num) (by norm_num)
  have hA : (modelPinch ℚ sqrtQ).Alpha = 1 / 1000000 := rfl
  have hsq : (modelPinch ℚ sqrtQ).sqrt = sqrtQ := rfl
  have hc : (modelPinch ℚ sqrtQ).NumCols = 2 := rfl
  have hel : ((modelPinch ℚ sqrtQ).row 2).ElList = [2] := rfl
  have he0 : (modelPinch ℚ sqrtQ).elem 2 = ⟨2, 0, 2⟩ := rfl
  have hg : ((modelPinch ℚ sqrtQ).row 2).GradVecLenSq = 4 := rfl
  simp only [GetCV1_con, pinch_vb2, hab, f0, hA, hsq, hs, hc, hel, List.foldl, GetCV1_el, he0,
    hg, zeroFirst, List.range, List.range.loop, incrAt, addAt]
  norm_num

theorem pinch_bnd (x : ℚ) (h0 : 0 ≤ x) (h1 : x ≤ 10) (acc : CVAcc ℚ) (j : Nat) :
    GetCV1_bnd (modelPinch ℚ sqrtQ) [x, 0] acc j = acc := by
  have hA : (modelPinch ℚ sqrtQ).Alpha = 1 / 1000000 := rfl
  have hlo : ((modelPinch ℚ sqrtQ).col j).BndLo = 0 := by
    rcases j with _ | _ | j <;> rfl
  have hup : ((modelPinch ℚ sqrtQ).col j).BndUp = 10 ∨ ((modelPinch ℚ sqrtQ).col j).BndUp = 0 := by
    rcases j with _ | _ | j
    · exact Or.inl rfl
    · exact Or.inl rfl
    · exact Or.inr rfl
  have hx : 0 ≤ ([x, 0] : List ℚ).getD j 0 ∧ ([x, 0] : List ℚ).getD j 0 ≤ 10 ∧
      (2 ≤ j → ([x, 0] : List ℚ).getD j 0 = 0) := by
    rcases j with _ | _ | j
    · exact ⟨h0, h1, fun h => absurd h (by decide)⟩
    · exact ⟨le_refl _, by norm_num, fun h => absurd h (by decide)⟩
    · exact ⟨le_refl _, by norm_num, fun _ => rfl⟩
  unfold GetCV1_bnd
  rw [hA, hlo]
  rw [if_pos (by linarith [hx.1])]
  rcases hup with hup | hup
  · rw [hup, if_pos (by linarith [hx.2.1])]
  · rw [hup]
    have : ([x, 0] : List ℚ).getD j 0 = 0 := by
      rcases j with _ | _ | j
      · exact absurd hup (by norm_num [modelPinch, Env.col])
      · exact absurd hup (by norm_num [modelPinch, Env.col])
      · rfl
    rw [this, if_pos (by norm_num)]

theorem pinch_loops_a :
    GetCV1_loops (modelPinch ℚ sqrtQ) [6 / 5, 0] =
      ⟨3, 6 / 5, 7 / 5, 4 / 5, 4 / 5, [3, 0], [2 / 5, 0], [13 / 25, 0], [7 / 5, 0], [4 / 5, 0],
        [4 / 5, 0]⟩ := by
  have hr : (modelPinch ℚ sqrtQ).NumRows = 3 := rfl
  have hc : (modelPinch ℚ sqrtQ).NumCols = 2 := rfl
  have hp : (modelPinch ℚ sqrtQ).plinfy = 10000000000 := rfl
  have r3 : List.range 3 = [0, 1, 2] := rfl
  have r2 : List.range 2 = [0, 1] := rfl
  have hz : List.replicate ([6 / 5, 0] : List ℚ).length (0 : ℚ) = [0, 0] := rfl
  have hzn : List.replicate ([6 / 5, 0] : List ℚ).length (0 : ℕ) = [0, 0] := rfl
  rw [GetCV1_loops, hr, hc, hp, r3, r2]
  simp only [hz, hzn, List.foldl, pinch_con_a0, pinch_con_a1, pinch_con_a2,
    pinch_bnd (6 / 5) (by norm_num) (by norm_num)]

theorem pinch_loops_b :
    GetCV1_loops (modelPinch ℚ sqrtQ) [4 / 3, 0] =
      ⟨3, 4 / 3, 5 / 3, 2 / 3, 2 / 3, [3, 0], [0, 0], [1 / 9, 0], [5 / 3, 0], [2 / 3, 0],
        [2 / 3, 0]⟩ := by
  have hr : (modelPinch ℚ sqrtQ).NumRows = 3 := rfl
  have hc : (modelPinch ℚ sqrtQ).NumCols = 2 := rfl
  have hp : (modelPinch ℚ sqrtQ).plinfy = 10000000000 := rfl
  have r3 : List.range 3 = [0, 1, 2] := rfl
  have r2 : List.range 2 = [0, 1] := rfl
  have hz : List.replicate ([4 / 3, 0] : List ℚ).length (0 : ℚ) = [0, 0] := rfl
  have hzn : List.replicate ([4 / 3, 0] : List ℚ).length (0 : ℕ) = [0, 0] := rfl
  rw [GetCV1_loops, hr, hc, hp, r3, r2]
  simp only [hz, hzn, List.foldl, pinch_con_b0, pinch_con_b1, pinch_con_b2,
    pinch_bnd (4 / 3) (by norm_num) (by norm_num)]

theorem pinch_GetCV1_a :
    GetCV1 (modelPinch ℚ sqrtQ) [6 / 5, 0] =
      some ⟨0, [2 / 15, 0], [4 / 5, 0], [13 / 35, 0], [2 / 5, 0], false, false, false, false,
        6 / 5, 7 / 5, 3⟩ := by
  have hc : (modelPinch ℚ sqrtQ).NumCols = 2 := rfl
  have hsq : (modelPinch ℚ sqrtQ).sqrt = sqrtQ := rfl
  have hB : (modelPinch ℚ sqrtQ).Beta = 1 / 10000 := rfl
  have r2 : List.range 2 = [0, 1] := rfl
  have hz : List.replicate ([6 / 5, 0] : List ℚ).length (0 : ℚ) = [0, 0] := rfl
  have hlen : ([6 / 5, 0] : List ℚ).length ≠ 1 := by decide
  have s0 : sqrtQ (4 / 225) = 2 / 15 := sqrtQ_eq _ _ (by norm_num) (by norm_num)
  have s1 : sqrtQ (16 / 25) = 4 / 5 := sqrtQ_eq _ _ (by norm_num) (by norm_num)
  have s2 : sqrtQ (169 / 1225) = 13 / 35 := sqrtQ_eq _ _ (by norm_num) (by norm_num)
  have s3 : sqrtQ (4 / 25) = 2 / 5 := sqrtQ_eq _ _ (by norm_num) (by norm_num)
  rw [GetCV1, if_neg hlen]
  simp only [pinch_loops_a, hc, hsq, hB, r2, hz, List.foldl, GetCV1_fin]
  norm_num [s0, s1, s2, s3]

theorem pinch_GetCV1_b :
    GetCV1 (modelPinch ℚ sqrtQ) [4 / 3, 0] =
      some ⟨0, [0, 0], [2 / 3, 0], [1 / 15, 0], [0, 0], true, false, false, true,
        4 / 3, 5 / 3, 3⟩ := by
  have hc : (modelPinch ℚ sqrtQ).NumCols = 2 := rfl
  have hsq : (modelPinch ℚ sqrtQ).sqrt = sqrtQ := rfl
  have hB : (modelPinch ℚ sqrtQ).Beta = 1 / 10000 := rfl
  have r2 : List.range 2 = [0, 1] := rfl
  have hz : List.replicate ([4 / 3, 0] : List ℚ).length (0 : ℚ) = [0, 0] := rfl
  have hlen : ([4 / 3, 0] : List ℚ).length ≠ 1 := by decide
  have s1 : sqrtQ (4 / 9) = 2 / 3 := sqrtQ_eq _ _ (by norm_num) (by norm_num)
  have s2 : sqrtQ (1 / 225) = 1 / 15 := sqrtQ_eq _ _ (by norm_num) (by norm_num)
  rw [GetCV1, if_neg hlen]
  simp only [pinch_loops_b, hc, hsq, hB, r2, hz, List.foldl, GetCV1_fin]
  norm_num [sqrtQ_zero, s1, s2]

/-! ### A worker's iteration in which `Project` makes no progress -/

theorem Project_status_two (E : Env K) (s : State K) (Pt0 v : List K)
    (h : (Project E s Pt0 v).Status = 2) : Project E s Pt0 v = ⟨2, Pt0, s⟩ := by
  unfold Project at h ⊢
  dsimp only at h ⊢
  split_ifs at h ⊢ with c1 c2 c3 c4 c5
  · simp at h
  · rfl
  · simp at h
  · rfl
  · rfl
  · have := Project_lin_Status_le E s Pt0 v (Project_Pt1 E Pt0 v) (GetSFD E Pt0).SFDout
      (GetSFD E (Project_Pt1 E Pt0 v)).SFDout
      ((List.range E.NumCols).foldl (fun r j => r + v.getD j 0 * v.getD j 0) 0)
    omega

theorem Project_of_no_progress (E : Env K) (s : State K) (Pt0 v : List K)
    (h0 : (GetSFD E Pt0).NINF ≠ 0) (h1 : (GetSFD E (Project_Pt1 E Pt0 v)).NINF ≠ 0)
    (hge : (GetSFD E (Project_Pt1 E Pt0 v)).SFDout ≥ (GetSFD E Pt0).SFDout) :
    Project E s Pt0 v = ⟨2, Pt0, s⟩ := by
  have s0 : (GetSFD E Pt0).Status = 0 := by
    rcases GetSFD_Status E Pt0 with ⟨h, _⟩ | ⟨_, _, h⟩
    · exact h
    · exact absurd h h0
  have s1 : (GetSFD E (Project_Pt1 E Pt0 v)).Status = 0 := by
    rcases GetSFD_Status E (Project_Pt1 E Pt0 v) with ⟨h, _⟩ | ⟨_, _, h⟩
    · exact h
    · exact absurd h h1
  unfold Project
  simp only [s0, s1, if_pos hge]
  simp

theorem GetCV1_lengths (E : Env K) (x : List K) (r : CVResult K) (hr : GetCV1 E x = some r) :
    r.CV0.length = x.length ∧ r.CV1.length = x.length := by
  unfold GetCV1 at hr
  by_cases hlen : x.length = 1
  · simp [hlen] at hr
  · rw [if_neg hlen] at hr
    dsimp only at hr
    by_cases hN : (GetCV1_loops E x).NINF = 0
    · rw [if_pos hN] at hr
      rw [← Option.some.inj hr]
      exact ⟨by rw [length_zeroFirst]; simp, by rw [length_zeroFirst]; simp⟩
    · rw [if_neg hN] at hr
      rw [← Option.some.inj hr]
      dsimp only
      rw [(GetCV1_fin_CV0_CV2 _ _ _).1, GetCV1_fin_CV1]
      constructor
      · rw [length_foldl_set (fun _ j =>
          if (GetCV1_loops E x).NumViol.getD j 0 = 0 then (0 : K)
          else (GetCV1_loops E x).SumViol.getD j 0 /
            (((GetCV1_loops E x).NumViol.getD j 0 : Nat) : K))]
        simp
      · rw [length_foldl_set (fun _ j =>
          if (GetCV1_loops E x).NumViol.getD j 0 = 0 then (0 : K)
          else if (GetCV1_loops E x).FVMaxFVLength.getD j 0 ≠ 0 then
            (GetCV1_loops E x).FVMaxFVLength.getD j 0
          else (GetCV1_loops E x).SumViol.getD j 0 /
            (((GetCV1_loops E x).NumViol.getD j 0 : Nat) : K))]
        simp

/-- An iteration of `CCOriginal2` in which the point is infeasible and `Project` returns
status 2: the next iteration starts from the variables that `CCOriginal2_update` leaves,
with the best point brought up to date. -/
theorem CCOriginal2_itns_step (E : Env K) (Round PointID : Int) (n itn : Nat) (s : State K)
    (v0 v : CC2Vars K) (hsel : CCOriginal2_select E Round PointID v0 = some v)
    (hS : v.Status = 0) (hN : v.NINF ≠ 0)
    (hp : (Project E s v.CCPoint v.CV).Status = 2) :
    CCOriginal2_itns E Round PointID (n + 1) itn s v0 =
      CCOriginal2_itns E Round PointID n (itn + 1) s
        { CCOriginal2_update E itn v v.CCPoint with
          Status := 2
          BestPt := (if v.SFD < v.BestPtSFD then (v.SFD, copy v.BestPt v.CCPoint)
            else (v.BestPtSFD, v.BestPt)).2
          BestPtSFD := (if v.SFD < v.BestPtSFD then (v.SFD, copy v.BestPt v.CCPoint)
            else (v.BestPtSFD, v.BestPt)).1
          CVLengthLast := (CCOriginal2_update E itn v v.CCPoint).CVLength } := by
  have hP := Project_status_two E s v.CCPoint v.CV hp
  rw [CCOriginal2_itns, hsel]
  dsimp only
  rw [if_neg (by rw [hS]; decide), if_neg (by rw [hS]; simp [hN]), hP]
  simp

/-- C28: in an iteration `itn > 0` of `CCOriginal2` at a point where `GetCV1` returns `r`
with `NINF ≠ 0`, if `Project` returns status 2 on the primary vector `CV0` and `CV0` is
short or longer than the last one (the test `CVLength/CVLengthLast > 1.0` of the code,
`quotGtOne`), then the next iteration starts from the point moved by the fallback
vector. In a round other than 0, with `PointID = 0` or `PointID > 3`,
that vector is `r.CV1`, the `CV1` of the current point. In round 0 it is
`copy(CV0, CV1)` for the `CV1` that the worker held before the iteration, which the call
of round 0 never assigns. -/
theorem C28_fallback_adds_CV1 (E : Env K) (Round PointID : Int) (n itn : Nat) (s : State K)
    (v0 : CC2Vars K) (r : CVResult K)
    (hr : GetCV1 E v0.CCPoint = some r) (hN : r.NINF ≠ 0)
    (hp : (Project E s v0.CCPoint r.CV0).Status = 2) (hitn : 0 < itn)
    (hc : r.CV0Short = true ∨
      quotGtOne
        (E.sqrt ((List.range E.NumCols).foldl (fun a i => a + r.CV0.getD i 0 * r.CV0.getD i 0) 0))
        v0.CVLengthLast) :
    (Round ≠ 0 → (PointID = 0 ∨ PointID > 3) →
      CCOriginal2_itns E Round PointID (n + 1) itn s v0 =
        CCOriginal2_itns E Round PointID n (itn + 1) s
          { CCPoint := addCV E v0.CCPoint r.CV1
            BestPt := (if r.SFD < v0.BestPtSFD then (r.SFD, copy v0.BestPt v0.CCPoint)
              else (v0.BestPtSFD, v0.BestPt)).2
            BestPtSFD := (if r.SFD < v0.BestPtSFD then (r.SFD, copy v0.BestPt v0.CCPoint)
              else (v0.BestPtSFD, v0.BestPt)).1
            CVLength := E.sqrt ((List.range E.NumCols).foldl
              (fun a i => a + r.CV0.getD i 0 * r.CV0.getD i 0) 0)
            CVLengthLast := E.sqrt ((List.range E.NumCols).foldl
              (fun a i => a + r.CV0.getD i 0 * r.CV0.getD i 0) 0)
            SFD := r.SFD
            NINF := r.NINF
            Status := 2
            CV := r.CV1
            CV1 := r.CV1
            CVShort := r.CV0Short }) ∧
    (Round = 0 →
      CCOriginal2_itns E Round PointID (n + 1) itn s v0 =
        CCOriginal2_itns E Round PointID n (itn + 1) s
          { CCPoint := addCV E v0.CCPoint (copy r.CV0 v0.CV1)
            BestPt := (if r.SFD < v0.BestPtSFD then (r.SFD, copy v0.BestPt v0.CCPoint)
              else (v0.BestPtSFD, v0.BestPt)).2
            BestPtSFD := (if r.SFD < v0.BestPtSFD then (r.SFD, copy v0.BestPt v0.CCPoint)
              else (v0.BestPtSFD, v0.BestPt)).1
            CVLength := E.sqrt ((List.range E.NumCols).foldl
              (fun a i => a + r.CV0.getD i 0 * r.CV0.getD i 0) 0)
            CVLengthLast := E.sqrt ((List.range E.NumCols).foldl
              (fun a i => a + r.CV0.getD i 0 * r.CV0.getD i 0) 0)
            SFD := r.SFD
            NINF := r.NINF
            Status := 2
            CV := copy r.CV0 v0.CV1
            CV1 := v0.CV1
            CVShort := r.CV0Short }) := by
  have hS : r.Status = 0 := by
    rcases GetCV1_Status E v0.CCPoint r hr with ⟨_, h⟩ | ⟨h, _⟩
    · exact absurd h hN
    · exact h
  have hl := GetCV1_lengths E v0.CCPoint r hr
  have hcopy : copy r.CV0 r.CV1 = r.CV1 :=
    copy_eq_of_length_eq _ _ (by rw [hl.1, hl.2])
  constructor
  · intro hR hP
    have hsel : CCOriginal2_select E Round PointID v0 = some
        { v0 with Status := r.Status, CV := r.CV0, CV1 := r.CV1, CVShort := r.CV0Short,
                  SFD := r.SFD, NINF := r.NINF } := by
      unfold CCOriginal2_select
      rw [if_neg hR, if_pos hP, hr]
      rfl
    rw [CCOriginal2_itns_step E Round PointID n itn s v0 _ hsel hS hN hp]
    unfold CCOriginal2_update
    dsimp only
    rw [if_pos ⟨hitn, hc⟩, hcopy]
  · intro hR
    have hsel : CCOriginal2_select E Round PointID v0 = some
        { v0 with Status := r.Status, CV := r.CV0, CVShort := r.CV0Short,
                  SFD := r.SFD, NINF := r.NINF } := by
      unfold CCOriginal2_select
      rw [if_pos hR, hr]
      rfl
    rw [CCOriginal2_itns_step E Round PointID n itn s v0 _ hsel hS hN hp]
    unfold CCOriginal2_update
    dsimp only
    rw [if_pos ⟨hitn, hc⟩]

theorem GetSFD_of_GetCV1_loops (E : Env K) (hA : 0 ≤ E.Alpha) (x : List K)
    (hN : (GetCV1_loops E x).NINF ≠ 0) :
    (GetSFD E x).NINF = (GetCV1_loops E x).NINF ∧
    (GetSFD E x).SFDout = (GetCV1_loops E x).SFD := by
  have h := GetCV1_loops_same E hA x
  unfold SameMeasure at h
  have hne : (GetSFD_loops E x).NINF ≠ 0 := by rw [← h.2]; exact hN
  rw [GetSFD_NINF, GetSFD_SFDout_of_ne E x hne, h.1, h.2]
  exact ⟨rfl, rfl⟩


/-! ### Runs of `CCOriginal2` and `CCImpact` on the pinch model from `(6/5, 0)` -/

theorem pinch_Alpha : (0 : ℚ) ≤ (modelPinch ℚ sqrtQ).Alpha := by
  norm_num [modelPinch]

theorem pinch_GetSFD_a :
    (GetSFD (modelPinch ℚ sqrtQ) [6 / 5, 0]).NINF = 3 ∧
    (GetSFD (modelPinch ℚ sqrtQ) [6 / 5, 0]).SFDout = 6 / 5 := by
  have h := GetSFD_of_GetCV1_loops (modelPinch ℚ sqrtQ) pinch_Alpha [6 / 5, 0]
    (by rw [pinch_loops_a]; decide)
  rw [pinch_loops_a] at h
  exact h

theorem pinch_GetSFD_b :
    (GetSFD (modelPinch ℚ sqrtQ) [4 / 3, 0]).NINF = 3 ∧
    (GetSFD (modelPinch ℚ sqrtQ) [4 / 3, 0]).SFDout = 4 / 3 := by
  have h := GetSFD_of_GetCV1_loops (modelPinch ℚ sqrtQ) pinch_Alpha [4 / 3, 0]
    (by rw [pinch_loops_b]; decide)
  rw [pinch_loops_b] at h
  exact h

theorem pinch_Project_a (s : State ℚ) :
    Project (modelPinch ℚ sqrtQ) s [6 / 5, 0] [2 / 15, 0] = ⟨2, [6 / 5, 0], s⟩ := by
  have hP : Project_Pt1 (modelPinch ℚ sqrtQ) [6 / 5, 0] [2 / 15, 0] = [4 / 3, 0] := by
    norm_num [Project_Pt1, modelPinch, Env.NumCols, List.range, List.range.loop]
  apply Project_of_no_progress
  · rw [pinch_GetSFD_a.1]; decide
  · rw [hP, pinch_GetSFD_b.1]; decide
  · rw [hP, pinch_GetSFD_a.2, pinch_GetSFD_b.2]; norm_num

theorem pinch_Project_b (s : State ℚ) :
    Project (modelPinch ℚ sqrtQ) s [4 / 3, 0] [0, 0] = ⟨2, [4 / 3, 0], s⟩ := by
  have hP : Project_Pt1 (modelPinch ℚ sqrtQ) [4 / 3, 0] [0, 0] = [4 / 3, 0] := by
    norm_num [Project_Pt1, modelPinch, Env.NumCols, List.range, List.range.loop]
  apply Project_of_no_progress
  · rw [pinch_GetSFD_b.1]; decide
  · rw [hP, pinch_GetSFD_b.1]; decide
  · rw [hP]

/-- The first iteration of `CCOriginal2` on the pinch model from `(6/5, 0)`, in round 0:
`Project` makes no progress and the point moves by `CV0 = (2/15, 0)` to `(4/3, 0)`. -/
theorem pinch_stepA_round0 (n : Nat) (s : State ℚ) :
    CCOriginal2_itns (modelPinch ℚ sqrtQ) 0 0 (n + 1) 0 s
      ⟨[6 / 5, 0], [0, 0], 10000000000, 0, 0, 0, 0, 0, [0, 0], [0, 0], false⟩ =
    CCOriginal2_itns (modelPinch ℚ sqrtQ) 0 0 n 1 s
      ⟨[4 / 3, 0], [6 / 5, 0], 6 / 5, 2 / 15, 2 / 15, 6 / 5, 3, 2, [2 / 15, 0], [0, 0],
        false⟩ := by
  have hsel : CCOriginal2_select (modelPinch ℚ sqrtQ) 0 0
      ⟨[6 / 5, 0], [0, 0], 10000000000, 0, 0, 0, 0, 0, [0, 0], [0, 0], false⟩ =
      some ⟨[6 / 5, 0], [0, 0], 10000000000, 0, 0, 6 / 5, 3, 0, [2 / 15, 0], [0, 0], false⟩ := by
    unfold CCOriginal2_select
    rw [if_pos rfl, pinch_GetCV1_a]
    rfl
  rw [CCOriginal2_itns_step (modelPinch ℚ sqrtQ) 0 0 n 0 s _ _ hsel rfl (by decide)
    (by rw [pinch_Project_a])]
  have hs : sqrtQ (4 / 225) = 2 / 15 := sqrtQ_eq _ _ (by norm_num) (by norm_num)
  have hsq : (modelPinch ℚ sqrtQ).sqrt = sqrtQ := rfl
  have hc : (modelPinch ℚ sqrtQ).NumCols = 2 := rfl
  have r2 : List.range 2 = [0, 1] := rfl
  have e1 : ((0 : ℚ) + 2 / 15 * (2 / 15) + 0 * 0) = 4 / 225 := by norm_num
  simp only [CCOriginal2_update, addCV, hc, r2, List.foldl, hsq, copy]
  norm_num [e1, hs]

/-- The same iteration in round 1: `CV1 = (4/5, 0)` is stored as well. -/
theorem pinch_stepA_round1 (n : Nat) (s : State ℚ) :
    CCOriginal2_itns (modelPinch ℚ sqrtQ) 1 0 (n + 1) 0 s
      ⟨[6 / 5, 0], [0, 0], 10000000000, 0, 0, 0, 0, 0, [0, 0], [0, 0], false⟩ =
    CCOriginal2_itns (modelPinch ℚ sqrtQ) 1 0 n 1 s
      ⟨[4 / 3, 0], [6 / 5, 0], 6 / 5, 2 / 15, 2 / 15, 6 / 5, 3, 2, [2 / 15, 0], [4 / 5, 0],
        false⟩ := by
  have hsel : CCOriginal2_select (modelPinch ℚ sqrtQ) 1 0
      ⟨[6 / 5, 0], [0, 0], 10000000000, 0, 0, 0, 0, 0, [0, 0], [0, 0], false⟩ =
      some ⟨[6 / 5, 0], [0, 0], 10000000000, 0, 0, 6 / 5, 3, 0, [2 / 15, 0], [4 / 5, 0],
        false⟩ := by
    unfold CCOriginal2_select
    rw [if_neg (by decide), if_pos (Or.inl rfl), pinch_GetCV1_a]
    rfl
  rw [CCOriginal2_itns_step (modelPinch ℚ sqrtQ) 1 0 n 0 s _ _ hsel rfl (by decide)
    (by rw [pinch_Project_a])]
  have hs : sqrtQ (4 / 225) = 2 / 15 := sqrtQ_eq _ _ (by norm_num) (by norm_num)
  have hsq : (modelPinch ℚ sqrtQ).sqrt = sqrtQ := rfl
  have hc : (modelPinch ℚ sqrtQ).NumCols = 2 := rfl
  have r2 : List.range 2 = [0, 1] := rfl
  have e1 : ((0 : ℚ) + 2 / 15 * (2 / 15) + 0 * 0) = 4 / 225 := by norm_num
  simp only [CCOriginal2_update, addCV, hc, r2, List.foldl, hsq, copy]
  norm_num [e1, hs]

/-- The second iteration in round 0: `CV0` is the zero vector, `Project` makes no
progress, `CV0` is short, and the fallback copies the `CV1` that round 0 never
assigned, the zero vector: the point stays at `(4/3, 0)`. -/
theorem pinch_stepB_round0 (n : Nat) (s : State ℚ) :
    CCOriginal2_itns (modelPinch ℚ sqrtQ) 0 0 (n + 1) 1 s
      ⟨[4 / 3, 0], [6 / 5, 0], 6 / 5, 2 / 15, 2 / 15, 6 / 5, 3, 2, [2 / 15, 0], [0, 0],
        false⟩ =
    CCOriginal2_itns (modelPinch ℚ sqrtQ) 0 0 n 2 s
      ⟨[4 / 3, 0], [6 / 5, 0], 6 / 5, 0, 0, 4 / 3, 3, 2, [0, 0], [0, 0], true⟩ := by
  have hsel : CCOriginal2_select (modelPinch ℚ sqrtQ) 0 0
      ⟨[4 / 3, 0], [6 / 5, 0], 6 / 5, 2 / 15, 2 / 15, 6 / 5, 3, 2, [2 / 15, 0], [0, 0],
        false⟩ =
      some ⟨[4 / 3, 0], [6 / 5, 0], 6 / 5, 2 / 15, 2 / 15, 4 / 3, 3, 0, [0, 0], [0, 0],
        true⟩ := by
    unfold CCOriginal2_select
    rw [if_pos rfl, pinch_GetCV1_b]
    rfl
  rw [CCOriginal2_itns_step (modelPinch ℚ sqrtQ) 0 0 n 1 s _ _ hsel rfl (by decide)
    (by rw [pinch_Project_b])]
  have hsq : (modelPinch ℚ sqrtQ).sqrt = sqrtQ := rfl
  have hc : (modelPinch ℚ sqrtQ).NumCols = 2 := rfl
  have r2 : List.range 2 = [0, 1] := rfl
  simp only [CCOriginal2_update, addCV, hc, r2, List.foldl, hsq, copy]
  norm_num [sqrtQ_zero]

/-- The second iteration in round 1: the fallback copies `CV1 = (2/3, 0)` of the current
point, and the point moves to `(2, 0)`. -/
theorem pinch_stepB_round1 (n : Nat) (s : State ℚ) :
    CCOriginal2_itns (modelPinch ℚ sqrtQ) 1 0 (n + 1) 1 s
      ⟨[4 / 3, 0], [6 / 5, 0], 6 / 5, 2 / 15, 2 / 15, 6 / 5, 3, 2, [2 / 15, 0], [4 / 5, 0],
        false⟩ =
    CCOriginal2_itns (modelPinch ℚ sqrtQ) 1 0 n 2 s
      ⟨[2, 0], [6 / 5, 0], 6 / 5, 0, 0, 4 / 3, 3, 2, [2 / 3, 0], [2 / 3, 0], true⟩ := by
  have hsel : CCOriginal2_select (modelPinch ℚ sqrtQ) 1 0
      ⟨[4 / 3, 0], [6 / 5, 0], 6 / 5, 2 / 15, 2 / 15, 6 / 5, 3, 2, [2 / 15, 0], [4 / 5, 0],
        false⟩ =
      some ⟨[4 / 3, 0], [6 / 5, 0], 6 / 5, 2 / 15, 2 / 15, 4 / 3, 3, 0, [0, 0], [2 / 3, 0],
        true⟩ := by
    unfold CCOriginal2_select
    rw [if_neg (by decide), if_pos (Or.inl rfl), pinch_GetCV1_b]
    rfl
  rw [CCOriginal2_itns_step (modelPinch ℚ sqrtQ) 1 0 n 1 s _ _ hsel rfl (by decide)
    (by rw [pinch_Project_b])]
  have hsq : (modelPinch ℚ sqrtQ).sqrt = sqrtQ := rfl
  have hc : (modelPinch ℚ sqrtQ).NumCols = 2 := rfl
  have r2 : List.range 2 = [0, 1] := rfl
  simp only [CCOriginal2_update, addCV, hc, r2, List.foldl, hsq, copy]
  norm_num [sqrtQ_zero]

theorem pinch_CCOriginal2_round0 (s : State ℚ) :
    CCOriginal2 (modelPinch ℚ sqrtQ) s [6 / 5, 0] 0 0 =
      some ([6 / 5, 0], (UpdateIncumbentSFD s [4 / 3, 0] (4 / 3) 3 0).2) := by
  have h0 : CCOriginal2 (modelPinch ℚ sqrtQ) s [6 / 5, 0] 0 0 =
      CCOriginal2_itns (modelPinch ℚ sqrtQ) 0 0 2 0 s
        ⟨[6 / 5, 0], [0, 0], 10000000000, 0, 0, 0, 0, 0, [0, 0], [0, 0], false⟩ := rfl
  rw [h0, pinch_stepA_round0, pinch_stepB_round0]
  rfl

theorem pinch_CCOriginal2_round1 (s : State ℚ) :
    CCOriginal2 (modelPinch ℚ sqrtQ) s [6 / 5, 0] 1 0 =
      some ([6 / 5, 0], (UpdateIncumbentSFD s [2, 0] (4 / 3) 3 0).2) := by
  have h0 : CCOriginal2 (modelPinch ℚ sqrtQ) s [6 / 5, 0] 1 0 =
      CCOriginal2_itns (modelPinch ℚ sqrtQ) 1 0 2 0 s
        ⟨[6 / 5, 0], [0, 0], 10000000000, 0, 0, 0, 0, 0, [0, 0], [0, 0], false⟩ := rfl
  rw [h0, pinch_stepA_round1, pinch_stepB_round1]
  rfl

/-! ### The point that `CCOriginal2` sends when its iterations run out -/

theorem length_Project_quad (E : Env K) (s : State K) (Pt0 Pt1 Pt2 : List K)
    (SFD0 SFD1 SFD2 : K) (BestPt : Nat) (h1 : Pt1.length = E.NumCols)
    (h2 : Pt2.length = E.NumCols) :
    (Project_quad E s Pt0 Pt1 Pt2 SFD0 SFD1 SFD2 BestPt).PointOut.length = E.NumCols := by
  have hq := length_QuadApprox E Pt0 Pt1 Pt2 SFD0 SFD1 SFD2 h2
  unfold Project_quad
  dsimp only
  split_ifs <;> assumption

theorem length_Project_lin (E : Env K) (s : State K) (Pt0 v Pt1 : List K) (SFD0 SFD1 VL : K)
    (h1 : Pt1.length = E.NumCols) :
    (Project_lin E s Pt0 v Pt1 SFD0 SFD1 VL).PointOut.length = E.NumCols := by
  unfold Project_lin
  dsimp only
  split_ifs
  all_goals first
    | exact h1
    | exact length_Project_Pt2 E _ _ _ _
    | exact length_Project_quad E _ _ _ _ _ _ _ _ h1 (length_Project_Pt2 E _ _ _ _)

theorem length_Project (E : Env K) (s : State K) (Pt0 v : List K)
    (h0 : Pt0.length = E.NumCols) : (Project E s Pt0 v).PointOut.length = E.NumCols := by
  unfold Project
  dsimp only
  split_ifs
  all_goals first
    | exact h0
    | exact length_Project_Pt1 E _ _
    | exact length_Project_lin E _ _ _ _ _ _ _ (length_Project_Pt1 E _ _)

theorem CCOriginal2_select_frame (E : Env K) (Round PointID : Int) (v0 v : CC2Vars K)
    (h : CCOriginal2_select E Round PointID v0 = some v) :
    v.CCPoint = v0.CCPoint ∧ v.BestPt = v0.BestPt ∧ v.BestPtSFD = v0.BestPtSFD := by
  unfold CCOriginal2_select at h
  split_ifs at h
  all_goals first
    | (obtain ⟨r, _, hv⟩ := Option.map_eq_some'.mp h
       rw [← hv]
       exact ⟨rfl, rfl, rfl⟩)
    | (rw [← Option.some.inj h]
       exact ⟨rfl, rfl, rfl⟩)

theorem CCOriginal2_select_evaluated (E : Env K) (Round PointID : Int) (v0 v : CC2Vars K)
    (hcall : Round = 0 ∨ 0 ≤ PointID)
    (h : CCOriginal2_select E Round PointID v0 = some v) :
    ∃ r, GetCV1 E v0.CCPoint = some r ∧ r.SFD = v.SFD := by
  unfold CCOriginal2_select at h
  split_ifs at h with c1 c2 c3 c4 c5
  · obtain ⟨r, hr, hv⟩ := Option.map_eq_some'.mp h
    exact ⟨r, hr, by rw [← hv]⟩
  · obtain ⟨r, hr, hv⟩ := Option.map_eq_some'.mp h
    exact ⟨r, hr, by rw [← hv]⟩
  · obtain ⟨r, hr, hv⟩ := Option.map_eq_some'.mp h
    exact ⟨r, hr, by rw [← hv]⟩
  · obtain ⟨r, hr, hv⟩ := Option.map_eq_some'.mp h
    exact ⟨r, hr, by rw [← hv]⟩
  · obtain ⟨r, hr, hv⟩ := Option.map_eq_some'.mp h
    exact ⟨r, hr, by rw [← hv]⟩
  · rcases hcall with hc | hc
    · exact absurd hc c1
    · rw [not_or] at c2
      omega

theorem length_CCOriginal2_update (E : Env K) (itn : Nat) (v : CC2Vars K) (Pt : List K) :
    (CCOriginal2_update E itn v Pt).CCPoint.length = Pt.length ∧
    (CCOriginal2_update E itn v Pt).BestPt = v.BestPt := by
  unfold CCOriginal2_update
  dsimp only
  exact ⟨length_addCV E _ _, rfl⟩

/-- The search for the best point that the workers make: the record is replaced only by
a strictly smaller `SFD`, so that at the end it is the first of the least ones, provided
one is below the initial value. -/
theorem foldl_best_spec (tr : List (List K × K)) (b0 : K) (p0 : List K) :
    ((∀ a ∈ tr, b0 ≤ a.2) →
      tr.foldl (fun (b : K × List K) a => if a.2 < b.1 then (a.2, a.1) else b) (b0, p0) =
        (b0, p0)) ∧
    ((∃ a ∈ tr, a.2 < b0) → ∃ pre x sfd post, tr = pre ++ (x, sfd) :: post ∧
      tr.foldl (fun (b : K × List K) a => if a.2 < b.1 then (a.2, a.1) else b) (b0, p0) =
        (sfd, x) ∧ sfd < b0 ∧
      (∀ a ∈ pre, sfd < a.2) ∧ (∀ a ∈ post, sfd ≤ a.2)) := by
  induction tr generalizing b0 p0 with
  | nil =>
    exact ⟨fun _ => rfl, fun ⟨a, ha, _⟩ => absurd ha (List.not_mem_nil a)⟩
  | cons c t ih =>
    rw [List.foldl_cons]
    by_cases hc : c.2 < b0
    · rw [if_pos hc]
      obtain ⟨ih1, ih2⟩ := ih c.2 c.1
      refine ⟨fun h => absurd (h c (List.mem_cons_self _ _)) (not_le.mpr hc), fun _ => ?_⟩
      by_cases hall : ∀ a ∈ t, c.2 ≤ a.2
      · exact ⟨[], c.1, c.2, t, rfl, ih1 hall, hc, fun a ha => absurd ha (List.not_mem_nil a),
          hall⟩
      · push_neg at hall
        obtain ⟨pre, x, sfd, post, ht, hf, hlt, hpre, hpost⟩ := ih2 hall
        refine ⟨c :: pre, x, sfd, post, by rw [ht]; rfl, hf, lt_trans hlt hc, ?_, hpost⟩
        intro a ha
        rcases List.mem_cons.mp ha with rfl | ha
        · exact hlt
        · exact hpre a ha
    · rw [if_neg hc]
      obtain ⟨ih1, ih2⟩ := ih b0 p0
      refine ⟨fun h => ih1 (fun a ha => h a (List.mem_cons_of_mem _ ha)), ?_⟩
      rintro ⟨a, ha, hab⟩
      rcases List.mem_cons.mp ha with rfl | ha
      · exact absurd hab hc
      · obtain ⟨pre, x, sfd, post, ht, hf, hlt, hpre, hpost⟩ := ih2 ⟨a, ha, hab⟩
        refine ⟨c :: pre, x, sfd, post, by rw [ht]; rfl, hf, hlt, ?_, hpost⟩
        intro a' ha'
        rcases List.mem_cons.mp ha' with rfl | ha'
        · exact lt_of_lt_of_le hlt (not_lt.mp hc)
        · exact hpre a' ha'

/-- When the loop of `CCOriginal2` runs to its end over the iterates `tr`, the point it
sends is the result of the search for the best point over `tr`, from the values that
`BestPtSFD` and `BestPt` had. -/
theorem CCOriginal2_itns_best (E : Env K) (Round PointID : Int) (n : Nat) :
    ∀ (itn : Nat) (s : State K) (v : CC2Vars K) (tr : List (List K × K)),
    v.CCPoint.length = E.NumCols → v.BestPt.length = E.NumCols →
    CCOriginal2_iterates E Round PointID n itn s v = some tr →
    tr.length = n ∧
    ((Round = 0 ∨ 0 ≤ PointID) → ∀ a ∈ tr, ∃ r, GetCV1 E a.1 = some r ∧ r.SFD = a.2) ∧
    ∃ s', CCOriginal2_itns E Round PointID n itn s v =
      some ((tr.foldl (fun (b : K × List K) a => if a.2 < b.1 then (a.2, a.1) else b)
        (v.BestPtSFD, v.BestPt)).2, s') := by
  induction n with
  | zero =>
    intro itn s v tr _ _ htr
    rw [CCOriginal2_iterates] at htr
    rw [← Option.some.inj htr]
    exact ⟨rfl, fun _ a ha => absurd ha (List.not_mem_nil a), _, rfl⟩
  | succ n ih =>
    intro itn s v0 tr hl hb htr
    rw [CCOriginal2_iterates] at htr
    rw [CCOriginal2_itns]
    cases hsel : CCOriginal2_select E Round PointID v0 with
    | none => rw [hsel] at htr; simp at htr
    | some v =>
      rw [hsel] at htr
      dsimp only at htr ⊢
      obtain ⟨f1, f2, f3⟩ := CCOriginal2_select_frame E Round PointID v0 v hsel
      by_cases h2 : v.Status = 2
      · rw [if_pos h2] at htr; simp at htr
      · rw [if_neg h2] at htr ⊢
        by_cases h1 : v.Status = 1 ∨ v.NINF = 0
        · rw [if_pos h1] at htr; simp at htr
        · rw [if_neg h1] at htr ⊢
          by_cases hp : (Project E s v.CCPoint v.CV).Status = 1
          · rw [if_pos hp] at htr; simp at htr
          · rw [if_neg hp] at htr ⊢
            obtain ⟨tr', htr', hcons⟩ := Option.map_eq_some'.mp htr
            have hPl : (Project E s v.CCPoint v.CV).PointOut.length = E.NumCols :=
              length_Project E s v.CCPoint v.CV (by rw [f1]; exact hl)
            have hcopy : copy v.BestPt v.CCPoint = v.CCPoint :=
              copy_eq_of_length_eq _ _ (by rw [f1, f2, hl, hb])
            obtain ⟨i1, i2, s', i3⟩ := ih (itn + 1) _ _ tr' (by
                dsimp only
                split_ifs
                · rw [(length_CCOriginal2_update E itn v _).1]; exact hPl
                · exact hPl) (by
                dsimp only
                split_ifs
                · rw [hcopy, f1]; exact hl
                · rw [f2]; exact hb) htr'
            rw [← hcons]
            refine ⟨by rw [List.length_cons, i1], fun hcall a ha => ?_, s', ?_⟩
            · rcases List.mem_cons.mp ha with rfl | ha
              · obtain ⟨r, hr, hrs⟩ := CCOriginal2_select_evaluated E Round PointID v0 v hcall hsel
                exact ⟨r, by rw [f1]; exact hr, hrs⟩
              · exact i2 hcall a ha
            · rw [i3, List.foldl_cons]
              dsimp only
              rw [hcopy, ← f2, ← f3]

/-- C27, amended to `CCOriginal2`: for a point of the model, when the iteration loop of
`CCOriginal2` runs to its end over the iterates `tr` (each evaluated by `GetCV1`, which
reports the `SFD` listed with it), there are `MaxItns` of them and the point sent is the
best point seen: the first iterate whose `SFD` is the least, provided that `SFD` is below
`plinfy`; if no iterate has an `SFD` below `plinfy` the point sent is the zero vector. -/
theorem C27_CCOriginal2_sends_best_iterate (E : Env K) (s : State K) (PointIn : List K)
    (Round PointID : Int) (tr : List (List K × K)) (hlen : PointIn.length = E.NumCols)
    (hcall : Round = 0 ∨ 0 ≤ PointID)
    (htr : CCOriginal2_iterates E Round PointID E.MaxItns 0 s
      ⟨copy (List.replicate PointIn.length 0) PointIn, List.replicate PointIn.length 0,
        E.plinfy, 0, 0, 0, 0, 0, List.replicate PointIn.length 0,
        List.replicate PointIn.length 0, false⟩ = some tr) :
    tr.length = E.MaxItns ∧
    (∀ a ∈ tr, ∃ r, GetCV1 E a.1 = some r ∧ r.SFD = a.2) ∧
    ∃ pt s', CCOriginal2 E s PointIn Round PointID = some (pt, s') ∧
      ((∀ a ∈ tr, E.plinfy ≤ a.2) → pt = List.replicate PointIn.length 0) ∧
      ((∃ a ∈ tr, a.2 < E.plinfy) → ∃ pre x sfd post, tr = pre ++ (x, sfd) :: post ∧
        pt = x ∧ (∀ a ∈ pre, sfd < a.2) ∧ (∀ a ∈ post, sfd ≤ a.2)) := by
  obtain ⟨h1, h2, s', h3⟩ := CCOriginal2_itns_best E Round PointID E.MaxItns 0 s _ tr
    (by dsimp only; rw [length_copy]; simp [hlen]) (by simp [hlen]) htr
  obtain ⟨b1, b2⟩ := foldl_best_spec tr E.plinfy (List.replicate PointIn.length 0)
  refine ⟨h1, h2 hcall, _, s', h3, fun hall => ?_, fun hex => ?_⟩
  · dsimp only
    rw [b1 hall]
  · obtain ⟨pre, x, sfd, post, ht, hf, _, hpre, hpost⟩ := b2 hex
    refine ⟨pre, x, sfd, post, ht, ?_, hpre, hpost⟩
    dsimp only
    rw [hf]

/-- The iterates of `CCOriginal2` after an iteration in which the point is infeasible and
`Project` returns status 2. -/
theorem CCOriginal2_iterates_step (E : Env K) (Round PointID : Int) (n itn : Nat)
    (s : State K) (v0 v : CC2Vars K)
    (hsel : CCOriginal2_select E Round PointID v0 = some v)
    (hS : v.Status = 0) (hN : v.NINF ≠ 0)
    (hp : (Project E s v.CCPoint v.CV).Status = 2) :
    CCOriginal2_iterates E Round PointID (n + 1) itn s v0 =
      (CCOriginal2_iterates E Round PointID n (itn + 1) s
        { CCOriginal2_update E itn v v.CCPoint with
          Status := 2
          BestPt := (if v.SFD < v.BestPtSFD then (v.SFD, copy v.BestPt v.CCPoint)
            else (v.BestPtSFD, v.BestPt)).2
          BestPtSFD := (if v.SFD < v.BestPtSFD then (v.SFD, copy v.BestPt v.CCPoint)
            else (v.BestPtSFD, v.BestPt)).1
          CVLengthLast := (CCOriginal2_update E itn v v.CCPoint).CVLength }).map
        (fun t => (v.CCPoint, v.SFD) :: t) := by
  have hP := Project_status_two E s v.CCPoint v.CV hp
  rw [CCOriginal2_iterates, hsel]
  dsimp only
  rw [if_neg (by rw [hS]; decide), if_neg (by rw [hS]; simp [hN]), hP]
  simp


theorem pinch_iterates_round0 (s : State ℚ) :
    CCOriginal2_iterates (modelPinch ℚ sqrtQ) 0 0 2 0 s
      ⟨[6 / 5, 0], [0, 0], 10000000000, 0, 0, 0, 0, 0, [0, 0], [0, 0], false⟩ =
    some [([6 / 5, 0], 6 / 5), ([4 / 3, 0], 4 / 3)] := by
  have hsq : (modelPinch ℚ sqrtQ).sqrt = sqrtQ := rfl
  have hc : (modelPinch ℚ sqrtQ).NumCols = 2 := rfl
  have r2 : List.range 2 = [0, 1] := rfl
  have hs : sqrtQ (4 / 225) = 2 / 15 := sqrtQ_eq _ _ (by norm_num) (by norm_num)
  have e1 : ((0 : ℚ) + 2 / 15 * (2 / 15) + 0 * 0) = 4 / 225 := by norm_num
  have hselA : CCOriginal2_select (modelPinch ℚ sqrtQ) 0 0
      ⟨[6 / 5, 0], [0, 0], 10000000000, 0, 0, 0, 0, 0, [0, 0], [0, 0], false⟩ =
      some ⟨[6 / 5, 0], [0, 0], 10000000000, 0, 0, 6 / 5, 3, 0, [2 / 15, 0], [0, 0], false⟩ := by
    unfold CCOriginal2_select
    rw [if_pos rfl, pinch_GetCV1_a]
    rfl
  have hselB : CCOriginal2_select (modelPinch ℚ sqrtQ) 0 0
      ⟨[4 / 3, 0], [6 / 5, 0], 6 / 5, 2 / 15, 2 / 15, 6 / 5, 3, 2, [2 / 15, 0], [0, 0],
        false⟩ =
      some ⟨[4 / 3, 0], [6 / 5, 0], 6 / 5, 2 / 15, 2 / 15, 4 / 3, 3, 0, [0, 0], [0, 0],
        true⟩ := by
    unfold CCOriginal2_select
    rw [if_pos rfl, pinch_GetCV1_b]
    rfl
  have hnext : ({ CCOriginal2_update (modelPinch ℚ sqrtQ) 0
        ⟨[6 / 5, 0], [0, 0], 10000000000, 0, 0, 6 / 5, 3, 0, [2 / 15, 0], [0, 0], false⟩
        [6 / 5, 0] with
      Status := 2
      BestPt := (if (6 / 5 : ℚ) < 10000000000 then ((6 / 5 : ℚ), copy [0, 0] [6 / 5, (0 : ℚ)])
        else (10000000000, [0, 0])).2
      BestPtSFD := (if (6 / 5 : ℚ) < 10000000000 then
        ((6 / 5 : ℚ), copy [0, 0] [6 / 5, (0 : ℚ)]) else (10000000000, [0, 0])).1
      CVLengthLast := (CCOriginal2_update (modelPinch ℚ sqrtQ) 0
        ⟨[6 / 5, 0], [0, 0], 10000000000, 0, 0, 6 / 5, 3, 0, [2 / 15, 0], [0, 0], false⟩
        [6 / 5, 0]).CVLength } : CC2Vars ℚ) =
      ⟨[4 / 3, 0], [6 / 5, 0], 6 / 5, 2 / 15, 2 / 15, 6 / 5, 3, 2, [2 / 15, 0], [0, 0],
        false⟩ := by
    simp only [CCOriginal2_update, addCV, hc, r2, List.foldl, hsq, copy]
    norm_num [e1, hs]
  rw [CCOriginal2_iterates_step (modelPinch ℚ sqrtQ) 0 0 1 0 s _ _ hselA rfl (by decide)
    (by rw [pinch_Project_a])]
  dsimp only
  rw [hnext]
  rw [CCOriginal2_iterates_step (modelPinch ℚ sqrtQ) 0 0 0 1 s _ _ hselB rfl (by decide)
    (by rw [pinch_Project_b])]
  rfl

/-- C27 on the pinch model: the run of `CCOriginal2` from `(6/5, 0)` in round 0 evaluates
the two iterates `(6/5, 0)`, with `SFD = 6/5`, and `(4/3, 0)`, with `SFD = 4/3`, and
sends the first. -/
theorem C27_witness :
    CCOriginal2_iterates (modelPinch ℚ sqrtQ) 0 0 (modelPinch ℚ sqrtQ).MaxItns 0
      (initState (modelPinch ℚ sqrtQ))
      ⟨copy (List.replicate ([6 / 5, 0] : List ℚ).length 0) [6 / 5, 0],
        List.replicate ([6 / 5, 0] : List ℚ).length 0, (modelPinch ℚ sqrtQ).plinfy, 0, 0, 0, 0,
        0, List.replicate ([6 / 5, 0] : List ℚ).length 0,
        List.replicate ([6 / 5, 0] : List ℚ).length 0, false⟩ =
      some [([6 / 5, 0], 6 / 5), ([4 / 3, 0], 4 / 3)] ∧
    ([([6 / 5, 0], 6 / 5), ([4 / 3, 0], 4 / 3)] : List (List ℚ × ℚ)).length =
      (modelPinch ℚ sqrtQ).MaxItns ∧
    (∀ a ∈ ([([6 / 5, 0], 6 / 5), ([4 / 3, 0], 4 / 3)] : List (List ℚ × ℚ)),
      ∃ r, GetCV1 (modelPinch ℚ sqrtQ) a.1 = some r ∧ r.SFD = a.2) ∧
    ∃ s', CCOriginal2 (modelPinch ℚ sqrtQ) (initState (modelPinch ℚ sqrtQ)) [6 / 5, 0] 0 0 =
      some ([6 / 5, 0], s') := by
  have htr := pinch_iterates_round0 (initState (modelPinch ℚ sqrtQ))
  have h := C27_CCOriginal2_sends_best_iterate (modelPinch ℚ sqrtQ)
    (initState (modelPinch ℚ sqrtQ)) [6 / 5, 0] 0 0 [([6 / 5, 0], 6 / 5), ([4 / 3, 0], 4 / 3)]
    rfl (Or.inl rfl) htr
  exact ⟨htr, h.1, h.2.1, _, pinch_CCOriginal2_round0 _⟩

/-- C28 on the pinch model: the second iteration (`itn = 1`) of the run of `CCOriginal2`
from `(6/5, 0)` is at `(4/3, 0)`, where `CV0 = (0, 0)` is short, `Project` makes no
progress and `CV1 = (2/3, 0)`. In round 1 the point moves to `(4/3, 0) + CV1 = (2, 0)`;
in round 0 it stays at `(4/3, 0)`, the fallback vector being the zero vector. The runs
end there, and the last point is the one passed to `UpdateIncumbentSFD`. -/
theorem C28_witness :
    GetCV1 (modelPinch ℚ sqrtQ) [4 / 3, 0] =
      some ⟨0, [0, 0], [2 / 3, 0], [1 / 15, 0], [0, 0], true, false, false, true,
        4 / 3, 5 / 3, 3⟩ ∧
    (Project (modelPinch ℚ sqrtQ) (initState (modelPinch ℚ sqrtQ)) [4 / 3, 0] [0, 0]).Status
      = 2 ∧
    CCOriginal2_itns (modelPinch ℚ sqrtQ) 1 0 1 1 (initState (modelPinch ℚ sqrtQ))
      ⟨[4 / 3, 0], [6 / 5, 0], 6 / 5, 2 / 15, 2 / 15, 6 / 5, 3, 2, [2 / 15, 0], [4 / 5, 0],
        false⟩ =
      some ([6 / 5, 0], (UpdateIncumbentSFD (initState (modelPinch ℚ sqrtQ))
        (addCV (modelPinch ℚ sqrtQ) [4 / 3, 0] [2 / 3, 0]) (4 / 3) 3 0).2) ∧
    CCOriginal2_itns (modelPinch ℚ sqrtQ) 0 0 1 1 (initState (modelPinch ℚ sqrtQ))
      ⟨[4 / 3, 0], [6 / 5, 0], 6 / 5, 2 / 15, 2 / 15, 6 / 5, 3, 2, [2 / 15, 0], [0, 0],
        false⟩ =
      some ([6 / 5, 0], (UpdateIncumbentSFD (initState (modelPinch ℚ sqrtQ))
        (addCV (modelPinch ℚ sqrtQ) [4 / 3, 0] (copy [0, 0] [0, 0])) (4 / 3) 3 0).2) ∧
    addCV (modelPinch ℚ sqrtQ) [4 / 3, 0] [2 / 3, 0] = [2, 0] ∧
    addCV (modelPinch ℚ sqrtQ) [4 / 3, 0] (copy [0, 0] [0, 0]) = [4 / 3, 0] ∧
    CCOriginal2 (modelPinch ℚ sqrtQ) (initState (modelPinch ℚ sqrtQ)) [6 / 5, 0] 1 0 =
      some ([6 / 5, 0], (UpdateIncumbentSFD (initState (modelPinch ℚ sqrtQ)) [2, 0]
        (4 / 3) 3 0).2) ∧
    CCOriginal2 (modelPinch ℚ sqrtQ) (initState (modelPinch ℚ sqrtQ)) [6 / 5, 0] 0 0 =
      some ([6 / 5, 0], (UpdateIncumbentSFD (initState (modelPinch ℚ sqrtQ)) [4 / 3, 0]
        (4 / 3) 3 0).2) := by
  have hp : (Project (modelPinch ℚ sqrtQ) (initState (modelPinch ℚ sqrtQ)) [4 / 3, 0]
      [0, 0]).Status = 2 := by rw [pinch_Project_b]
  have h1 := (C28_fallback_adds_CV1 (modelPinch ℚ sqrtQ) 1 0 0 1
    (initState (modelPinch ℚ sqrtQ))
    ⟨[4 / 3, 0], [6 / 5, 0], 6 / 5, 2 / 15, 2 / 15, 6 / 5, 3, 2, [2 / 15, 0], [4 / 5, 0],
      false⟩ _ pinch_GetCV1_b (by decide) hp (by decide) (Or.inl rfl)).1
    (by decide) (Or.inl rfl)
  have h0 := (C28_fallback_adds_CV1 (modelPinch ℚ sqrtQ) 0 0 0 1
    (initState (modelPinch ℚ sqrtQ))
    ⟨[4 / 3, 0], [6 / 5, 0], 6 / 5, 2 / 15, 2 / 15, 6 / 5, 3, 2, [2 / 15, 0], [0, 0],
      false⟩ _ pinch_GetCV1_b (by decide) hp (by decide) (Or.inl rfl)).2 rfl
  have hc : (modelPinch ℚ sqrtQ).NumCols = 2 := rfl
  have r2 : List.range 2 = [0, 1] := rfl
  have a1 : addCV (modelPinch ℚ sqrtQ) [4 / 3, 0] [2 / 3, 0] = [2, 0] := by
    simp only [addCV, hc, r2, List.foldl]
    norm_num
  have a0 : addCV (modelPinch ℚ sqrtQ) [4 / 3, 0] (copy [0, 0] [0, 0]) = [4 / 3, 0] := by
    simp only [addCV, hc, r2, List.foldl, copy]
    norm_num
  refine ⟨pinch_GetCV1_b, hp, ?_, ?_, a1, a0, pinch_CCOriginal2_round1 _,
    pinch_CCOriginal2_round0 _⟩
  · rw [h1]
    have hb : ¬ ((4 / 3 : ℚ) < 6 / 5) := by norm_num
    simp only [CCOriginal2_itns, if_neg hb]
  · rw [h0]
    have hb : ¬ ((4 / 3 : ℚ) < 6 / 5) := by norm_num
    simp only [CCOriginal2_itns, if_neg hb]

/-! ### `CCImpact` on the pinch model from `(6/5, 0)` -/

theorem pinch_ConViolated_a (l : List Bool) (hl : l.length = 3) :
    CCImpact_ConViolated (modelPinch ℚ sqrtQ) [6 / 5, 0] l = [true, true, true] := by
  have hr : List.range (modelPinch ℚ sqrtQ).NumRows = [0, 1, 2] := rfl
  have hA : (modelPinch ℚ sqrtQ).Alpha = 1 / 1000000 := rfl
  have f0 : FVLenSq (modelPinch ℚ sqrtQ) 0 (4 / 5) = 16 / 25 := by
    norm_num [FVLenSq, modelPinch, Env.row, Env.elem]
  have f1 : FVLenSq (modelPinch ℚ sqrtQ) 1 (-1 / 5) = 1 / 25 := by
    norm_num [FVLenSq, modelPinch, Env.row, Env.elem]
  have f2 : FVLenSq (modelPinch ℚ sqrtQ) 2 (-2 / 5) = 1 / 25 := by
    norm_num [FVLenSq, modelPinch, Env.row, Env.elem]
  obtain ⟨a, b, c, rfl⟩ : ∃ a b c, l = [a, b, c] := by
    match l, hl with
    | [a, b, c], _ => exact ⟨a, b, c, rfl⟩
  unfold CCImpact_ConViolated
  rw [hr]
  simp only [List.foldl, pinch_va0, pinch_va1, pinch_va2, f0, f1, f2, hA]
  norm_num

theorem pinch_ConViolated_b (l : List Bool) (hl : l.length = 3) :
    CCImpact_ConViolated (modelPinch ℚ sqrtQ) [4 / 3, 0] l = [true, true, true] := by
  have hr : List.range (modelPinch ℚ sqrtQ).NumRows = [0, 1, 2] := rfl
  have hA : (modelPinch ℚ sqrtQ).Alpha = 1 / 1000000 := rfl
  have f0 : FVLenSq (modelPinch ℚ sqrtQ) 0 (2 / 3) = 4 / 9 := by
    norm_num [FVLenSq, modelPinch, Env.row, Env.elem]
  have f1 : FVLenSq (modelPinch ℚ sqrtQ) 1 (-1 / 3) = 1 / 9 := by
    norm_num [FVLenSq, modelPinch, Env.row, Env.elem]
  have f2 : FVLenSq (modelPinch ℚ sqrtQ) 2 (-2 / 3) = 1 / 9 := by
    norm_num [FVLenSq, modelPinch, Env.row, Env.elem]
  obtain ⟨a, b, c, rfl⟩ : ∃ a b c, l = [a, b, c] := by
    match l, hl with
    | [a, b, c], _ => exact ⟨a, b, c, rfl⟩
  unfold CCImpact_ConViolated
  rw [hr]
  simp only [List.foldl, pinch_vb0, pinch_vb1, pinch_vb2, f0, f1, f2, hA]
  norm_num

theorem pinch_select (sfd sinf mv mf : ℚ) (a b c d e : List ℚ) :
    CCImpact_select (modelPinch ℚ sqrtQ) ⟨3, sfd, sinf, mv, mf, [3, 0], a, b, c, d, e⟩
      [true, true, true] = 0 := by
  have hr : List.range (modelPinch ℚ sqrtQ).NumRows = [0, 1, 2] := rfl
  unfold CCImpact_select
  rw [hr]
  simp +decide [List.foldl, modelPinch, Env.row, Env.elem]

theorem pinch_CV_a :
    CCOriginal1_CV (modelPinch ℚ sqrtQ)
      ⟨3, 6 / 5, 7 / 5, 4 / 5, 4 / 5, [3, 0], [2 / 5, 0], [13 / 25, 0], [7 / 5, 0], [4 / 5, 0],
        [4 / 5, 0]⟩ [0, 0] = ([2 / 15, 0], 4 / 225) := by
  have hc : List.range (modelPinch ℚ sqrtQ).NumCols = [0, 1] := rfl
  unfold CCOriginal1_CV
  rw [hc]
  simp only [List.foldl]
  norm_num

theorem pinch_CV_b :
    CCOriginal1_CV (modelPinch ℚ sqrtQ)
      ⟨3, 4 / 3, 5 / 3, 2 / 3, 2 / 3, [3, 0], [0, 0], [1 / 9, 0], [5 / 3, 0], [2 / 3, 0],
        [2 / 3, 0]⟩ [0, 0] = ([0, 0], 0) := by
  have hc : List.range (modelPinch ℚ sqrtQ).NumCols = [0, 1] := rfl
  unfold CCOriginal1_CV
  rw [hc]
  simp only [List.foldl]
  norm_num

theorem pinch_CVImpact_a :
    CCImpact_CVImpact (modelPinch ℚ sqrtQ) [6 / 5, 0] [2 / 15, 0] 0 = ([4 / 5, 0], 16 / 25) := by
  have hc : List.range (modelPinch ℚ sqrtQ).NumCols = [0, 1] := rfl
  have hel : ((modelPinch ℚ sqrtQ).row 0).ElList = [0] := rfl
  have he0 : (modelPinch ℚ sqrtQ).elem 0 = ⟨0, 0, 1⟩ := rfl
  have hg : ((modelPinch ℚ sqrtQ).row 0).GradVecLenSq = 1 := rfl
  unfold CCImpact_CVImpact
  simp only [pinch_va0, hc, hel, he0, hg, List.foldl]
  norm_num

theorem pinch_CVImpact_b :
    CCImpact_CVImpact (modelPinch ℚ sqrtQ) [4 / 3, 0] [0, 0] 0 = ([2 / 3, 0], 4 / 9) := by
  have hc : List.range (modelPinch ℚ sqrtQ).NumCols = [0, 1] := rfl
  have hel : ((modelPinch ℚ sqrtQ).row 0).ElList = [0] := rfl
  have he0 : (modelPinch ℚ sqrtQ).elem 0 = ⟨0, 0, 1⟩ := rfl
  have hg : ((modelPinch ℚ sqrtQ).row 0).GradVecLenSq = 1 := rfl
  unfold CCImpact_CVImpact
  simp only [pinch_vb0, hc, hel, he0, hg, List.foldl]
  norm_num

/-- The first iteration of `CCImpact` from `(6/5, 0)`: `Project` makes no progress and
the point moves by the consensus vector `(2/15, 0)` to `(4/3, 0)`. -/
theorem pinch_CCImpact_stepA (n : Nat) (s : State ℚ) :
    CCImpact_itns (modelPinch ℚ sqrtQ) 0 (n + 1) 0 s
      ⟨[6 / 5, 0], [0, 0], 10000000000, 0, [0, 0], 0, [false, false, false], 0, 0⟩ =
    CCImpact_itns (modelPinch ℚ sqrtQ) 0 n 1 s
      ⟨[4 / 3, 0], [6 / 5, 0], 6 / 5, 2 / 15, [4 / 5, 0], 4 / 5, [true, true, true],
        6 / 5, 3⟩ := by
  have hsq : (modelPinch ℚ sqrtQ).sqrt = sqrtQ := rfl
  have hc : (modelPinch ℚ sqrtQ).NumCols = 2 := rfl
  have r2 : List.range 2 = [0, 1] := rfl
  have hz : List.replicate ([6 / 5, 0] : List ℚ).length (0 : ℚ) = [0, 0] := rfl
  have s1 : sqrtQ (4 / 225) = 2 / 15 := sqrtQ_eq _ _ (by norm_num) (by norm_num)
  have s2 : sqrtQ (16 / 25) = 4 / 5 := sqrtQ_eq _ _ (by norm_num) (by norm_num)
  have hcp : copy ([0, 0] : List ℚ) [2 / 15, 0] = [2 / 15, 0] := rfl
  have hcb : copy ([0, 0] : List ℚ) [6 / 5, 0] = [6 / 5, 0] := rfl
  have hI : ((0 : Int) > -1) := by decide
  have hlt : (6 / 5 : ℚ) < 10000000000 := by norm_num
  have cvA : CCImpact_ConViolated (modelPinch ℚ sqrtQ) [6 / 5, 0] [false, false, false] =
      [true, true, true] := pinch_ConViolated_a _ rfl
  rw [CCImpact_itns]
  simp only [pinch_loops_a, cvA, hz, pinch_CV_a, pinch_select, hcp,
    hI, if_true, Int.toNat_zero, pinch_CVImpact_a, pinch_Project_a, hsq, s1, s2, hlt, hcb]
  simp only [CCImpact_update, addCV, hc, r2, List.foldl]
  norm_num

/-- The second iteration: the consensus vector is zero, `Project` makes no progress, and
the fallback adds the feasibility vector `(2/3, 0)` of row 0: the point moves to
`(2, 0)`. -/
theorem pinch_CCImpact_stepB (n : Nat) (s : State ℚ) :
    CCImpact_itns (modelPinch ℚ sqrtQ) 0 (n + 1) 1 s
      ⟨[4 / 3, 0], [6 / 5, 0], 6 / 5, 2 / 15, [4 / 5, 0], 4 / 5, [true, true, true],
        6 / 5, 3⟩ =
    CCImpact_itns (modelPinch ℚ sqrtQ) 0 n 2 s
      ⟨[2, 0], [6 / 5, 0], 6 / 5, 2 / 3, [2 / 3, 0], 2 / 3, [true, true, true], 4 / 3, 3⟩ := by
  have hsq : (modelPinch ℚ sqrtQ).sqrt = sqrtQ := rfl
  have hc : (modelPinch ℚ sqrtQ).NumCols = 2 := rfl
  have hB : (modelPinch ℚ sqrtQ).Beta = 1 / 10000 := rfl
  have r2 : List.range 2 = [0, 1] := rfl
  have hz : List.replicate ([4 / 3, 0] : List ℚ).length (0 : ℚ) = [0, 0] := rfl
  have s2 : sqrtQ (4 / 9) = 2 / 3 := sqrtQ_eq _ _ (by norm_num) (by norm_num)
  have hcp : copy ([4 / 5, 0] : List ℚ) [0, 0] = [0, 0] := rfl
  have hcq : copy ([0, 0] : List ℚ) [2 / 3, 0] = [2 / 3, 0] := rfl
  have hI : ((0 : Int) > -1) := by decide
  have hlt : ¬ ((4 / 3 : ℚ) < 6 / 5) := by norm_num
  have cvB : CCImpact_ConViolated (modelPinch ℚ sqrtQ) [4 / 3, 0] [true, true, true] =
      [true, true, true] := pinch_ConViolated_b _ rfl
  rw [CCImpact_itns]
  simp only [pinch_loops_b, cvB, hz, pinch_CV_b, pinch_select, hcp,
    hI, if_true, Int.toNat_zero, pinch_CVImpact_b, pinch_Project_b, hsq, sqrtQ_zero, s2, hlt,
    if_false]
  simp only [CCImpact_update, addCV, hc, r2, List.foldl, hB, hcq]
  norm_num

theorem pinch_GetSFD_c : (GetSFD (modelPinch ℚ sqrtQ) [2, 0]).SFDout = 2 := by
  have v0 : GetViolation (modelPinch ℚ sqrtQ) 0 [2, 0] = ⟨0, 2, 0⟩ := by
    simp +decide [GetViolation, ConBodyValue, violSwitch, modelPinch, Env.NumRows, Env.row,
      Env.elem]
  have v1 : GetViolation (modelPinch ℚ sqrtQ) 1 [2, 0] = ⟨0, 0, -1⟩ := by
    simp +decide [GetViolation, ConBodyValue, violSwitch, modelPinch, Env.NumRows, Env.row,
      Env.elem]
    norm_num
  have v2 : GetViolation (modelPinch ℚ sqrtQ) 2 [2, 0] = ⟨0, 0, -2⟩ := by
    simp +decide [GetViolation, ConBodyValue, violSwitch, modelPinch, Env.NumRows, Env.row,
      Env.elem]
    norm_num
  have f1 : FVLenSq (modelPinch ℚ sqrtQ) 1 (-1) = 1 := by
    norm_num [FVLenSq, modelPinch, Env.row, Env.elem]
  have f2 : FVLenSq (modelPinch ℚ sqrtQ) 2 (-2) = 1 := by
    norm_num [FVLenSq, modelPinch, Env.row, Env.elem]
  have hA : (modelPinch ℚ sqrtQ).Alpha = 1 / 1000000 := rfl
  have hsq : (modelPinch ℚ sqrtQ).sqrt = sqrtQ := rfl
  have hr : List.range (modelPinch ℚ sqrtQ).NumRows = [0, 1, 2] := rfl
  have hc : List.range (modelPinch ℚ sqrtQ).NumCols = [0, 1] := rfl
  have c0 : ∀ acc, GetSFD_con (modelPinch ℚ sqrtQ) [2, 0] acc 0 = acc := by
    intro acc; simp [GetSFD_con, v0]
  have b0 : ∀ acc, GetSFD_bnd (modelPinch ℚ sqrtQ) [2, 0] acc 0 = acc := by
    intro acc; norm_num [GetSFD_bnd, modelPinch, Env.col]
  have b1 : ∀ acc, GetSFD_bnd (modelPinch ℚ sqrtQ) [2, 0] acc 1 = acc := by
    intro acc; norm_num [GetSFD_bnd, modelPinch, Env.col]
  have c1 : GetSFD_con (modelPinch ℚ sqrtQ) [2, 0] ⟨0, 0, 0, -1, -1, 0⟩ 1 =
      ⟨0, 1, 1, 1, -1, 1⟩ := by
    simp only [GetSFD_con, v1, f1, hA, hsq, sqrtQ_one]
    norm_num
  have c2 : GetSFD_con (modelPinch ℚ sqrtQ) [2, 0] ⟨0, 1, 1, 1, -1, 1⟩ 2 =
      ⟨0, 2, 1, 1, -1, 2⟩ := by
    simp only [GetSFD_con, v2, f2, hA, hsq, sqrtQ_one]
    norm_num
  have hl : GetSFD_loops (modelPinch ℚ sqrtQ) [2, 0] = ⟨0, 2, 1, 1, -1, 2⟩ := by
    rw [GetSFD_loops, hr, hc]
    simp only [List.foldl, c0, c1, c2, b0, b1]
  unfold GetSFD
  rw [hl]
  rfl

/-- C27, counterexample: on the pinch model (rows `x1 ≥ 2`, `x1 ≤ 1`, `2*x1 ≤ 2`,
`MaxItns = 2`) the run of `CCImpact` from `(6/5, 0)` evaluates the iterates `(6/5, 0)`,
with `SFD = 6/5`, and `(4/3, 0)`, with `SFD = 4/3`, finds neither feasible, and sends the
point `(2, 0)`: the current point after the last update, which it has not evaluated and
whose `SFD` is 2. `CCOriginal2` sends `(6/5, 0)` on the same input. -/
theorem C27_counterexample :
    (GetCV1_loops (modelPinch ℚ sqrtQ) [6 / 5, 0]).SFD = 6 / 5 ∧
    (GetCV1_loops (modelPinch ℚ sqrtQ) [4 / 3, 0]).SFD = 4 / 3 ∧
    (GetSFD (modelPinch ℚ sqrtQ) [2, 0]).SFDout = 2 ∧
    (CCImpact (modelPinch ℚ sqrtQ) (initState (modelPinch ℚ sqrtQ)) [6 / 5, 0] 0).1 = [2, 0] ∧
    (CCOriginal2 (modelPinch ℚ sqrtQ) (initState (modelPinch ℚ sqrtQ)) [6 / 5, 0] 0 0).map
      (fun r => r.1) = some [6 / 5, 0] := by
  refine ⟨by rw [pinch_loops_a], by rw [pinch_loops_b], pinch_GetSFD_c, ?_, ?_⟩
  · have h0 : CCImpact (modelPinch ℚ sqrtQ) (initState (modelPinch ℚ sqrtQ)) [6 / 5, 0] 0 =
        CCImpact_itns (modelPinch ℚ sqrtQ) 0 2 0 (initState (modelPinch ℚ sqrtQ))
          ⟨[6 / 5, 0], [0, 0], 10000000000, 0, [0, 0], 0, [false, false, false], 0, 0⟩ := rfl
    rw [h0, pinch_CCImpact_stepA, pinch_CCImpact_stepB]
    rfl
  · rw [pinch_CCOriginal2_round0]
    rfl

/-! ### `SwarmProject` and `Project` -/

theorem SwarmProject_quad_same (E : Env K) (s : State K) (Pt0 Pt1 Pt2 : List K)
    (SFD0 SFD1 SFD2 : K) (BestPt : Nat) :
    SameProjection (SwarmProject_quad E s Pt0 Pt1 Pt2 SFD0 SFD1 SFD2 BestPt)
      (Project_quad E s Pt0 Pt1 Pt2 SFD0 SFD1 SFD2 BestPt) := by
  unfold SameProjection SwarmProject_quad Project_quad
  dsimp only
  split_ifs <;> simp

theorem SwarmProject_lin_same (E : Env K) (s : State K) (Pt0 v Pt1 : List K)
    (SFD0 SFD1 VL : K) :
    SameProjection (SwarmProject_lin E s Pt0 v Pt1 SFD0 SFD1 VL)
      (Project_lin E s Pt0 v Pt1 SFD0 SFD1 VL) := by
  unfold SwarmProject_lin Project_lin
  dsimp only
  split_ifs
  · simp [SameProjection]
  · simp [SameProjection]
  · simp [SameProjection]
  · simp [SameProjection]
  · simp [SameProjection]
  · exact SwarmProject_quad_same _ _ _ _ _ _ _ _ _

theorem SwarmProject_same (E : Env K) (s : State K) (Pt0 v : List K) :
    SameProjection (SwarmProject E s Pt0 v) (Project E s Pt0 v) := by
  unfold SwarmProject Project
  dsimp only
  by_cases c0 : (GetSFD E Pt0).Status = 1
  · simp only [if_pos c0]
    simp [SameProjection]
  · have c0' : ¬ (GetSFD E Pt0).Status > 1 := by
      rcases GetSFD_Status E Pt0 with h | h <;> omega
    simp only [if_neg c0, if_neg c0']
    by_cases c1 : (GetSFD E (Project_Pt1 E Pt0 v)).Status = 1
    · simp only [if_pos c1]
      simp [SameProjection]
    · have c1' : ¬ (GetSFD E (Project_Pt1 E Pt0 v)).Status > 1 := by
        rcases GetSFD_Status E (Project_Pt1 E Pt0 v) with h | h <;> omega
      simp only [if_neg c1, if_neg c1']
      by_cases c2 : (GetSFD E (Project_Pt1 E Pt0 v)).SFDout ≥ (GetSFD E Pt0).SFDout
      · simp only [if_pos c2]
        simp [SameProjection]
      · simp only [if_neg c2]
        exact SwarmProject_lin_same _ _ _ _ _ _ _ _

/-- C35: `SwarmProject` and `Project`, started from the same package state on the same
base point and update vector, return the same point and leave the same package state
(incumbent and projection counters); they differ in the status code only, and
`SwarmProject` returns status 1 exactly when `Project` does. Where `Project` returns 2,
`SwarmProject` returns 2, and where `Project` returns 0, `SwarmProject` returns 0 or 2. -/
theorem C35_SwarmProject_same_point_and_state (E : Env K) (s : State K) (Pt0 v : List K) :
    (SwarmProject E s Pt0 v).PointOut = (Project E s Pt0 v).PointOut ∧
    (SwarmProject E s Pt0 v).state = (Project E s Pt0 v).state ∧
    ((SwarmProject E s Pt0 v).Status = 1 ↔ (Project E s Pt0 v).Status = 1) ∧
    ((Project E s Pt0 v).Status = 2 → (SwarmProject E s Pt0 v).Status = 2) ∧
    ((Project E s Pt0 v).Status = 0 →
      (SwarmProject E s Pt0 v).Status = 0 ∨ (SwarmProject E s Pt0 v).Status = 2) := by
  obtain ⟨h1, h2, h3, h4, h5, _⟩ := SwarmProject_same E s Pt0 v
  exact ⟨h1, h2, h3, h4, h5⟩

/-! ### `GetCV1` and `GetSFD` measure a point alike -/

/-- C36: on a model with at least two columns and `Alpha ≥ 0`, at every point of the
model `GetCV1` returns a result whose `SFD` and `NINF` are the `SFDout` and `NINF` of
`GetSFD` at the same point, and whose status is 1 exactly when the status of `GetSFD`
is 1. -/
theorem C36_GetCV1_measures_as_GetSFD (E : Env K) (x : List K) (h2 : 2 ≤ E.NumCols)
    (hx : x.length = E.NumCols) (hA : 0 ≤ E.Alpha) :
    ∃ r, GetCV1 E x = some r ∧ r.SFD = (GetSFD E x).SFDout ∧ r.NINF = (GetSFD E x).NINF ∧
      (r.Status = 1 ↔ (GetSFD E x).Status = 1) := by
  have hlen : x.length ≠ 1 := by omega
  have hsame := GetCV1_loops_same E hA x
  unfold SameMeasure at hsame
  unfold GetCV1 GetSFD
  rw [if_neg hlen]
  dsimp only
  by_cases hN : (GetCV1_loops E x).NINF = 0
  · have hN' : (GetSFD_loops E x).NINF = 0 := by rw [← hsame.2]; exact hN
    rw [if_pos hN, if_pos hN']
    exact ⟨_, rfl, rfl, rfl, by simp⟩
  · have hN' : ¬ (GetSFD_loops E x).NINF = 0 := by rw [← hsame.2]; exact hN
    rw [if_neg hN, if_neg hN']
    exact ⟨_, rfl, hsame.1, hsame.2, by simp⟩

/-- C36 on the model of scenario 2 at the origin. -/
theorem C36_witness :
    (2 ≤ (modelG ℚ sqrtQ).NumCols ∧ ([0, 0] : List ℚ).length = (modelG ℚ sqrtQ).NumCols ∧
      0 ≤ (modelG ℚ sqrtQ).Alpha) ∧
    ∃ r, GetCV1 (modelG ℚ sqrtQ) [0, 0] = some r ∧
      r.SFD = (GetSFD (modelG ℚ sqrtQ) [0, 0]).SFDout ∧
      r.NINF = (GetSFD (modelG ℚ sqrtQ) [0, 0]).NINF ∧
      (r.Status = 1 ↔ (GetSFD (modelG ℚ sqrtQ) [0, 0]).Status = 1) :=
  ⟨⟨by decide, rfl, le_of_lt (modelG_Alpha_pos sqrtQ)⟩,
    C36_GetCV1_measures_as_GetSFD (modelG ℚ sqrtQ) [0, 0] (by decide) rfl
      (le_of_lt (modelG_Alpha_pos sqrtQ))⟩

/-! ### `GetCV1` on a model with one variable -/

/-- C39: on a point of the length of the model, `GetCV1` stops with an index error when
the model has one variable: its zeroing loop `for i := range Pt` writes `CV1[1]`, an
entry that a slice of length 1 does not have. On a model with two variables or more it
returns a result, with four consensus vectors of length `n_cols`. -/
theorem C39_GetCV1_fails_on_one_variable (E : Env K) (Pt : List K)
    (hPt : Pt.length = E.NumCols) :
    (E.NumCols = 1 → GetCV1 E Pt = none) ∧
    (2 ≤ E.NumCols → ∃ r, GetCV1 E Pt = some r ∧ r.CV0.length = E.NumCols ∧
      r.CV1.length = E.NumCols ∧ r.CV2.length = E.NumCols ∧ r.CV3.length = E.NumCols) := by
  constructor
  · intro h1
    unfold GetCV1
    rw [if_pos (by rw [hPt, h1])]
  · intro h2
    have hlen : Pt.length ≠ 1 := by omega
    unfold GetCV1
    rw [if_neg hlen]
    dsimp only
    by_cases hN : (GetCV1_loops E Pt).NINF = 0
    · rw [if_pos hN]
      refine ⟨_, rfl, ?_, ?_, ?_, ?_⟩ <;> simp [length_zeroFirst, hPt]
    · rw [if_neg hN]
      have hinv : ∀ l : List Nat, ∀ f : CVFin K,
          (f.CV0.length = E.NumCols ∧ f.CV1.length = E.NumCols ∧ f.CV2.length = E.NumCols ∧
            f.CV3.length = E.NumCols) →
          ((l.foldl (GetCV1_fin (GetCV1_loops E Pt)) f).CV0.length = E.NumCols ∧
            (l.foldl (GetCV1_fin (GetCV1_loops E Pt)) f).CV1.length = E.NumCols ∧
            (l.foldl (GetCV1_fin (GetCV1_loops E Pt)) f).CV2.length = E.NumCols ∧
            (l.foldl (GetCV1_fin (GetCV1_loops E Pt)) f).CV3.length = E.NumCols) := by
        intro l f hf
        apply foldl_inv (fun f : CVFin K => f.CV0.length = E.NumCols ∧
          f.CV1.length = E.NumCols ∧ f.CV2.length = E.NumCols ∧ f.CV3.length = E.NumCols)
        · exact hf
        · intro a i _ ha
          unfold GetCV1_fin
          split_ifs <;> simp [ha.1, ha.2.1, ha.2.2.1, ha.2.2.2]
      have := hinv (List.range E.NumCols) ⟨List.replicate Pt.length 0,
        List.replicate Pt.length 0, List.replicate Pt.length 0, List.replicate Pt.length 0,
        0, 0, 0, 0⟩ (by simp [hPt])
      exact ⟨_, rfl, this.1, this.2.1, this.2.2.1, this.2.2.2⟩

/-- C39 on the infeasible model on one variable at `x = 0`: `GetCV1` has no result. -/
theorem C39_witness :
    ([0] : List ℚ).length = (modelInfeasible ℚ sqrtQ 0 10).NumCols ∧
    (modelInfeasible ℚ sqrtQ 0 10).NumCols = 1 ∧
    GetCV1 (modelInfeasible ℚ sqrtQ 0 10) [0] = none :=
  ⟨rfl, rfl, (C39_GetCV1_fails_on_one_variable (modelInfeasible ℚ sqrtQ 0 10) [0] rfl).1 rfl⟩

/-! ### The quadratic step of the projector on the values `(4, 1, 2)` -/

theorem distOf_Project_Pt1 (E : Env K) (Pt0 v : List K) :
    distOf E (Project_Pt1 E Pt0 v) Pt0 =
      E.sqrt ((List.range E.NumCols).map (fun j => v.getD j 0 * v.getD j 0)).sum := by
  unfold distOf Project_Pt1
  congr 2
  apply List.map_congr_left
  intro j hj
  rw [getD_map_range' _ _ _ _ (List.mem_range.mp hj)]
  ring

theorem distOf_Project_Pt2 (E : Env K) (Pt0 v : List K) (c d : K) :
    distOf E (Project_Pt2 E Pt0 v c d) Pt0 =
      E.sqrt ((c / d) * (c / d) *
        ((List.range E.NumCols).map (fun j => v.getD j 0 * v.getD j 0)).sum) := by
  unfold distOf Project_Pt2
  congr 1
  rw [← List.sum_map_mul_left]
  congr 1
  apply List.map_congr_left
  intro j hj
  rw [getD_map_range' _ _ _ _ (List.mem_range.mp hj)]
  ring

/-- C34: in the quadratic step of `Project` on a base point `Pt0` and an update vector
`v` that is not zero, with `SFD0 = 4` and `SFD1 = 1`, the points are `Pt1 = Pt0 + v` and
the linear projection `Pt2 = Pt0 + (4/3) v`, so that `X2 = 4/3`; if `SFD2 = 2` (and
`featol ≤ 9`), `QuadApprox` returns status 0 and `Pt3 = Pt0 + (5/6) v`: the minimum of the
quadratic through `(0, 4)`, `(1, 1)`, `(4/3, 2)` is at `XMin = 5/6`. -/
theorem C34_QuadApprox_minimum_at_five_sixths (E : Env K) (hs : SqrtSpec E.sqrt)
    (hf : E.featol ≤ 9) (Pt0 v : List K)
    (hv : 0 < ((List.range E.NumCols).map (fun j => v.getD j 0 * v.getD j 0)).sum) :
    distOf E (Project_Pt2 E Pt0 v
        (4 / ((4 - 1) / E.sqrt ((List.range E.NumCols).map
          (fun j => v.getD j 0 * v.getD j 0)).sum))
        (E.sqrt ((List.range E.NumCols).map (fun j => v.getD j 0 * v.getD j 0)).sum)) Pt0 /
      distOf E (Project_Pt1 E Pt0 v) Pt0 = 4 / 3 ∧
    Project_Pt2 E Pt0 v
        (4 / ((4 - 1) / E.sqrt ((List.range E.NumCols).map
          (fun j => v.getD j 0 * v.getD j 0)).sum))
        (E.sqrt ((List.range E.NumCols).map (fun j => v.getD j 0 * v.getD j 0)).sum) =
      (List.range E.NumCols).map (fun j => Pt0.getD j 0 + 4 / 3 * v.getD j 0) ∧
    QuadApprox E Pt0 (Project_Pt1 E Pt0 v)
      (Project_Pt2 E Pt0 v
        (4 / ((4 - 1) / E.sqrt ((List.range E.NumCols).map
          (fun j => v.getD j 0 * v.getD j 0)).sum))
        (E.sqrt ((List.range E.NumCols).map (fun j => v.getD j 0 * v.getD j 0)).sum))
      4 1 2 =
      (0, (List.range E.NumCols).map (fun j => Pt0.getD j 0 + 5 / 6 * v.getD j 0)) := by
  generalize hS : ((List.range E.NumCols).map (fun j => v.getD j 0 * v.getD j 0)).sum = S
    at hv ⊢
  obtain ⟨hL0, hLL⟩ := hs S (le_of_lt hv)
  have hLne : E.sqrt S ≠ 0 := by
    intro h; rw [h] at hLL; simp at hLL; linarith
  have hLpos : 0 < E.sqrt S := lt_of_le_of_ne hL0 (Ne.symm hLne)
  have hcd : (4 / ((4 - 1) / E.sqrt S)) / E.sqrt S = 4 / 3 := by
    field_simp
    ring
  have hX2 : distOf E (Project_Pt2 E Pt0 v (4 / ((4 - 1) / E.sqrt S)) (E.sqrt S)) Pt0 /
      distOf E (Project_Pt1 E Pt0 v) Pt0 = 4 / 3 := by
    rw [distOf_Project_Pt1, distOf_Project_Pt2, hS, hcd,
      sqrt_eq_of_mul_self E.sqrt hs (4 / 3 * E.sqrt S) _ (by positivity)
        (by rw [mul_mul_mul_comm, hLL])]
    field_simp
    ring
  have hPt2 : Project_Pt2 E Pt0 v (4 / ((4 - 1) / E.sqrt S)) (E.sqrt S) =
      (List.range E.NumCols).map (fun j => Pt0.getD j 0 + 4 / 3 * v.getD j 0) := by
    unfold Project_Pt2
    apply List.map_congr_left
    intro j _
    rw [mul_div_right_comm, hcd]
  refine ⟨hX2, hPt2, ?_⟩
  rw [QuadApprox_eq, hX2]
  have ha : ¬ ((2 * 4 : K) / ((0 - 1) * (0 - 4 / 3)) + (2 * 1) / ((1 - 0) * (1 - 4 / 3)) +
      (2 * 2) / ((4 / 3 - 0) * (4 / 3 - 1)) < E.featol) := by
    have : (2 * 4 : K) / ((0 - 1) * (0 - 4 / 3)) + (2 * 1) / ((1 - 0) * (1 - 4 / 3)) +
      (2 * 2) / ((4 / 3 - 0) * (4 / 3 - 1)) = 9 := by norm_num
    rw [this]
    exact not_lt.mpr hf
  rw [if_neg ha]
  congr 1
  apply List.map_congr_left
  intro j hj
  unfold Project_Pt1
  rw [getD_map_range' _ _ _ _ (List.mem_range.mp hj)]
  have : ((4 : K) * (4 / 3) + 4 * 1) / ((0 - 1) * (0 - 4 / 3)) +
      (1 * (4 / 3) + 1 * 0) / ((1 - 0) * (1 - 4 / 3)) +
      (2 * 1 + 2 * 0) / ((4 / 3 - 0) * (4 / 3 - 1)) = 15 / 2 := by norm_num
  rw [this]
  have h9 : (2 * 4 : K) / ((0 - 1) * (0 - 4 / 3)) + (2 * 1) / ((1 - 0) * (1 - 4 / 3)) +
      (2 * 2) / ((4 / 3 - 0) * (4 / 3 - 1)) = 9 := by norm_num
  rw [h9]
  ring

/-- C34 on the model of scenario 2 over the reals, from the origin along `v = (3, 0)`. -/
theorem C34_witness :
    (SqrtSpec (modelG ℝ Real.sqrt).sqrt ∧ (modelG ℝ Real.sqrt).featol ≤ 9 ∧
      0 < ((List.range (modelG ℝ Real.sqrt).NumCols).map
        (fun j => ([3, 0] : List ℝ).getD j 0 * ([3, 0] : List ℝ).getD j 0)).sum) ∧
    QuadApprox (modelG ℝ Real.sqrt) [0, 0] (Project_Pt1 (modelG ℝ Real.sqrt) [0, 0] [3, 0])
      (Project_Pt2 (modelG ℝ Real.sqrt) [0, 0] [3, 0]
        (4 / ((4 - 1) / (modelG ℝ Real.sqrt).sqrt ((List.range (modelG ℝ Real.sqrt).NumCols).map
          (fun j => ([3, 0] : List ℝ).getD j 0 * ([3, 0] : List ℝ).getD j 0)).sum))
        ((modelG ℝ Real.sqrt).sqrt ((List.range (modelG ℝ Real.sqrt).NumCols).map
          (fun j => ([3, 0] : List ℝ).getD j 0 * ([3, 0] : List ℝ).getD j 0)).sum))
      4 1 2 =
      (0, (List.range (modelG ℝ Real.sqrt).NumCols).map
        (fun j => ([0, 0] : List ℝ).getD j 0 + 5 / 6 * ([3, 0] : List ℝ).getD j 0)) := by
  have hc : List.range (modelG ℝ Real.sqrt).NumCols = [0, 1] := rfl
  have hf : (modelG ℝ Real.sqrt).featol ≤ 9 := by norm_num [modelG]
  have hv : 0 < ((List.range (modelG ℝ Real.sqrt).NumCols).map
      (fun j => ([3, 0] : List ℝ).getD j 0 * ([3, 0] : List ℝ).getD j 0)).sum := by
    rw [hc]; norm_num
  exact ⟨⟨sqrtSpec_real, hf, hv⟩,
    (C34_QuadApprox_minimum_at_five_sixths (modelG ℝ Real.sqrt) sqrtSpec_real hf [0, 0] [3, 0]
      hv).2.2⟩

/-- C34, counterexample: on the model of scenario 2, with `Pt0 = (0, 0)`, `Pt1 = (3, 0)`
and `Pt2 = (4, 0)`, which is at `X2 = 4/3`, and the values `(4, 1, 2)`, `QuadApprox`
returns `(5/2, 0) = Pt0 + (5/6) v`, not `Pt0 + 1.5 v = (9/2, 0)`. -/
theorem C34_counterexample :
    distOf (modelG ℚ sqrtQ) [4, 0] [0, 0] / distOf (modelG ℚ sqrtQ) [3, 0] [0, 0] = 4 / 3 ∧
    QuadApprox (modelG ℚ sqrtQ) [0, 0] [3, 0] [4, 0] 4 1 2 = (0, [5 / 2, 0]) ∧
    ([5 / 2, 0] : List ℚ) ≠ [0 + 3 / 2 * 3, 0 + 3 / 2 * 0] := by
  have hc : List.range (modelG ℚ sqrtQ).NumCols = [0, 1] := rfl
  have hsq : (modelG ℚ sqrtQ).sqrt = sqrtQ := rfl
  have hf : (modelG ℚ sqrtQ).featol = 1 / 1000000 := rfl
  have d1 : distOf (modelG ℚ sqrtQ) [3, 0] [0, 0] = 3 := by
    unfold distOf
    rw [hc, hsq]
    norm_num [sqrtQ_9]
  have d2 : distOf (modelG ℚ sqrtQ) [4, 0] [0, 0] = 4 := by
    unfold distOf
    rw [hc, hsq]
    norm_num [sqrtQ_16]
  refine ⟨by rw [d1, d2], ?_, by norm_num⟩
  rw [QuadApprox_eq, d1, d2, hc, hf]
  norm_num

/-! ### The model of scenario 2 at the origin -/

theorem sqrtQ_nonneg (q : ℚ) : 0 ≤ sqrtQ q := by
  unfold sqrtQ
  positivity

theorem modelG_origin_v0 (sqrt : K → K) :
    GetViolation (modelG K sqrt) 0 [0, 0] = ⟨0, 0, 4⟩ := by
  simp +decide [GetViolation, ConBodyValue, violSwitch, modelG, Env.NumRows, Env.row, Env.elem]
  norm_num

theorem modelG_origin_FVLenSq (sqrt : K → K) : FVLenSq (modelG K sqrt) 0 4 = 16 / 5 := by
  norm_num [FVLenSq, modelG, Env.row, Env.elem]

/-- The loops of `GetCV1` on the model of scenario 2 at the origin. -/
theorem modelG_origin_GetCV1_loops (sqrt : K → K) (h : -10000000000 < sqrt (16 / 5)) :
    GetCV1_loops (modelG K sqrt) [0, 0] =
      ⟨1, sqrt (16 / 5), 4, 4, sqrt (16 / 5), [1, 1], [8 / 5, 4 / 5], [32 / 5, 16 / 5], [4, 4],
        [8 / 5, 4 / 5], [8 / 5, 4 / 5]⟩ := by
  have hr : List.range (modelG K sqrt).NumRows = [0] := rfl
  have hc : List.range (modelG K sqrt).NumCols = [0, 1] := rfl
  have hp : (modelG K sqrt).plinfy = 10000000000 := rfl
  have hA : (modelG K sqrt).Alpha = 1 / 1000000 := rfl
  have hsq : (modelG K sqrt).sqrt = sqrt := rfl
  have hel : ((modelG K sqrt).row 0).ElList = [0, 1] := rfl
  have he0 : (modelG K sqrt).elem 0 = ⟨0, 0, 2⟩ := rfl
  have he1 : (modelG K sqrt).elem 1 = ⟨0, 1, 1⟩ := rfl
  have hg : ((modelG K sqrt).row 0).GradVecLenSq = 5 := rfl
  have hz : List.replicate ([0, 0] : List K).length (0 : K) = [0, 0] := rfl
  have hzn : List.replicate ([0, 0] : List K).length (0 : ℕ) = [0, 0] := rfl
  have hnc : (modelG K sqrt).NumCols = 2 := rfl
  have r2 : List.range 2 = [0, 1] := rfl
  have h4 : |(4 : K)| = 4 := abs_of_nonneg (by norm_num)
  have c0 : GetCV1_con (modelG K sqrt) [0, 0]
      ⟨0, 0, 0, -10000000000, -10000000000, [0, 0], [0, 0], [0, 0], [0, 0], [0, 0], [0, 0]⟩ 0 =
      ⟨1, sqrt (16 / 5), 4, 4, sqrt (16 / 5), [1, 1], [8 / 5, 4 / 5], [32 / 5, 16 / 5], [4, 4],
        [8 / 5, 4 / 5], [8 / 5, 4 / 5]⟩ := by
    simp only [GetCV1_con, modelG_origin_v0, modelG_origin_FVLenSq, hA, hsq, hel, List.foldl,
      GetCV1_el, he0, he1, hg, zeroFirst, hnc, r2, incrAt, addAt, h4]
    norm_num [h]
  have b : ∀ (acc : CVAcc K) (j : Nat), j < 2 →
      GetCV1_bnd (modelG K sqrt) [0, 0] acc j = acc := by
    intro acc j hj
    interval_cases j <;> norm_num [GetCV1_bnd, modelG, Env.col]
  rw [GetCV1_loops, hr, hc, hp]
  simp only [hz, hzn, List.foldl, c0, b _ 0 (by decide), b _ 1 (by decide)]

/-- The consensus vector `CV0` of `GetCV1` on the model of scenario 2 at the origin. -/
theorem modelG_origin_CV0 (sqrt : K → K) (h : -10000000000 < sqrt (16 / 5)) :
    ∃ r, GetCV1 (modelG K sqrt) [0, 0] = some r ∧ r.CV0 = [8 / 5, 4 / 5] ∧ r.NINF = 1 := by
  have hc : List.range (modelG K sqrt).NumCols = [0, 1] := rfl
  have hz : List.replicate ([0, 0] : List K).length (0 : K) = [0, 0] := rfl
  have hlen : ([0, 0] : List K).length ≠ 1 := by simp
  unfold GetCV1
  rw [if_neg hlen]
  simp only [modelG_origin_GetCV1_loops sqrt h, hc, hz, List.foldl, GetCV1_fin]
  rw [if_neg (by decide)]
  refine ⟨_, rfl, ?_, rfl⟩
  norm_num

/-- The loops of `CCSimple` on the model of scenario 2 at the origin. -/
theorem modelG_origin_CCSimple_loops (sqrt : K → K) :
    CCSimple_loops (modelG K sqrt) [0, 0] =
      ⟨1, sqrt (16 / 5), [1, 1], [8 / 5, 4 / 5], [32 / 5, 16 / 5], [4, 4]⟩ := by
  have hr : List.range (modelG K sqrt).NumRows = [0] := rfl
  have hc : List.range (modelG K sqrt).NumCols = [0, 1] := rfl
  have hA : (modelG K sqrt).Alpha = 1 / 1000000 := rfl
  have hsq : (modelG K sqrt).sqrt = sqrt := rfl
  have hel : ((modelG K sqrt).row 0).ElList = [0, 1] := rfl
  have he0 : (modelG K sqrt).elem 0 = ⟨0, 0, 2⟩ := rfl
  have he1 : (modelG K sqrt).elem 1 = ⟨0, 1, 1⟩ := rfl
  have hg : ((modelG K sqrt).row 0).GradVecLenSq = 5 := rfl
  have hz : List.replicate ([0, 0] : List K).length (0 : K) = [0, 0] := rfl
  have hzn : List.replicate ([0, 0] : List K).length (0 : ℕ) = [0, 0] := rfl
  have h4 : |(4 : K)| = 4 := abs_of_nonneg (by norm_num)
  have c0 : CCSimple_con (modelG K sqrt) [0, 0] ⟨0, 0, [0, 0], [0, 0], [0, 0], [0, 0]⟩ 0 =
      ⟨1, sqrt (16 / 5), [1, 1], [8 / 5, 4 / 5], [32 / 5, 16 / 5], [4, 4]⟩ := by
    simp only [CCSimple_con, modelG_origin_v0, modelG_origin_FVLenSq, hA, hsq, hel, List.foldl,
      CCSimple_el, he0, he1, hg, incrAt, addAt, h4]
    norm_num
  have b : ∀ (acc : CCAcc K) (j : Nat), j < 2 →
      CCSimple_bnd (modelG K sqrt) [0, 0] acc j = acc := by
    intro acc j hj
    interval_cases j <;> norm_num [CCSimple_bnd, modelG, Env.col]
  rw [CCSimple_loops, hr, hc]
  simp only [hz, hzn, List.foldl, c0, b _ 0 (by decide), b _ 1 (by decide)]

/-- At `(8/5, 4/5)` the row of the model of scenario 2 holds with equality and the
bounds hold: the loops of `CCSimple` count no violation. -/
theorem modelG_moved_CCSimple_loops (sqrt : K → K) :
    (CCSimple_loops (modelG K sqrt) [8 / 5, 4 / 5]).NINF = 0 := by
  have hr : List.range (modelG K sqrt).NumRows = [0] := rfl
  have hc : List.range (modelG K sqrt).NumCols = [0, 1] := rfl
  have v0 : GetViolation (modelG K sqrt) 0 [8 / 5, 4 / 5] = ⟨0, 2, 0⟩ := by
    simp +decide [GetViolation, ConBodyValue, violSwitch, modelG, Env.NumRows, Env.row,
      Env.elem]
    norm_num
  have c0 : ∀ acc : CCAcc K, CCSimple_con (modelG K sqrt) [8 / 5, 4 / 5] acc 0 = acc := by
    intro acc
    simp [CCSimple_con, v0]
  have b : ∀ (acc : CCAcc K) (j : Nat), j < 2 →
      CCSimple_bnd (modelG K sqrt) [8 / 5, 4 / 5] acc j = acc := by
    intro acc j hj
    interval_cases j <;> norm_num [CCSimple_bnd, modelG, Env.col]
  rw [CCSimple_loops, hr, hc]
  simp only [List.foldl, c0, b _ 0 (by decide), b _ 1 (by decide)]

theorem modelG_origin_CV (sqrt : K → K) :
    CCSimple_CV (modelG K sqrt) (CCSimple_loops (modelG K sqrt) [0, 0]) 2 = [8 / 5, 4 / 5] ∧
    addCV (modelG K sqrt) [0, 0] [8 / 5, 4 / 5] = [8 / 5, 4 / 5] := by
  have hc : List.range (modelG K sqrt).NumCols = [0, 1] := rfl
  constructor
  · rw [modelG_origin_CCSimple_loops]
    unfold CCSimple_CV
    rw [hc]
    norm_num [List.foldl, List.replicate]
  · unfold addCV
    rw [hc]
    norm_num [List.foldl]

theorem modelG_origin_CCSimple (sqrt : K → K) (s : State K) (PointID : Int) :
    (CCSimple (modelG K sqrt) s [0, 0] PointID).1 = ⟨[8 / 5, 4 / 5], 0, 0⟩ := by
  have h0 : CCSimple (modelG K sqrt) s [0, 0] PointID =
      CCSimple_itns (modelG K sqrt) PointID 10 s [0, 0] 0 0 := rfl
  have hN : (CCSimple_loops (modelG K sqrt) [0, 0]).NINF ≠ 0 := by
    rw [modelG_origin_CCSimple_loops]; exact one_ne_zero
  have hlen : ([0, 0] : List K).length = 2 := rfl
  rw [h0, CCSimple_itns]
  simp only [if_neg hN, hlen, (modelG_origin_CV sqrt).1, (modelG_origin_CV sqrt).2]
  rw [CCSimple_itns]
  simp only [if_pos (modelG_moved_CCSimple_loops sqrt)]
  rfl

/-- C33: on the model of scenario 2 (row `2*x1 + x2 ≥ 4`, bounds `[0,10]^2`) at the
seed `(0, 0)` the violation of the row is `+4` and the first consensus vector, `CV0` of
`GetCV1` and equally the `CV` of `CCSimple` and of `CCOriginal1`, is `(8/5, 4/5)`. After
the update the point is `(8/5, 4/5)`: no bound is violated, the row holds with equality,
`GetSFD` counts no violation, and `CCSimple` stops there and sends this point with
`NINF = 0`. -/
theorem C33_first_consensus_vector (sqrt : K → K) (hs : SqrtSpec sqrt) (s : State K)
    (PointID : Int) :
    (GetViolation (modelG K sqrt) 0 [0, 0]).Violation = 4 ∧
    (∃ r, GetCV1 (modelG K sqrt) [0, 0] = some r ∧ r.CV0 = [8 / 5, 4 / 5]) ∧
    CCSimple_CV (modelG K sqrt) (CCSimple_loops (modelG K sqrt) [0, 0]) 2 = [8 / 5, 4 / 5] ∧
    (CCOriginal1_CV (modelG K sqrt) (GetCV1_loops (modelG K sqrt) [0, 0]) [0, 0]).1 =
      [8 / 5, 4 / 5] ∧
    addCV (modelG K sqrt) [0, 0] [8 / 5, 4 / 5] = [8 / 5, 4 / 5] ∧
    ((modelG K sqrt).col 0).BndLo ≤ 8 / 5 ∧ ((modelG K sqrt).col 1).BndLo ≤ 4 / 5 ∧
    (GetSFD (modelG K sqrt) [8 / 5, 4 / 5]).NINF = 0 ∧
    (CCSimple (modelG K sqrt) s [0, 0] PointID).1 = ⟨[8 / 5, 4 / 5], 0, 0⟩ := by
  have hpos : (-10000000000 : K) < sqrt (16 / 5) :=
    lt_of_lt_of_le (by norm_num) (hs (16 / 5) (by norm_num)).1
  have hc : List.range (modelG K sqrt).NumCols = [0, 1] := rfl
  obtain ⟨r, hr, hr0, _⟩ := modelG_origin_CV0 sqrt hpos
  refine ⟨by rw [modelG_origin_v0], ⟨r, hr, hr0⟩, (modelG_origin_CV sqrt).1, ?_,
    (modelG_origin_CV sqrt).2, by norm_num [modelG, Env.col], by norm_num [modelG, Env.col],
    ?_, modelG_origin_CCSimple sqrt s PointID⟩
  · rw [modelG_origin_GetCV1_loops sqrt hpos]
    unfold CCOriginal1_CV
    rw [hc]
    norm_num [List.foldl]
  · rw [GetSFD_NINF, ← CCSimple_loops_NINF]
    exact modelG_moved_CCSimple_loops sqrt

/-- C33 over the reals. -/
theorem C33_witness :
    SqrtSpec Real.sqrt ∧
    (∃ r, GetCV1 (modelG ℝ Real.sqrt) [0, 0] = some r ∧ r.CV0 = [8 / 5, 4 / 5]) ∧
    (CCSimple (modelG ℝ Real.sqrt) (initState (modelG ℝ Real.sqrt)) [0, 0] 0).1 =
      ⟨[8 / 5, 4 / 5], 0, 0⟩ :=
  ⟨sqrtSpec_real,
    (C33_first_consensus_vector Real.sqrt sqrtSpec_real (initState (modelG ℝ Real.sqrt)) 0).2.1,
    (C33_first_consensus_vector Real.sqrt sqrtSpec_real (initState (modelG ℝ Real.sqrt))
      0).2.2.2.2.2.2.2.2⟩

/-- C33, counterexample: on the model of scenario 2 at the seed `(0, 0)` the consensus
vector `CV0` of `GetCV1` is `(8/5, 4/5)`, not `(-8/5, -4/5)`; the updated point is
`(8/5, 4/5)`, not `(-8/5, -4/5)`, and it violates neither lower bound. -/
theorem C33_counterexample :
    (∃ r, GetCV1 (modelG ℚ sqrtQ) [0, 0] = some r ∧ r.CV0 = [8 / 5, 4 / 5] ∧
      r.CV0 ≠ [-8 / 5, -4 / 5]) ∧
    addCV (modelG ℚ sqrtQ) [0, 0] [8 / 5, 4 / 5] = [8 / 5, 4 / 5] ∧
    ¬ ([8 / 5, 4 / 5] : List ℚ).getD 0 0 < ((modelG ℚ sqrtQ).col 0).BndLo ∧
    ¬ ([8 / 5, 4 / 5] : List ℚ).getD 1 0 < ((modelG ℚ sqrtQ).col 1).BndLo := by
  have hpos : (-10000000000 : ℚ) < sqrtQ (16 / 5) :=
    lt_of_lt_of_le (by norm_num) (sqrtQ_nonneg _)
  obtain ⟨r, hr, hr0, _⟩ := modelG_origin_CV0 sqrtQ hpos
  refine ⟨⟨r, hr, hr0, ?_⟩, (modelG_origin_CV sqrtQ).2, ?_, ?_⟩
  · rw [hr0]; norm_num
  · norm_num [modelG, Env.col]
  · norm_num [modelG, Env.col]

/-! ### What `CCSimple` reports -/

theorem CCSimple_con_SFD (E : Env K) (x : List K) (acc : CCAcc K) (i : Nat) :
    (CCSimple_con E x acc i).SFD = acc.SFD +
      (if rowCounted E x i then E.sqrt (FVLenSq E i (GetViolation E i x).Violation) else 0) := by
  unfold CCSimple_con
  by_cases h1 : (GetViolation E i x).FVStatus = 0
  · by_cases h2 : (GetViolation E i x).ViolStatus = 0
    · by_cases h3 : FVLenSq E i (GetViolation E i x).Violation < E.Alpha * E.Alpha
      · have hc : ¬ rowCounted E x i := fun h => absurd h.2.2 (not_le.mpr h3)
        simp [h1, h2, h3, hc]
      · have hc : rowCounted E x i := ⟨h1, h2, not_lt.mp h3⟩
        simp only [h1, h2, h3, hc, if_true, if_false, gt_iff_lt, lt_irrefl]
        rw [(CCSimple_el_fold_NINF E i _ _ _).2]
    · have h2p : (GetViolation E i x).ViolStatus > 0 := Nat.pos_of_ne_zero h2
      have hc : ¬ rowCounted E x i := fun h => h2 h.2.1
      simp [h1, h2p, hc]
  · have h1p : (GetViolation E i x).FVStatus > 0 := Nat.pos_of_ne_zero h1
    have hc : ¬ rowCounted E x i := fun h => h1 h.1
    simp [h1p, hc]

theorem CCSimple_bnd_SFD (E : Env K) (hA : 0 ≤ E.Alpha) (x : List K) (a : CCAcc K)
    (b : SFDResult K) (j : Nat) (h : a.SFD = b.SFDout) :
    (CCSimple_bnd E x a j).SFD = (GetSFD_bnd E x b j).SFDout := by
  unfold CCSimple_bnd GetSFD_bnd
  dsimp only
  by_cases c1 : x.getD j 0 ≥ (E.col j).BndLo - E.Alpha
  · by_cases c2 : x.getD j 0 ≤ (E.col j).BndUp + E.Alpha
    · rw [if_pos c1, if_pos c2, if_pos c1, if_pos c2]; exact h
    · by_cases c3 : x.getD j 0 - (E.col j).BndUp > E.Alpha
      · rw [if_pos c1, if_neg c2, if_pos c3, if_pos c1, if_neg c2, if_pos c3]
        have habs : |(E.col j).BndUp - x.getD j 0| = x.getD j 0 - (E.col j).BndUp := by
          rw [abs_sub_comm]; exact abs_of_nonneg (by linarith)
        split_ifs <;> dsimp only <;> rw [habs, h]
      · rw [if_pos c1, if_neg c2, if_neg c3, if_pos c1, if_neg c2, if_neg c3]; exact h
  · by_cases c3 : (E.col j).BndLo - x.getD j 0 > E.Alpha
    · rw [if_neg c1, if_pos c3, if_neg c1, if_pos c3]
      split_ifs <;> dsimp only <;> rw [h]
    · rw [if_neg c1, if_neg c3, if_neg c1, if_neg c3]; exact h

theorem CCSimple_loops_SFD (E : Env K) (hA : 0 ≤ E.Alpha) (x : List K) :
    (CCSimple_loops E x).SFD = (GetSFD_loops E x).SFDout := by
  unfold CCSimple_loops GetSFD_loops
  apply foldl_rel (fun (a : CCAcc K) (b : SFDResult K) => a.SFD = b.SFDout)
  · apply foldl_rel (fun (a : CCAcc K) (b : SFDResult K) => a.SFD = b.SFDout)
    · rfl
    · intro a b i h
      rw [CCSimple_con_SFD, GetSFD_con_SFDout, h]
  · intro a b j h
    exact CCSimple_bnd_SFD E hA x a b j h

theorem length_CCSimple_next (E : Env K) (p : List K) :
    (CCSimple_next E p).length = p.length := by
  unfold CCSimple_next
  exact length_addCV _ _ _

theorem length_iterate_next (E : Env K) (p : List K) (k : Nat) :
    ((CCSimple_next E)^[k] p).length = p.length := by
  induction k generalizing p with
  | zero => rfl
  | succ k ih => rw [Function.iterate_succ_apply, ih, length_CCSimple_next]

/-- One iteration of `CCSimple` at a point where its loops count a violation. -/
theorem CCSimple_itns_step (E : Env K) (PointID : Int) (n : Nat) (s : State K) (pt : List K)
    (a : K) (c : Int) (h : (CCSimple_loops E pt).NINF ≠ 0) :
    CCSimple_itns E PointID (n + 1) s pt a c =
      CCSimple_itns E PointID n
        (UpdateIncumbentSFD s (CCSimple_next E pt) (CCSimple_loops E pt).SFD
          (CCSimple_loops E pt).NINF PointID).2
        (CCSimple_next E pt) (CCSimple_loops E pt).SFD (CCSimple_loops E pt).NINF := by
  rw [CCSimple_itns]
  simp only [if_neg h]
  rfl

/-- The record of a run of `CCSimple` of `n` iterations from `pt`: the first iterate at
which the loops count no violation, with `SFD = 0` and `NINF = 0`, or, if there is none
among the first `n`, the iterate `n` with the `SFD` and `NINF` of the iterate `n - 1`. -/
theorem CCSimple_itns_record (E : Env K) (PointID : Int) (n : Nat) :
    ∀ (s : State K) (pt : List K) (a : K) (c : Int), pt.length = E.NumCols →
    (∃ k, k < n ∧ (∀ i, i < k → (CCSimple_loops E ((CCSimple_next E)^[i] pt)).NINF ≠ 0) ∧
      (CCSimple_loops E ((CCSimple_next E)^[k] pt)).NINF = 0 ∧
      (CCSimple_itns E PointID n s pt a c).1 = ⟨(CCSimple_next E)^[k] pt, 0, 0⟩) ∨
    ((∀ i, i < n → (CCSimple_loops E ((CCSimple_next E)^[i] pt)).NINF ≠ 0) ∧
      (CCSimple_itns E PointID n s pt a c).1 =
        ⟨(CCSimple_next E)^[n] pt,
          if n = 0 then a else (CCSimple_loops E ((CCSimple_next E)^[n - 1] pt)).SFD,
          if n = 0 then c else (CCSimple_loops E ((CCSimple_next E)^[n - 1] pt)).NINF⟩) := by
  induction n with
  | zero =>
    intro s pt a c hlen
    right
    refine ⟨fun i hi => absurd hi (Nat.not_lt_zero i), ?_⟩
    have hcopy : copy (List.replicate E.NumCols (0 : K)) pt = pt :=
      copy_eq_of_length_eq _ _ (by simp [hlen])
    simp [CCSimple_itns, hcopy]
  | succ n ih =>
    intro s pt a c hlen
    by_cases h0 : (CCSimple_loops E pt).NINF = 0
    · left
      refine ⟨0, Nat.succ_pos n, fun i hi => absurd hi (Nat.not_lt_zero i), h0, ?_⟩
      have hcopy : copy (List.replicate E.NumCols (0 : K)) pt = pt :=
        copy_eq_of_length_eq _ _ (by simp [hlen])
      rw [CCSimple_itns]
      simp [h0, hcopy]
    · rw [CCSimple_itns_step E PointID n s pt a c h0]
      have hlen1 : (CCSimple_next E pt).length = E.NumCols := by
        rw [length_CCSimple_next]; exact hlen
      rcases ih (UpdateIncumbentSFD s (CCSimple_next E pt) (CCSimple_loops E pt).SFD
          (CCSimple_loops E pt).NINF PointID).2 (CCSimple_next E pt) (CCSimple_loops E pt).SFD
          (CCSimple_loops E pt).NINF hlen1 with ⟨k, hk, hpre, hz, hrec⟩ | ⟨hall, hrec⟩
      · left
        refine ⟨k + 1, Nat.succ_lt_succ hk, fun i hi => ?_, ?_, ?_⟩
        · cases i with
          | zero => exact h0
          | succ i =>
            rw [Function.iterate_succ_apply]
            exact hpre i (Nat.lt_of_succ_lt_succ hi)
        · rw [Function.iterate_succ_apply]; exact hz
        · rw [Function.iterate_succ_apply]; exact hrec
      · right
        refine ⟨fun i hi => ?_, ?_⟩
        · cases i with
          | zero => exact h0
          | succ i =>
            rw [Function.iterate_succ_apply]
            exact hall i (Nat.lt_of_succ_lt_succ hi)
        · rw [hrec, Function.iterate_succ_apply]
          cases n with
          | zero => simp
          | succ m =>
            simp only [Nat.succ_ne_zero, if_false, Nat.add_sub_cancel]
            rfl

/-- C37: on a model with `Alpha ≥ 0`, from an input point of the length of the model,
the record of `CCSimple` is one of two. Either some iterate `x_k`, `k < 10`, is the first
at which `GetSFD` counts no violation, and the record holds `x_k` with `SFD = 0` and
`NINF = 0`, which are the values of `GetSFD` at `x_k`. Or `GetSFD` counts a violation at
each of `x_0, ..., x_9`, and the record holds the tenth iterate `x_10` with the `SFDout`
and `NINF` that `GetSFD` returns at the ninth, `x_9`: the values of the point before the
last update, not of the point reported. -/
theorem C37_CCSimple_reports_previous_measure (E : Env K) (hA : 0 ≤ E.Alpha) (s : State K)
    (PointIn : List K) (PointID : Int) (hlen : PointIn.length = E.NumCols) :
    (∃ k, k < 10 ∧
      (∀ i, i < k → (GetSFD E ((CCSimple_next E)^[i] PointIn)).NINF ≠ 0) ∧
      (GetSFD E ((CCSimple_next E)^[k] PointIn)).NINF = 0 ∧
      (GetSFD E ((CCSimple_next E)^[k] PointIn)).SFDout = 0 ∧
      (CCSimple E s PointIn PointID).1 = ⟨(CCSimple_next E)^[k] PointIn, 0, 0⟩) ∨
    ((∀ i, i < 10 → (GetSFD E ((CCSimple_next E)^[i] PointIn)).NINF ≠ 0) ∧
      (CCSimple E s PointIn PointID).1 =
        ⟨(CCSimple_next E)^[10] PointIn, (GetSFD E ((CCSimple_next E)^[9] PointIn)).SFDout,
          (GetSFD E ((CCSimple_next E)^[9] PointIn)).NINF⟩) := by
  have h1 : copy (List.replicate PointIn.length (0 : K)) PointIn = PointIn :=
    copy_eq_of_length_eq _ _ (by simp)
  have hN : ∀ p : List K, (GetSFD E p).NINF = (CCSimple_loops E p).NINF := by
    intro p; rw [GetSFD_NINF, CCSimple_loops_NINF]
  unfold CCSimple
  rw [h1]
  rcases CCSimple_itns_record E PointID 10 s PointIn 0 0 hlen with
    ⟨k, hk, hpre, hz, hrec⟩ | ⟨hall, hrec⟩
  · left
    refine ⟨k, hk, fun i hi => by rw [hN]; exact hpre i hi, by rw [hN]; exact hz, ?_, hrec⟩
    rw [GetSFD_of_NINF_zero E _ (by rw [← CCSimple_loops_NINF]; exact hz)]
  · right
    refine ⟨fun i hi => by rw [hN]; exact hall i hi, ?_⟩
    rw [hrec, hN]
    have h9 : (GetSFD_loops E ((CCSimple_next E)^[9] PointIn)).NINF ≠ 0 := by
      rw [← CCSimple_loops_NINF]; exact hall 9 (by decide)
    rw [GetSFD_SFDout_of_ne E _ h9, ← CCSimple_loops_SFD E hA]
    simp

/-! ### `CCSimple` on the tilt model -/

theorem tilt_loops_one :
    CCSimple_loops (modelTilt ℚ sqrtQ) [1] = ⟨1, 1, [1], [1], [1], [1]⟩ := by
  have hr : List.range (modelTilt ℚ sqrtQ).NumRows = [0, 1, 2] := rfl
  have hc : List.range (modelTilt ℚ sqrtQ).NumCols = [0] := rfl
  have hA : (modelTilt ℚ sqrtQ).Alpha = 1 / 1000000 := rfl
  have hsq : (modelTilt ℚ sqrtQ).sqrt = sqrtQ := rfl
  have v0 : GetViolation (modelTilt ℚ sqrtQ) 0 [1] = ⟨0, 0, 1⟩ := by
    simp +decide [GetViolation, ConBodyValue, violSwitch, modelTilt, Env.NumRows, Env.row,
      Env.elem]
    norm_num
  have v1 : GetViolation (modelTilt ℚ sqrtQ) 1 [1] = ⟨0, 2, 0⟩ := by
    simp +decide [GetViolation, ConBodyValue, violSwitch, modelTilt, Env.NumRows, Env.row,
      Env.elem]
  have v2 : GetViolation (modelTilt ℚ sqrtQ) 2 [1] = ⟨0, 2, 0⟩ := by
    simp +decide [GetViolation, ConBodyValue, violSwitch, modelTilt, Env.NumRows, Env.row,
      Env.elem]
  have c0 : CCSimple_con (modelTilt ℚ sqrtQ) [1] ⟨0, 0, [0], [0], [0], [0]⟩ 0 =
      ⟨1, 1, [1], [1], [1], [1]⟩ := by
    have f : FVLenSq (modelTilt ℚ sqrtQ) 0 1 = 1 := by
      norm_num [FVLenSq, modelTilt, Env.row, Env.elem]
    have hel : ((modelTilt ℚ sqrtQ).row 0).ElList = [0] := rfl
    have he0 : (modelTilt ℚ sqrtQ).elem 0 = ⟨0, 0, 1⟩ := rfl
    have hg : ((modelTilt ℚ sqrtQ).row 0).GradVecLenSq = 1 := rfl
    simp only [CCSimple_con, v0, f, hA, hsq, sqrtQ_one, hel, List.foldl, CCSimple_el, he0, hg,
      incrAt, addAt]
    norm_num
  have c1 : ∀ acc : CCAcc ℚ, CCSimple_con (modelTilt ℚ sqrtQ) [1] acc 1 = acc := by
    intro acc; simp [CCSimple_con, v1]
  have c2 : ∀ acc : CCAcc ℚ, CCSimple_con (modelTilt ℚ sqrtQ) [1] acc 2 = acc := by
    intro acc; simp [CCSimple_con, v2]
  have b : ∀ acc : CCAcc ℚ, CCSimple_bnd (modelTilt ℚ sqrtQ) [1] acc 0 = acc := by
    intro acc; norm_num [CCSimple_bnd, modelTilt, Env.col]
  unfold CCSimple_loops
  rw [hr, hc]
  simp only [List.foldl_cons, List.foldl_nil, List.length_singleton, List.replicate]
  rw [c0, c1, c2, b]

theorem tilt_loops_two :
    CCSimple_loops (modelTilt ℚ sqrtQ) [2] = ⟨2, 2, [2], [-2], [-3], [3]⟩ := by
  have hr : List.range (modelTilt ℚ sqrtQ).NumRows = [0, 1, 2] := rfl
  have hc : List.range (modelTilt ℚ sqrtQ).NumCols = [0] := rfl
  have hA : (modelTilt ℚ sqrtQ).Alpha = 1 / 1000000 := rfl
  have hsq : (modelTilt ℚ sqrtQ).sqrt = sqrtQ := rfl
  have v0 : GetViolation (modelTilt ℚ sqrtQ) 0 [2] = ⟨0, 2, 0⟩ := by
    simp +decide [GetViolation, ConBodyValue, violSwitch, modelTilt, Env.NumRows, Env.row,
      Env.elem]
  have v1 : GetViolation (modelTilt ℚ sqrtQ) 1 [2] = ⟨0, 0, -1⟩ := by
    simp +decide [GetViolation, ConBodyValue, violSwitch, modelTilt, Env.NumRows, Env.row,
      Env.elem]
    norm_num
  have v2 : GetViolation (modelTilt ℚ sqrtQ) 2 [2] = ⟨0, 0, -2⟩ := by
    simp +decide [GetViolation, ConBodyValue, violSwitch, modelTilt, Env.NumRows, Env.row,
      Env.elem]
    norm_num
  have c0 : ∀ acc : CCAcc ℚ, CCSimple_con (modelTilt ℚ sqrtQ) [2] acc 0 = acc := by
    intro acc; simp [CCSimple_con, v0]
  have c1 : CCSimple_con (modelTilt ℚ sqrtQ) [2] ⟨0, 0, [0], [0], [0], [0]⟩ 1 =
      ⟨1, 1, [1], [-1], [-1], [1]⟩ := by
    have f : FVLenSq (modelTilt ℚ sqrtQ) 1 (-1) = 1 := by
      norm_num [FVLenSq, modelTilt, Env.row, Env.elem]
    have hel : ((modelTilt ℚ sqrtQ).row 1).ElList = [1] := rfl
    have he : (modelTilt ℚ sqrtQ).elem 1 = ⟨1, 0, 1⟩ := rfl
    have hg : ((modelTilt ℚ sqrtQ).row 1).GradVecLenSq = 1 := rfl
    simp only [CCSimple_con, v1, f, hA, hsq, sqrtQ_one, hel, List.foldl, CCSimple_el, he, hg,
      incrAt, addAt]
    norm_num
  have c2 : CCSimple_con (modelTilt ℚ sqrtQ) [2] ⟨1, 1, [1], [-1], [-1], [1]⟩ 2 =
      ⟨2, 2, [2], [-2], [-3], [3]⟩ := by
    have f : FVLenSq (modelTilt ℚ sqrtQ) 2 (-2) = 1 := by
      norm_num [FVLenSq, modelTilt, Env.row, Env.elem]
    have hel : ((modelTilt ℚ sqrtQ).row 2).ElList = [2] := rfl
    have he : (modelTilt ℚ sqrtQ).elem 2 = ⟨2, 0, 2⟩ := rfl
    have hg : ((modelTilt ℚ sqrtQ).row 2).GradVecLenSq = 4 := rfl
    simp only [CCSimple_con, v2, f, hA, hsq, sqrtQ_one, hel, List.foldl, CCSimple_el, he, hg,
      incrAt, addAt]
    norm_num
  have b : ∀ acc : CCAcc ℚ, CCSimple_bnd (modelTilt ℚ sqrtQ) [2] acc 0 = acc := by
    intro acc; norm_num [CCSimple_bnd, modelTilt, Env.col]
  unfold CCSimple_loops
  rw [hr, hc]
  simp only [List.foldl_cons, List.foldl_nil, List.length_singleton, List.replicate]
  rw [c0, c1, c2, b]

theorem tilt_loops_high :
    CCSimple_loops (modelTilt ℚ sqrtQ) [5 / 2] =
      ⟨2, 3, [2], [-3], [-27 / 4], [9 / 2]⟩ := by
  have hr : List.range (modelTilt ℚ sqrtQ).NumRows = [0, 1, 2] := rfl
  have hc : List.range (modelTilt ℚ sqrtQ).NumCols = [0] := rfl
  have hA : (modelTilt ℚ sqrtQ).Alpha = 1 / 1000000 := rfl
  have hsq : (modelTilt ℚ sqrtQ).sqrt = sqrtQ := rfl
  have hs94 : sqrtQ (9 / 4) = 3 / 2 := sqrtQ_eq _ _ (by norm_num) (by norm_num)
  have v0 : GetViolation (modelTilt ℚ sqrtQ) 0 [5 / 2] = ⟨0, 1, 0⟩ := by
    simp +decide [GetViolation, ConBodyValue, violSwitch, modelTilt, Env.NumRows, Env.row,
      Env.elem]
    norm_num
  have v1 : GetViolation (modelTilt ℚ sqrtQ) 1 [5 / 2] = ⟨0, 0, -3 / 2⟩ := by
    simp +decide [GetViolation, ConBodyValue, violSwitch, modelTilt, Env.NumRows, Env.row,
      Env.elem]
    norm_num
  have v2 : GetViolation (modelTilt ℚ sqrtQ) 2 [5 / 2] = ⟨0, 0, -3⟩ := by
    simp +decide [GetViolation, ConBodyValue, violSwitch, modelTilt, Env.NumRows, Env.row,
      Env.elem]
    norm_num
  have c0 : ∀ acc : CCAcc ℚ, CCSimple_con (modelTilt ℚ sqrtQ) [5 / 2] acc 0 = acc := by
    intro acc; simp [CCSimple_con, v0]
  have c1 : CCSimple_con (modelTilt ℚ sqrtQ) [5 / 2] ⟨0, 0, [0], [0], [0], [0]⟩ 1 =
      ⟨1, 3 / 2, [1], [-3 / 2], [-9 / 4], [3 / 2]⟩ := by
    have f : FVLenSq (modelTilt ℚ sqrtQ) 1 (-3 / 2) = 9 / 4 := by
      norm_num [FVLenSq, modelTilt, Env.row, Env.elem]
    have hel : ((modelTilt ℚ sqrtQ).row 1).ElList = [1] := rfl
    have he : (modelTilt ℚ sqrtQ).elem 1 = ⟨1, 0, 1⟩ := rfl
    have hg : ((modelTilt ℚ sqrtQ).row 1).GradVecLenSq = 1 := rfl
    have ha : |(-3 / 2 : ℚ)| = 3 / 2 := by rw [abs_of_neg (by norm_num)]; norm_num
    simp only [CCSimple_con, v1, f, hA, hsq, hs94, hel, List.foldl, CCSimple_el, he, hg,
      incrAt, addAt, ha]
    norm_num
  have c2 : CCSimple_con (modelTilt ℚ sqrtQ) [5 / 2]
      ⟨1, 3 / 2, [1], [-3 / 2], [-9 / 4], [3 / 2]⟩ 2 =
      ⟨2, 3, [2], [-3], [-27 / 4], [9 / 2]⟩ := by
    have f : FVLenSq (modelTilt ℚ sqrtQ) 2 (-3) = 9 / 4 := by
      norm_num [FVLenSq, modelTilt, Env.row, Env.elem]
    have hel : ((modelTilt ℚ sqrtQ).row 2).ElList = [2] := rfl
    have he : (modelTilt ℚ sqrtQ).elem 2 = ⟨2, 0, 2⟩ := rfl
    have hg : ((modelTilt ℚ sqrtQ).row 2).GradVecLenSq = 4 := rfl
    have ha : |(-3 : ℚ)| = 3 := by rw [abs_of_neg (by norm_num)]; norm_num
    simp only [CCSimple_con, v2, f, hA, hsq, hs94, hel, List.foldl, CCSimple_el, he, hg,
      incrAt, addAt, ha]
    norm_num
  have b : ∀ acc : CCAcc ℚ, CCSimple_bnd (modelTilt ℚ sqrtQ) [5 / 2] acc 0 = acc := by
    intro acc; norm_num [CCSimple_bnd, modelTilt, Env.col]
  unfold CCSimple_loops
  rw [hr, hc]
  simp only [List.foldl_cons, List.foldl_nil, List.length_singleton, List.replicate]
  rw [c0, c1, c2, b]

theorem tilt_next_one : CCSimple_next (modelTilt ℚ sqrtQ) [1] = [2] := by
  have hc : List.range (modelTilt ℚ sqrtQ).NumCols = [0] := rfl
  unfold CCSimple_next
  rw [tilt_loops_one]
  unfold CCSimple_CV addCV
  rw [hc]
  norm_num [List.foldl, List.replicate]

theorem tilt_next_two : CCSimple_next (modelTilt ℚ sqrtQ) [2] = [1] := by
  have hc : List.range (modelTilt ℚ sqrtQ).NumCols = [0] := rfl
  unfold CCSimple_next
  rw [tilt_loops_two]
  unfold CCSimple_CV addCV
  rw [hc]
  norm_num [List.foldl, List.replicate]

theorem tilt_next_high : CCSimple_next (modelTilt ℚ sqrtQ) [5 / 2] = [1] := by
  have hc : List.range (modelTilt ℚ sqrtQ).NumCols = [0] := rfl
  unfold CCSimple_next
  rw [tilt_loops_high]
  unfold CCSimple_CV addCV
  rw [hc]
  norm_num [List.foldl, List.replicate]

/-- The iterates of `CCSimple` on the tilt model from `x = 1` alternate between 1 and 2. -/
theorem tilt_iterates (k : Nat) :
    (CCSimple_next (modelTilt ℚ sqrtQ))^[k] [1] = if k % 2 = 0 then [1] else [2] := by
  induction k with
  | zero => rfl
  | succ k ih =>
    rw [Function.iterate_succ_apply', ih]
    by_cases h : k % 2 = 0
    · rw [if_pos h, if_neg (by omega), tilt_next_one]
    · rw [if_neg h, if_pos (by omega), tilt_next_two]

theorem tilt_iterates_NINF (k : Nat) :
    (CCSimple_loops (modelTilt ℚ sqrtQ)
      ((CCSimple_next (modelTilt ℚ sqrtQ))^[k] [1])).NINF ≠ 0 := by
  rw [tilt_iterates]
  by_cases h : k % 2 = 0
  · rw [if_pos h, tilt_loops_one]; decide
  · rw [if_neg h, tilt_loops_two]; decide

/-- The run of `CCSimple` on the tilt model from `x = 1`: the record holds the point 1,
the tenth iterate, with the `SFD` and `NINF` of the ninth, the point 2. -/
theorem tilt_run_low (s : State ℚ) (PointID : Int) :
    (CCSimple (modelTilt ℚ sqrtQ) s [1] PointID).1 = ⟨[1], 2, 2⟩ := by
  have h0 : CCSimple (modelTilt ℚ sqrtQ) s [1] PointID =
      CCSimple_itns (modelTilt ℚ sqrtQ) PointID 10 s [1] 0 0 := rfl
  rw [h0]
  rcases CCSimple_itns_record (modelTilt ℚ sqrtQ) PointID 10 s [1] 0 0 rfl with
    ⟨k, _, _, hz, _⟩ | ⟨_, hrec⟩
  · exact absurd hz (tilt_iterates_NINF k)
  · rw [hrec, tilt_iterates, tilt_iterates]
    simp [tilt_loops_two]

/-- The run of `CCSimple` on the tilt model from `x = 5/2`: the record holds the point 2,
the tenth iterate, with the `SFD` and `NINF` of the ninth, the point 1. -/
theorem tilt_run_high (s : State ℚ) (PointID : Int) :
    (CCSimple (modelTilt ℚ sqrtQ) s [5 / 2] PointID).1 = ⟨[2], 1, 1⟩ := by
  have h0 : CCSimple (modelTilt ℚ sqrtQ) s [5 / 2] PointID =
      CCSimple_itns (modelTilt ℚ sqrtQ) PointID 10 s [5 / 2] 0 0 := rfl
  have hN : (CCSimple_loops (modelTilt ℚ sqrtQ) [5 / 2]).NINF ≠ 0 := by
    rw [tilt_loops_high]; decide
  rw [h0, CCSimple_itns_step _ _ _ _ _ _ _ hN, tilt_next_high]
  rcases CCSimple_itns_record (modelTilt ℚ sqrtQ) PointID 9
      (UpdateIncumbentSFD s [1] (CCSimple_loops (modelTilt ℚ sqrtQ) [5 / 2]).SFD
        (CCSimple_loops (modelTilt ℚ sqrtQ) [5 / 2]).NINF PointID).2 [1]
      (CCSimple_loops (modelTilt ℚ sqrtQ) [5 / 2]).SFD
      (CCSimple_loops (modelTilt ℚ sqrtQ) [5 / 2]).NINF rfl with
    ⟨k, _, _, hz, _⟩ | ⟨_, hrec⟩
  · exact absurd hz (tilt_iterates_NINF k)
  · rw [hrec, tilt_iterates, tilt_iterates]
    simp [tilt_loops_one]

theorem tilt_GetSFD_one :
    (GetSFD (modelTilt ℚ sqrtQ) [1]).SFDout = 1 ∧ (GetSFD (modelTilt ℚ sqrtQ) [1]).NINF = 1 := by
  have hA : 0 ≤ (modelTilt ℚ sqrtQ).Alpha := by norm_num [modelTilt]
  have hN : (GetSFD_loops (modelTilt ℚ sqrtQ) [1]).NINF = 1 := by
    rw [← CCSimple_loops_NINF, tilt_loops_one]
  constructor
  · rw [GetSFD_SFDout_of_ne _ _ (by rw [hN]; decide), ← CCSimple_loops_SFD _ hA, tilt_loops_one]
  · rw [GetSFD_NINF, hN]

/-- C37, counterexample: on the tilt model (rows `x ≥ 2`, `x ≤ 1`, `2*x ≤ 2`, bounds
`[1, 3]`) from `x = 1` the record of `CCSimple` holds the point 1 with `SFD = 2` and
`NINF = 2`, while `GetSFD` at the point 1 returns `SFDout = 1` and `NINF = 1`. -/
theorem C37_counterexample :
    (CCSimple (modelTilt ℚ sqrtQ) (initState (modelTilt ℚ sqrtQ)) [1] 0).1 = ⟨[1], 2, 2⟩ ∧
    (GetSFD (modelTilt ℚ sqrtQ) [1]).SFDout = 1 ∧ (GetSFD (modelTilt ℚ sqrtQ) [1]).NINF = 1 :=
  ⟨tilt_run_low _ _, tilt_GetSFD_one.1, tilt_GetSFD_one.2⟩

/-- C37 on the tilt model from `x = 1`. -/
theorem C37_witness :
    (0 ≤ (modelTilt ℚ sqrtQ).Alpha ∧ ([1] : List ℚ).length = (modelTilt ℚ sqrtQ).NumCols) ∧
    ((∃ k, k < 10 ∧
      (∀ i, i < k →
        (GetSFD (modelTilt ℚ sqrtQ) ((CCSimple_next (modelTilt ℚ sqrtQ))^[i] [1])).NINF ≠ 0) ∧
      (GetSFD (modelTilt ℚ sqrtQ) ((CCSimple_next (modelTilt ℚ sqrtQ))^[k] [1])).NINF = 0 ∧
      (GetSFD (modelTilt ℚ sqrtQ) ((CCSimple_next (modelTilt ℚ sqrtQ))^[k] [1])).SFDout = 0 ∧
      (CCSimple (modelTilt ℚ sqrtQ) (initState (modelTilt ℚ sqrtQ)) [1] 0).1 =
        ⟨(CCSimple_next (modelTilt ℚ sqrtQ))^[k] [1], 0, 0⟩) ∨
    ((∀ i, i < 10 →
        (GetSFD (modelTilt ℚ sqrtQ) ((CCSimple_next (modelTilt ℚ sqrtQ))^[i] [1])).NINF ≠ 0) ∧
      (CCSimple (modelTilt ℚ sqrtQ) (initState (modelTilt ℚ sqrtQ)) [1] 0).1 =
        ⟨(CCSimple_next (modelTilt ℚ sqrtQ))^[10] [1],
          (GetSFD (modelTilt ℚ sqrtQ) ((CCSimple_next (modelTilt ℚ sqrtQ))^[9] [1])).SFDout,
          (GetSFD (modelTilt ℚ sqrtQ) ((CCSimple_next (modelTilt ℚ sqrtQ))^[9] [1])).NINF⟩)) :=
  ⟨⟨by norm_num [modelTilt], rfl⟩,
    C37_CCSimple_reports_previous_measure (modelTilt ℚ sqrtQ) (by norm_num [modelTilt])
      (initState (modelTilt ℚ sqrtQ)) [1] 0 rfl⟩

/-! ### The new sample box of `Solve` -/

theorem sqDevAt_nonneg (qs : List (POINTDATA K)) (j : Nat) : 0 ≤ sqDevAt qs j := by
  unfold sqDevAt
  apply List.sum_nonneg
  intro x hx
  obtain ⟨p, _, rfl⟩ := List.mem_map.mp hx
  exact mul_self_nonneg _

theorem ite_gt_eq_min (a b : K) : (if a > b then b else a) = min a b := by
  rcases le_or_lt a b with h | h
  · rw [if_neg (not_lt.mpr h), min_eq_left h]
  · rw [if_pos h, min_eq_right (le_of_lt h)]

theorem ite_lt_eq_max (a b : K) : (if a < b then b else a) = max a b := by
  rcases le_or_lt b a with h | h
  · rw [if_neg (not_lt.mpr h), max_eq_left h]
  · rw [if_pos h, max_eq_right (le_of_lt h)]

/-- C31: after the loop of `Solve` that retrieves the records of a round, run on records
none of which is feasible and at least one of which qualifies, let `mu` be the mean and
`sigma` the standard deviation of coordinate `j` over the qualifying records. The new box
of dimension `j` is a pair of numbers `[lo, up]` with `lo = min(mu - 1.5 sigma, bnd_up)`
and `up = max(mu + 1.5 sigma, bnd_lo, lo)`: it is not empty, its lower end is at most
`bnd_up` and its upper end is at least `bnd_lo`. When no clip applies
(`mu - 1.5 sigma ≤ bnd_up` and `bnd_lo ≤ mu + 1.5 sigma`) it is
`[mu - 1.5 sigma, mu + 1.5 sigma]`, of side `3 sigma`; it lies inside the bounds of the
variable if and only if that interval does. -/
theorem C31_new_box_clipped_on_far_side (E : Env K) (hs : SqrtSpec E.sqrt) (LastAvgSFD : K)
    (recs : List (POINTDATA K)) (acc0 : SolveAcc K) (h0 : acc0.icount = 0)
    (hN : ∀ p ∈ recs, p.NINF ≠ 0)
    (hk : 1 ≤ (recs.filter (fun p => decide (p.SFD ≤ LastAvgSFD))).length)
    (j : Nat) (hj : j < E.NumCols) :
    0 ≤ devAt E (recs.filter (fun p => decide (p.SFD ≤ LastAvgSFD))) j ∧
    ∃ lo up : K,
      newBox E (Solve_collect E LastAvgSFD recs acc0).2 j = some (lo, up) ∧
      lo = min (meanAt (recs.filter (fun p => decide (p.SFD ≤ LastAvgSFD))) j -
        3 / 2 * devAt E (recs.filter (fun p => decide (p.SFD ≤ LastAvgSFD))) j)
        (E.col j).BndUp ∧
      up = max (max (meanAt (recs.filter (fun p => decide (p.SFD ≤ LastAvgSFD))) j +
        3 / 2 * devAt E (recs.filter (fun p => decide (p.SFD ≤ LastAvgSFD))) j)
        (E.col j).BndLo) lo ∧
      lo ≤ up ∧ lo ≤ (E.col j).BndUp ∧ (E.col j).BndLo ≤ up ∧
      (meanAt (recs.filter (fun p => decide (p.SFD ≤ LastAvgSFD))) j -
          3 / 2 * devAt E (recs.filter (fun p => decide (p.SFD ≤ LastAvgSFD))) j ≤
          (E.col j).BndUp →
        (E.col j).BndLo ≤ meanAt (recs.filter (fun p => decide (p.SFD ≤ LastAvgSFD))) j +
          3 / 2 * devAt E (recs.filter (fun p => decide (p.SFD ≤ LastAvgSFD))) j →
        (lo, up) =
          (meanAt (recs.filter (fun p => decide (p.SFD ≤ LastAvgSFD))) j -
            3 / 2 * devAt E (recs.filter (fun p => decide (p.SFD ≤ LastAvgSFD))) j,
           meanAt (recs.filter (fun p => decide (p.SFD ≤ LastAvgSFD))) j +
            3 / 2 * devAt E (recs.filter (fun p => decide (p.SFD ≤ LastAvgSFD))) j) ∧
        up - lo = 3 * devAt E (recs.filter (fun p => decide (p.SFD ≤ LastAvgSFD))) j ∧
        (((E.col j).BndLo ≤ lo ∧ up ≤ (E.col j).BndUp) ↔
         ((E.col j).BndLo ≤ meanAt (recs.filter (fun p => decide (p.SFD ≤ LastAvgSFD))) j -
            3 / 2 * devAt E (recs.filter (fun p => decide (p.SFD ≤ LastAvgSFD))) j ∧
          meanAt (recs.filter (fun p => decide (p.SFD ≤ LastAvgSFD))) j +
            3 / 2 * devAt E (recs.filter (fun p => decide (p.SFD ≤ LastAvgSFD))) j ≤
            (E.col j).BndUp))) := by
  generalize hqs : recs.filter (fun p => decide (p.SFD ≤ LastAvgSFD)) = qs at hk ⊢
  have hne : qs ≠ [] := by
    intro h; rw [h] at hk; simp at hk
  have h := Solve_collect_inv E LastAvgSFD recs acc0 [] hN (by simpa using h0)
    (fun h => absurd rfl h)
  simp only [List.nil_append] at h
  rw [hqs] at h
  obtain ⟨_, hc, hMQ⟩ := h
  obtain ⟨hM, hQ⟩ := hMQ hne j hj
  rw [← sqDevAt_eq _ j hne] at hQ
  have hkpos : (0 : K) < (qs.length : K) := by
    have : 0 < qs.length := List.length_pos.mpr hne
    exact_mod_cast this
  have hσ : 0 ≤ devAt E qs j := by
    unfold devAt
    exact (hs _ (div_nonneg (sqDevAt_nonneg qs j) (le_of_lt hkpos))).1
  have hic : (Solve_collect E LastAvgSFD recs acc0).2.icount ≠ 0 := by
    rw [hc]
    exact Nat.ne_of_gt (List.length_pos.mpr hne)
  have hbox : newBox E (Solve_collect E LastAvgSFD recs acc0).2 j =
      some (min (meanAt qs j - 3 / 2 * devAt E qs j) (E.col j).BndUp,
       max (max (meanAt qs j + 3 / 2 * devAt E qs j) (E.col j).BndLo)
         (min (meanAt qs j - 3 / 2 * devAt E qs j) (E.col j).BndUp)) := by
    unfold newBox
    rw [if_neg hic]
    dsimp only
    rw [hM, hQ, hc]
    have e1 : meanAt qs j = (qs.map (fun q => q.Point.getD j 0)).sum / (qs.length : K) := rfl
    rw [← e1]
    have e2 : E.sqrt (sqDevAt qs j / (qs.length : K)) = devAt E qs j := rfl
    rw [e2]
    rw [ite_gt_eq_min, ite_lt_eq_max, ite_lt_eq_max]
  refine ⟨hσ, _, _, hbox, rfl, rfl, le_max_right _ _, min_le_right _ _,
    le_trans (le_max_right _ _) (le_max_left _ _), ?_⟩
  intro h1 h2
  have hle : meanAt qs j - 3 / 2 * devAt E qs j ≤ meanAt qs j + 3 / 2 * devAt E qs j := by
    linarith
  rw [min_eq_left h1, max_eq_left h2, max_eq_left hle]
  exact ⟨rfl, by ring, Iff.rfl⟩

/-! ### Two rounds of `Solve` on the tilt model -/

theorem Solve_launch_fold_records_of (E : Env K) (s : State K) (r : Nat → Nat → K)
    (f : Nat → POINTDATA K)
    (hf : ∀ (st : State K) (i : Nat), (CCSimple E st (samplePoint E s (r i)) (i : Int)).1 = f i)
    (l : List Nat) (st : State K) (recs : List (POINTDATA K)) :
    (l.foldl
      (fun sr i =>
        let res := CCSimple E sr.1 (samplePoint E s (r i)) (i : Int)
        (res.2, sr.2 ++ [res.1]))
      (st, recs)).2 = recs ++ l.map f := by
  induction l generalizing st recs with
  | nil => simp
  | cons i t ih =>
    simp only [List.foldl_cons, List.map_cons]
    rw [ih, hf]
    simp

/-- The records of a round when the record of each run does not depend on the package
state the run starts from. -/
theorem Solve_launch_records_of (E : Env K) (s : State K) (r : Nat → Nat → K)
    (f : Nat → POINTDATA K)
    (hf : ∀ (st : State K) (i : Nat), (CCSimple E st (samplePoint E s (r i)) (i : Int)).1 = f i) :
    (Solve_launch E s r).2 = (List.range 100).map f := by
  unfold Solve_launch
  rw [Solve_launch_fold_records_of E s r f hf]
  simp

theorem Solve_accumulate_totals (E : Env K) (L : K) (acc : SolveAcc K) (p : POINTDATA K) :
    (Solve_accumulate E L acc p).AvgSFD = acc.AvgSFD ∧
    (Solve_accumulate E L acc p).NumCCRuns = acc.NumCCRuns := by
  unfold Solve_accumulate
  dsimp only
  split_ifs <;> exact ⟨rfl, rfl⟩

/-- The sum of the `SFD` and the number of the records that `Solve` retrieves in a round
without a feasible record. -/
theorem Solve_collect_totals (E : Env K) (L : K) (recs : List (POINTDATA K)) :
    ∀ acc : SolveAcc K, (∀ p ∈ recs, p.NINF ≠ 0) →
    (Solve_collect E L recs acc).2.AvgSFD = acc.AvgSFD + (recs.map (fun p => p.SFD)).sum ∧
    (Solve_collect E L recs acc).2.NumCCRuns = acc.NumCCRuns + recs.length := by
  induction recs with
  | nil =>
    intro acc _
    simp [Solve_collect]
  | cons p rest ih =>
    intro acc hN
    have hp : p.NINF ≠ 0 := hN p (List.mem_cons_self _ _)
    have hrest : ∀ q ∈ rest, q.NINF ≠ 0 := fun q hq => hN q (List.mem_cons_of_mem _ hq)
    rw [Solve_collect, if_neg hp]
    obtain ⟨h1, h2⟩ := ih (Solve_accumulate E L
      { acc with AvgSFD := acc.AvgSFD + p.SFD, NumCCRuns := acc.NumCCRuns + 1 } p) hrest
    rw [h1, h2, (Solve_accumulate_totals E L _ p).1, (Solve_accumulate_totals E L _ p).2]
    simp only [List.map_cons, List.sum_cons, List.length_cons]
    constructor
    · ring
    · omega

theorem sum_alternating (a b : K) (n : Nat) :
    ((List.range (2 * n)).map (fun i => if i % 2 = 0 then a else b)).sum = n * (a + b) := by
  induction n with
  | zero => simp
  | succ n ih =>
    have e : 2 * (n + 1) = 2 * n + 1 + 1 := by ring
    rw [e, List.range_succ, List.range_succ]
    simp only [List.map_append, List.sum_append, List.map_cons, List.map_nil, List.sum_cons,
      List.sum_nil, ih]
    rw [if_pos (by omega), if_neg (by omega)]
    push_cast
    ring

theorem tilt_sums (g : POINTDATA ℚ → ℚ) :
    (((List.range 100).map tiltRecords).map g).sum = 50 * (g ⟨[1], 2, 2⟩ + g ⟨[2], 1, 1⟩) := by
  have h := sum_alternating (g ⟨[1], 2, 2⟩) (g ⟨[2], 1, 1⟩) 50
  rw [List.map_map]
  have e : (g ∘ tiltRecords) =
      (fun i => if i % 2 = 0 then g ⟨[1], 2, 2⟩ else g ⟨[2], 1, 1⟩) := by
    funext i
    unfold tiltRecords
    simp only [Function.comp]
    split_ifs <;> rfl
  rw [e]
  exact_mod_cast h

theorem tilt_box0 :
    (initBox (modelTilt ℚ sqrtQ) (initState (modelTilt ℚ sqrtQ))).BoxBndLo = [1] ∧
    (initBox (modelTilt ℚ sqrtQ) (initState (modelTilt ℚ sqrtQ))).BoxBndUp = [3] := by
  have hc : List.range (modelTilt ℚ sqrtQ).NumCols = [0] := rfl
  have c : (modelTilt ℚ sqrtQ).col 0 = ⟨"R", 3, 1, [0, 1, 2]⟩ := rfl
  unfold initBox
  rw [hc]
  simp only [List.map_cons, List.map_nil, c]
  norm_num

theorem tilt_sample (s : State ℚ) (lo up d : ℚ) (hlo : s.BoxBndLo = [lo])
    (hup : s.BoxBndUp = [up]) (r : Nat → ℚ) (h0 : r 0 = d) :
    samplePoint (modelTilt ℚ sqrtQ) s r = [lo + d * (up - lo)] := by
  have hc : List.range (modelTilt ℚ sqrtQ).NumCols = [0] := rfl
  unfold samplePoint
  rw [hc, hlo, hup]
  simp [h0]

theorem tilt_records0 :
    (Solve_launch (modelTilt ℚ sqrtQ) (initBox (modelTilt ℚ sqrtQ) (initState (modelTilt ℚ sqrtQ)))
      (tiltDraws 0)).2 = (List.range 100).map tiltRecords := by
  apply Solve_launch_records_of
  intro st i
  unfold tiltRecords
  by_cases h : i % 2 = 0
  · rw [tilt_sample _ 1 3 0 tilt_box0.1 tilt_box0.2 (tiltDraws 0 i) (by simp [tiltDraws, h]),
      if_pos h]
    have e : ([1 + 0 * (3 - 1)] : List ℚ) = [1] := by norm_num
    rw [e, tilt_run_low]
  · rw [tilt_sample _ 1 3 (3 / 4) tilt_box0.1 tilt_box0.2 (tiltDraws 0 i)
      (by simp [tiltDraws, h]), if_neg h]
    have e : ([1 + 3 / 4 * (3 - 1)] : List ℚ) = [5 / 2] := by norm_num
    rw [e, tilt_run_high]

theorem tiltRecords_NINF : ∀ p ∈ (List.range 100).map tiltRecords, p.NINF ≠ 0 := by
  intro p hp
  obtain ⟨i, _, rfl⟩ := List.mem_map.mp hp
  unfold tiltRecords
  split_ifs <;> decide

theorem tiltRecords_qualify :
    ((List.range 100).map tiltRecords).filter (fun p => decide (p.SFD ≤ 10000000000)) =
      (List.range 100).map tiltRecords := by
  rw [List.filter_eq_self]
  intro p hp
  obtain ⟨i, _, rfl⟩ := List.mem_map.mp hp
  unfold tiltRecords
  split_ifs <;> norm_num

/-- A round of `Solve` in which no feasible record is retrieved. -/
theorem mapM_newBox_some (E : Env K) (acc : SolveAcc K) (f : Nat → K × K) (l : List Nat)
    (hf : ∀ j ∈ l, newBox E acc j = some (f j)) :
    l.mapM (newBox E acc) = some (l.map f) := by
  induction l with
  | nil => rfl
  | cons a t ih =>
    rw [List.mapM_cons, hf a (List.mem_cons_self a t),
      ih (fun j hj => hf j (List.mem_cons_of_mem a hj))]
    rfl

theorem mapM_newBox_none (E : Env K) (acc : SolveAcc K) (h : acc.icount = 0) (l : List Nat)
    (hl : l ≠ []) : l.mapM (newBox E acc) = none := by
  cases l with
  | nil => exact absurd rfl hl
  | cons a t =>
    rw [List.mapM_cons]
    simp [newBox, h]

/-- A round of `Solve` that retrieves no feasible record and in which every variable gets
a box ends with these boxes and the computed mean. -/
theorem Solve_round_none (E : Env K) (r : Nat → Nat → K) (avg : K → K) (s : State K) (L : K)
    (N : Nat) (recs : List (POINTDATA K)) (hrecs : (Solve_launch E s r).2 = recs)
    (acc0 acc : SolveAcc K)
    (h0 : acc0 = ⟨0, 0, N, List.replicate E.NumCols 0, List.replicate E.NumCols 0⟩)
    (hnone : (Solve_collect E L recs acc0).1 = none)
    (hacc : (Solve_collect E L recs acc0).2 = acc)
    (f : Nat → K × K) (hf : ∀ j, j < E.NumCols → newBox E acc j = some (f j)) :
    Solve_round E r avg s L N =
      some (Sum.inr
        ({ (Solve_launch E s r).1 with
            BoxBndLo := (List.range E.NumCols).map (fun j => (f j).1),
            BoxBndUp := (List.range E.NumCols).map (fun j => (f j).2) },
          avg (acc.AvgSFD / 100), acc.NumCCRuns)) := by
  subst h0
  have hm := mapM_newBox_some E acc f (List.range E.NumCols)
    (fun j hj => hf j (List.mem_range.mp hj))
  unfold Solve_round
  dsimp only
  rw [hrecs, hnone, hacc]
  dsimp only
  rw [hm]
  simp only [List.map_map]
  rfl

/-- A round of `Solve` on a model with a variable that retrieves no feasible record and
no qualifying record ends with a box that is not a number. -/
theorem Solve_round_nan (E : Env K) (r : Nat → Nat → K) (avg : K → K) (s : State K) (L : K)
    (N : Nat) (recs : List (POINTDATA K)) (hrecs : (Solve_launch E s r).2 = recs)
    (acc0 acc : SolveAcc K)
    (h0 : acc0 = ⟨0, 0, N, List.replicate E.NumCols 0, List.replicate E.NumCols 0⟩)
    (hnone : (Solve_collect E L recs acc0).1 = none)
    (hacc : (Solve_collect E L recs acc0).2 = acc)
    (hic : acc.icount = 0) (hcols : 0 < E.NumCols) :
    Solve_round E r avg s L N = none := by
  subst h0
  have hm := mapM_newBox_none E acc hic (List.range E.NumCols)
    (by
      intro h
      have := congrArg List.length h
      simp at this
      omega)
  unfold Solve_round
  dsimp only
  rw [hrecs, hnone, hacc]
  dsimp only
  rw [hm]

/-- The retrieval loop of round 0 of `Solve` on the tilt model. -/
theorem tilt_collect0 (acc0 acc : SolveAcc ℚ) (h0 : acc0 = ⟨0, 0, 0, [0], [0]⟩)
    (hacc : (Solve_collect (modelTilt ℚ sqrtQ) 10000000000 ((List.range 100).map tiltRecords)
      acc0).2 = acc) :
    (Solve_collect (modelTilt ℚ sqrtQ) 10000000000 ((List.range 100).map tiltRecords)
      acc0).1 = none ∧
    acc.AvgSFD = 150 ∧ acc.NumCCRuns = 100 ∧ acc.icount = 100 ∧ acc.M.getD 0 0 = 3 / 2 ∧
    acc.Q.getD 0 0 = 25 := by
  have hnc : (modelTilt ℚ sqrtQ).NumCols = 1 := rfl
  have hinv := Solve_collect_inv (modelTilt ℚ sqrtQ) 10000000000
    ((List.range 100).map tiltRecords) acc0 [] tiltRecords_NINF (by rw [h0]; rfl)
    (fun h => absurd rfl h)
  have htot := Solve_collect_totals (modelTilt ℚ sqrtQ) 10000000000
    ((List.range 100).map tiltRecords) acc0 tiltRecords_NINF
  rw [hacc] at hinv htot
  simp only [List.nil_append, tiltRecords_qualify] at hinv
  obtain ⟨hnone, hic, hMQ⟩ := hinv
  have hne : (List.range 100).map tiltRecords ≠ [] := by
    intro h
    have := congrArg List.length h
    simp at this
  obtain ⟨hM, hQ⟩ := hMQ hne 0 (by rw [hnc]; decide)
  rw [tilt_sums] at hM hQ
  rw [tilt_sums] at hQ
  have hsfd := tilt_sums (fun p => p.SFD)
  have hlen : ((List.range 100).map tiltRecords).length = 100 := by simp
  rw [hlen] at hM hQ hic
  rw [hsfd, hlen, h0] at htot
  refine ⟨hnone, ?_, ?_, hic, ?_, ?_⟩
  · rw [htot.1]; norm_num
  · rw [htot.2]
  · rw [hM]; norm_num
  · rw [hQ]; norm_num

/-- Round 0 of `Solve` on the tilt model with the draws `tiltDraws`: no record is
feasible, the average `SFD` is `3/2` and the new box is `[3/4, 9/4]`. -/
theorem tilt_round0 (avg : ℚ → ℚ) :
    Solve_round (modelTilt ℚ sqrtQ) (tiltDraws 0) avg
      (initBox (modelTilt ℚ sqrtQ) (initState (modelTilt ℚ sqrtQ))) 10000000000 0 =
      some (Sum.inr
        ({ (Solve_launch (modelTilt ℚ sqrtQ)
              (initBox (modelTilt ℚ sqrtQ) (initState (modelTilt ℚ sqrtQ))) (tiltDraws 0)).1 with
            BoxBndLo := [3 / 4], BoxBndUp := [9 / 4] }, avg (3 / 2), 100)) := by
  have hc : List.range (modelTilt ℚ sqrtQ).NumCols = [0] := rfl
  have c : (modelTilt ℚ sqrtQ).col 0 = ⟨"R", 3, 1, [0, 1, 2]⟩ := rfl
  have hsq : (modelTilt ℚ sqrtQ).sqrt = sqrtQ := rfl
  obtain ⟨acc0, h0⟩ : ∃ a : SolveAcc ℚ, a = ⟨0, 0, 0, [0], [0]⟩ := ⟨_, rfl⟩
  obtain ⟨acc, hacc⟩ : ∃ a : SolveAcc ℚ, (Solve_collect (modelTilt ℚ sqrtQ) 10000000000
      ((List.range 100).map tiltRecords) acc0).2 = a := ⟨_, rfl⟩
  obtain ⟨hnone, hA, hR, hic, hM, hQ⟩ := tilt_collect0 acc0 acc h0 hacc
  have hbox : ∀ j, j < (modelTilt ℚ sqrtQ).NumCols →
      newBox (modelTilt ℚ sqrtQ) acc j = some ((fun _ => ((3 / 4 : ℚ), (9 / 4 : ℚ))) j) := by
    intro j hj
    have hj0 : j = 0 := by
      have : (modelTilt ℚ sqrtQ).NumCols = 1 := rfl
      omega
    subst hj0
    unfold newBox
    rw [hic, if_neg (by decide)]
    dsimp only
    rw [hM, hQ, c, hsq]
    have e : ((25 : ℚ) / ((100 : ℕ) : ℚ)) = 1 / 4 := by norm_num
    rw [e, sqrtQ_quarter]
    norm_num
  rw [Solve_round_none (modelTilt ℚ sqrtQ) (tiltDraws 0) avg _ 10000000000 0 _ tilt_records0
    acc0 acc h0 hnone hacc _ hbox, hc]
  simp only [List.map_cons, List.map_nil, hA, hR]
  norm_num

theorem tilt_records1 (s : State ℚ) (hlo : s.BoxBndLo = [3 / 4]) (hup : s.BoxBndUp = [9 / 4]) :
    (Solve_launch (modelTilt ℚ sqrtQ) s (tiltDraws 1)).2 =
      (List.range 100).map (fun _ => ⟨[1], 2, 2⟩) := by
  apply Solve_launch_records_of
  intro st i
  rw [tilt_sample _ (3 / 4) (9 / 4) (1 / 6) hlo hup (tiltDraws 1 i) rfl]
  have e : ([3 / 4 + 1 / 6 * (9 / 4 - 3 / 4)] : List ℚ) = [1] := by norm_num
  rw [e, tilt_run_low]

/-- The retrieval loop of the round of `Solve` on the tilt model that follows round 0:
every record has `SFD = 2 > 3/2`, none qualifies and the counter `icount` stays at 0. -/
theorem tilt_round1 (s : State ℚ) (hlo : s.BoxBndLo = [3 / 4]) (hup : s.BoxBndUp = [9 / 4]) :
    (∀ p ∈ (Solve_launch (modelTilt ℚ sqrtQ) s (tiltDraws 1)).2,
      p.NINF ≠ 0 ∧ 3 / 2 < p.SFD) ∧
    (Solve_collect (modelTilt ℚ sqrtQ) (3 / 2)
      (Solve_launch (modelTilt ℚ sqrtQ) s (tiltDraws 1)).2 ⟨0, 0, 100, [0], [0]⟩).1 = none ∧
    (Solve_collect (modelTilt ℚ sqrtQ) (3 / 2)
      (Solve_launch (modelTilt ℚ sqrtQ) s (tiltDraws 1)).2 ⟨0, 0, 100, [0], [0]⟩).2.icount = 0 := by
  rw [tilt_records1 s hlo hup]
  have hall : ∀ p ∈ (List.range 100).map (fun _ => (⟨[1], 2, 2⟩ : POINTDATA ℚ)),
      p.NINF ≠ 0 ∧ 3 / 2 < p.SFD := by
    intro p hp
    obtain ⟨i, _, rfl⟩ := List.mem_map.mp hp
    exact ⟨by decide, by norm_num⟩
  have hinv := Solve_collect_inv (modelTilt ℚ sqrtQ) (3 / 2)
    ((List.range 100).map (fun _ => (⟨[1], 2, 2⟩ : POINTDATA ℚ))) ⟨0, 0, 100, [0], [0]⟩ []
    (fun p hp => (hall p hp).1) rfl (fun h => absurd rfl h)
  have hfil : ((List.range 100).map (fun _ => (⟨[1], 2, 2⟩ : POINTDATA ℚ))).filter
      (fun p => decide (p.SFD ≤ 3 / 2)) = [] := by
    rw [List.filter_eq_nil_iff]
    intro p hp
    have := (hall p hp).2
    simp only [decide_eq_true_eq, not_le]
    exact this
  rw [hfil] at hinv
  exact ⟨hall, hinv.1, by simpa using hinv.2.1⟩

theorem tiltDraws_unit (r i j : Nat) : 0 ≤ tiltDraws r i j ∧ tiltDraws r i j < 1 := by
  cases r with
  | zero =>
    simp only [tiltDraws]
    split_ifs <;> norm_num
  | succ r =>
    simp only [tiltDraws]
    norm_num

theorem tilt_Solve_env :
    Solve_env (modelTilt ℚ sqrtQ) (1 / 1000000) (1 / 10000) 50 10000000000 (1 / 1000000) =
      modelTilt ℚ sqrtQ := rfl

/-- C38: on the tilt model with the default tolerances and the draws `tiltDraws`, all in
`[0, 1)`, round 0 of `Solve` ends without a feasible record, with average `SFD` `3/2`
(the sum of 50 values 2 and 50 values 1 is 150, which `float64` computes exactly) and the
new box `[3/4, 9/4]`, and `Solve` goes on to round 1. In round 1 every one of the 100
records has `NINF ≠ 0` and `SFD = 2 > 3/2`: the round does not end with a feasible point,
no record qualifies for the box statistics, and `icount` is 0 when `Solve` divides
`Q[j]` by it. The new box is not a number, and the run does not end with a result. -/
theorem C38_round_without_qualifying_point :
    (∀ r i j, 0 ≤ tiltDraws r i j ∧ tiltDraws r i j < 1) ∧
    ∃ s1 : State ℚ,
      Solve_round (modelTilt ℚ sqrtQ) (tiltDraws 0) (fun x => x)
        (initBox (modelTilt ℚ sqrtQ) (initState (modelTilt ℚ sqrtQ)))
        (modelTilt ℚ sqrtQ).plinfy 0 = some (Sum.inr (s1, 3 / 2, 100)) ∧
      Solve (modelTilt ℚ sqrtQ) (1 / 1000000) (1 / 10000) 50 8 10000000000 (1 / 1000000)
        tiltDraws (fun _ x => x) =
        Solve_rounds (modelTilt ℚ sqrtQ) tiltDraws (fun _ x => x) 99 1 s1 (3 / 2) 100 ∧
      (∀ p ∈ (Solve_launch (modelTilt ℚ sqrtQ) s1 (tiltDraws 1)).2,
        p.NINF ≠ 0 ∧ 3 / 2 < p.SFD) ∧
      (Solve_collect (modelTilt ℚ sqrtQ) (3 / 2)
        (Solve_launch (modelTilt ℚ sqrtQ) s1 (tiltDraws 1)).2
        ⟨0, 0, 100, List.replicate (modelTilt ℚ sqrtQ).NumCols 0,
          List.replicate (modelTilt ℚ sqrtQ).NumCols 0⟩).1 = none ∧
      (Solve_collect (modelTilt ℚ sqrtQ) (3 / 2)
        (Solve_launch (modelTilt ℚ sqrtQ) s1 (tiltDraws 1)).2
        ⟨0, 0, 100, List.replicate (modelTilt ℚ sqrtQ).NumCols 0,
          List.replicate (modelTilt ℚ sqrtQ).NumCols 0⟩).2.icount = 0 ∧
      newBox (modelTilt ℚ sqrtQ) (Solve_collect (modelTilt ℚ sqrtQ) (3 / 2)
        (Solve_launch (modelTilt ℚ sqrtQ) s1 (tiltDraws 1)).2
        ⟨0, 0, 100, List.replicate (modelTilt ℚ sqrtQ).NumCols 0,
          List.replicate (modelTilt ℚ sqrtQ).NumCols 0⟩).2 0 = none ∧
      Solve_round (modelTilt ℚ sqrtQ) (tiltDraws 1) (fun x => x) s1 (3 / 2) 100 = none ∧
      Solve (modelTilt ℚ sqrtQ) (1 / 1000000) (1 / 10000) 50 8 10000000000 (1 / 1000000)
        tiltDraws (fun _ x => x) = none := by
  have hp : (modelTilt ℚ sqrtQ).plinfy = 10000000000 := rfl
  have hS : Solve (modelTilt ℚ sqrtQ) (1 / 1000000) (1 / 10000) 50 8 10000000000
      (1 / 1000000) tiltDraws (fun _ x => x) =
      Solve_rounds (modelTilt ℚ sqrtQ) tiltDraws (fun _ x => x) 99 1
        { (Solve_launch (modelTilt ℚ sqrtQ)
              (initBox (modelTilt ℚ sqrtQ) (initState (modelTilt ℚ sqrtQ))) (tiltDraws 0)).1 with
            BoxBndLo := [3 / 4], BoxBndUp := [9 / 4] } (3 / 2) 100 := by
    unfold Solve
    dsimp only
    rw [tilt_Solve_env, hp]
    exact Solve_rounds_succ_next (modelTilt ℚ sqrtQ) tiltDraws (fun _ x => x) 99 0 _ _ _ _ _ _
      (tilt_round0 _)
  obtain ⟨h1, h2, h3⟩ := tilt_round1
    { (Solve_launch (modelTilt ℚ sqrtQ)
          (initBox (modelTilt ℚ sqrtQ) (initState (modelTilt ℚ sqrtQ))) (tiltDraws 0)).1 with
        BoxBndLo := [3 / 4], BoxBndUp := [9 / 4] } rfl rfl
  have hz : List.replicate (modelTilt ℚ sqrtQ).NumCols (0 : ℚ) = [0] := rfl
  have hR : Solve_round (modelTilt ℚ sqrtQ) (tiltDraws 1) (fun x => x)
      { (Solve_launch (modelTilt ℚ sqrtQ)
            (initBox (modelTilt ℚ sqrtQ) (initState (modelTilt ℚ sqrtQ))) (tiltDraws 0)).1 with
          BoxBndLo := [3 / 4], BoxBndUp := [9 / 4] } (3 / 2) 100 = none :=
    Solve_round_nan (modelTilt ℚ sqrtQ) (tiltDraws 1) (fun x => x) _ (3 / 2) 100 _ rfl
      ⟨0, 0, 100, [0], [0]⟩ _ (by rw [hz]) h2 rfl h3 (show (0 : Nat) < 1 by decide)
  refine ⟨tiltDraws_unit, _, by rw [hp]; exact tilt_round0 _, hS, ?_⟩
  rw [hz]
  refine ⟨h1, h2, h3, ?_, hR, ?_⟩
  · unfold newBox
    rw [if_pos h3]
  · rw [hS]
    exact Solve_rounds_succ_nan (modelTilt ℚ sqrtQ) tiltDraws (fun _ x => x) 97 1 _ _ _ hR

/-- C31, counterexample: on the tilt model, whose variable has the bounds `[1, 3]`, with
the draws `tiltDraws`, round 0 of `Solve` retrieves 50 records at the point 1 and 50 at
the point 2, all qualifying: `mu = 3/2`, `sigma = 1/2`, and the new box is `[3/4, 9/4]`,
whose lower end `3/4` is below the lower bound 1 of the variable. -/
theorem C31_counterexample :
    ∃ s1 : State ℚ,
      Solve_round (modelTilt ℚ sqrtQ) (tiltDraws 0) (fun x => x)
        (initBox (modelTilt ℚ sqrtQ) (initState (modelTilt ℚ sqrtQ)))
        (modelTilt ℚ sqrtQ).plinfy 0 = some (Sum.inr (s1, 3 / 2, 100)) ∧
      s1.BoxBndLo = [3 / 4] ∧ s1.BoxBndUp = [9 / 4] ∧
      ((modelTilt ℚ sqrtQ).col 0).BndLo = 1 ∧ ((modelTilt ℚ sqrtQ).col 0).BndUp = 3 ∧
      s1.BoxBndLo.getD 0 0 < ((modelTilt ℚ sqrtQ).col 0).BndLo := by
  have hp : (modelTilt ℚ sqrtQ).plinfy = 10000000000 := rfl
  refine ⟨_, by rw [hp]; exact tilt_round0 _, rfl, rfl, rfl, rfl, ?_⟩
  norm_num [modelTilt, Env.col]

/-- C31 over the reals, on three records of which the first and the third qualify. -/
theorem C31_witness :
    (SqrtSpec (modelG ℝ Real.sqrt).sqrt ∧
      1 ≤ (([⟨[1, 0], 2, 1⟩, ⟨[7, 7], 9, 1⟩, ⟨[3, 4], 5, 2⟩] : List (POINTDATA ℝ)).filter
        (fun p => decide (p.SFD ≤ 5))).length) ∧
    ∃ lo up : ℝ,
      newBox (modelG ℝ Real.sqrt) (Solve_collect (modelG ℝ Real.sqrt) 5
        [⟨[1, 0], 2, 1⟩, ⟨[7, 7], 9, 1⟩, ⟨[3, 4], 5, 2⟩] ⟨0, 0, 0, [0, 0], [0, 0]⟩).2 1 =
        some (lo, up) ∧
      lo ≤ up ∧ lo ≤ ((modelG ℝ Real.sqrt).col 1).BndUp ∧
      ((modelG ℝ Real.sqrt).col 1).BndLo ≤ up := by
  have hf : ([⟨[1, 0], 2, 1⟩, ⟨[7, 7], 9, 1⟩, ⟨[3, 4], 5, 2⟩] : List (POINTDATA ℝ)).filter
      (fun p => decide (p.SFD ≤ 5)) = [⟨[1, 0], 2, 1⟩, ⟨[3, 4], 5, 2⟩] := by
    norm_num [List.filter]
  have hk : 1 ≤ (([⟨[1, 0], 2, 1⟩, ⟨[7, 7], 9, 1⟩, ⟨[3, 4], 5, 2⟩] : List (POINTDATA ℝ)).filter
      (fun p => decide (p.SFD ≤ 5))).length := by
    rw [hf]; decide
  obtain ⟨_, lo, up, hb, _, _, h1, h2, h3, _⟩ :=
    C31_new_box_clipped_on_far_side (modelG ℝ Real.sqrt) sqrtSpec_real 5
      [⟨[1, 0], 2, 1⟩, ⟨[7, 7], 9, 1⟩, ⟨[3, 4], 5, 2⟩] ⟨0, 0, 0, [0, 0], [0, 0]⟩ rfl
      (by intro p hp; simp at hp; rcases hp with h | h | h <;> rw [h] <;> decide)
      hk 1 (by decide)
  exact ⟨⟨sqrtSpec_real, hk⟩, lo, up, hb, h1, h2, h3⟩

/-! ### Writes to the swarm -/

theorem length_setAt2 {α : Type} (S : List (List α)) (k i : Nat) (v : α) :
    (setAt2 S k i v).length = S.length := by
  unfold setAt2
  simp

theorem rowlen_setAt2 {α : Type} (S : List (List α)) (k i : Nat) (v : α) (k' : Nat) :
    ((setAt2 S k i v).getD k' []).length = (S.getD k' []).length := by
  unfold setAt2
  by_cases hk : k = k'
  · subst hk
    by_cases hlt : k < S.length
    · rw [getD_set_eq _ _ _ _ hlt]
      simp
    · rw [List.set_eq_of_length_le (not_lt.mp hlt)]
  · rw [getD_set_ne _ _ _ _ _ hk]

theorem shape_setAt2 {α : Type} (S : List (List α)) (k i : Nat) (v : α) (m cols : Nat)
    (h : SwarmShape S m cols) : SwarmShape (setAt2 S k i v) m cols := by
  refine ⟨by rw [length_setAt2]; exact h.1, fun k' hk' => ?_⟩
  rw [rowlen_setAt2]
  exact h.2 k' hk'

theorem SwarmShape_mono {α : Type} (S : List (List α)) (m m' cols : Nat) (h : SwarmShape S m cols)
    (hm : m' ≤ m) : SwarmShape S m' cols :=
  ⟨le_trans hm h.1, fun k hk => h.2 k (lt_of_lt_of_le hk hm)⟩

theorem getAt2_setAt2_same (S : List (List K)) (k i : Nat) (v : K) (hk : k < S.length)
    (hi : i < (S.getD k []).length) : getAt2 (setAt2 S k i v) k i = v := by
  unfold getAt2 setAt2
  rw [getD_set_eq _ _ _ _ hk, getD_set_eq _ _ _ _ hi]

theorem getAt2_setAt2_ne (S : List (List K)) (k i : Nat) (v : K) (k' i' : Nat)
    (h : k ≠ k' ∨ i ≠ i') : getAt2 (setAt2 S k i v) k' i' = getAt2 S k' i' := by
  unfold getAt2 setAt2
  by_cases hk : k = k'
  · subst hk
    have hi : i ≠ i' := by
      rcases h with h | h
      · exact absurd rfl h
      · exact h
    by_cases hlt : k < S.length
    · rw [getD_set_eq _ _ _ _ hlt, getD_set_ne _ _ _ _ _ hi]
    · rw [List.set_eq_of_length_le (not_lt.mp hlt)]
  · rw [getD_set_ne _ _ _ _ _ hk]

/-- A loop of writes `Swarm[a+i][icol] = f i` for `i < n` on a swarm of the right
shape. -/
theorem foldl_setAt2_spec (f : Nat → K) (a icol cols : Nat) (hicol : icol < cols) (n : Nat)
    (S : List (List K)) (m : Nat) (hm : a + n ≤ m) (hS : SwarmShape S m cols) :
    SwarmShape ((List.range n).foldl (fun S i => setAt2 S (a + i) icol (f i)) S) m cols ∧
    (∀ i, i < n →
      getAt2 ((List.range n).foldl (fun S i => setAt2 S (a + i) icol (f i)) S) (a + i) icol =
        f i) ∧
    (∀ k j, (j ≠ icol ∨ k < a ∨ a + n ≤ k) →
      getAt2 ((List.range n).foldl (fun S i => setAt2 S (a + i) icol (f i)) S) k j =
        getAt2 S k j) := by
  induction n with
  | zero =>
    refine ⟨hS, fun i hi => absurd hi (Nat.not_lt_zero i), fun k j _ => rfl⟩
  | succ n ih =>
    obtain ⟨h1, h2, h3⟩ := ih (by omega)
    rw [List.range_succ, List.foldl_append]
    simp only [List.foldl_cons, List.foldl_nil]
    refine ⟨shape_setAt2 _ _ _ _ _ _ h1, fun i hi => ?_, fun k j hkj => ?_⟩
    · by_cases hin : i = n
      · subst hin
        apply getAt2_setAt2_same
        · exact lt_of_lt_of_le (by omega) h1.1
        · rw [h1.2 (a + i) (by omega)]; exact hicol
      · rw [getAt2_setAt2_ne _ _ _ _ _ _ (Or.inl (by omega))]
        exact h2 i (by omega)
    · rw [getAt2_setAt2_ne _ _ _ _ _ _ (by
        rcases hkj with h | h | h
        · exact Or.inr (Ne.symm h)
        · exact Or.inl (by omega)
        · exact Or.inl (by omega))]
      exact h3 k j (by
        rcases hkj with h | h | h
        · exact Or.inl h
        · exact Or.inr (Or.inl h)
        · exact Or.inr (Or.inr (by omega)))

/-! ### The Latin hypercube loop -/

/-- The seed that the Latin hypercube loop puts in bin `b` of column `icol`. -/
theorem lhc_col_spec (s : State K) (a : Nat) (N : Int) (draw : Nat → Nat → K)
    (perm : Nat → List Nat) (cols icol : Nat) (hicol : icol < cols) (S : List (List K))
    (F : List K) (hS : SwarmShape S (a + N.toNat) cols) (hF : N.toNat ≤ F.length)
    (hperm : ∀ i, i < N.toNat → (perm icol).getD i 0 < N.toNat) :
    SwarmShape (NewPoints_lhc_col s a N draw perm (S, F) icol).1 (a + N.toNat) cols ∧
    N.toNat ≤ (NewPoints_lhc_col s a N draw perm (S, F) icol).2.length ∧
    (∀ i, i < N.toNat →
      getAt2 (NewPoints_lhc_col s a N draw perm (S, F) icol).1 (a + i) icol =
        s.BoxBndLo.getD icol 0 +
          (((perm icol).getD i 0 : Nat) : K) *
            ((s.BoxBndUp.getD icol 0 - s.BoxBndLo.getD icol 0) / (N : K)) +
          draw icol ((perm icol).getD i 0) *
            ((s.BoxBndUp.getD icol 0 - s.BoxBndLo.getD icol 0) / (N : K))) ∧
    (∀ k j, (j ≠ icol ∨ k < a) →
      getAt2 (NewPoints_lhc_col s a N draw perm (S, F) icol).1 k j = getAt2 S k j) := by
  unfold NewPoints_lhc_col
  dsimp only
  generalize hw : (s.BoxBndUp.getD icol 0 - s.BoxBndLo.getD icol 0) / (N : K) = w
  obtain ⟨s1, g1, o1⟩ := foldl_setAt2_spec
    (fun ibin => s.BoxBndLo.getD icol 0 + (ibin : K) * w + draw icol ibin * w) a icol cols hicol
    N.toNat S (a + N.toNat) (le_refl _) hS
  generalize hS1 : (List.range N.toNat).foldl
    (fun S ibin => setAt2 S (a + ibin) icol
      (s.BoxBndLo.getD icol 0 + (ibin : K) * w + draw icol ibin * w)) S = S1 at s1 g1 o1
  have hFl : ∀ i, i < N.toNat →
      ((List.range N.toNat).foldl (fun F i => F.set i (getAt2 S1 (i + a) icol)) F).getD i 0 =
        getAt2 S1 (i + a) icol := by
    intro i hi
    exact foldl_set_getD (fun i => getAt2 S1 (i + a) icol) 0 N.toNat F i hi
      (lt_of_lt_of_le hi hF)
  have hFlen : ((List.range N.toNat).foldl
      (fun F i => F.set i (getAt2 S1 (i + a) icol)) F).length = F.length :=
    length_foldl_set (fun _ i => getAt2 S1 (i + a) icol) _ _
  generalize hF1 : (List.range N.toNat).foldl
    (fun F i => F.set i (getAt2 S1 (i + a) icol)) F = F1 at hFl hFlen
  have hcomm : (fun (S : List (List K)) (i : Nat) =>
      setAt2 S (i + a) icol (F1.getD ((perm icol).getD i 0) 0)) =
      (fun S i => setAt2 S (a + i) icol (F1.getD ((perm icol).getD i 0) 0)) := by
    funext S i
    rw [Nat.add_comm]
  rw [hcomm]
  obtain ⟨s2, g2, o2⟩ := foldl_setAt2_spec
    (fun i => F1.getD ((perm icol).getD i 0) 0) a icol cols hicol
    N.toNat S1 (a + N.toNat) (le_refl _) s1
  refine ⟨s2, by rw [hFlen]; exact hF, fun i hi => ?_, fun k j hj => ?_⟩
  · rw [g2 i hi, hFl _ (hperm i hi), Nat.add_comm, g1 _ (hperm i hi)]
  · have hj' : j ≠ icol ∨ k < a ∨ a + N.toNat ≤ k := by
      rcases hj with h | h
      · exact Or.inl h
      · exact Or.inr (Or.inl h)
    rw [o2 k j hj', o1 k j hj']

/-- The Latin hypercube loop over the first `m` columns. -/
theorem lhc_fold_spec (s : State K) (a : Nat) (N : Int) (draw : Nat → Nat → K)
    (perm : Nat → List Nat) (cols : Nat) (S : List (List K)) (F : List K)
    (hS : SwarmShape S (a + N.toNat) cols) (hF : N.toNat ≤ F.length)
    (hperm : ∀ icol i, i < N.toNat → (perm icol).getD i 0 < N.toNat) (m : Nat)
    (hm : m ≤ cols) :
    SwarmShape ((List.range m).foldl (NewPoints_lhc_col s a N draw perm) (S, F)).1
      (a + N.toNat) cols ∧
    N.toNat ≤ ((List.range m).foldl (NewPoints_lhc_col s a N draw perm) (S, F)).2.length ∧
    (∀ icol, icol < m → ∀ i, i < N.toNat →
      getAt2 ((List.range m).foldl (NewPoints_lhc_col s a N draw perm) (S, F)).1 (a + i) icol =
        s.BoxBndLo.getD icol 0 +
          (((perm icol).getD i 0 : Nat) : K) *
            ((s.BoxBndUp.getD icol 0 - s.BoxBndLo.getD icol 0) / (N : K)) +
          draw icol ((perm icol).getD i 0) *
            ((s.BoxBndUp.getD icol 0 - s.BoxBndLo.getD icol 0) / (N : K))) ∧
    (∀ k j, k < a →
      getAt2 ((List.range m).foldl (NewPoints_lhc_col s a N draw perm) (S, F)).1 k j =
        getAt2 S k j) := by
  induction m with
  | zero =>
    exact ⟨hS, hF, fun icol hi => absurd hi (Nat.not_lt_zero icol), fun _ _ _ => rfl⟩
  | succ m ih =>
    obtain ⟨h1, h2, h3, h4⟩ := ih (by omega)
    rw [List.range_succ, List.foldl_append]
    simp only [List.foldl_cons, List.foldl_nil]
    generalize (List.range m).foldl (NewPoints_lhc_col s a N draw perm) (S, F) = st
      at h1 h2 h3 h4
    obtain ⟨S0, F0⟩ := st
    obtain ⟨c1, c2, c3, c4⟩ := lhc_col_spec s a N draw perm cols m (by omega) S0 F0 h1 h2
      (hperm m)
    refine ⟨c1, c2, fun icol hicol i hi => ?_, fun k j hk => ?_⟩
    · by_cases hc : icol = m
      · subst hc
        exact c3 i hi
      · rw [c4 _ _ (Or.inl hc)]
        exact h3 icol (by omega) i hi
    · rw [c4 _ _ (Or.inr hk)]
      exact h4 k j hk

/-! ### One seed in each bin -/

theorem perm_range_getD (π : List Nat) (n : Nat) (hπ : π.Perm (List.range n)) (i : Nat)
    (hi : i < n) : π.getD i 0 < n := by
  have hlen : π.length = n := by rw [hπ.length_eq, List.length_range]
  have hmem : π.getD i 0 ∈ π := by
    rw [List.getD_eq_getElem _ _ (by omega)]
    exact List.getElem_mem _
  exact List.mem_range.mp (hπ.mem_iff.mp hmem)

theorem map_getD_range (π : List Nat) (n : Nat) (hlen : π.length = n) :
    (List.range n).map (fun i => π.getD i 0) = π := by
  apply List.ext_getElem
  · simp [hlen]
  · intro i h1 h2
    simp only [List.getElem_map, List.getElem_range]
    rw [List.getD_eq_getElem _ _ h2]

/-- The seeds of a column are one in each bin when they are a permutation of one seed
per bin. -/
theorem binCount_eq_one (S : List (List K)) (a n icol : Nat) (lo up : K) (π : List Nat)
    (hπ : π.Perm (List.range n)) (hw : lo < up) (d : Nat → K)
    (hd : ∀ b, 0 ≤ d b ∧ d b < 1)
    (hS : ∀ i, i < n → getAt2 S (a + i) icol =
      lo + ((π.getD i 0 : Nat) : K) * ((up - lo) / (n : K)) +
        d (π.getD i 0) * ((up - lo) / (n : K)))
    (b : Nat) (hb : b < n) : binCount S a n icol lo up b = 1 := by
  unfold binCount
  have hn : (0 : K) < (n : K) := by
    have : 0 < n := by omega
    exact_mod_cast this
  have hwpos : 0 < (up - lo) / (n : K) := div_pos (by linarith) hn
  generalize (up - lo) / (n : K) = w at hS hwpos ⊢
  have hlen : π.length = n := by rw [hπ.length_eq, List.length_range]
  have hiff : ∀ i, i ∈ List.range n →
      (decide (lo + (b : K) * w ≤ getAt2 S (a + i) icol ∧
        getAt2 S (a + i) icol < lo + ((b : K) + 1) * w) = decide (π.getD i 0 = b)) := by
    intro i hi
    rw [hS i (List.mem_range.mp hi)]
    obtain ⟨d0, d1⟩ := hd (π.getD i 0)
    apply decide_eq_decide.mpr
    constructor
    · rintro ⟨h1, h2⟩
      have e1 : (b : K) < ((π.getD i 0 : Nat) : K) + 1 := by
        by_contra hcon
        have hcon' := not_lt.mp hcon
        have : (((π.getD i 0 : Nat) : K) + 1) * w ≤ (b : K) * w :=
          mul_le_mul_of_nonneg_right hcon' (le_of_lt hwpos)
        have : d (π.getD i 0) * w < 1 * w := mul_lt_mul_of_pos_right d1 hwpos
        nlinarith
      have e2 : ((π.getD i 0 : Nat) : K) < (b : K) + 1 := by
        by_contra hcon
        have hcon' := not_lt.mp hcon
        have : ((b : K) + 1) * w ≤ ((π.getD i 0 : Nat) : K) * w :=
          mul_le_mul_of_nonneg_right hcon' (le_of_lt hwpos)
        have : 0 ≤ d (π.getD i 0) * w := mul_nonneg d0 (le_of_lt hwpos)
        nlinarith
      have e1' : b < π.getD i 0 + 1 := by exact_mod_cast e1
      have e2' : π.getD i 0 < b + 1 := by exact_mod_cast e2
      omega
    · intro h
      rw [h]
      have h1 : 0 ≤ d b * w := mul_nonneg (hd b).1 (le_of_lt hwpos)
      have h2 : d b * w < 1 * w := mul_lt_mul_of_pos_right (hd b).2 hwpos
      constructor
      · linarith
      · nlinarith
  rw [List.filter_congr hiff]
  have h1 : ((List.range n).filter (fun i => decide (π.getD i 0 = b))).length =
      (π.filter (fun k => decide (k = b))).length := by
    conv_rhs => rw [← map_getD_range π n hlen]
    rw [List.filter_map, List.length_map]
    rfl
  rw [h1, (hπ.filter _).length_eq]
  have hcount := List.count_eq_one_of_mem (List.nodup_range n) (List.mem_range.mpr hb)
  rw [List.count_eq_countP, List.countP_eq_length_filter] at hcount
  exact hcount

/-! ### The special points -/

theorem special0_fst (s : State K) (st : List (List K) × Bool) (i : Nat) :
    ∃ x, (NewPoints_special0 s st i).1 =
      setAt2 (setAt2 (setAt2 st.1 0 i 0) 1 i
        ((s.BoxBndLo.getD i 0 + s.BoxBndUp.getD i 0) / 2)) 2 i x := by
  unfold NewPoints_special0
  dsimp only
  split_ifs <;> exact ⟨_, rfl⟩

/-- The loop that sets the special points of round 0 keeps the shape of the swarm and
leaves the origin in point 0 and the box centre in point 1. -/
theorem special0_fold_spec (s : State K) (cols m : Nat) (S : List (List K))
    (hS : SwarmShape S m cols) (hm : 2 ≤ m) (n : Nat) (hn : n ≤ cols) (b0 : Bool) :
    SwarmShape ((List.range n).foldl (NewPoints_special0 s) (S, b0)).1 m cols ∧
    ∀ i, i < n →
      getAt2 ((List.range n).foldl (NewPoints_special0 s) (S, b0)).1 0 i = 0 ∧
      getAt2 ((List.range n).foldl (NewPoints_special0 s) (S, b0)).1 1 i =
        (s.BoxBndLo.getD i 0 + s.BoxBndUp.getD i 0) / 2 := by
  induction n with
  | zero => exact ⟨hS, fun i hi => absurd hi (Nat.not_lt_zero i)⟩
  | succ n ih =>
    obtain ⟨h1, h2⟩ := ih (by omega)
    rw [List.range_succ, List.foldl_append]
    simp only [List.foldl_cons, List.foldl_nil]
    generalize (List.range n).foldl (NewPoints_special0 s) (S, b0) = st at h1 h2
    obtain ⟨x, hx⟩ := special0_fst s st n
    rw [hx]
    have sh0 := shape_setAt2 st.1 0 n 0 m cols h1
    have sh1 := shape_setAt2 _ 1 n ((s.BoxBndLo.getD n 0 + s.BoxBndUp.getD n 0) / 2) m cols sh0
    refine ⟨shape_setAt2 _ _ _ _ _ _ sh1, fun i hi => ?_⟩
    by_cases hin : i = n
    · subst hin
      constructor
      · rw [getAt2_setAt2_ne _ _ _ _ _ _ (Or.inl (by decide)),
          getAt2_setAt2_ne _ _ _ _ _ _ (Or.inl (by decide))]
        apply getAt2_setAt2_same
        · exact lt_of_lt_of_le (by omega) h1.1
        · rw [h1.2 0 (by omega)]; omega
      · rw [getAt2_setAt2_ne _ _ _ _ _ _ (Or.inl (by decide))]
        apply getAt2_setAt2_same
        · exact lt_of_lt_of_le (by omega) sh0.1
        · rw [sh0.2 1 (by omega)]; omega
    · have hne : n ≠ i := fun h => hin h.symm
      rw [getAt2_setAt2_ne _ _ _ _ _ _ (Or.inr hne), getAt2_setAt2_ne _ _ _ _ _ _ (Or.inr hne),
        getAt2_setAt2_ne _ _ _ _ _ _ (Or.inr hne), getAt2_setAt2_ne _ _ _ _ _ _ (Or.inr hne),
        getAt2_setAt2_ne _ _ _ _ _ _ (Or.inr hne), getAt2_setAt2_ne _ _ _ _ _ _ (Or.inr hne)]
      exact h2 i (by omega)

theorem shape_special (E : Env K) (s : State K) (v : NPVars K) (Round : Int)
    (S : List (List K)) (m cols : Nat) (hS : SwarmShape S m cols) :
    SwarmShape (NewPoints_special E s v Round S).1 m cols := by
  unfold NewPoints_special
  split_ifs
  · apply foldl_inv (fun st : List (List K) × Bool => SwarmShape st.1 m cols)
    · exact hS
    · intro st i _ hst
      obtain ⟨x, hx⟩ := special0_fst s st i
      rw [hx]
      exact shape_setAt2 _ _ _ _ _ _ (shape_setAt2 _ _ _ _ _ _ (shape_setAt2 _ _ _ _ _ _ hst))
  · apply foldl_inv (fun st : List (List K) => SwarmShape st m cols)
    · exact hS
    · intro st i _ hst
      unfold NewPoints_specialN
      exact shape_setAt2 _ _ _ _ _ _ (shape_setAt2 _ _ _ _ _ _
        (shape_setAt2 _ _ _ _ _ _ (shape_setAt2 _ _ _ _ _ _ hst)))
  · exact hS

/-! ### The seeds of `NewPoints1` and `NewPoints2` -/

theorem NewPoints1_counts (E : Env K) (s : State K) (w : SwarmVars K) (Round : Int)
    (draw : Nat → Nat → K) (perm : Nat → List Nat) :
    ((NewPoints1 E s w Round draw perm).NumSpecialPts = 3 ∨
      (NewPoints1 E s w Round draw perm).NumSpecialPts = 4) ∧
    ((NewPoints1 E s w Round draw perm).NumSpecialPts : Int) +
      (NewPoints1 E s w Round draw perm).NumLHCPts = w.MaxSwarmPts := by
  unfold NewPoints1
  dsimp only
  split_ifs
  · exact ⟨Or.inl rfl, by push_cast; ring⟩
  · exact ⟨Or.inr rfl, by push_cast; ring⟩

theorem NewPoints2_counts (E : Env K) (s : State K) (w : SwarmVars K) (Round : Int)
    (draw : Nat → Nat → K) (perm : Nat → List Nat) :
    ((NewPoints2 E s w Round draw perm).NumSpecialPts = 3 ∨
      (NewPoints2 E s w Round draw perm).NumSpecialPts = 4) ∧
    ((NewPoints2 E s w Round draw perm).NumSpecialPts : Int) +
      (NewPoints2 E s w Round draw perm).NumLHCPts = (NewPoints2 E s w Round draw perm).swarm.MaxPts ∧
    (NewPoints2 E s w Round draw perm).swarm.MaxPts =
      (if w.UpdatesAtRoundStart = s.TotUpdates then 8 else 4) := by
  unfold NewPoints2
  dsimp only
  split_ifs <;> refine ⟨?_, ?_, ?_⟩ <;> first
    | exact Or.inl rfl
    | exact Or.inr rfl
    | rfl

theorem toNat_cast (N : Int) (h : 0 ≤ N) : ((N.toNat : Nat) : K) = (N : K) := by
  have := Int.toNat_of_nonneg h
  rw [← Int.cast_natCast, this]

/-- The seeds that `NewPoints1` leaves in `Swarm[NumSpecialPts .. NumSpecialPts+NumLHCPts-1]`
are one in each of the `NumLHCPts` bins of a dimension of positive width. -/
theorem NewPoints1_one_per_bin (E : Env K) (s : State K) (w : SwarmVars K) (Round : Int)
    (draw : Nat → Nat → K) (perm : Nat → List Nat)
    (hlen : w.Swarm.length = w.MaxSwarmPts.toNat)
    (hrows : ∀ k, k < w.Swarm.length → (w.Swarm.getD k []).length = E.NumCols)
    (hdraw : ∀ icol ibin, 0 ≤ draw icol ibin ∧ draw icol ibin < 1)
    (icol : Nat) (hicol : icol < E.NumCols)
    (hn : 1 ≤ (NewPoints1 E s w Round draw perm).NumLHCPts)
    (hperm : ∀ c, (perm c).Perm
      (List.range (NewPoints1 E s w Round draw perm).NumLHCPts.toNat))
    (hwidth : (NewPoints1 E s w Round draw perm).state.BoxBndLo.getD icol 0 <
      (NewPoints1 E s w Round draw perm).state.BoxBndUp.getD icol 0)
    (b : Nat) (hb : b < (NewPoints1 E s w Round draw perm).NumLHCPts.toNat) :
    binCount (NewPoints1 E s w Round draw perm).swarm.Swarm
      (NewPoints1 E s w Round draw perm).NumSpecialPts
      (NewPoints1 E s w Round draw perm).NumLHCPts.toNat icol
      ((NewPoints1 E s w Round draw perm).state.BoxBndLo.getD icol 0)
      ((NewPoints1 E s w Round draw perm).state.BoxBndUp.getD icol 0) b = 1 := by
  have hcount := (NewPoints1_counts E s w Round draw perm).2
  have hsw : (NewPoints1 E s w Round draw perm).swarm.Swarm =
      ((List.range E.NumCols).foldl
        (NewPoints_lhc_col (NewPoints1 E s w Round draw perm).state
          (NewPoints1 E s w Round draw perm).NumSpecialPts
          (NewPoints1 E s w Round draw perm).NumLHCPts draw perm)
        ((NewPoints_special E (NewPoints1 E s w Round draw perm).state
            (NewPoints_vectors E s Round) Round w.Swarm).1,
          List.replicate w.MaxSwarmPts.toNat 0)).1 := rfl
  generalize (NewPoints1 E s w Round draw perm).NumSpecialPts = a at hcount hsw ⊢
  generalize (NewPoints1 E s w Round draw perm).NumLHCPts = N at hcount hsw hn hperm hb ⊢
  generalize (NewPoints1 E s w Round draw perm).state = s1 at hsw hwidth ⊢
  generalize (NewPoints1 E s w Round draw perm).swarm.Swarm = S at hsw ⊢
  have hN0 : 0 ≤ N := by omega
  have htot : a + N.toNat = w.Swarm.length := by omega
  have hshape : SwarmShape w.Swarm (a + N.toNat) E.NumCols :=
    ⟨le_of_eq htot, fun k hk => hrows k (by omega)⟩
  have hspec := lhc_fold_spec s1 a N draw perm E.NumCols
    (NewPoints_special E s1 (NewPoints_vectors E s Round) Round w.Swarm).1
    (List.replicate w.MaxSwarmPts.toNat 0) (shape_special E s1 _ Round _ _ _ hshape)
    (by simp; omega)
    (fun c i hi => perm_range_getD (perm c) N.toNat (hperm c) i hi) E.NumCols (le_refl _)
  rw [← hsw] at hspec
  apply binCount_eq_one S a N.toNat icol _ _ (perm icol) (hperm icol) hwidth (draw icol)
    (hdraw icol) _ b hb
  intro i hi
  rw [hspec.2.2.1 icol hicol i hi, toNat_cast N hN0]

/-- The seeds that `NewPoints2` leaves in `Swarm[NumSpecialPts .. NumSpecialPts+NumLHCPts-1]`
are one in each of the `NumLHCPts` bins of a dimension of positive width. -/
theorem NewPoints2_one_per_bin (E : Env K) (s : State K) (w : SwarmVars K) (Round : Int)
    (draw : Nat → Nat → K) (perm : Nat → List Nat)
    (hlen : w.Swarm.length = w.MaxSwarmPts.toNat)
    (hrows : ∀ k, k < w.Swarm.length → (w.Swarm.getD k []).length = E.NumCols)
    (hdraw : ∀ icol ibin, 0 ≤ draw icol ibin ∧ draw icol ibin < 1)
    (icol : Nat) (hicol : icol < E.NumCols)
    (hn : 1 ≤ (NewPoints2 E s w Round draw perm).NumLHCPts)
    (hfit : (NewPoints2 E s w Round draw perm).NumSpecialPts +
      (NewPoints2 E s w Round draw perm).NumLHCPts.toNat ≤ w.Swarm.length)
    (hperm : ∀ c, (perm c).Perm
      (List.range (NewPoints2 E s w Round draw perm).NumLHCPts.toNat))
    (hwidth : (NewPoints2 E s w Round draw perm).state.BoxBndLo.getD icol 0 <
      (NewPoints2 E s w Round draw perm).state.BoxBndUp.getD icol 0)
    (b : Nat) (hb : b < (NewPoints2 E s w Round draw perm).NumLHCPts.toNat) :
    binCount (NewPoints2 E s w Round draw perm).swarm.Swarm
      (NewPoints2 E s w Round draw perm).NumSpecialPts
      (NewPoints2 E s w Round draw perm).NumLHCPts.toNat icol
      ((NewPoints2 E s w Round draw perm).state.BoxBndLo.getD icol 0)
      ((NewPoints2 E s w Round draw perm).state.BoxBndUp.getD icol 0) b = 1 := by
  have hsw : (NewPoints2 E s w Round draw perm).swarm.Swarm =
      if (NewPoints2 E s w Round draw perm).NumLHCPts > 0 then
        ((List.range E.NumCols).foldl
          (NewPoints_lhc_col (NewPoints2 E s w Round draw perm).state
            (NewPoints2 E s w Round draw perm).NumSpecialPts
            (NewPoints2 E s w Round draw perm).NumLHCPts draw perm)
          ((NewPoints_special E (NewPoints2 E s w Round draw perm).state
              (NewPoints_vectors E s Round) Round w.Swarm).1,
            List.replicate w.MaxSwarmPts.toNat 0)).1
      else (NewPoints_special E (NewPoints2 E s w Round draw perm).state
              (NewPoints_vectors E s Round) Round w.Swarm).1 := rfl
  generalize (NewPoints2 E s w Round draw perm).NumSpecialPts = a at hfit hsw ⊢
  generalize (NewPoints2 E s w Round draw perm).NumLHCPts = N at hfit hsw hn hperm hb ⊢
  generalize (NewPoints2 E s w Round draw perm).state = s1 at hsw hwidth ⊢
  generalize (NewPoints2 E s w Round draw perm).swarm.Swarm = S at hsw ⊢
  have hN0 : 0 ≤ N := by omega
  rw [if_pos (by omega)] at hsw
  have hshape : SwarmShape w.Swarm (a + N.toNat) E.NumCols :=
    ⟨hfit, fun k hk => hrows k (by omega)⟩
  have hspec := lhc_fold_spec s1 a N draw perm E.NumCols
    (NewPoints_special E s1 (NewPoints_vectors E s Round) Round w.Swarm).1
    (List.replicate w.MaxSwarmPts.toNat 0) (shape_special E s1 _ Round _ _ _ hshape)
    (by simp; omega)
    (fun c i hi => perm_range_getD (perm c) N.toNat (hperm c) i hi) E.NumCols (le_refl _)
  rw [← hsw] at hspec
  apply binCount_eq_one S a N.toNat icol _ _ (perm icol) (hperm icol) hwidth (draw icol)
    (hdraw icol) _ b hb
  intro i hi
  rw [hspec.2.2.1 icol hicol i hi, toNat_cast N hN0]

theorem foldl_setAt2_frame (g : Nat → Nat) (f : Nat → K) (a icol : Nat) (hg : ∀ i, a ≤ g i)
    (l : List Nat) (S : List (List K)) (k j : Nat) (hk : k < a) :
    getAt2 (l.foldl (fun S i => setAt2 S (g i) icol (f i)) S) k j = getAt2 S k j := by
  induction l generalizing S with
  | nil => rfl
  | cons x t ih =>
    simp only [List.foldl_cons]
    rw [ih, getAt2_setAt2_ne _ _ _ _ _ _ (Or.inl (by have := hg x; omega))]

/-- The Latin hypercube loop does not write to the special points. -/
theorem lhc_fold_frame (s : State K) (a : Nat) (N : Int) (draw : Nat → Nat → K)
    (perm : Nat → List Nat) (l : List Nat) (st : List (List K) × List K) (k j : Nat)
    (hk : k < a) :
    getAt2 (l.foldl (NewPoints_lhc_col s a N draw perm) st).1 k j = getAt2 st.1 k j := by
  induction l generalizing st with
  | nil => rfl
  | cons x t ih =>
    simp only [List.foldl_cons]
    rw [ih]
    unfold NewPoints_lhc_col
    dsimp only
    rw [foldl_setAt2_frame (fun i => i + a) _ a x (fun i => Nat.le_add_left a i) _ _ k j hk,
      foldl_setAt2_frame (fun i => a + i) _ a x (fun i => Nat.le_add_right a i) _ _ k j hk]

/-- C40: in `NewPoints1` and in `NewPoints2`, on a swarm of `MaxSwarmPts` points of
`n_cols` coordinates, with draws in `[0, 1)`, whenever `NumLHCPts ≥ 1`, the results of
`rand.Perm` are permutations of `0 .. NumLHCPts-1` and the box of dimension `icol` has
positive width, each of the `NumLHCPts` equal bins of `[BoxBndLo, BoxBndUp]` holds the
coordinate `icol` of exactly one of the seeds
`Swarm[NumSpecialPts .. NumSpecialPts+NumLHCPts-1]`. For `NewPoints2`, whose `NumLHCPts`
does not depend on `MaxSwarmPts`, these seeds are assumed to exist in the swarm. -/
theorem C40_LHC_seeds_one_per_bin (E : Env K) (s : State K) (w : SwarmVars K) (Round : Int)
    (draw : Nat → Nat → K) (perm : Nat → List Nat)
    (hlen : w.Swarm.length = w.MaxSwarmPts.toNat)
    (hrows : ∀ k, k < w.Swarm.length → (w.Swarm.getD k []).length = E.NumCols)
    (hdraw : ∀ icol ibin, 0 ≤ draw icol ibin ∧ draw icol ibin < 1)
    (icol : Nat) (hicol : icol < E.NumCols) :
    (1 ≤ (NewPoints1 E s w Round draw perm).NumLHCPts →
      (∀ c, (perm c).Perm (List.range (NewPoints1 E s w Round draw perm).NumLHCPts.toNat)) →
      (NewPoints1 E s w Round draw perm).state.BoxBndLo.getD icol 0 <
        (NewPoints1 E s w Round draw perm).state.BoxBndUp.getD icol 0 →
      ∀ b, b < (NewPoints1 E s w Round draw perm).NumLHCPts.toNat →
        binCount (NewPoints1 E s w Round draw perm).swarm.Swarm
          (NewPoints1 E s w Round draw perm).NumSpecialPts
          (NewPoints1 E s w Round draw perm).NumLHCPts.toNat icol
          ((NewPoints1 E s w Round draw perm).state.BoxBndLo.getD icol 0)
          ((NewPoints1 E s w Round draw perm).state.BoxBndUp.getD icol 0) b = 1) ∧
    (1 ≤ (NewPoints2 E s w Round draw perm).NumLHCPts →
      (NewPoints2 E s w Round draw perm).NumSpecialPts +
        (NewPoints2 E s w Round draw perm).NumLHCPts.toNat ≤ w.Swarm.length →
      (∀ c, (perm c).Perm (List.range (NewPoints2 E s w Round draw perm).NumLHCPts.toNat)) →
      (NewPoints2 E s w Round draw perm).state.BoxBndLo.getD icol 0 <
        (NewPoints2 E s w Round draw perm).state.BoxBndUp.getD icol 0 →
      ∀ b, b < (NewPoints2 E s w Round draw perm).NumLHCPts.toNat →
        binCount (NewPoints2 E s w Round draw perm).swarm.Swarm
          (NewPoints2 E s w Round draw perm).NumSpecialPts
          (NewPoints2 E s w Round draw perm).NumLHCPts.toNat icol
          ((NewPoints2 E s w Round draw perm).state.BoxBndLo.getD icol 0)
          ((NewPoints2 E s w Round draw perm).state.BoxBndUp.getD icol 0) b = 1) :=
  ⟨fun hn hperm hwidth b hb =>
      NewPoints1_one_per_bin E s w Round draw perm hlen hrows hdraw icol hicol hn hperm hwidth
        b hb,
    fun hn hfit hperm hwidth b hb =>
      NewPoints2_one_per_bin E s w Round draw perm hlen hrows hdraw icol hicol hn hfit hperm
        hwidth b hb⟩

/-- C32: of the `K = MaxSwarmPts` seeds of `NewPoints1` (`K ≥ 4`, a swarm of `K` points
of `n_cols` coordinates, draws in `[0, 1)`), the first `NumSpecialPts`, 3 or 4 of them,
are special points and only the other `NumLHCPts = K - NumSpecialPts` are Latin hypercube
samples. In round 0 the seeds 0 and 1 are the origin and the box centre whatever the
draws are. When `NumLHCPts ≥ 1`, the results of `rand.Perm` are permutations and the box
of the dimension has positive width, each of the `NumLHCPts` equal bins of the box holds
the coordinate of exactly one of the seeds `Swarm[NumSpecialPts .. K-1]`. -/
theorem C32_special_seeds_then_one_per_bin (E : Env K) (s : State K) (w : SwarmVars K)
    (Round : Int) (draw : Nat → Nat → K) (perm : Nat → List Nat)
    (hK : 4 ≤ w.MaxSwarmPts) (hlen : w.Swarm.length = w.MaxSwarmPts.toNat)
    (hrows : ∀ k, k < w.Swarm.length → (w.Swarm.getD k []).length = E.NumCols)
    (hdraw : ∀ icol ibin, 0 ≤ draw icol ibin ∧ draw icol ibin < 1)
    (icol : Nat) (hicol : icol < E.NumCols) :
    ((NewPoints1 E s w Round draw perm).NumSpecialPts = 3 ∨
      (NewPoints1 E s w Round draw perm).NumSpecialPts = 4) ∧
    (NewPoints1 E s w Round draw perm).NumLHCPts =
      w.MaxSwarmPts - ((NewPoints1 E s w Round draw perm).NumSpecialPts : Int) ∧
    (Round = 0 →
      getAt2 (NewPoints1 E s w Round draw perm).swarm.Swarm 0 icol = 0 ∧
      getAt2 (NewPoints1 E s w Round draw perm).swarm.Swarm 1 icol =
        ((NewPoints1 E s w Round draw perm).state.BoxBndLo.getD icol 0 +
          (NewPoints1 E s w Round draw perm).state.BoxBndUp.getD icol 0) / 2) ∧
    (1 ≤ (NewPoints1 E s w Round draw perm).NumLHCPts →
      (∀ c, (perm c).Perm (List.range (NewPoints1 E s w Round draw perm).NumLHCPts.toNat)) →
      (NewPoints1 E s w Round draw perm).state.BoxBndLo.getD icol 0 <
        (NewPoints1 E s w Round draw perm).state.BoxBndUp.getD icol 0 →
      ∀ b, b < (NewPoints1 E s w Round draw perm).NumLHCPts.toNat →
        binCount (NewPoints1 E s w Round draw perm).swarm.Swarm
          (NewPoints1 E s w Round draw perm).NumSpecialPts
          (NewPoints1 E s w Round draw perm).NumLHCPts.toNat icol
          ((NewPoints1 E s w Round draw perm).state.BoxBndLo.getD icol 0)
          ((NewPoints1 E s w Round draw perm).state.BoxBndUp.getD icol 0) b = 1) := by
  obtain ⟨hc1, hc2⟩ := NewPoints1_counts E s w Round draw perm
  refine ⟨hc1, by omega, fun hR => ?_, fun hn hperm hwidth b hb =>
    NewPoints1_one_per_bin E s w Round draw perm hlen hrows hdraw icol hicol hn hperm hwidth
      b hb⟩
  have hsw : (NewPoints1 E s w Round draw perm).swarm.Swarm =
      ((List.range E.NumCols).foldl
        (NewPoints_lhc_col (NewPoints1 E s w Round draw perm).state
          (NewPoints1 E s w Round draw perm).NumSpecialPts
          (NewPoints1 E s w Round draw perm).NumLHCPts draw perm)
        ((NewPoints_special E (NewPoints1 E s w Round draw perm).state
            (NewPoints_vectors E s Round) Round w.Swarm).1,
          List.replicate w.MaxSwarmPts.toNat 0)).1 := rfl
  generalize (NewPoints1 E s w Round draw perm).NumSpecialPts = a at hc1 hc2 hsw ⊢
  generalize (NewPoints1 E s w Round draw perm).NumLHCPts = N at hc2 hsw ⊢
  generalize (NewPoints1 E s w Round draw perm).state = s1 at hsw ⊢
  generalize (NewPoints1 E s w Round draw perm).swarm.Swarm = S at hsw ⊢
  have ha : 3 ≤ a ∧ a ≤ 4 := by rcases hc1 with h | h <;> omega
  have hN0 : 0 ≤ N := by omega
  have htot : a + N.toNat = w.Swarm.length := by omega
  have hshape : SwarmShape w.Swarm (a + N.toNat) E.NumCols :=
    ⟨le_of_eq htot, fun k hk => hrows k (by omega)⟩
  have hsp0 : (NewPoints_special E s1 (NewPoints_vectors E s Round) Round w.Swarm).1 =
      ((List.range E.NumCols).foldl (NewPoints_special0 s1) (w.Swarm, true)).1 := by
    unfold NewPoints_special
    rw [if_pos hR]
  have hspecial := special0_fold_spec s1 E.NumCols (a + N.toNat) w.Swarm hshape (by omega)
    E.NumCols (le_refl _) true
  rw [← hsp0] at hspecial
  rw [hsw, lhc_fold_frame s1 a N draw perm _ _ 0 icol (by omega),
    lhc_fold_frame s1 a N draw perm _ _ 1 icol (by omega)]
  exact hspecial.2 icol hicol

/-! ### The seeds of round 0 on the model of scenario 4 -/

theorem seed_box1 :
    NewPoints1_box (modelSeed ℚ sqrtQ) (initState (modelSeed ℚ sqrtQ)) 0 =
      { initState (modelSeed ℚ sqrtQ) with BoxBndLo := [0], BoxBndUp := [8] } := by
  have hc : List.range (modelSeed ℚ sqrtQ).NumCols = [0] := rfl
  have c : (modelSeed ℚ sqrtQ).col 0 = ⟨"R", 8, 0, []⟩ := rfl
  unfold NewPoints1_box
  rw [if_pos rfl, hc]
  simp only [List.map_cons, List.map_nil, NewPoints_box0, c]
  norm_num

theorem seed_special (v : NPVars ℚ) :
    NewPoints_special (modelSeed ℚ sqrtQ)
      { initState (modelSeed ℚ sqrtQ) with BoxBndLo := [0], BoxBndUp := [8] } v 0
      (List.replicate 8 [0]) = ([[0], [4], [0], [0], [0], [0], [0], [0]], true) := by
  have hc : List.range (modelSeed ℚ sqrtQ).NumCols = [0] := rfl
  unfold NewPoints_special
  rw [if_pos rfl, hc]
  simp only [List.foldl_cons, List.foldl_nil, NewPoints_special0, setAt2, List.replicate]
  norm_num

theorem seed_lhc (s : State ℚ) (hlo : s.BoxBndLo = [0]) (hup : s.BoxBndUp = [8]) :
    (NewPoints_lhc_col s 3 5 (fun _ _ => 1 / 2) (fun _ => [0, 1, 2, 3, 4])
      ([[0], [4], [0], [0], [0], [0], [0], [0]], List.replicate 8 0) 0).1 =
      [[0], [4], [0], [4 / 5], [12 / 5], [4], [28 / 5], [36 / 5]] := by
  have h5 : (5 : Int).toNat = 5 := rfl
  have r5 : List.range 5 = [0, 1, 2, 3, 4] := rfl
  unfold NewPoints_lhc_col
  rw [hlo, hup, h5, r5]
  simp only [List.foldl_cons, List.foldl_nil, setAt2, getAt2, List.replicate]
  norm_num

theorem seed_NewPoints1 :
    NewPoints1 (modelSeed ℚ sqrtQ) (initState (modelSeed ℚ sqrtQ)) seedSwarm 0
      (fun _ _ => 1 / 2) (fun _ => [0, 1, 2, 3, 4]) =
      ⟨{ initState (modelSeed ℚ sqrtQ) with BoxBndLo := [0], BoxBndUp := [8] },
        ⟨[[0], [4], [0], [4 / 5], [12 / 5], [4], [28 / 5], [36 / 5]], 8, 0, 0⟩, 3, 5⟩ := by
  have hc : List.range (modelSeed ℚ sqrtQ).NumCols = [0] := rfl
  have hsw : seedSwarm.Swarm = List.replicate 8 [0] := rfl
  have hM : seedSwarm.MaxSwarmPts = 8 := rfl
  unfold NewPoints1
  dsimp only
  rw [seed_box1, hsw, seed_special, hM, hc]
  simp only [List.foldl_cons, List.foldl_nil, and_self, if_true]
  have h8 : (8 : Int).toNat = 8 := rfl
  rw [h8]
  norm_num
  rw [seed_lhc _ rfl rfl]
  exact ⟨rfl, rfl, rfl⟩

theorem seed_box2 (v : NPVars ℚ) :
    NewPoints2_box (modelSeed ℚ sqrtQ) (initState (modelSeed ℚ sqrtQ)) v 0 =
      { initState (modelSeed ℚ sqrtQ) with BoxBndLo := [0], BoxBndUp := [8] } := by
  have hc : List.range (modelSeed ℚ sqrtQ).NumCols = [0] := rfl
  have c : (modelSeed ℚ sqrtQ).col 0 = ⟨"R", 8, 0, []⟩ := rfl
  unfold NewPoints2_box
  rw [if_pos rfl, hc]
  simp only [List.map_cons, List.map_nil, NewPoints_box0, c]
  norm_num

theorem seed_NewPoints2 :
    NewPoints2 (modelSeed ℚ sqrtQ) (initState (modelSeed ℚ sqrtQ)) seedSwarm 0
      (fun _ _ => 1 / 2) (fun _ => [0, 1, 2, 3, 4]) =
      ⟨{ initState (modelSeed ℚ sqrtQ) with BoxBndLo := [0], BoxBndUp := [8] },
        ⟨[[0], [4], [0], [4 / 5], [12 / 5], [4], [28 / 5], [36 / 5]], 8, 8, 0⟩, 3, 5⟩ := by
  have hc : List.range (modelSeed ℚ sqrtQ).NumCols = [0] := rfl
  have hsw : seedSwarm.Swarm = List.replicate 8 [0] := rfl
  have hM : seedSwarm.MaxSwarmPts = 8 := rfl
  have hU : seedSwarm.UpdatesAtRoundStart = (initState (modelSeed ℚ sqrtQ)).TotUpdates := rfl
  unfold NewPoints2
  dsimp only
  rw [seed_box2, hsw, seed_special, hM, hc, if_pos hU]
  simp only [List.foldl_cons, List.foldl_nil, and_self, if_true]
  have h8 : (8 : Int).toNat = 8 := rfl
  rw [h8]
  norm_num
  rw [seed_lhc _ rfl rfl]
  exact ⟨rfl, rfl⟩

theorem seed_hyps :
    seedSwarm.Swarm.length = seedSwarm.MaxSwarmPts.toNat ∧
    (∀ k, k < seedSwarm.Swarm.length →
      (seedSwarm.Swarm.getD k []).length = (modelSeed ℚ sqrtQ).NumCols) ∧
    (∀ icol ibin : Nat, (0 : ℚ) ≤ (fun _ _ => 1 / 2 : Nat → Nat → ℚ) icol ibin ∧
      (fun _ _ => 1 / 2 : Nat → Nat → ℚ) icol ibin < 1) := by
  refine ⟨rfl, fun k hk => ?_, fun _ _ => by norm_num⟩
  have hk8 : k < 8 := hk
  have hsw : seedSwarm.Swarm = [[0], [0], [0], [0], [0], [0], [0], [0]] := rfl
  rw [hsw]
  interval_cases k <;> rfl

/-- C32, counterexample: on the model of scenario 4 (one dimension `[0, 8]`), with
`K = MaxSwarmPts = 8`, the draws `1/2` and the identity permutation, the seeds of round
0 of `NewPoints1` are 0, 4, 0 (three special points) and `4/5, 12/5, 4, 28/5, 36/5` (five
Latin hypercube samples in five bins of width `8/5`). Of the eight unit intervals of
`[0, 8]`, the first holds three seeds and the second none. -/
theorem C32_counterexample :
    (NewPoints1 (modelSeed ℚ sqrtQ) (initState (modelSeed ℚ sqrtQ)) seedSwarm 0
      (fun _ _ => 1 / 2) (fun _ => [0, 1, 2, 3, 4])).swarm.Swarm =
      [[0], [4], [0], [4 / 5], [12 / 5], [4], [28 / 5], [36 / 5]] ∧
    (NewPoints1 (modelSeed ℚ sqrtQ) (initState (modelSeed ℚ sqrtQ)) seedSwarm 0
      (fun _ _ => 1 / 2) (fun _ => [0, 1, 2, 3, 4])).state.BoxBndLo = [0] ∧
    (NewPoints1 (modelSeed ℚ sqrtQ) (initState (modelSeed ℚ sqrtQ)) seedSwarm 0
      (fun _ _ => 1 / 2) (fun _ => [0, 1, 2, 3, 4])).state.BoxBndUp = [8] ∧
    binCount (NewPoints1 (modelSeed ℚ sqrtQ) (initState (modelSeed ℚ sqrtQ)) seedSwarm 0
      (fun _ _ => 1 / 2) (fun _ => [0, 1, 2, 3, 4])).swarm.Swarm 0 8 0 0 8 0 = 3 ∧
    binCount (NewPoints1 (modelSeed ℚ sqrtQ) (initState (modelSeed ℚ sqrtQ)) seedSwarm 0
      (fun _ _ => 1 / 2) (fun _ => [0, 1, 2, 3, 4])).swarm.Swarm 0 8 0 0 8 1 = 0 := by
  have r8 : List.range 8 = [0, 1, 2, 3, 4, 5, 6, 7] := rfl
  rw [seed_NewPoints1]
  refine ⟨rfl, rfl, rfl, ?_, ?_⟩
  · unfold binCount
    rw [r8]
    simp only [getAt2]
    norm_num [List.filter]
  · unfold binCount
    rw [r8]
    simp only [getAt2]
    norm_num [List.filter]

/-- C32 on the model of scenario 4 with `K = 8`, in round 0. -/
theorem C32_witness :
    (4 ≤ seedSwarm.MaxSwarmPts ∧ seedSwarm.Swarm.length = seedSwarm.MaxSwarmPts.toNat ∧
      0 < (modelSeed ℚ sqrtQ).NumCols) ∧
    (NewPoints1 (modelSeed ℚ sqrtQ) (initState (modelSeed ℚ sqrtQ)) seedSwarm 0
      (fun _ _ => 1 / 2) (fun _ => [0, 1, 2, 3, 4])).NumLHCPts = 8 - 3 ∧
    (∀ b, b < 5 →
      binCount (NewPoints1 (modelSeed ℚ sqrtQ) (initState (modelSeed ℚ sqrtQ)) seedSwarm 0
        (fun _ _ => 1 / 2) (fun _ => [0, 1, 2, 3, 4])).swarm.Swarm 3 5 0 0 8 b = 1) := by
  have h := C32_special_seeds_then_one_per_bin (modelSeed ℚ sqrtQ)
    (initState (modelSeed ℚ sqrtQ)) seedSwarm 0 (fun _ _ => 1 / 2) (fun _ => [0, 1, 2, 3, 4])
    (by decide) seed_hyps.1 seed_hyps.2.1 seed_hyps.2.2 0 (by decide)
  rw [seed_NewPoints1] at h
  refine ⟨⟨by decide, rfl, by decide⟩, by rw [seed_NewPoints1]; rfl, ?_⟩
  rw [seed_NewPoints1]
  exact h.2.2.2 (by decide) (fun _ => List.Perm.refl _) (by norm_num)

/-- C40 on the model of scenario 4 with a swarm of eight points, in round 0: five
Latin hypercube seeds after three special points, in `NewPoints1` and in `NewPoints2`. -/
theorem C40_witness :
    (seedSwarm.Swarm.length = seedSwarm.MaxSwarmPts.toNat ∧
      0 < (modelSeed ℚ sqrtQ).NumCols) ∧
    (∀ b, b < 5 →
      binCount (NewPoints1 (modelSeed ℚ sqrtQ) (initState (modelSeed ℚ sqrtQ)) seedSwarm 0
        (fun _ _ => 1 / 2) (fun _ => [0, 1, 2, 3, 4])).swarm.Swarm 3 5 0 0 8 b = 1) ∧
    (∀ b, b < 5 →
      binCount (NewPoints2 (modelSeed ℚ sqrtQ) (initState (modelSeed ℚ sqrtQ)) seedSwarm 0
        (fun _ _ => 1 / 2) (fun _ => [0, 1, 2, 3, 4])).swarm.Swarm 3 5 0 0 8 b = 1) := by
  have h := C40_LHC_seeds_one_per_bin (modelSeed ℚ sqrtQ)
    (initState (modelSeed ℚ sqrtQ)) seedSwarm 0 (fun _ _ => 1 / 2) (fun _ => [0, 1, 2, 3, 4])
    seed_hyps.1 seed_hyps.2.1 seed_hyps.2.2 0 (by decide)
  rw [seed_NewPoints1, seed_NewPoints2] at h
  refine ⟨⟨rfl, by decide⟩, ?_, ?_⟩
  · rw [seed_NewPoints1]
    exact h.1 (by decide) (fun _ => List.Perm.refl _) (by norm_num)
  · rw [seed_NewPoints2]
    exact h.2 (by decide) (by decide) (fun _ => List.Perm.refl _) (by norm_num)

/-! ### `Project` at a feasible base point -/

theorem Project_of_feasible_Pt0 (E : Env K) (s : State K) (Pt0 v : List K)
    (h : (GetSFD E Pt0).Status = 1) : Project E s Pt0 v = ⟨1, Pt0, s⟩ := by
  unfold Project
  simp [h]

/-- C9: when the base point `Pt0` is not feasible, a return of `Project` with status 1
has set the incumbent to the returned point, with `IncumbentSFD = 0` and
`IncumbentNINF = 0`. When `Pt0` itself is feasible, `Project` returns it at once with
status 1 (its first test) and leaves the package state, and so the incumbent, as it
was. -/
theorem C9_Project_status_one_incumbent (E : Env K) (s : State K) (Pt0 v : List K)
    (hlen : s.IncumbentPt.length = E.NumCols) :
    ((GetSFD E Pt0).Status ≠ 1 → (Project E s Pt0 v).Status = 1 →
      (Project E s Pt0 v).state.IncumbentPt = (Project E s Pt0 v).PointOut ∧
      (Project E s Pt0 v).state.IncumbentSFD = 0 ∧
      (Project E s Pt0 v).state.IncumbentNINF = 0) ∧
    ((GetSFD E Pt0).Status = 1 →
      (Project E s Pt0 v).Status = 1 ∧ (Project E s Pt0 v).PointOut = Pt0 ∧
      (Project E s Pt0 v).state = s) := by
  refine ⟨fun h0 h1 => Project_feasible_sets_incumbent E s Pt0 v hlen h0 h1, fun h => ?_⟩
  rw [Project_of_feasible_Pt0 E s Pt0 v h]
  exact ⟨rfl, rfl, rfl⟩

/-- C9 on the model of scenario 2: from the origin, which is not feasible, with the
update `(2, 0)`, `Project` returns the feasible point `(2, 0)` with status 1 and the
incumbent is that point. -/
theorem C9_witness :
    ((initState (modelG ℚ sqrtQ)).IncumbentPt.length = (modelG ℚ sqrtQ).NumCols ∧
      (GetSFD (modelG ℚ sqrtQ) [0, 0]).Status ≠ 1 ∧
      (Project (modelG ℚ sqrtQ) (initState (modelG ℚ sqrtQ)) [0, 0] [2, 0]).Status = 1) ∧
    (Project (modelG ℚ sqrtQ) (initState (modelG ℚ sqrtQ)) [0, 0] [2, 0]).PointOut = [2, 0] ∧
    (Project (modelG ℚ sqrtQ) (initState (modelG ℚ sqrtQ)) [0, 0] [2, 0]).state.IncumbentPt =
      [2, 0] ∧
    (Project (modelG ℚ sqrtQ) (initState (modelG ℚ sqrtQ)) [0, 0] [2, 0]).state.IncumbentSFD =
      0 ∧
    (Project (modelG ℚ sqrtQ) (initState (modelG ℚ sqrtQ)) [0, 0] [2, 0]).state.IncumbentNINF =
      0 := by
  have hlen : (initState (modelG ℚ sqrtQ)).IncumbentPt.length = (modelG ℚ sqrtQ).NumCols := by
    simp [initState]
  have h0 : (GetSFD (modelG ℚ sqrtQ) [0, 0]).Status ≠ 1 := by
    rw [modelG_origin_infeasible]; decide
  have h1 : (Project (modelG ℚ sqrtQ) (initState (modelG ℚ sqrtQ)) [0, 0] [2, 0]).Status = 1 := by
    rw [modelG_Project_origin]
  have hP : (Project (modelG ℚ sqrtQ) (initState (modelG ℚ sqrtQ)) [0, 0] [2, 0]).PointOut =
      [2, 0] := by
    rw [modelG_Project_origin]
  have h := (C9_Project_status_one_incumbent (modelG ℚ sqrtQ) (initState (modelG ℚ sqrtQ))
    [0, 0] [2, 0] hlen).1 h0 h1
  rw [hP] at h
  exact ⟨⟨hlen, h0, h1⟩, hP, h.1, h.2.1, h.2.2⟩

/-! ### The iterations of `CCSimple` -/

theorem CCSimple_el_fold_sums (E : Env K) (icon : Nat) (v : K) (b1 b2 : Bool) (l : List Nat)
    (a : CCAcc K) (b : CVAcc K) (h : a.NumViol = b.NumViol ∧ a.SumViol = b.SumViol) :
    (l.foldl (CCSimple_el E icon v) a).NumViol =
        (l.foldl (GetCV1_el E icon v b1 b2) b).NumViol ∧
      (l.foldl (CCSimple_el E icon v) a).SumViol =
        (l.foldl (GetCV1_el E icon v b1 b2) b).SumViol := by
  apply foldl_rel (fun (a : CCAcc K) (b : CVAcc K) =>
    a.NumViol = b.NumViol ∧ a.SumViol = b.SumViol) _ _ l a b h
  intro a b i hab
  unfold CCSimple_el GetCV1_el
  exact ⟨by dsimp only; rw [hab.1], by dsimp only; rw [hab.2]⟩

theorem CCSimple_con_sums (E : Env K) (x : List K) (a : CCAcc K) (b : CVAcc K) (i : Nat)
    (h : a.NumViol = b.NumViol ∧ a.SumViol = b.SumViol) :
    (CCSimple_con E x a i).NumViol = (GetCV1_con E x b i).NumViol ∧
      (CCSimple_con E x a i).SumViol = (GetCV1_con E x b i).SumViol := by
  unfold CCSimple_con GetCV1_con
  dsimp only
  by_cases h1 : (GetViolation E i x).FVStatus > 0
  · rw [if_pos h1, if_pos h1]; exact h
  rw [if_neg h1, if_neg h1]
  by_cases h2 : (GetViolation E i x).ViolStatus > 0
  · rw [if_pos h2, if_pos h2]; exact h
  rw [if_neg h2, if_neg h2]
  by_cases h3 : FVLenSq E i (GetViolation E i x).Violation < E.Alpha * E.Alpha
  · rw [if_pos h3, if_pos h3]; exact h
  rw [if_neg h3, if_neg h3]
  apply CCSimple_el_fold_sums
  split_ifs <;> exact h

theorem CCSimple_bnd_sums (E : Env K) (x : List K) (a : CCAcc K) (b : CVAcc K) (j : Nat)
    (h : a.NumViol = b.NumViol ∧ a.SumViol = b.SumViol) :
    (CCSimple_bnd E x a j).NumViol = (GetCV1_bnd E x b j).NumViol ∧
      (CCSimple_bnd E x a j).SumViol = (GetCV1_bnd E x b j).SumViol := by
  unfold CCSimple_bnd GetCV1_bnd
  dsimp only
  split_ifs <;> first
    | exact h
    | exact ⟨by dsimp only; rw [h.1], by dsimp only; rw [h.2]⟩

/-- The loops of `CCSimple` and of `GetCV1` accumulate the same counts and sums of the
feasibility vector components. -/
theorem CCSimple_loops_sums (E : Env K) (x : List K) :
    (CCSimple_loops E x).NumViol = (GetCV1_loops E x).NumViol ∧
      (CCSimple_loops E x).SumViol = (GetCV1_loops E x).SumViol := by
  unfold CCSimple_loops GetCV1_loops
  dsimp only
  apply foldl_rel (fun (a : CCAcc K) (b : CVAcc K) =>
    a.NumViol = b.NumViol ∧ a.SumViol = b.SumViol)
  · apply foldl_rel (fun (a : CCAcc K) (b : CVAcc K) =>
      a.NumViol = b.NumViol ∧ a.SumViol = b.SumViol)
    · exact ⟨rfl, rfl⟩
    · intro a b i hab
      exact CCSimple_con_sums E x a b i hab
  · intro a b i hab
    exact CCSimple_bnd_sums E x a b i hab

theorem foldl_set_own_getD (g : Nat → K → K) (n : Nat) (w : List K) (c : Nat)
    (hw : c < w.length) :
    ((List.range n).foldl (fun w j => w.set j (g j (w.getD j 0))) w).getD c 0 =
      if c < n then g c (w.getD c 0) else w.getD c 0 := by
  induction n with
  | zero => simp
  | succ n ih =>
    rw [List.range_succ, List.foldl_append]
    simp only [List.foldl_cons, List.foldl_nil]
    by_cases hcn : c = n
    · subst hcn
      rw [getD_set_eq _ _ _ _
        (by rw [length_foldl_set (fun w j => g j (w.getD j 0))]; exact hw)]
      rw [ih, if_neg (lt_irrefl c), if_pos (Nat.lt_succ_self c)]
    · rw [getD_set_ne _ _ _ _ _ (Ne.symm hcn), ih]
      by_cases h : c < n
      · rw [if_pos h, if_pos (Nat.lt_succ_of_lt h)]
      · rw [if_neg h, if_neg (by omega)]

/-- The coordinates of one update of `CCSimple`: coordinate `j` moves by the mean of the
contributions to column `j`, and stays where no counted violation touches it. -/
theorem CCSimple_next_getD (E : Env K) (p : List K) (hlen : p.length = E.NumCols) (j : Nat)
    (hj : j < E.NumCols) :
    (CCSimple_next E p).getD j 0 = p.getD j 0 +
      (if contribs E p j = [] then 0
        else (contribs E p j).sum / ((contribs E p j).length : K)) := by
  have hjp : j < p.length := by rw [hlen]; exact hj
  have hCV : (CCSimple_CV E (CCSimple_loops E p) p.length).getD j 0 =
      if (CCSimple_loops E p).NumViol.getD j 0 = 0 then 0
      else (CCSimple_loops E p).SumViol.getD j 0 /
        (((CCSimple_loops E p).NumViol.getD j 0 : Nat) : K) := by
    unfold CCSimple_CV
    have hf : (fun (CV : List K) (ivar : Nat) =>
        if (CCSimple_loops E p).NumViol.getD ivar 0 = 0 then CV.set ivar 0
        else CV.set ivar ((CCSimple_loops E p).SumViol.getD ivar 0 /
          (((CCSimple_loops E p).NumViol.getD ivar 0 : Nat) : K))) =
        fun (CV : List K) (ivar : Nat) => CV.set ivar
          (if (CCSimple_loops E p).NumViol.getD ivar 0 = 0 then 0
            else (CCSimple_loops E p).SumViol.getD ivar 0 /
              (((CCSimple_loops E p).NumViol.getD ivar 0 : Nat) : K)) := by
      funext CV ivar
      split_ifs <;> rfl
    rw [hf]
    exact foldl_set_getD (fun ivar =>
      if (CCSimple_loops E p).NumViol.getD ivar 0 = 0 then (0 : K)
      else (CCSimple_loops E p).SumViol.getD ivar 0 /
        (((CCSimple_loops E p).NumViol.getD ivar 0 : Nat) : K)) 0 E.NumCols _ j hj
      (by simpa using hjp)
  unfold CCSimple_next addCV
  rw [foldl_set_own_getD (fun j y => y + (CCSimple_CV E (CCSimple_loops E p) p.length).getD j 0)
    E.NumCols p j hjp, if_pos hj, hCV, (CCSimple_loops_sums E p).1, (CCSimple_loops_sums E p).2,
    ← contribs_length E p j hjp hj, ← contribs_sum E p j hjp hj]
  by_cases h0 : contribs E p j = []
  · rw [h0]; simp
  · rw [if_neg h0, if_neg (fun h => h0 (List.length_eq_zero.mp h))]

/-- The iteration loop of `CCSimple` leaves the counters of the projections as they
were: it calls no projection. -/
theorem CCSimple_itns_counters (E : Env K) (PointID : Int) (n : Nat) :
    ∀ (s : State K) (pt : List K) (a : K) (c : Int),
      (CCSimple_itns E PointID n s pt a c).2.LinProjSucceeds = s.LinProjSucceeds ∧
      (CCSimple_itns E PointID n s pt a c).2.LinProjFails = s.LinProjFails ∧
      (CCSimple_itns E PointID n s pt a c).2.QuadProjSucceeds = s.QuadProjSucceeds ∧
      (CCSimple_itns E PointID n s pt a c).2.QuadProjFails = s.QuadProjFails := by
  induction n with
  | zero =>
    intro s pt a c
    simp [CCSimple_itns]
  | succ n ih =>
    intro s pt a c
    rw [CCSimple_itns]
    dsimp only
    split_ifs with h0
    · exact ⟨rfl, rfl, rfl, rfl⟩
    · have hu : ∀ (q : List K) (x : K) (m : Int),
          (UpdateIncumbentSFD s q x m PointID).2.LinProjSucceeds = s.LinProjSucceeds ∧
          (UpdateIncumbentSFD s q x m PointID).2.LinProjFails = s.LinProjFails ∧
          (UpdateIncumbentSFD s q x m PointID).2.QuadProjSucceeds = s.QuadProjSucceeds ∧
          (UpdateIncumbentSFD s q x m PointID).2.QuadProjFails = s.QuadProjFails := by
        intro q x m
        unfold UpdateIncumbentSFD
        split_ifs <;> exact ⟨rfl, rfl, rfl, rfl⟩
      obtain ⟨i1, i2, i3, i4⟩ := ih (UpdateIncumbentSFD s
        (addCV E pt (CCSimple_CV E (CCSimple_loops E pt) pt.length))
        (CCSimple_loops E pt).SFD (CCSimple_loops E pt).NINF PointID).2
        (addCV E pt (CCSimple_CV E (CCSimple_loops E pt) pt.length))
        (CCSimple_loops E pt).SFD (CCSimple_loops E pt).NINF
      obtain ⟨u1, u2, u3, u4⟩ := hu (addCV E pt (CCSimple_CV E (CCSimple_loops E pt) pt.length))
        (CCSimple_loops E pt).SFD (CCSimple_loops E pt).NINF
      exact ⟨i1.trans u1, i2.trans u2, i3.trans u3, i4.trans u4⟩

/-- C26: from an infeasible input point `x` of the length of the model, `CCSimple`
performs between one and ten consensus iterations, each the update `x + CV_mean(x)`
(coordinate `j` moves by the mean of the feasibility-vector components of the counted
violations that touch it, and stays where none does): it emits the first iterate `x_k`,
`1 ≤ k ≤ 10`, at which no violation is counted, or the tenth if every earlier one is
infeasible. It emits `x + CV_mean(x)` when that point is feasible, and it changes none of
the projection counters. -/
theorem C26_CCSimple_runs_up_to_ten_iterations (E : Env K) (s : State K) (PointIn : List K)
    (PointID : Int) (hlen : PointIn.length = E.NumCols)
    (hinf : (GetSFD E PointIn).NINF ≠ 0) :
    (∀ p : List K, p.length = E.NumCols → ∀ j, j < E.NumCols →
      (CCSimple_next E p).getD j 0 = p.getD j 0 +
        (if contribs E p j = [] then 0
          else (contribs E p j).sum / ((contribs E p j).length : K))) ∧
    (∃ k, 1 ≤ k ∧ k ≤ 10 ∧
      (∀ i, i < k → (GetSFD E ((CCSimple_next E)^[i] PointIn)).NINF ≠ 0) ∧
      (k < 10 → (GetSFD E ((CCSimple_next E)^[k] PointIn)).NINF = 0) ∧
      (CCSimple E s PointIn PointID).1.Point = (CCSimple_next E)^[k] PointIn) ∧
    ((GetSFD E (CCSimple_next E PointIn)).NINF = 0 →
      (CCSimple E s PointIn PointID).1.Point = CCSimple_next E PointIn) ∧
    ((CCSimple E s PointIn PointID).2.LinProjSucceeds = s.LinProjSucceeds ∧
      (CCSimple E s PointIn PointID).2.LinProjFails = s.LinProjFails ∧
      (CCSimple E s PointIn PointID).2.QuadProjSucceeds = s.QuadProjSucceeds ∧
      (CCSimple E s PointIn PointID).2.QuadProjFails = s.QuadProjFails) := by
  have hcopy : copy (List.replicate PointIn.length (0 : K)) PointIn = PointIn :=
    copy_eq_of_length_eq _ _ (by simp)
  have hC : CCSimple E s PointIn PointID = CCSimple_itns E PointID 10 s PointIn 0 0 := by
    unfold CCSimple
    rw [hcopy]
  have hN : ∀ q : List K, (GetSFD E q).NINF = (CCSimple_loops E q).NINF := by
    intro q
    rw [GetSFD_NINF, ← CCSimple_loops_NINF]
  have hex : ∃ k, 1 ≤ k ∧ k ≤ 10 ∧
      (∀ i, i < k → (GetSFD E ((CCSimple_next E)^[i] PointIn)).NINF ≠ 0) ∧
      (k < 10 → (GetSFD E ((CCSimple_next E)^[k] PointIn)).NINF = 0) ∧
      (CCSimple E s PointIn PointID).1.Point = (CCSimple_next E)^[k] PointIn := by
    rcases CCSimple_itns_record E PointID 10 s PointIn 0 0 hlen with
      ⟨k, hk, hpre, hz, hrec⟩ | ⟨hall, hrec⟩
    · have hk1 : 1 ≤ k := by
        rcases Nat.eq_zero_or_pos k with h0 | h0
        · subst h0
          exact absurd (by simpa using hz) (by rw [← hN]; exact hinf)
        · exact h0
      refine ⟨k, hk1, Nat.le_of_lt hk, fun i hi => ?_, fun _ => ?_, ?_⟩
      · rw [hN]; exact hpre i hi
      · rw [hN]; exact hz
      · rw [hC, hrec]
    · refine ⟨10, by decide, le_refl 10, fun i hi => ?_, fun h => absurd h (lt_irrefl 10), ?_⟩
      · rw [hN]; exact hall i hi
      · rw [hC, hrec]
  refine ⟨fun p hp j hj => CCSimple_next_getD E p hp j hj, hex, ?_, ?_⟩
  · intro h1
    obtain ⟨k, hk1, _, hpre, _, hrec⟩ := hex
    rcases Nat.lt_or_ge 1 k with h | h
    · exact absurd (by simpa using h1) (hpre 1 h)
    · have : k = 1 := le_antisymm h hk1
      subst this
      rw [hrec]; rfl
  · rw [hC]
    exact CCSimple_itns_counters E PointID 10 s PointIn 0 0

/-- C26 on the infeasible model on one variable (rows `x ≥ 2`, `x ≤ 1`, bounds `[0, 10]`)
from the infeasible point `x = 0`. -/
theorem C26_witness :
    ([(0 : ℚ)].length = (modelInfeasible ℚ sqrtQ 0 10).NumCols ∧
      (GetSFD (modelInfeasible ℚ sqrtQ 0 10) [0]).NINF ≠ 0) ∧
    (∀ p : List ℚ, p.length = (modelInfeasible ℚ sqrtQ 0 10).NumCols →
      ∀ j, j < (modelInfeasible ℚ sqrtQ 0 10).NumCols →
      (CCSimple_next (modelInfeasible ℚ sqrtQ 0 10) p).getD j 0 = p.getD j 0 +
        (if contribs (modelInfeasible ℚ sqrtQ 0 10) p j = [] then 0
          else (contribs (modelInfeasible ℚ sqrtQ 0 10) p j).sum /
            ((contribs (modelInfeasible ℚ sqrtQ 0 10) p j).length : ℚ))) ∧
    (∃ k, 1 ≤ k ∧ k ≤ 10 ∧
      (∀ i, i < k → (GetSFD (modelInfeasible ℚ sqrtQ 0 10)
        ((CCSimple_next (modelInfeasible ℚ sqrtQ 0 10))^[i] [0])).NINF ≠ 0) ∧
      (k < 10 → (GetSFD (modelInfeasible ℚ sqrtQ 0 10)
        ((CCSimple_next (modelInfeasible ℚ sqrtQ 0 10))^[k] [0])).NINF = 0) ∧
      (CCSimple (modelInfeasible ℚ sqrtQ 0 10) (initState (modelInfeasible ℚ sqrtQ 0 10))
        [0] 0).1.Point = (CCSimple_next (modelInfeasible ℚ sqrtQ 0 10))^[k] [0]) ∧
    ((GetSFD (modelInfeasible ℚ sqrtQ 0 10)
        (CCSimple_next (modelInfeasible ℚ sqrtQ 0 10) [0])).NINF = 0 →
      (CCSimple (modelInfeasible ℚ sqrtQ 0 10) (initState (modelInfeasible ℚ sqrtQ 0 10))
        [0] 0).1.Point = CCSimple_next (modelInfeasible ℚ sqrtQ 0 10) [0]) ∧
    ((CCSimple (modelInfeasible ℚ sqrtQ 0 10) (initState (modelInfeasible ℚ sqrtQ 0 10))
        [0] 0).2.LinProjSucceeds = (initState (modelInfeasible ℚ sqrtQ 0 10)).LinProjSucceeds ∧
      (CCSimple (modelInfeasible ℚ sqrtQ 0 10) (initState (modelInfeasible ℚ sqrtQ 0 10))
        [0] 0).2.LinProjFails = (initState (modelInfeasible ℚ sqrtQ 0 10)).LinProjFails ∧
      (CCSimple (modelInfeasible ℚ sqrtQ 0 10) (initState (modelInfeasible ℚ sqrtQ 0 10))
        [0] 0).2.QuadProjSucceeds =
          (initState (modelInfeasible ℚ sqrtQ 0 10)).QuadProjSucceeds ∧
      (CCSimple (modelInfeasible ℚ sqrtQ 0 10) (initState (modelInfeasible ℚ sqrtQ 0 10))
        [0] 0).2.QuadProjFails = (initState (modelInfeasible ℚ sqrtQ 0 10)).QuadProjFails) :=
  ⟨⟨rfl, (inf_run_ten (initState (modelInfeasible ℚ sqrtQ 0 10)) 0).1⟩,
    C26_CCSimple_runs_up_to_ten_iterations (modelInfeasible ℚ sqrtQ 0 10)
      (initState (modelInfeasible ℚ sqrtQ 0 10)) [0] 0 rfl
      (inf_run_ten (initState (modelInfeasible ℚ sqrtQ 0 10)) 0).1⟩

/-! ### The loops of `CCSimple` on the infeasible model, whatever the bounds -/

theorem infm_v0 (sqrt : K → K) (lo up x : K) (h : x < 2 - 1 / 1000000) :
    GetViolation (modelInfeasible K sqrt lo up) 0 [x] = ⟨0, 0, 2 - x⟩ := by
  have hG := (GetViolation_G (modelInfeasible K sqrt lo up) 0 [x] (show (0 : Nat) < 2 by decide) rfl).2
  have hb : rowBody (modelInfeasible K sqrt lo up) 0 [x] = x := by
    simp [rowBody, modelInfeasible, Env.row, Env.elem]
  rw [hb] at hG
  exact hG (by
    have : ((modelInfeasible K sqrt lo up).row 0).RHSlo = 2 := rfl
    have hf : (modelInfeasible K sqrt lo up).featol = 1 / 1000000 := rfl
    rw [this, hf]; exact not_le.mpr h)

theorem infm_v0_sat (sqrt : K → K) (lo up x : K) (h : 2 - 1 / 1000000 ≤ x) :
    (GetViolation (modelInfeasible K sqrt lo up) 0 [x]).ViolStatus ≠ 0 := by
  have hG := (GetViolation_G (modelInfeasible K sqrt lo up) 0 [x] (show (0 : Nat) < 2 by decide) rfl).1
  have hb : rowBody (modelInfeasible K sqrt lo up) 0 [x] = x := by
    simp [rowBody, modelInfeasible, Env.row, Env.elem]
  rw [hb] at hG
  exact hG h

theorem infm_v1 (sqrt : K → K) (lo up x : K) (h : 1 + 1 / 1000000 < x) :
    GetViolation (modelInfeasible K sqrt lo up) 1 [x] = ⟨0, 0, 1 - x⟩ := by
  have hL := (GetViolation_L (modelInfeasible K sqrt lo up) 1 [x] (show (1 : Nat) < 2 by decide) rfl).2
  have hb : rowBody (modelInfeasible K sqrt lo up) 1 [x] = x := by
    simp [rowBody, modelInfeasible, Env.row, Env.elem]
  rw [hb] at hL
  exact hL (by
    have : ((modelInfeasible K sqrt lo up).row 1).RHSup = 1 := rfl
    have hf : (modelInfeasible K sqrt lo up).featol = 1 / 1000000 := rfl
    rw [this, hf]; exact not_le.mpr h)

theorem infm_v1_sat (sqrt : K → K) (lo up x : K) (h : x ≤ 1 + 1 / 1000000) :
    (GetViolation (modelInfeasible K sqrt lo up) 1 [x]).ViolStatus ≠ 0 := by
  have hL := (GetViolation_L (modelInfeasible K sqrt lo up) 1 [x] (show (1 : Nat) < 2 by decide) rfl).1
  have hb : rowBody (modelInfeasible K sqrt lo up) 1 [x] = x := by
    simp [rowBody, modelInfeasible, Env.row, Env.elem]
  rw [hb] at hL
  exact hL h

theorem infm_con_skip (sqrt : K → K) (lo up : K) (x : List K) (icon : Nat) (acc : CCAcc K)
    (h : (GetViolation (modelInfeasible K sqrt lo up) icon x).ViolStatus ≠ 0) :
    CCSimple_con (modelInfeasible K sqrt lo up) x acc icon = acc := by
  unfold CCSimple_con
  dsimp only
  split_ifs with h1 h2
  · rfl
  · rfl
  · exact absurd (Nat.pos_of_ne_zero h) h2
  · exact absurd (Nat.pos_of_ne_zero h) h2

/-- The row `x ≥ 2` of the infeasible model in the loop of `CCSimple` over the
constraints, at a point below 2 by more than the tolerance. -/
theorem infm_con0 (sqrt : K → K) (hs : SqrtSpec sqrt) (lo up x : K)
    (h : x < 2 - 1 / 1000000) (acc : CCAcc K) :
    CCSimple_con (modelInfeasible K sqrt lo up) [x] acc 0 =
      { acc with SFD := acc.SFD + (2 - x), NINF := acc.NINF + 1,
                 NumViol := incrAt acc.NumViol 0,
                 SumViol := addAt acc.SumViol 0 (2 - x),
                 SumWeightedViol := addAt acc.SumWeightedViol 0 ((2 - x) * |2 - x|),
                 SumWeights := addAt acc.SumWeights 0 |2 - x| } := by
  have f : FVLenSq (modelInfeasible K sqrt lo up) 0 (2 - x) = (2 - x) * (2 - x) := by
    simp [FVLenSq, modelInfeasible, Env.row, Env.elem]
  have hA : (modelInfeasible K sqrt lo up).Alpha = 1 / 1000000 := rfl
  have hsq : (modelInfeasible K sqrt lo up).sqrt = sqrt := rfl
  have hel : ((modelInfeasible K sqrt lo up).row 0).ElList = [0] := rfl
  have he0 : (modelInfeasible K sqrt lo up).elem 0 = ⟨0, 0, 1⟩ := rfl
  have hg : ((modelInfeasible K sqrt lo up).row 0).GradVecLenSq = 1 := rfl
  have hr : sqrt ((2 - x) * (2 - x)) = 2 - x :=
    sqrt_eq_of_mul_self sqrt hs (2 - x) _ (by linarith) rfl
  have hth : ¬ (2 - x) * (2 - x) < (1 / 1000000 : K) * (1 / 1000000) := by
    have h1 : (1 / 1000000 : K) ≤ 2 - x := by linarith
    exact not_lt.mpr (mul_self_le_mul_self (by norm_num) h1)
  simp only [CCSimple_con, infm_v0 sqrt lo up x h, f, hA, hsq, hr, hel, List.foldl,
    CCSimple_el, he0, hg, if_neg hth]
  simp

/-- The row `x ≤ 1` of the infeasible model in the loop of `CCSimple` over the
constraints, at a point above 1 by more than the tolerance. -/
theorem infm_con1 (sqrt : K → K) (hs : SqrtSpec sqrt) (lo up x : K)
    (h : 1 + 1 / 1000000 < x) (acc : CCAcc K) :
    CCSimple_con (modelInfeasible K sqrt lo up) [x] acc 1 =
      { acc with SFD := acc.SFD + (x - 1), NINF := acc.NINF + 1,
                 NumViol := incrAt acc.NumViol 0,
                 SumViol := addAt acc.SumViol 0 (1 - x),
                 SumWeightedViol := addAt acc.SumWeightedViol 0 ((1 - x) * |1 - x|),
                 SumWeights := addAt acc.SumWeights 0 |1 - x| } := by
  have f : FVLenSq (modelInfeasible K sqrt lo up) 1 (1 - x) = (1 - x) * (1 - x) := by
    simp [FVLenSq, modelInfeasible, Env.row, Env.elem]
  have hA : (modelInfeasible K sqrt lo up).Alpha = 1 / 1000000 := rfl
  have hsq : (modelInfeasible K sqrt lo up).sqrt = sqrt := rfl
  have hel : ((modelInfeasible K sqrt lo up).row 1).ElList = [1] := rfl
  have he1 : (modelInfeasible K sqrt lo up).elem 1 = ⟨1, 0, 1⟩ := rfl
  have hg : ((modelInfeasible K sqrt lo up).row 1).GradVecLenSq = 1 := rfl
  have hr : sqrt ((1 - x) * (1 - x)) = x - 1 :=
    sqrt_eq_of_mul_self sqrt hs (x - 1) _ (by linarith) (by ring)
  have hth : ¬ (1 - x) * (1 - x) < (1 / 1000000 : K) * (1 / 1000000) := by
    have h1 : (1 / 1000000 : K) ≤ x - 1 := by linarith
    have h2 := mul_self_le_mul_self (by norm_num) h1
    have e : (1 - x) * (1 - x) = (x - 1) * (x - 1) := by ring
    rw [e]
    exact not_lt.mpr h2
  simp only [CCSimple_con, infm_v1 sqrt lo up x h, f, hA, hsq, hr, hel, List.foldl,
    CCSimple_el, he1, hg, if_neg hth]
  simp

/-- The variable of the infeasible model in the loop of `CCSimple` over the bounds, at a
point inside the bounds. -/
theorem infm_bnd_in (sqrt : K → K) (lo up x : K) (h0 : lo - 1 / 1000000 ≤ x)
    (h1 : x ≤ up + 1 / 1000000) (acc : CCAcc K) :
    CCSimple_bnd (modelInfeasible K sqrt lo up) [x] acc 0 = acc := by
  have c : (modelInfeasible K sqrt lo up).col 0 = ⟨"R", up, lo, [0, 1]⟩ := rfl
  have hA : (modelInfeasible K sqrt lo up).Alpha = 1 / 1000000 := rfl
  unfold CCSimple_bnd
  rw [c, hA]
  have e : ([x] : List K).getD 0 0 = x := rfl
  rw [e]
  dsimp only
  rw [if_pos h0, if_pos h1]

/-- The variable of the infeasible model in the loop of `CCSimple` over the bounds, at a
point above the upper bound by more than `Alpha`. -/
theorem infm_bnd_up (sqrt : K → K) (lo up x : K) (h0 : lo - 1 / 1000000 ≤ x)
    (h1 : x - up > 1 / 1000000) (acc : CCAcc K) :
    CCSimple_bnd (modelInfeasible K sqrt lo up) [x] acc 0 =
      { acc with NINF := acc.NINF + 1, NumViol := incrAt acc.NumViol 0,
                 SumViol := addAt acc.SumViol 0 (up - x), SFD := acc.SFD + |up - x|,
                 SumWeightedViol :=
                   acc.SumWeightedViol.set 0 ((addAt acc.SumViol 0 (up - x)).getD 0 0),
                 SumWeights := addAt acc.SumWeights 0 (up - x) } := by
  have c : (modelInfeasible K sqrt lo up).col 0 = ⟨"R", up, lo, [0, 1]⟩ := rfl
  have hA : (modelInfeasible K sqrt lo up).Alpha = 1 / 1000000 := rfl
  unfold CCSimple_bnd
  rw [c, hA]
  have e : ([x] : List K).getD 0 0 = x := rfl
  rw [e]
  dsimp only
  rw [if_pos h0, if_neg (by linarith), if_pos h1]

theorem infm_loops_eq (sqrt : K → K) (lo up x : K) :
    CCSimple_loops (modelInfeasible K sqrt lo up) [x] =
      CCSimple_bnd (modelInfeasible K sqrt lo up) [x]
        (CCSimple_con (modelInfeasible K sqrt lo up) [x]
          (CCSimple_con (modelInfeasible K sqrt lo up) [x] ⟨0, 0, [0], [0], [0], [0]⟩ 0) 1) 0 :=
  rfl

/-- One update of `CCSimple` on the infeasible model, from the count and the sum of the
feasibility vector components that its loops accumulate. -/
theorem infm_next (sqrt : K → K) (lo up x y : K) (nv : Nat) (sv : K)
    (hN : (CCSimple_loops (modelInfeasible K sqrt lo up) [x]).NumViol = [nv])
    (hS : (CCSimple_loops (modelInfeasible K sqrt lo up) [x]).SumViol = [sv])
    (hnv : nv ≠ 0) (hy : x + sv / (nv : K) = y) :
    CCSimple_next (modelInfeasible K sqrt lo up) [x] = [y] := by
  have hc : List.range (modelInfeasible K sqrt lo up).NumCols = [0] := rfl
  unfold CCSimple_next CCSimple_CV addCV
  rw [hc, hN, hS]
  simp [hnv, hy]

/-! ### `Solve` on the infeasible model with the variable fixed at `1/2` -/

/-- At the value `1/2` of the fixed variable, and up to `Alpha` above it, the only
violation is the row `x ≥ 2`: the update goes to 2. -/
theorem half_next_low (sqrt : K → K) (hs : SqrtSpec sqrt) (x : K) (h0 : 1 / 2 ≤ x)
    (h1 : x ≤ 1 / 2 + 1 / 1000000) :
    CCSimple_next (modelInfeasible K sqrt (1 / 2) (1 / 2)) [x] = [2] := by
  have hl : CCSimple_loops (modelInfeasible K sqrt (1 / 2) (1 / 2)) [x] =
      _ := infm_loops_eq sqrt (1 / 2) (1 / 2) x
  rw [infm_con0 sqrt hs _ _ x (by linarith),
    infm_con_skip sqrt _ _ [x] 1 _ (infm_v1_sat sqrt _ _ x (by linarith)),
    infm_bnd_in sqrt _ _ x (by linarith) h1] at hl
  apply infm_next sqrt _ _ x 2 1 (2 - x)
  · rw [hl]; rfl
  · rw [hl]; simp [addAt]
  · decide
  · simp

/-- Between the bound and the right-hand side 1 the violations are the row `x ≥ 2` and
the bound: the update goes to `5/4`. -/
theorem half_next_mid (sqrt : K → K) (hs : SqrtSpec sqrt) (x : K)
    (h0 : 1 / 2 + 1 / 1000000 < x) (h1 : x ≤ 1 + 1 / 1000000) :
    CCSimple_next (modelInfeasible K sqrt (1 / 2) (1 / 2)) [x] = [5 / 4] := by
  have hl : CCSimple_loops (modelInfeasible K sqrt (1 / 2) (1 / 2)) [x] =
      _ := infm_loops_eq sqrt (1 / 2) (1 / 2) x
  rw [infm_con0 sqrt hs _ _ x (by linarith),
    infm_con_skip sqrt _ _ [x] 1 _ (infm_v1_sat sqrt _ _ x h1),
    infm_bnd_up sqrt _ _ x (by linarith) (by linarith)] at hl
  apply infm_next sqrt _ _ x (5 / 4) 2 (2 - x + (1 / 2 - x))
  · rw [hl]; rfl
  · rw [hl]; simp [addAt]
  · decide
  · push_cast; ring

/-- Between the two right-hand sides the three violations are counted: the update goes
to `7/6`, and the loops report `NINF = 3` and `SFD = x + 1/2`. -/
theorem half_next_high (sqrt : K → K) (hs : SqrtSpec sqrt) (x : K)
    (h0 : 1 + 1 / 1000000 < x) (h1 : x < 2 - 1 / 1000000) :
    CCSimple_next (modelInfeasible K sqrt (1 / 2) (1 / 2)) [x] = [7 / 6] ∧
    (CCSimple_loops (modelInfeasible K sqrt (1 / 2) (1 / 2)) [x]).SFD = x + 1 / 2 ∧
    (CCSimple_loops (modelInfeasible K sqrt (1 / 2) (1 / 2)) [x]).NINF = 3 := by
  have hl : CCSimple_loops (modelInfeasible K sqrt (1 / 2) (1 / 2)) [x] =
      _ := infm_loops_eq sqrt (1 / 2) (1 / 2) x
  rw [infm_con0 sqrt hs _ _ x h1, infm_con1 sqrt hs _ _ x h0,
    infm_bnd_up sqrt _ _ x (by linarith) (by linarith)] at hl
  refine ⟨?_, ?_, ?_⟩
  · apply infm_next sqrt _ _ x (7 / 6) 3 (2 - x + (1 - x) + (1 / 2 - x))
    · rw [hl]; rfl
    · rw [hl]; simp [addAt]
    · decide
    · push_cast; ring
  · rw [hl]
    have ha : |1 / 2 - x| = x - 1 / 2 := by
      rw [abs_of_nonpos (by linarith)]; ring
    simp only [ha]
    ring
  · rw [hl]; rfl

/-- At the point 2 the violations are the row `x ≤ 1` and the bound: the update goes to
`3/4`. -/
theorem half_next_two (sqrt : K → K) (hs : SqrtSpec sqrt) :
    CCSimple_next (modelInfeasible K sqrt (1 / 2) (1 / 2)) [2] = [3 / 4] := by
  have hl : CCSimple_loops (modelInfeasible K sqrt (1 / 2) (1 / 2)) [2] =
      _ := infm_loops_eq sqrt (1 / 2) (1 / 2) 2
  rw [infm_con_skip sqrt _ _ [2] 0 _ (infm_v0_sat sqrt _ _ 2 (by norm_num)),
    infm_con1 sqrt hs _ _ 2 (by norm_num),
    infm_bnd_up sqrt _ _ 2 (by norm_num) (by norm_num)] at hl
  apply infm_next sqrt _ _ 2 (3 / 4) 2 (1 - 2 + (1 / 2 - 2))
  · rw [hl]; rfl
  · rw [hl]; simp [addAt]
  · decide
  · norm_num

/-- From a point of `[1/2, 7/6]` the updates of `CCSimple` reach `7/6` in at most four
steps and stay there. -/
theorem half_iterates (sqrt : K → K) (hs : SqrtSpec sqrt) (x : K) (h0 : 1 / 2 ≤ x)
    (h1 : x ≤ 7 / 6) (k : Nat) :
    (CCSimple_next (modelInfeasible K sqrt (1 / 2) (1 / 2)))^[k + 4] [x] = [7 / 6] := by
  have n2 := half_next_two sqrt hs
  have n34 := half_next_mid sqrt hs (3 / 4) (by norm_num) (by norm_num)
  have n54 := (half_next_high sqrt hs (5 / 4) (by norm_num) (by norm_num)).1
  have n76 := (half_next_high sqrt hs (7 / 6) (by norm_num) (by norm_num)).1
  induction k with
  | zero =>
    simp only [Nat.zero_add, show (4 : Nat) = 0 + 1 + 1 + 1 + 1 from rfl,
      Function.iterate_succ_apply, Function.iterate_zero_apply]
    by_cases c1 : x ≤ 1 / 2 + 1 / 1000000
    · rw [half_next_low sqrt hs x h0 c1, n2, n34, n54]
    · by_cases c2 : x ≤ 1 + 1 / 1000000
      · rw [half_next_mid sqrt hs x (not_le.mp c1) c2, n54, n76, n76]
      · have h76 : (7 / 6 : K) < 2 - 1 / 1000000 := by norm_num
        rw [(half_next_high sqrt hs x (not_le.mp c2) (by linarith)).1, n76, n76, n76]
  | succ k ih =>
    rw [show k + 1 + 4 = (k + 4) + 1 by omega, Function.iterate_succ_apply', ih, n76]

/-- On the infeasible model with the variable fixed at `1/2`, every run of `CCSimple`
from a point of `[1/2, 7/6]` sends the record of the point `7/6`, with `SFD = 5/3` and
`NINF = 3`. -/
theorem half_run (sqrt : K → K) (hs : SqrtSpec sqrt) (s : State K) (x : K) (PointID : Int)
    (h0 : 1 / 2 ≤ x) (h1 : x ≤ 7 / 6) :
    (CCSimple (modelInfeasible K sqrt (1 / 2) (1 / 2)) s [x] PointID).1 =
      ⟨[7 / 6], 5 / 3, 3⟩ := by
  have hC : CCSimple (modelInfeasible K sqrt (1 / 2) (1 / 2)) s [x] PointID =
      CCSimple_itns (modelInfeasible K sqrt (1 / 2) (1 / 2)) PointID 10 s [x] 0 0 := rfl
  have hinf : ∀ q : List K,
      (CCSimple_loops (modelInfeasible K sqrt (1 / 2) (1 / 2)) q).NINF ≠ 0 := by
    intro q
    have := (infeasible_loops (modelInfeasible K sqrt (1 / 2) (1 / 2)) hs rfl rfl rfl rfl q).1
    rw [CCSimple_loops_NINF]
    omega
  have hh := half_next_high sqrt hs (7 / 6) (by norm_num) (by norm_num)
  rcases CCSimple_itns_record (modelInfeasible K sqrt (1 / 2) (1 / 2)) PointID 10 s [x] 0 0 rfl
    with ⟨k, _, _, hz, _⟩ | ⟨_, hrec⟩
  · exact absurd hz (hinf _)
  · rw [hC, hrec, half_iterates sqrt hs x h0 h1 6]
    have e9 : (10 : Nat) - 1 = 5 + 4 := rfl
    rw [e9, half_iterates sqrt hs x h0 h1 5, hh.2.1, hh.2.2]
    simp only [show (10 : Nat) ≠ 0 by decide, if_false]
    norm_num

theorem half_box0 (sqrt : K → K) :
    (initBox (modelInfeasible K sqrt (1 / 2) (1 / 2))
      (initState (modelInfeasible K sqrt (1 / 2) (1 / 2)))).BoxBndLo = [1 / 2] ∧
    (initBox (modelInfeasible K sqrt (1 / 2) (1 / 2))
      (initState (modelInfeasible K sqrt (1 / 2) (1 / 2)))).BoxBndUp = [1 / 2] := by
  have hc : List.range (modelInfeasible K sqrt (1 / 2) (1 / 2)).NumCols = [0] := rfl
  have c : (modelInfeasible K sqrt (1 / 2) (1 / 2)).col 0 = ⟨"R", 1 / 2, 1 / 2, [0, 1]⟩ := rfl
  unfold initBox
  rw [hc]
  simp only [List.map_cons, List.map_nil, c]
  norm_num

theorem half_sample (sqrt : K → K) (s : State K) (lo up : K) (hlo : s.BoxBndLo = [lo])
    (hup : s.BoxBndUp = [up]) (r : Nat → K) :
    samplePoint (modelInfeasible K sqrt (1 / 2) (1 / 2)) s r = [lo + r 0 * (up - lo)] := by
  have hc : List.range (modelInfeasible K sqrt (1 / 2) (1 / 2)).NumCols = [0] := rfl
  unfold samplePoint
  rw [hc, hlo, hup]
  simp

/-- The records of a round of `Solve` on the infeasible model with the variable fixed at
`1/2`, when every sample point lies in `[1/2, 7/6]`: 100 times the record of `7/6`. -/
theorem half_records (sqrt : K → K) (hs : SqrtSpec sqrt) (s : State K) (lo up : K)
    (hlo : s.BoxBndLo = [lo]) (hup : s.BoxBndUp = [up]) (r : Nat → Nat → K)
    (hr : ∀ i, 1 / 2 ≤ lo + r i 0 * (up - lo) ∧ lo + r i 0 * (up - lo) ≤ 7 / 6) :
    (Solve_launch (modelInfeasible K sqrt (1 / 2) (1 / 2)) s r).2 =
      (List.range 100).map (fun _ => (⟨[7 / 6], 5 / 3, 3⟩ : POINTDATA K)) := by
  apply Solve_launch_records_of
  intro st i
  rw [half_sample sqrt s lo up hlo hup (r i)]
  exact half_run sqrt hs st _ _ (hr i).1 (hr i).2

theorem const_sums_n (c : POINTDATA K) (g : POINTDATA K → K) (n : Nat) :
    (((List.range n).map (fun _ => c)).map g).sum = (n : K) * g c := by
  induction n with
  | zero => simp
  | succ n ih =>
    rw [List.range_succ]
    simp only [List.map_append, List.sum_append, List.map_cons, List.map_nil, List.sum_cons,
      List.sum_nil, ih]
    push_cast
    ring

theorem const_sums (c : POINTDATA K) (g : POINTDATA K → K) :
    (((List.range 100).map (fun _ => c)).map g).sum = 100 * g c := by
  rw [const_sums_n]
  norm_num

theorem const_NINF :
    ∀ p ∈ (List.range 100).map (fun _ => (⟨[7 / 6], 5 / 3, 3⟩ : POINTDATA K)), p.NINF ≠ 0 := by
  intro p hp
  obtain ⟨i, _, rfl⟩ := List.mem_map.mp hp
  show (3 : Int) ≠ 0
  decide

/-- The retrieval loop of round 0 of `Solve` on the infeasible model with the variable
fixed at `1/2`: the 100 records qualify. -/
theorem half_collect0 (sqrt : K → K) (acc0 acc : SolveAcc K) (h0 : acc0 = ⟨0, 0, 0, [0], [0]⟩)
    (hacc : (Solve_collect (modelInfeasible K sqrt (1 / 2) (1 / 2)) 10000000000
      ((List.range 100).map (fun _ => (⟨[7 / 6], 5 / 3, 3⟩ : POINTDATA K))) acc0).2 = acc) :
    (Solve_collect (modelInfeasible K sqrt (1 / 2) (1 / 2)) 10000000000
      ((List.range 100).map (fun _ => (⟨[7 / 6], 5 / 3, 3⟩ : POINTDATA K))) acc0).1 = none ∧
    acc.AvgSFD = 500 / 3 ∧ acc.NumCCRuns = 100 ∧ acc.icount = 100 ∧
    acc.M.getD 0 0 = 7 / 6 ∧ acc.Q.getD 0 0 = 0 := by
  have hnc : (modelInfeasible K sqrt (1 / 2) (1 / 2)).NumCols = 1 := rfl
  have hq : ((List.range 100).map (fun _ => (⟨[7 / 6], 5 / 3, 3⟩ : POINTDATA K))).filter
      (fun p => decide (p.SFD ≤ 10000000000)) =
      (List.range 100).map (fun _ => (⟨[7 / 6], 5 / 3, 3⟩ : POINTDATA K)) := by
    rw [List.filter_eq_self]
    intro p hp
    obtain ⟨i, _, rfl⟩ := List.mem_map.mp hp
    norm_num
  have hinv := Solve_collect_inv (modelInfeasible K sqrt (1 / 2) (1 / 2)) 10000000000
    ((List.range 100).map (fun _ => (⟨[7 / 6], 5 / 3, 3⟩ : POINTDATA K))) acc0 [] const_NINF
    (by rw [h0]; rfl) (fun h => absurd rfl h)
  have htot := Solve_collect_totals (modelInfeasible K sqrt (1 / 2) (1 / 2)) 10000000000
    ((List.range 100).map (fun _ => (⟨[7 / 6], 5 / 3, 3⟩ : POINTDATA K))) acc0 const_NINF
  rw [hacc] at hinv htot
  simp only [List.nil_append, hq] at hinv
  obtain ⟨hnone, hic, hMQ⟩ := hinv
  have hne : (List.range 100).map (fun _ => (⟨[7 / 6], 5 / 3, 3⟩ : POINTDATA K)) ≠ [] := by
    intro h
    have := congrArg List.length h
    simp at this
  obtain ⟨hM, hQ⟩ := hMQ hne 0 (by rw [hnc]; decide)
  rw [const_sums] at hM hQ
  rw [const_sums] at hQ
  have hsfd := const_sums (⟨[7 / 6], 5 / 3, 3⟩ : POINTDATA K) (fun p => p.SFD)
  have hlen : ((List.range 100).map
      (fun _ => (⟨[7 / 6], 5 / 3, 3⟩ : POINTDATA K))).length = 100 := by simp
  rw [hlen] at hM hQ hic
  rw [hsfd, hlen, h0] at htot
  refine ⟨hnone, ?_, ?_, hic, ?_, ?_⟩
  · rw [htot.1]; norm_num
  · rw [htot.2]
  · rw [hM]; norm_num
  · rw [hQ]; norm_num

/-- Round 0 of `Solve` on the infeasible model with the variable fixed at `1/2`, whatever
the draws: no record is feasible, the mean `SFD` is `5/3` and the new box is
`[1/2, 7/6]`. -/
theorem half_round0 (sqrt : K → K) (hs : SqrtSpec sqrt) (r : Nat → Nat → K) (avg : K → K) :
    Solve_round (modelInfeasible K sqrt (1 / 2) (1 / 2)) r avg
      (initBox (modelInfeasible K sqrt (1 / 2) (1 / 2))
        (initState (modelInfeasible K sqrt (1 / 2) (1 / 2)))) 10000000000 0 =
      some (Sum.inr
        ({ (Solve_launch (modelInfeasible K sqrt (1 / 2) (1 / 2))
              (initBox (modelInfeasible K sqrt (1 / 2) (1 / 2))
                (initState (modelInfeasible K sqrt (1 / 2) (1 / 2)))) r).1 with
            BoxBndLo := [1 / 2], BoxBndUp := [7 / 6] }, avg (5 / 3), 100)) := by
  have hc : List.range (modelInfeasible K sqrt (1 / 2) (1 / 2)).NumCols = [0] := rfl
  have c : (modelInfeasible K sqrt (1 / 2) (1 / 2)).col 0 = ⟨"R", 1 / 2, 1 / 2, [0, 1]⟩ := rfl
  have hsq : (modelInfeasible K sqrt (1 / 2) (1 / 2)).sqrt = sqrt := rfl
  have hrec := half_records sqrt hs _ (1 / 2) (1 / 2) (half_box0 sqrt).1 (half_box0 sqrt).2 r
    (fun i => by constructor <;> norm_num)
  obtain ⟨acc0, h0⟩ : ∃ a : SolveAcc K, a = ⟨0, 0, 0, [0], [0]⟩ := ⟨_, rfl⟩
  obtain ⟨acc, hacc⟩ : ∃ a : SolveAcc K,
      (Solve_collect (modelInfeasible K sqrt (1 / 2) (1 / 2)) 10000000000
        ((List.range 100).map (fun _ => (⟨[7 / 6], 5 / 3, 3⟩ : POINTDATA K))) acc0).2 = a :=
    ⟨_, rfl⟩
  obtain ⟨hnone, hA, hR, hic, hM, hQ⟩ := half_collect0 sqrt acc0 acc h0 hacc
  have hbox : ∀ j, j < (modelInfeasible K sqrt (1 / 2) (1 / 2)).NumCols →
      newBox (modelInfeasible K sqrt (1 / 2) (1 / 2)) acc j =
        some ((fun _ => ((1 / 2 : K), (7 / 6 : K))) j) := by
    intro j hj
    have hj0 : j = 0 := by
      have : (modelInfeasible K sqrt (1 / 2) (1 / 2)).NumCols = 1 := rfl
      omega
    subst hj0
    unfold newBox
    rw [hic, if_neg (by decide)]
    dsimp only
    rw [hM, hQ, c, hsq]
    have e : sqrt ((0 : K) / ((100 : ℕ) : K)) = 0 :=
      sqrt_eq_of_mul_self sqrt hs 0 _ (le_refl 0) (by norm_num)
    rw [e]
    norm_num
  rw [Solve_round_none (modelInfeasible K sqrt (1 / 2) (1 / 2)) r avg _ 10000000000 0 _ hrec
    acc0 acc h0 hnone hacc _ hbox, hc]
  simp only [List.map_cons, List.map_nil, hA, hR]
  norm_num

/-- A round of `Solve` on the infeasible model with the variable fixed at `1/2`, from the
box `[1/2, 7/6]` with draws in `[0, 1]`, when the mean of the round before is below
`5/3`: every record has `SFD = 5/3`, none qualifies, and the new box is not a number. -/
theorem half_round1 (sqrt : K → K) (hs : SqrtSpec sqrt) (r : Nat → Nat → K)
    (hr : ∀ i, 0 ≤ r i 0 ∧ r i 0 ≤ 1) (avg : K → K) (s : State K)
    (hlo : s.BoxBndLo = [1 / 2]) (hup : s.BoxBndUp = [7 / 6]) (L : K) (hL : L < 5 / 3)
    (N : Nat) :
    Solve_round (modelInfeasible K sqrt (1 / 2) (1 / 2)) r avg s L N = none := by
  have hrec := half_records sqrt hs s (1 / 2) (7 / 6) hlo hup r
    (fun i => by
      obtain ⟨a, b⟩ := hr i
      constructor
      · nlinarith
      · nlinarith)
  have hinv := Solve_collect_inv (modelInfeasible K sqrt (1 / 2) (1 / 2)) L
    ((List.range 100).map (fun _ => (⟨[7 / 6], 5 / 3, 3⟩ : POINTDATA K)))
    ⟨0, 0, N, List.replicate (modelInfeasible K sqrt (1 / 2) (1 / 2)).NumCols 0,
      List.replicate (modelInfeasible K sqrt (1 / 2) (1 / 2)).NumCols 0⟩ []
    const_NINF rfl (fun h => absurd rfl h)
  have hfil : ((List.range 100).map (fun _ => (⟨[7 / 6], 5 / 3, 3⟩ : POINTDATA K))).filter
      (fun p => decide (p.SFD ≤ L)) = [] := by
    rw [List.filter_eq_nil_iff]
    intro p hp
    obtain ⟨i, _, rfl⟩ := List.mem_map.mp hp
    simp only [decide_eq_true_eq, not_le]
    exact hL
  rw [hfil] at hinv
  exact Solve_round_nan (modelInfeasible K sqrt (1 / 2) (1 / 2)) r avg s L N _ hrec _ _ rfl
    hinv.1 rfl hinv.2.1 (show (0 : Nat) < 1 by decide)

/-- On the infeasible model with the variable fixed at `1/2` and the default settings,
when the computed mean of the 100 values `5/3` of round 0 is below `5/3`, the run of
`Solve` ends in round 1 with a box that is not a number, whatever the draws in
`[0, 1]`. -/
theorem half_Solve (sqrt : K → K) (hs : SqrtSpec sqrt) (MaxSwarmPtsIn : Nat)
    (rand : Nat → Nat → Nat → K) (fl : Nat → K → K)
    (hr : ∀ i, 0 ≤ rand 1 i 0 ∧ rand 1 i 0 ≤ 1) (hfl : fl 0 (5 / 3) < 5 / 3) :
    Solve (modelInfeasible K sqrt (1 / 2) (1 / 2)) (1 / 1000000) (1 / 10000) 50 MaxSwarmPtsIn
      10000000000 (1 / 1000000) rand fl = none := by
  have hE : Solve_env (modelInfeasible K sqrt (1 / 2) (1 / 2)) (1 / 1000000) (1 / 10000) 50
      10000000000 (1 / 1000000) = modelInfeasible K sqrt (1 / 2) (1 / 2) := rfl
  have hp : (modelInfeasible K sqrt (1 / 2) (1 / 2)).plinfy = 10000000000 := rfl
  unfold Solve
  dsimp only
  rw [hE, hp, Solve_rounds_succ_next (modelInfeasible K sqrt (1 / 2) (1 / 2)) rand fl 99 0 _ _ _
    _ _ _ (half_round0 sqrt hs (rand 0) (fl 0))]
  exact Solve_rounds_succ_nan (modelInfeasible K sqrt (1 / 2) (1 / 2)) rand fl 97 (0 + 1) _ _ _
    (half_round1 sqrt hs (rand (0 + 1)) hr (fl (0 + 1)) _ rfl rfl (fl 0 (5 / 3)) hfl 100)

/-! ### `Solve` on the infeasible model with the bounds `[0, 10]` -/

theorem wide_next_zero (sqrt : K → K) (hs : SqrtSpec sqrt) :
    CCSimple_next (modelInfeasible K sqrt 0 10) [0] = [2] := by
  have hl : CCSimple_loops (modelInfeasible K sqrt 0 10) [0] = _ := infm_loops_eq sqrt 0 10 0
  rw [infm_con0 sqrt hs _ _ 0 (by norm_num),
    infm_con_skip sqrt _ _ [0] 1 _ (infm_v1_sat sqrt _ _ 0 (by norm_num)),
    infm_bnd_in sqrt _ _ 0 (by norm_num) (by norm_num)] at hl
  apply infm_next sqrt _ _ 0 2 1 (2 - 0)
  · rw [hl]; rfl
  · rw [hl]; simp [addAt]
  · decide
  · simp

theorem wide_next_one (sqrt : K → K) (hs : SqrtSpec sqrt) :
    CCSimple_next (modelInfeasible K sqrt 0 10) [1] = [2] := by
  have hl : CCSimple_loops (modelInfeasible K sqrt 0 10) [1] = _ := infm_loops_eq sqrt 0 10 1
  rw [infm_con0 sqrt hs _ _ 1 (by norm_num),
    infm_con_skip sqrt _ _ [1] 1 _ (infm_v1_sat sqrt _ _ 1 (by norm_num)),
    infm_bnd_in sqrt _ _ 1 (by norm_num) (by norm_num)] at hl
  apply infm_next sqrt _ _ 1 2 1 (2 - 1)
  · rw [hl]; rfl
  · rw [hl]; simp [addAt]
  · decide
  · norm_num

theorem wide_next_two (sqrt : K → K) (hs : SqrtSpec sqrt) :
    CCSimple_next (modelInfeasible K sqrt 0 10) [2] = [1] ∧
    (CCSimple_loops (modelInfeasible K sqrt 0 10) [2]).SFD = 1 ∧
    (CCSimple_loops (modelInfeasible K sqrt 0 10) [2]).NINF = 1 := by
  have hl : CCSimple_loops (modelInfeasible K sqrt 0 10) [2] = _ := infm_loops_eq sqrt 0 10 2
  rw [infm_con_skip sqrt _ _ [2] 0 _ (infm_v0_sat sqrt _ _ 2 (by norm_num)),
    infm_con1 sqrt hs _ _ 2 (by norm_num),
    infm_bnd_in sqrt _ _ 2 (by norm_num) (by norm_num)] at hl
  refine ⟨?_, ?_, ?_⟩
  · apply infm_next sqrt _ _ 2 1 1 (1 - 2)
    · rw [hl]; rfl
    · rw [hl]; simp [addAt]
    · decide
    · norm_num
  · rw [hl]; norm_num
  · rw [hl]; rfl

/-- From the points 0 and 1 the updates of `CCSimple` alternate between 2 and 1. -/
theorem wide_iterates (sqrt : K → K) (hs : SqrtSpec sqrt) (x : K) (hx : x = 0 ∨ x = 1)
    (k : Nat) :
    (CCSimple_next (modelInfeasible K sqrt 0 10))^[2 * k + 1] [x] = [2] ∧
    (CCSimple_next (modelInfeasible K sqrt 0 10))^[2 * k + 2] [x] = [1] := by
  have n1 := wide_next_one sqrt hs
  have n2 := (wide_next_two sqrt hs).1
  have h1 : CCSimple_next (modelInfeasible K sqrt 0 10) [x] = [2] := by
    rcases hx with h | h
    · rw [h]; exact wide_next_zero sqrt hs
    · rw [h]; exact n1
  induction k with
  | zero =>
    simp only [Nat.mul_zero, Nat.zero_add, show (2 : Nat) = 0 + 1 + 1 from rfl,
      Function.iterate_succ_apply, Function.iterate_zero_apply, h1, n2, and_self]
  | succ k ih =>
    have a : (CCSimple_next (modelInfeasible K sqrt 0 10))^[2 * (k + 1) + 1] [x] = [2] := by
      rw [show 2 * (k + 1) + 1 = (2 * k + 2) + 1 by ring, Function.iterate_succ_apply', ih.2,
        n1]
    refine ⟨a, ?_⟩
    rw [show 2 * (k + 1) + 2 = (2 * (k + 1) + 1) + 1 by ring, Function.iterate_succ_apply', a,
      n2]

/-- On the infeasible model with bounds `[0, 10]`, a run of `CCSimple` from 0 or from 1
sends the record of the point 1, with `SFD = 1` and `NINF = 1`. -/
theorem wide_run (sqrt : K → K) (hs : SqrtSpec sqrt) (s : State K) (x : K) (PointID : Int)
    (hx : x = 0 ∨ x = 1) :
    (CCSimple (modelInfeasible K sqrt 0 10) s [x] PointID).1 = ⟨[1], 1, 1⟩ := by
  have hC : CCSimple (modelInfeasible K sqrt 0 10) s [x] PointID =
      CCSimple_itns (modelInfeasible K sqrt 0 10) PointID 10 s [x] 0 0 := rfl
  have hinf : ∀ q : List K, (CCSimple_loops (modelInfeasible K sqrt 0 10) q).NINF ≠ 0 := by
    intro q
    have := (infeasible_loops (modelInfeasible K sqrt 0 10) hs rfl rfl rfl rfl q).1
    rw [CCSimple_loops_NINF]
    omega
  have hh := wide_next_two sqrt hs
  rcases CCSimple_itns_record (modelInfeasible K sqrt 0 10) PointID 10 s [x] 0 0 rfl
    with ⟨k, _, _, hz, _⟩ | ⟨_, hrec⟩
  · exact absurd hz (hinf _)
  · rw [hC, hrec, (wide_iterates sqrt hs x hx 4).2]
    have e9 : (10 : Nat) - 1 = 2 * 4 + 1 := rfl
    rw [e9, (wide_iterates sqrt hs x hx 4).1, hh.2.1, hh.2.2]
    simp only [show (10 : Nat) ≠ 0 by decide, if_false]

theorem wide_box0 (sqrt : K → K) :
    (initBox (modelInfeasible K sqrt 0 10) (initState (modelInfeasible K sqrt 0 10))).BoxBndLo =
      [0] ∧
    (initBox (modelInfeasible K sqrt 0 10) (initState (modelInfeasible K sqrt 0 10))).BoxBndUp =
      [10] := by
  have hc : List.range (modelInfeasible K sqrt 0 10).NumCols = [0] := rfl
  have c : (modelInfeasible K sqrt 0 10).col 0 = ⟨"R", 10, 0, [0, 1]⟩ := rfl
  unfold initBox
  rw [hc]
  simp only [List.map_cons, List.map_nil, c]
  norm_num

theorem wide_sample (sqrt : K → K) (s : State K) (lo up : K) (hlo : s.BoxBndLo = [lo])
    (hup : s.BoxBndUp = [up]) (r : Nat → K) :
    samplePoint (modelInfeasible K sqrt 0 10) s r = [lo + r 0 * (up - lo)] := by
  have hc : List.range (modelInfeasible K sqrt 0 10).NumCols = [0] := rfl
  unfold samplePoint
  rw [hc, hlo, hup]
  simp

theorem wide_NINF :
    ∀ p ∈ (List.range 100).map (fun _ => (⟨[1], 1, 1⟩ : POINTDATA K)), p.NINF ≠ 0 := by
  intro p hp
  obtain ⟨i, _, rfl⟩ := List.mem_map.mp hp
  show (1 : Int) ≠ 0
  decide

/-- A round of `Solve` on the infeasible model with bounds `[0, 10]` in which every
sample point is 0 or 1, when the mean of the round before is at least 1 and the mean of
100 values 1 is computed as 1: no record is feasible, the 100 records qualify and the new
box is `[1, 1]`. -/
theorem wide_round (sqrt : K → K) (hs : SqrtSpec sqrt) (r : Nat → Nat → K) (avg : K → K)
    (havg : avg 1 = 1) (s : State K) (lo up : K) (hlo : s.BoxBndLo = [lo])
    (hup : s.BoxBndUp = [up])
    (hr : ∀ i, lo + r i 0 * (up - lo) = 0 ∨ lo + r i 0 * (up - lo) = 1)
    (L : K) (hL : 1 ≤ L) (N : Nat) :
    Solve_round (modelInfeasible K sqrt 0 10) r avg s L N =
      some (Sum.inr
        ({ (Solve_launch (modelInfeasible K sqrt 0 10) s r).1 with
            BoxBndLo := [1], BoxBndUp := [1] }, 1, N + 100)) := by
  have hc : List.range (modelInfeasible K sqrt 0 10).NumCols = [0] := rfl
  have hnc : (modelInfeasible K sqrt 0 10).NumCols = 1 := rfl
  have c : (modelInfeasible K sqrt 0 10).col 0 = ⟨"R", 10, 0, [0, 1]⟩ := rfl
  have hsq : (modelInfeasible K sqrt 0 10).sqrt = sqrt := rfl
  have hrec : (Solve_launch (modelInfeasible K sqrt 0 10) s r).2 =
      (List.range 100).map (fun _ => (⟨[1], 1, 1⟩ : POINTDATA K)) := by
    apply Solve_launch_records_of
    intro st i
    rw [wide_sample sqrt s lo up hlo hup (r i)]
    exact wide_run sqrt hs st _ _ (hr i)
  obtain ⟨acc0, h0⟩ : ∃ a : SolveAcc K, a = ⟨0, 0, N,
      List.replicate (modelInfeasible K sqrt 0 10).NumCols 0,
      List.replicate (modelInfeasible K sqrt 0 10).NumCols 0⟩ := ⟨_, rfl⟩
  obtain ⟨acc, hacc⟩ : ∃ a : SolveAcc K,
      (Solve_collect (modelInfeasible K sqrt 0 10) L
        ((List.range 100).map (fun _ => (⟨[1], 1, 1⟩ : POINTDATA K))) acc0).2 = a := ⟨_, rfl⟩
  have hq : ((List.range 100).map (fun _ => (⟨[1], 1, 1⟩ : POINTDATA K))).filter
      (fun p => decide (p.SFD ≤ L)) =
      (List.range 100).map (fun _ => (⟨[1], 1, 1⟩ : POINTDATA K)) := by
    rw [List.filter_eq_self]
    intro p hp
    obtain ⟨i, _, rfl⟩ := List.mem_map.mp hp
    simp only [decide_eq_true_eq]
    exact hL
  have hinv := Solve_collect_inv (modelInfeasible K sqrt 0 10) L
    ((List.range 100).map (fun _ => (⟨[1], 1, 1⟩ : POINTDATA K))) acc0 [] wide_NINF
    (by rw [h0]; rfl) (fun h => absurd rfl h)
  have htot := Solve_collect_totals (modelInfeasible K sqrt 0 10) L
    ((List.range 100).map (fun _ => (⟨[1], 1, 1⟩ : POINTDATA K))) acc0 wide_NINF
  rw [hacc] at hinv htot
  simp only [List.nil_append, hq] at hinv
  obtain ⟨hnone, hic, hMQ⟩ := hinv
  have hne : (List.range 100).map (fun _ => (⟨[1], 1, 1⟩ : POINTDATA K)) ≠ [] := by
    intro h
    have := congrArg List.length h
    simp at this
  obtain ⟨hM, hQ⟩ := hMQ hne 0 (by rw [hnc]; decide)
  rw [const_sums] at hM hQ
  rw [const_sums] at hQ
  have hsfd := const_sums (⟨[1], 1, 1⟩ : POINTDATA K) (fun p => p.SFD)
  have hlen : ((List.range 100).map (fun _ => (⟨[1], 1, 1⟩ : POINTDATA K))).length = 100 := by
    simp
  rw [hlen] at hM hQ hic
  rw [hsfd, hlen, h0] at htot
  have hA : acc.AvgSFD / 100 = 1 := by rw [htot.1]; norm_num
  have hM1 : acc.M.getD 0 0 = 1 := by rw [hM]; norm_num
  have hQ0 : acc.Q.getD 0 0 = 0 := by rw [hQ]; norm_num
  have hbox : ∀ j, j < (modelInfeasible K sqrt 0 10).NumCols →
      newBox (modelInfeasible K sqrt 0 10) acc j = some ((fun _ => ((1 : K), (1 : K))) j) := by
    intro j hj
    have hj0 : j = 0 := by omega
    subst hj0
    unfold newBox
    rw [hic, if_neg (by decide)]
    dsimp only
    rw [hM1, hQ0, c, hsq]
    have e : sqrt ((0 : K) / ((100 : ℕ) : K)) = 0 :=
      sqrt_eq_of_mul_self sqrt hs 0 _ (le_refl 0) (by norm_num)
    rw [e]
    norm_num
  rw [Solve_round_none (modelInfeasible K sqrt 0 10) r avg s L N _ hrec
    acc0 acc h0 hnone hacc _ hbox, hc, hA, havg, htot.2]
  rfl

/-- The rounds of `Solve` on the infeasible model with bounds `[0, 10]` from the box
`[1, 1]` and the mean 1: every round leaves both as they are, and the loop ends with
status 1. -/
theorem wide_rounds (sqrt : K → K) (hs : SqrtSpec sqrt) (rand : Nat → Nat → Nat → K)
    (fl : Nat → K → K) (hfl : ∀ itn, fl itn 1 = 1) (n : Nat) :
    ∀ (itn : Nat) (s : State K) (N : Nat), s.BoxBndLo = [1] → s.BoxBndUp = [1] →
    ∃ res, Solve_rounds (modelInfeasible K sqrt 0 10) rand fl n itn s 1 N = some res ∧
      res.Status = 1 := by
  induction n with
  | zero =>
    intro itn s N _ _
    exact ⟨_, Solve_rounds_zero _ _ _ _ _ _ _, rfl⟩
  | succ n ih =>
    intro itn s N hlo hup
    rw [Solve_rounds_succ_next (modelInfeasible K sqrt 0 10) rand fl n itn s 1 N _ _ _
      (wide_round sqrt hs (rand itn) (fl itn) (hfl itn) s 1 1 hlo hup
        (fun i => Or.inr (by ring)) 1 (le_refl 1) N)]
    exact ih (itn + 1) _ (N + 100) rfl rfl

/-- On the infeasible model with bounds `[0, 10]` and the default settings, with the
draws of round 0 equal to 0 and the mean of 100 values 1 computed as 1, `Solve` returns
status 1 after its 100 rounds. -/
theorem wide_Solve (sqrt : K → K) (hs : SqrtSpec sqrt) (MaxSwarmPtsIn : Nat)
    (rand : Nat → Nat → Nat → K) (fl : Nat → K → K)
    (hr : ∀ i, rand 0 i 0 = 0) (hfl : ∀ itn, fl itn 1 = 1) :
    ∃ res, Solve (modelInfeasible K sqrt 0 10) (1 / 1000000) (1 / 10000) 50 MaxSwarmPtsIn
      10000000000 (1 / 1000000) rand fl = some res ∧ res.Status = 1 := by
  have hE : Solve_env (modelInfeasible K sqrt 0 10) (1 / 1000000) (1 / 10000) 50
      10000000000 (1 / 1000000) = modelInfeasible K sqrt 0 10 := rfl
  have hp : (modelInfeasible K sqrt 0 10).plinfy = 10000000000 := rfl
  unfold Solve
  dsimp only
  rw [hE, hp, Solve_rounds_succ_next (modelInfeasible K sqrt 0 10) rand fl 99 0 _ _ _ _ _ _
    (wide_round sqrt hs (rand 0) (fl 0) (hfl 0) _ 0 10 (wide_box0 sqrt).1 (wide_box0 sqrt).2
      (fun i => Or.inl (by rw [hr i]; ring)) 10000000000 (by norm_num) 0)]
  exact wide_rounds sqrt hs rand fl hfl 99 (0 + 1) _ (0 + 100) rfl rfl

/-- C25: on the infeasible model on one variable (rows `x ≥ 2` and `x ≤ 1`, any bounds,
`featol = Alpha = 1e-6`) `GetSFD` reports at every point `NINF ≥ 1` and
`SFD ≥ 1 - featol`; no run of `CCSimple` from a point of the model sends a record with
`NINF = 0`; and a run of `Solve` with these tolerances that returns, returns status 1,
whatever the draws, the rounding of the means and the other settings. With bounds
`[0, 10]`, the default settings, the draws of round 0 equal to 0 and the mean of 100
values 1 computed as 1, `Solve` returns status 1 after its 100 rounds. With the variable
fixed at `1/2` (bounds `[1/2, 1/2]`) and the default settings, the 100 records of round 0
all have `SFD = 5/3`; when their computed mean is below `5/3`, then whatever the draws in
`[0, 1]` no record of round 1 qualifies, `icount` is 0 where `Solve` divides `Q[j]` by
it, the new box is not a number and `Solve` does not return. -/
theorem C25_infeasible_model_never_status_zero (sqrt : K → K) (hs : SqrtSpec sqrt)
    (BndLo BndUp : K) :
    (∀ x : List K,
      1 ≤ (GetSFD (modelInfeasible K sqrt BndLo BndUp) x).NINF ∧
      1 - (modelInfeasible K sqrt BndLo BndUp).featol ≤
        (GetSFD (modelInfeasible K sqrt BndLo BndUp) x).SFDout) ∧
    (∀ (s : State K) (x : List K) (PointID : Int), x.length = 1 →
      (CCSimple (modelInfeasible K sqrt BndLo BndUp) s x PointID).1.NINF ≠ 0) ∧
    (∀ (BetaIn plinfyIn : K) (MaxItnsIn MaxSwarmPtsIn : Nat) (rand : Nat → Nat → Nat → K)
      (fl : Nat → K → K) (res : SolveResult K),
      Solve (modelInfeasible K sqrt BndLo BndUp) (1 / 1000000) BetaIn MaxItnsIn MaxSwarmPtsIn
        plinfyIn (1 / 1000000) rand fl = some res → res.Status = 1) ∧
    (∀ (MaxSwarmPtsIn : Nat) (rand : Nat → Nat → Nat → K) (fl : Nat → K → K),
      (∀ i, rand 0 i 0 = 0) → (∀ itn, fl itn 1 = 1) →
      ∃ res, Solve (modelInfeasible K sqrt 0 10) (1 / 1000000) (1 / 10000) 50 MaxSwarmPtsIn
        10000000000 (1 / 1000000) rand fl = some res ∧ res.Status = 1) ∧
    (∀ (MaxSwarmPtsIn : Nat) (rand : Nat → Nat → Nat → K) (fl : Nat → K → K),
      (∀ i, 0 ≤ rand 1 i 0 ∧ rand 1 i 0 ≤ 1) → fl 0 (5 / 3) < 5 / 3 →
      Solve (modelInfeasible K sqrt (1 / 2) (1 / 2)) (1 / 1000000) (1 / 10000) 50
        MaxSwarmPtsIn 10000000000 (1 / 1000000) rand fl = none) := by
  refine ⟨fun x => infeasible_GetSFD _ hs rfl rfl rfl rfl x, fun s x PointID hx h0 => ?_,
    fun BetaIn plinfyIn MaxItnsIn MaxSwarmPtsIn rand fl res hres => ?_,
    fun M rand fl hr hfl => wide_Solve sqrt hs M rand fl hr hfl,
    fun M rand fl hr hfl => half_Solve sqrt hs M rand fl hr hfl⟩
  · have hg := (CCSimple_good (modelInfeasible K sqrt BndLo BndUp) s x PointID hx).1
    have := (infeasible_GetSFD (modelInfeasible K sqrt BndLo BndUp) hs rfl rfl rfl rfl
      (CCSimple (modelInfeasible K sqrt BndLo BndUp) s x PointID).1.Point).1
    rw [hg.2 h0] at this
    omega
  · unfold Solve at hres
    dsimp only at hres
    generalize hE : Solve_env (modelInfeasible K sqrt BndLo BndUp) (1 / 1000000) BetaIn MaxItnsIn
      plinfyIn (1 / 1000000) = E at hres
    have hR : E.Rows = [⟨"G", 2, 10000000000, 1, [0]⟩, ⟨"L", -10000000000, 1, 1, [1]⟩] := by
      rw [← hE]; rfl
    have hEl : E.Element = [⟨0, 0, 1⟩, ⟨1, 0, 1⟩] := by rw [← hE]; rfl
    have hf : E.featol = 1 / 1000000 := by rw [← hE]; rfl
    have hA : E.Alpha = 1 / 1000000 := by rw [← hE]; rfl
    have hsq : SqrtSpec E.sqrt := by rw [← hE]; exact hs
    have hlen : (initBox E (initState E)).IncumbentPt.length = E.NumCols := by
      simp [initBox, initState]
    rcases Solve_rounds_Status E rand fl 100 0 (initBox E (initState E)) E.plinfy 0 hlen res hres
      with h | h
    · have hfe := Solve_rounds_feasible E rand fl 100 0 (initBox E (initState E)) E.plinfy 0 hlen
        res hres h
      have := (infeasible_GetSFD E hsq hR hEl hf hA res.PointOut).1
      rw [hfe] at this
      omega
    · exact h

/-- C25 over the reals: the bounds `[0, 10]` with the draws 0 and exact means, and the
variable fixed at `1/2` with the draws 0 and a mean computed `1e-15` below. -/
theorem C25_witness :
    SqrtSpec Real.sqrt ∧
    (∀ x : List ℝ, 1 ≤ (GetSFD (modelInfeasible ℝ Real.sqrt 0 10) x).NINF) ∧
    (∃ res, Solve (modelInfeasible ℝ Real.sqrt 0 10) (1 / 1000000) (1 / 10000) 50 8
      10000000000 (1 / 1000000) (fun _ _ _ => 0) (fun _ x => x) = some res ∧
      res.Status = 1) ∧
    Solve (modelInfeasible ℝ Real.sqrt (1 / 2) (1 / 2)) (1 / 1000000) (1 / 10000) 50 8
      10000000000 (1 / 1000000) (fun _ _ _ => 0)
      (fun _ x => x - 1 / 1000000000000000) = none :=
  ⟨sqrtSpec_real,
    fun x => ((C25_infeasible_model_never_status_zero Real.sqrt sqrtSpec_real 0 10).1 x).1,
    (C25_infeasible_model_never_status_zero Real.sqrt sqrtSpec_real 0 10).2.2.2.1 8
      (fun _ _ _ => 0) (fun _ x => x) (fun _ => rfl) (fun _ => rfl),
    (C25_infeasible_model_never_status_zero Real.sqrt sqrtSpec_real (1 / 2) (1 / 2)).2.2.2.2 8
      (fun _ _ _ => 0) (fun _ x => x - 1 / 1000000000000000)
      (fun _ => ⟨le_refl 0, zero_le_one⟩) (by norm_num)⟩

end Proofs

end CCLP
